import Mathlib

/-!
# lux9 userspace driver fabric: 9P2000 server, MemFS and block-device driver

A shallow embedding of

* `userspace/go-servers/p9/protocol.go` and `userspace/go-servers/p9/server.go`
  (wire codec, `Server.readMsg`, `Server.writeMsg`, `Server.dispatch`),
* `userspace/go-servers/memfs/memfs.go` (the `MemFS` file server),
* `userspace/drivers/storage/storage.go` (`BlockDeviceDriver.HandleRead` / `HandleWrite`),
* `userspace/go-servers/ahci-driver/block9p.go` (partitions: `readPartition`,
  `writePartition`, `parseMBR`, the control file),
* `userspace/go-servers/fbdriver/screen.go` and `userspace/go-servers/fbdriver/fb9p.go`
  (the `Screen` primitives, `Framebuffer9PServer.Write` and `ParseBootInfo`),
* `userspace/go-servers/sip/sip.go` and `userspace/go-servers/sip/example_driver.go`
  (the server framework: `BaseServer`, `ServerFactory`, `ServerManager` and the two
  example servers),

followed by theorems about these definitions.

Conventions of the embedding.

* Go's fixed-width unsigned integers are `Nat`; every conversion that truncates in
  Go (`byte(v)`, `uint16(len(s))`, `uint32(...)`, wrapping `+`) is an explicit `%`.
* A Go `[]byte` is a `List Nat`; a Go `string` on the wire is the list of its bytes.
  A nil slice and an empty slice are both `[]`.
* A path handed to the block driver is a `List Char`: a Go string of valid UTF-8, read
  rune by rune by `fmt.Sscanf`; its tests on the ASCII prefix `disk/` and on `/` are the
  same on bytes and on characters.
* A Go function that can return an `error` returns `Result`, which has a third outcome
  `panic` for the run-time panics of out-of-range indexing and slicing.
* An `io.Reader` is the finite list of bytes it will still deliver; reading returns the
  rest of the list.
* Mutable receivers (`*Server`, `*MemFS`, the storage backend) are passed and returned
  explicitly.
* A Go map with string keys is the list of its entries, each key once; the order of the
  list stands for the order in which a `range` visits the entries, which Go leaves open,
  and statements about that order are made up to permutation.
* A value of an interface is an object: a state and the methods on it. Logging and the
  `context.Context` arguments are left out.
-/

namespace Lux9

/-- Errors that the modelled functions return. -/
inductive Err where
  /-- Sentinel `io.EOF`. -/
  | EOF
  /-- Sentinel `io.ErrUnexpectedEOF`. -/
  | ErrUnexpectedEOF
  /-- Message built by `fmt.Errorf("invalid message size: %d", size)`. -/
  | invalidMessageSize (size : Nat)
  /-- An error returned by a storage backend (a `StorageDriver`). -/
  | backend (msg : String)
  /-- Message built by `fmt.Errorf("invalid device path: %s", path)`. -/
  | invalidDevicePath (path : List Char)
  /-- Message built by `fmt.Errorf("device %d not found", deviceID)`. -/
  | deviceNotFound (deviceID : Int)
  /-- Message built by `fmt.Errorf("failed to read sector %d: %v", lba, err)`. -/
  | failedToReadSector (lba : Nat) (cause : Err)
  /-- Message built by `fmt.Errorf("failed to write sector %d: %v", lba, err)`. -/
  | failedToWriteSector (lba : Nat) (cause : Err)
  /-- Message built by `fmt.Errorf("control file is read-only")`. -/
  | controlFileReadOnly
  /-- Message built by `fmt.Errorf("invalid path: %s", path)`. -/
  | invalidPath (path : List Char)
  /-- Message built by `fmt.Errorf("partition %d not found", partNum)`. -/
  | partitionNotFound (partNum : Int)
  /-- Message built by `fmt.Errorf("write beyond partition boundary")`. -/
  | writeBeyondPartition
  /-- Message built by `fmt.Errorf("unknown control command: %s", cmd)`. -/
  | unknownControlCommand (cmd : List Nat)
  /-- Message built by `fmt.Errorf("failed to read MBR: %w", err)`. -/
  | failedToReadMBR (cause : Err)
  /-- Message built by `fmt.Errorf("no valid partition table found")`. -/
  | noValidPartitionTable
  /-- Message built by `fmt.Errorf("GPT parsing not yet implemented")`. -/
  | gptNotImplemented
  /-- Message built by `fmt.Errorf("pixel (%d, %d) out of bounds", x, y)`. -/
  | pixelOutOfBounds (x y : Int)
  /-- Sentinel `os.ErrInvalid`, the answer of a nil `*os.File`. -/
  | ErrInvalid
  /-- Message built by `fmt.Errorf("failed to seek to framebuffer: %w", err)`. -/
  | failedToSeek (cause : Err)
  /-- Message built by `fmt.Errorf("failed to write to framebuffer: %w", err)`. -/
  | failedToWriteFramebuffer (cause : Err)
  /-- Message built by `fmt.Errorf("screen not found in path: %s", path)`. -/
  | screenNotFound (path : List Char)
  /-- Message built by `fmt.Errorf("invalid pixel format, expected: x y r g b")`. -/
  | invalidPixelFormat
  /-- Message built by `fmt.Errorf("invalid rect format, expected: x y w h r g b")`. -/
  | invalidRectFormat
  /-- Message built by `fmt.Errorf("invalid line format, expected: x1 y1 x2 y2 r g b")`. -/
  | invalidLineFormat
  /-- Message built by `fmt.Errorf("invalid cursor format, expected: x y")`. -/
  | invalidCursorFormat
  /-- Message built by `fmt.Errorf("cannot write to %s", file)`. -/
  | cannotWriteTo (file : List Char)
  /-- Message built by `fmt.Errorf("offset beyond framebuffer")`. -/
  | offsetBeyondFramebuffer
  /-- Message built by `fmt.Errorf("invalid fgcolor format, expected: fgcolor r g b")`. -/
  | invalidFgcolorFormat
  /-- Message built by `fmt.Errorf("invalid bgcolor format, expected: bgcolor r g b")`. -/
  | invalidBgcolorFormat
  /-- Message built by `fmt.Errorf("mode switching not yet implemented")`. -/
  | modeSwitchingNotImplemented
  /-- Message built by `fmt.Errorf("invalid boot info")`. -/
  | invalidBootInfo
  /-- An error returned by a method of a server behind the interface `IServer`, or by a
  server constructor. -/
  | server (msg : String)
  /-- Message built by `fmt.Errorf("driver requires CapDeviceAccess capability")`. -/
  | driverRequiresCapDeviceAccess
  /-- Message built by `fmt.Errorf("file server requires CapFileSystem capability")`. -/
  | fileServerRequiresCapFileSystem
  /-- Message built by `fmt.Errorf("server type %s already registered", serverType)`. -/
  | serverTypeAlreadyRegistered (serverType : List Char)
  /-- Message built by `fmt.Errorf("unknown server type: %s", serverType)`. -/
  | unknownServerType (serverType : List Char)
  /-- Message built by `fmt.Errorf("failed to create server %s: %w", serverType, err)`. -/
  | failedToCreateServer (serverType : List Char) (cause : Err)
  /-- Message built by `fmt.Errorf("server %s already running", config.Name)`. -/
  | serverAlreadyRunning (name : List Char)
  /-- Message built by `fmt.Errorf("failed to initialize %s: %w", config.Name, err)`. -/
  | failedToInitialize (name : List Char) (cause : Err)
  /-- Message built by `fmt.Errorf("failed to start %s: %w", config.Name, err)`. -/
  | failedToStart (name : List Char) (cause : Err)
  /-- Message built by `fmt.Errorf("server %s not found", name)`. -/
  | serverNotFound (name : List Char)
  /-- Message built by `fmt.Errorf("failed to stop %s: %w", name, err)`. -/
  | failedToStop (name : List Char) (cause : Err)
deriving DecidableEq, Repr

/-- Outcome of a Go call that returns `(value, error)` and may panic at run time. -/
inductive Result (α : Type) where
  | ok (a : α)
  | error (e : Err)
  | panic
deriving DecidableEq, Repr

namespace Result

/-- Sequencing: an error or a panic ends the computation. -/
def bind {α β : Type} (x : Result α) (f : α → Result β) : Result β :=
  match x with
  | ok a => f a
  | error e => error e
  | panic => panic

instance : Monad Result where
  pure := Result.ok
  bind := Result.bind

end Result

/-- A computation that ends with a value or a panic, never with an error. -/
def NoError {α : Type} (x : Result α) : Prop := ∀ e, x ≠ Result.error e

/-- Go slice expression `s[lo:hi]`; it panics unless `lo ≤ hi ≤ len(s)` (all slices of the
decoder are suffixes of one buffer made with `len = cap`, so `cap(s) = len(s)`). -/
def slice (s : List Nat) (lo hi : Nat) : Result (List Nat) :=
  if lo ≤ hi ∧ hi ≤ s.length then Result.ok ((s.drop lo).take (hi - lo)) else Result.panic

/-- Go slice expression `s[lo:]`; it panics unless `lo ≤ len(s)`. -/
def sliceFrom (s : List Nat) (lo : Nat) : Result (List Nat) :=
  if lo ≤ s.length then Result.ok (s.drop lo) else Result.panic

/-- Go index expression `s[i]`; it panics unless `i < len(s)`. -/
def index (s : List Nat) (i : Nat) : Result Nat :=
  match s.get? i with
  | some b => Result.ok b
  | none => Result.panic

/-- Little-endian value of two bytes, `binary.LittleEndian.Uint16`. -/
def uint16LE (b : List Nat) : Nat :=
  b.getD 0 0 + b.getD 1 0 * 2 ^ 8

/-- Little-endian value of four bytes, `binary.LittleEndian.Uint32`. -/
def uint32LE (b : List Nat) : Nat :=
  b.getD 0 0 + b.getD 1 0 * 2 ^ 8 + b.getD 2 0 * 2 ^ 16 + b.getD 3 0 * 2 ^ 24

/-- Little-endian value of eight bytes, `binary.LittleEndian.Uint64`. -/
def uint64LE (b : List Nat) : Nat :=
  b.getD 0 0 + b.getD 1 0 * 2 ^ 8 + b.getD 2 0 * 2 ^ 16 + b.getD 3 0 * 2 ^ 24
    + b.getD 4 0 * 2 ^ 32 + b.getD 5 0 * 2 ^ 40 + b.getD 6 0 * 2 ^ 48 + b.getD 7 0 * 2 ^ 56

/-- Bytes of an ASCII literal of the source. -/
def ascii (s : String) : List Nat := s.toList.map Char.toNat

namespace P9

/-! ## protocol.go -/

@[reducible] def Tversion : Nat := 100
@[reducible] def Rversion : Nat := 101
@[reducible] def Tauth : Nat := 102
@[reducible] def Rauth : Nat := 103
@[reducible] def Tattach : Nat := 104
@[reducible] def Rattach : Nat := 105
@[reducible] def Terror : Nat := 106
@[reducible] def Rerror : Nat := 107
@[reducible] def Tflush : Nat := 108
@[reducible] def Rflush : Nat := 109
@[reducible] def Twalk : Nat := 110
@[reducible] def Rwalk : Nat := 111
@[reducible] def Topen : Nat := 112
@[reducible] def Ropen : Nat := 113
@[reducible] def Tcreate : Nat := 114
@[reducible] def Rcreate : Nat := 115
@[reducible] def Tread : Nat := 116
@[reducible] def Rread : Nat := 117
@[reducible] def Twrite : Nat := 118
@[reducible] def Rwrite : Nat := 119
@[reducible] def Tclunk : Nat := 120
@[reducible] def Rclunk : Nat := 121
@[reducible] def Tremove : Nat := 122
@[reducible] def Rremove : Nat := 123
@[reducible] def Tstat : Nat := 124
@[reducible] def Rstat : Nat := 125
@[reducible] def Twstat : Nat := 126
@[reducible] def Rwstat : Nat := 127

@[reducible] def QTDIR : Nat := 0x80
@[reducible] def QTFILE : Nat := 0x00

@[reducible] def NOTAG : Nat := 0xFFFF
@[reducible] def NOFID : Nat := 0xFFFFFFFF

/-- A Go `string` as carried by the protocol: its bytes. -/
abbrev GoString := List Nat

/-- Struct `Qid` (field `Type` is spelled `Typ`). -/
structure Qid where
  Typ : Nat := 0
  Vers : Nat := 0
  Path : Nat := 0
deriving DecidableEq, Repr

/-- Struct `Stat` (field `Type` is spelled `Typ`). -/
structure Stat where
  Typ : Nat := 0
  Dev : Nat := 0
  Qid : P9.Qid := {}
  Mode : Nat := 0
  Atime : Nat := 0
  Mtime : Nat := 0
  Length : Nat := 0
  Name : GoString := []
  UID : GoString := []
  GID : GoString := []
  MUID : GoString := []
deriving DecidableEq, Repr

/-- Struct `Fcall`: one record with the fields of every message type (field `Type` is
spelled `Typ`). The defaults are Go's zero values, so `{ Tag := t }` is `&Fcall{Tag: t}`. -/
structure Fcall where
  Typ : Nat := 0
  Tag : Nat := 0
  Fid : Nat := 0
  Afid : Nat := 0
  Newfid : Nat := 0
  Oldtag : Nat := 0
  Msize : Nat := 0
  Version : GoString := []
  Uname : GoString := []
  Aname : GoString := []
  Nwname : Nat := 0
  Wname : List GoString := []
  Nwqid : Nat := 0
  Wqid : List P9.Qid := []
  Mode : Nat := 0
  Perm : Nat := 0
  Name : GoString := []
  Qid : P9.Qid := {}
  Iounit : Nat := 0
  Offset : Nat := 0
  Count : Nat := 0
  Data : List Nat := []
  Ename : GoString := []
  Stat : P9.Stat := {}
deriving DecidableEq, Repr

/-- The fields of an `Fcall` are in the range of their Go types. -/
def Fcall.InRange (fc : Fcall) : Prop :=
  fc.Typ < 2 ^ 8 ∧ fc.Tag < 2 ^ 16

instance (fc : Fcall) : Decidable fc.InRange := by
  unfold Fcall.InRange; infer_instance

/-- Function `readString` on a `byteReader` holding `r`: the string or the error, and
the bytes left in the reader. `binary.Read` and `io.ReadFull` consume whatever is there
before they report a short read, so a failed read leaves the reader empty. -/
def readString (r : List Nat) : Except Err GoString × List Nat :=
  if r.length = 0 then (Except.error Err.EOF, [])
  else if r.length < 2 then (Except.error Err.ErrUnexpectedEOF, [])
  else
    let size := uint16LE (r.take 2)
    let r := r.drop 2
    if r.length < size then
      (Except.error (if r.length = 0 then Err.EOF else Err.ErrUnexpectedEOF), [])
    else (Except.ok (r.take size), r.drop size)

/-- The value a caller gets from `s, _ = readString(r)`: the string, or `""` on error. -/
def strOf (x : Except Err GoString) : GoString :=
  match x with
  | Except.ok s => s
  | Except.error _ => []

/-- Method `byteBuf.WriteU16`. -/
def putU16 (v : Nat) : List Nat := [v % 256, (v >>> 8) % 256]

/-- Method `byteBuf.WriteU32`. -/
def putU32 (v : Nat) : List Nat :=
  [v % 256, (v >>> 8) % 256, (v >>> 16) % 256, (v >>> 24) % 256]

/-- Method `byteBuf.WriteU64`. -/
def putU64 (v : Nat) : List Nat :=
  [v % 256, (v >>> 8) % 256, (v >>> 16) % 256, (v >>> 24) % 256,
   (v >>> 32) % 256, (v >>> 40) % 256, (v >>> 48) % 256, (v >>> 56) % 256]

/-- Method `byteBuf.WriteString`: the length converted to `uint16`, then all the bytes. -/
def putString (s : GoString) : List Nat := putU16 (s.length % 2 ^ 16) ++ s

/-- Method `Qid.Marshal` into a `byteBuf`: the bytes appended. -/
def Qid.Marshal (q : Qid) : List Nat := [q.Typ % 256] ++ putU32 q.Vers ++ putU64 q.Path

/-- Method `Qid.Unmarshal` from a reader holding `r`. -/
def Qid.Unmarshal (r : List Nat) : Result (Qid × List Nat) :=
  if r.length = 0 then Result.error Err.EOF
  else if r.length < 5 then Result.error (if r.length = 1 then Err.EOF else Err.ErrUnexpectedEOF)
  else if r.length < 13 then Result.error (if r.length = 5 then Err.EOF else Err.ErrUnexpectedEOF)
  else Result.ok ({ Typ := r.getD 0 0, Vers := uint32LE ((r.drop 1).take 4),
                    Path := uint64LE ((r.drop 5).take 8) }, r.drop 13)

/-! ## server.go: the codec -/

/-- The loop of the `Twalk` case of `readMsg`: `n` calls of `readString` on the same
reader, every error discarded (`fc.Wname[i], _ = readString(r)`). -/
def readWnames : Nat → List Nat → List GoString
  | 0, _ => []
  | n + 1, r => strOf (readString r).1 :: readWnames n (readString r).2

/-- The part of `Server.readMsg` after the frame has been read into `buf`
(`len(buf) = size - 4 ≥ 3`): type, tag and the type-specific body. -/
def decode (buf : List Nat) : Result Fcall := do
  let typ := buf.getD 0 0
  let tag := uint16LE ((buf.drop 1).take 2)
  let fc : Fcall := { Typ := typ, Tag := tag }
  let data := buf.drop 3
  if typ = Tversion then do
    let b ← slice data 0 4
    let rest ← sliceFrom data 4
    pure { fc with Msize := uint32LE b, Version := strOf (readString rest).1 }
  else if typ = Tattach then do
    let b0 ← slice data 0 4
    let b1 ← slice data 4 8
    let r ← sliceFrom data 8
    let uname := readString r
    let aname := readString uname.2
    pure { fc with Fid := uint32LE b0, Afid := uint32LE b1,
                   Uname := strOf uname.1, Aname := strOf aname.1 }
  else if typ = Twalk then do
    let b0 ← slice data 0 4
    let b1 ← slice data 4 8
    let b2 ← slice data 8 10
    let r ← sliceFrom data 10
    pure { fc with Fid := uint32LE b0, Newfid := uint32LE b1, Nwname := uint16LE b2,
                   Wname := readWnames (uint16LE b2) r }
  else if typ = Topen then do
    let b ← slice data 0 4
    let mode ← index data 4
    pure { fc with Fid := uint32LE b, Mode := mode }
  else if typ = Tcreate then do
    let b ← slice data 0 4
    let r ← sliceFrom data 4
    let name := readString r
    let p ← slice name.2 0 4
    let mode ← index name.2 4
    pure { fc with Fid := uint32LE b, Name := strOf name.1, Perm := uint32LE p, Mode := mode }
  else if typ = Tread then do
    let b0 ← slice data 0 4
    let b1 ← slice data 4 12
    let b2 ← slice data 12 16
    pure { fc with Fid := uint32LE b0, Offset := uint64LE b1, Count := uint32LE b2 }
  else if typ = Twrite then do
    let b0 ← slice data 0 4
    let b1 ← slice data 4 12
    let b2 ← slice data 12 16
    let d ← slice data 16 ((16 + uint32LE b2) % 2 ^ 32)
    pure { fc with Fid := uint32LE b0, Offset := uint64LE b1, Count := uint32LE b2, Data := d }
  else if typ = Tclunk ∨ typ = Tremove ∨ typ = Tstat then do
    let b ← slice data 0 4
    pure { fc with Fid := uint32LE b }
  else
    pure fc

/-- Method `Server.readMsg` with `s.msize = msize` on a reader that will deliver `r`:
the decoded message together with the bytes left in the reader. -/
def readMsg (msize : Nat) (r : List Nat) : Result (Fcall × List Nat) :=
  if r.length = 0 then Result.error Err.EOF
  else if r.length < 4 then Result.error Err.ErrUnexpectedEOF
  else
    let size := uint32LE (r.take 4)
    let r := r.drop 4
    if size < 7 ∨ size > msize then Result.error (Err.invalidMessageSize size)
    else if r.length < size - 4 then
      Result.error (if r.length = 0 then Err.EOF else Err.ErrUnexpectedEOF)
    else
      match decode (r.take (size - 4)) with
      | Result.ok fc => Result.ok (fc, r.drop (size - 4))
      | Result.error e => Result.error e
      | Result.panic => Result.panic

/-- The loop of the `Rwalk` case of `writeMsg`, `for i < fc.Nwqid { fc.Wqid[i].Marshal(buf) }`,
with `k` iterations left at index `i`; `fc.Wqid[i]` panics when `i` is out of range. -/
def marshalWqid (wqid : List Qid) : Nat → Nat → List Nat → Result (List Nat)
  | 0, _, buf => Result.ok buf
  | k + 1, i, buf =>
    match wqid.get? i with
    | none => Result.panic
    | some q => marshalWqid wqid k (i + 1) (buf ++ q.Marshal)

/-- Method `Server.writeStat`: the bytes appended. -/
def writeStat (st : Stat) : List Nat :=
  putU16 st.Typ ++ putU32 st.Dev ++ st.Qid.Marshal ++ putU32 st.Mode ++ putU32 st.Atime
    ++ putU32 st.Mtime ++ putU64 st.Length ++ putString st.Name ++ putString st.UID
    ++ putString st.GID ++ putString st.MUID

/-- The contents of `buf` when `Server.writeMsg` reaches the size header: type, tag and
the type-specific body. -/
def encodeBody (fc : Fcall) : Result (List Nat) :=
  let buf := [fc.Typ % 256] ++ putU16 fc.Tag
  if fc.Typ = Rversion then
    Result.ok (buf ++ putU32 fc.Msize ++ putString fc.Version)
  else if fc.Typ = Rattach then
    Result.ok (buf ++ fc.Qid.Marshal)
  else if fc.Typ = Rwalk then
    marshalWqid fc.Wqid fc.Nwqid 0 (buf ++ putU16 fc.Nwqid)
  else if fc.Typ = Ropen ∨ fc.Typ = Rcreate then
    Result.ok (buf ++ fc.Qid.Marshal ++ putU32 fc.Iounit)
  else if fc.Typ = Rread then
    Result.ok (buf ++ putU32 fc.Count ++ fc.Data)
  else if fc.Typ = Rwrite then
    Result.ok (buf ++ putU32 fc.Count)
  else if fc.Typ = Rclunk ∨ fc.Typ = Rremove then
    Result.ok buf
  else if fc.Typ = Rerror then
    Result.ok (buf ++ putString fc.Ename)
  else if fc.Typ = Rstat then
    Result.ok (buf ++ putU16 ((writeStat fc.Stat).length % 2 ^ 16) ++ writeStat fc.Stat)
  else
    Result.ok buf

/-- Method `Server.writeMsg` on a writer that accepts every byte: the bytes written,
the size header `uint32(len(buf.data) + 4)` first. -/
def writeMsg (fc : Fcall) : Result (List Nat) :=
  match encodeBody fc with
  | Result.ok buf => Result.ok (putU32 ((buf.length + 4) % 2 ^ 32) ++ buf)
  | Result.error e => Result.error e
  | Result.panic => Result.panic

/-- The body of a reply as the wire-format table of the specification lays it out, field by
field, for the reply types of the table; `Rwalk` carries the first `Nwqid` qids. -/
def wireBody (fc : Fcall) : List Nat :=
  if fc.Typ = Rversion then putU32 fc.Msize ++ putString fc.Version
  else if fc.Typ = Rattach then fc.Qid.Marshal
  else if fc.Typ = Rwalk then
    putU16 fc.Nwqid ++ ((fc.Wqid.take fc.Nwqid).map Qid.Marshal).flatten
  else if fc.Typ = Ropen ∨ fc.Typ = Rcreate then fc.Qid.Marshal ++ putU32 fc.Iounit
  else if fc.Typ = Rread then putU32 fc.Count ++ fc.Data
  else if fc.Typ = Rwrite then putU32 fc.Count
  else if fc.Typ = Rerror then putString fc.Ename
  else if fc.Typ = Rstat then
    putU16 ((writeStat fc.Stat).length % 2 ^ 16) ++ writeStat fc.Stat
  else []

/-! ## server.go: the server -/

/-- Interface `FileServer`. Every method takes the state `σ` of the implementation and
returns the new state; a Go result `(values, err)` with `err != nil` is `Except.error`
of the text `err.Error()`. -/
structure FileServer (σ : Type) where
  Version : σ → Nat → GoString → σ × Except GoString (Nat × GoString)
  Attach : σ → Nat → Nat → GoString → GoString → σ × Except GoString Qid
  Walk : σ → Nat → Nat → List GoString → σ × Except GoString (List Qid)
  Open : σ → Nat → Nat → σ × Except GoString (Qid × Nat)
  Create : σ → Nat → GoString → Nat → Nat → σ × Except GoString (Qid × Nat)
  Read : σ → Nat → Nat → Nat → σ × Except GoString (List Nat)
  Write : σ → Nat → Nat → List Nat → σ × Except GoString Nat
  Clunk : σ → Nat → σ × Except GoString Unit
  Remove : σ → Nat → σ × Except GoString Unit
  Stat : σ → Nat → σ × Except GoString P9.Stat
  Wstat : σ → Nat → P9.Stat → σ × Except GoString Unit

/-- Struct `Server`: the state of the wrapped file server and `msize` (the methods of the
file server are the argument `impl` of `dispatch`). -/
structure Server (σ : Type) where
  fs : σ
  msize : Nat

/-- Function `NewServer`. -/
def NewServer {σ : Type} (fs : σ) : Server σ := { fs := fs, msize := 8192 }

/-- Method `Server.rerror`. -/
def rerror (tag : Nat) (ename : GoString) : Fcall :=
  { Typ := Rerror, Tag := tag, Ename := ename }

/-- Method `Server.dispatch`: the server afterwards and the reply. -/
def dispatch {σ : Type} (impl : FileServer σ) (s : Server σ) (fc : Fcall) : Server σ × Fcall :=
  let resp : Fcall := { Tag := fc.Tag }
  if fc.Typ = Tversion then
    match impl.Version s.fs fc.Msize fc.Version with
    | (fs, Except.error err) => ({ s with fs := fs }, rerror fc.Tag err)
    | (fs, Except.ok (msize, version)) =>
      ({ fs := fs, msize := msize },
       { resp with Typ := Rversion, Msize := msize, Version := version })
  else if fc.Typ = Tattach then
    match impl.Attach s.fs fc.Fid fc.Afid fc.Uname fc.Aname with
    | (fs, Except.error err) => ({ s with fs := fs }, rerror fc.Tag err)
    | (fs, Except.ok qid) => ({ s with fs := fs }, { resp with Typ := Rattach, Qid := qid })
  else if fc.Typ = Twalk then
    match impl.Walk s.fs fc.Fid fc.Newfid fc.Wname with
    | (fs, Except.error err) => ({ s with fs := fs }, rerror fc.Tag err)
    | (fs, Except.ok qids) =>
      ({ s with fs := fs },
       { resp with Typ := Rwalk, Nwqid := qids.length % 2 ^ 16, Wqid := qids })
  else if fc.Typ = Topen then
    match impl.Open s.fs fc.Fid fc.Mode with
    | (fs, Except.error err) => ({ s with fs := fs }, rerror fc.Tag err)
    | (fs, Except.ok (qid, iounit)) =>
      ({ s with fs := fs }, { resp with Typ := Ropen, Qid := qid, Iounit := iounit })
  else if fc.Typ = Tcreate then
    match impl.Create s.fs fc.Fid fc.Name fc.Perm fc.Mode with
    | (fs, Except.error err) => ({ s with fs := fs }, rerror fc.Tag err)
    | (fs, Except.ok (qid, iounit)) =>
      ({ s with fs := fs }, { resp with Typ := Rcreate, Qid := qid, Iounit := iounit })
  else if fc.Typ = Tread then
    match impl.Read s.fs fc.Fid fc.Offset fc.Count with
    | (fs, Except.error err) => ({ s with fs := fs }, rerror fc.Tag err)
    | (fs, Except.ok data) =>
      ({ s with fs := fs },
       { resp with Typ := Rread, Count := data.length % 2 ^ 32, Data := data })
  else if fc.Typ = Twrite then
    match impl.Write s.fs fc.Fid fc.Offset fc.Data with
    | (fs, Except.error err) => ({ s with fs := fs }, rerror fc.Tag err)
    | (fs, Except.ok count) => ({ s with fs := fs }, { resp with Typ := Rwrite, Count := count })
  else if fc.Typ = Tclunk then
    match impl.Clunk s.fs fc.Fid with
    | (fs, Except.error err) => ({ s with fs := fs }, rerror fc.Tag err)
    | (fs, Except.ok _) => ({ s with fs := fs }, { resp with Typ := Rclunk })
  else if fc.Typ = Tremove then
    match impl.Remove s.fs fc.Fid with
    | (fs, Except.error err) => ({ s with fs := fs }, rerror fc.Tag err)
    | (fs, Except.ok _) => ({ s with fs := fs }, { resp with Typ := Rremove })
  else if fc.Typ = Tstat then
    match impl.Stat s.fs fc.Fid with
    | (fs, Except.error err) => ({ s with fs := fs }, rerror fc.Tag err)
    | (fs, Except.ok stat) => ({ s with fs := fs }, { resp with Typ := Rstat, Stat := stat })
  else
    (s, rerror fc.Tag (ascii "unknown message type"))

end P9

/-! ## memfs.go -/

namespace Memfs

open P9

/-- Struct `Fid` of package `memfs`. -/
structure Fid where
  path : GoString
  qid : Qid
deriving DecidableEq, Repr

/-- Struct `MemFS`: the map `fids`, as the lookup function of the map (`none` for an
absent key, for which the Go lookup yields `nil`). -/
structure MemFS where
  fids : Nat → Option Fid

/-- Function `NewMemFS`: the empty map. -/
def NewMemFS : MemFS := { fids := fun _ => none }

/-- Map assignment `fs.fids[k] = v`. -/
def MemFS.set (fs : MemFS) (k : Nat) (v : Fid) : MemFS :=
  { fids := fun i => if i = k then some v else fs.fids i }

/-- Map deletion `delete(fs.fids, k)`. -/
def MemFS.delete (fs : MemFS) (k : Nat) : MemFS :=
  { fids := fun i => if i = k then none else fs.fids i }

/-- Method `MemFS.Version`. -/
def Version (fs : MemFS) (msize : Nat) (version : GoString) :
    MemFS × Except GoString (Nat × GoString) :=
  if version ≠ ascii "9P2000" then (fs, Except.error (ascii "unsupported version"))
  else
    let msize := if msize > 8192 then 8192 else msize
    (fs, Except.ok (msize, ascii "9P2000"))

/-- Method `MemFS.Attach`. -/
def Attach (fs : MemFS) (fid _afid : Nat) (_uname _aname : GoString) :
    MemFS × Except GoString Qid :=
  let qid : Qid := { Typ := QTDIR, Path := 1, Vers := 0 }
  (fs.set fid { path := ascii "/", qid := qid }, Except.ok qid)

/-- Method `MemFS.Walk`. -/
def Walk (fs : MemFS) (fid newfid : Nat) (_names : List GoString) :
    MemFS × Except GoString (List Qid) :=
  match fs.fids fid with
  | none => (fs, Except.error (ascii "unknown fid"))
  | some f => (fs.set newfid { path := f.path, qid := f.qid }, Except.ok [f.qid])

/-- Method `MemFS.Open`. -/
def Open (fs : MemFS) (fid _mode : Nat) : MemFS × Except GoString (Qid × Nat) :=
  match fs.fids fid with
  | none => (fs, Except.error (ascii "unknown fid"))
  | some f => (fs, Except.ok (f.qid, 8192))

/-- Method `MemFS.Create`. -/
def Create (fs : MemFS) (_fid : Nat) (_name : GoString) (_perm _mode : Nat) :
    MemFS × Except GoString (Qid × Nat) :=
  (fs, Except.error (ascii "not implemented"))

/-- Method `MemFS.Read`. -/
def Read (fs : MemFS) (_fid _offset _count : Nat) : MemFS × Except GoString (List Nat) :=
  (fs, Except.ok (ascii "Hello from MemFS\n"))

/-- Method `MemFS.Write`. -/
def Write (fs : MemFS) (_fid _offset : Nat) (_data : List Nat) : MemFS × Except GoString Nat :=
  (fs, Except.error (ascii "not implemented"))

/-- Method `MemFS.Clunk`. -/
def Clunk (fs : MemFS) (fid : Nat) : MemFS × Except GoString Unit :=
  (fs.delete fid, Except.ok ())

/-- Method `MemFS.Remove`. -/
def Remove (fs : MemFS) (_fid : Nat) : MemFS × Except GoString Unit :=
  (fs, Except.error (ascii "not implemented"))

/-- Method `MemFS.Stat`. -/
def Stat (fs : MemFS) (_fid : Nat) : MemFS × Except GoString P9.Stat :=
  (fs, Except.error (ascii "not implemented"))

/-- Method `MemFS.Wstat`. -/
def Wstat (fs : MemFS) (_fid : Nat) (_stat : P9.Stat) : MemFS × Except GoString Unit :=
  (fs, Except.error (ascii "not implemented"))

/-- The type `*MemFS` as an implementation of interface `FileServer`. -/
def impl : FileServer MemFS where
  Version := Version
  Attach := Attach
  Walk := Walk
  Open := Open
  Create := Create
  Read := Read
  Write := Write
  Clunk := Clunk
  Remove := Remove
  Stat := Stat
  Wstat := Wstat

/-- The server built in `main`: `p9.NewServer(NewMemFS())`. -/
def newServer : Server MemFS := NewServer NewMemFS

/-- The state of the server of `main` after a `Tattach` of fid 1. -/
def attachedServer : Server MemFS :=
  (dispatch impl newServer
    { Typ := Tattach, Tag := 1, Fid := 1, Afid := NOFID, Uname := ascii "user" }).1

end Memfs

/-! ## storage.go -/

namespace Storage

/-- Interface `StorageDriver` over a backend state `σ`. A path is a list of characters (a
valid UTF-8 Go string), a device number is a Go `int`. `ReadSector` yields the bytes that
the backend stores at the start of the 512-byte slice it is handed, `WriteSector` is given
the 512-byte slice; both may change the backend state and may fail. -/
structure StorageDriver (σ : Type) where
  Name : List Char
  Init : σ → σ × Option Err
  ReadSector : σ → Int → Nat → σ × Except Err (List Nat)
  WriteSector : σ → Int → Nat → List Nat → σ × Option Err
  GetDeviceCapacity : σ → Int → Except Err Nat
  GetDeviceCount : σ → Int

/-- Struct `StorageDevice`. -/
structure StorageDevice where
  ID : Int
  Capacity : Nat
  Model : List Char
deriving DecidableEq, Repr

/-- Struct `BlockDeviceDriver` (the state of the backend is passed next to it). -/
structure BlockDeviceDriver (σ : Type) where
  driver : StorageDriver σ
  devices : List StorageDevice

/-- Predicate `isSpace` of package `fmt`: the Unicode white space below U+10000. -/
def isSpace (c : Char) : Bool :=
  let r := c.toNat
  (0x0009 ≤ r && r ≤ 0x000d) || r = 0x0020 || r = 0x0085 || r = 0x00a0 || r = 0x1680
    || (0x2000 ≤ r && r ≤ 0x200a) || (0x2028 ≤ r && r ≤ 0x2029) || r = 0x202f
    || r = 0x205f || r = 0x3000

/-- Method `ss.SkipSpace` of package `fmt` as `Sscanf` runs it (newlines are not space):
the input after the leading white space, or `none` for the error "unexpected newline". -/
def skipSpace : List Char → Option (List Char)
  | [] => some []
  | c :: cs =>
    if c = '\n' then none
    else if isSpace c then skipSpace cs
    else some (c :: cs)

/-- Value of a string of decimal digits, most significant first. -/
def digitsValue (ds : List Char) : Nat :=
  ds.foldl (fun acc c => acc * 10 + (c.toNat - '0'.toNat)) 0

/-- The call `fmt.Sscanf(input, "%d/", &deviceID)`: `some deviceID` when it returns
`n = 1` and a nil error. The verb `%d` skips leading white space, accepts one sign and
then at least one decimal digit, and the token must fit an `int` (64 bits); the literal
`/` must follow; what comes after it is not looked at. -/
def sscanfDeviceID (input : List Char) : Option Int :=
  match skipSpace input with
  | none => none
  | some r =>
    let neg := r.head? = some '-'
    let r := if r.head? = some '+' ∨ r.head? = some '-' then r.drop 1 else r
    let ds := r.takeWhile Char.isDigit
    let r := r.dropWhile Char.isDigit
    if ds = [] then none
    else
      let v : Int := if neg then -(digitsValue ds : Int) else (digitsValue ds : Int)
      if v < -(2 ^ 63) ∨ v > 2 ^ 63 - 1 then none
      else if r.head? = some '/' then some v
      else none

/-- Function `filepath.Base` (Unix): the last element of the path, trailing slashes
removed first; `.` for the empty path and `/` for a path of slashes only. -/
def filepathBase (path : List Char) : List Char :=
  if path = [] then ['.']
  else
    let p := (path.reverse.dropWhile (· = '/')).reverse
    let last := (p.reverse.takeWhile (· ≠ '/')).reverse
    if last = [] then ['/'] else last

/-- Go's `copy(dst[lo:], src)` for `lo ≤ len(dst)`: the contents of `dst` afterwards. -/
def copyAt (dst : List Nat) (lo : Nat) (src : List Nat) : List Nat :=
  dst.take lo ++ src.take (dst.length - lo) ++ dst.drop (lo + src.length)

/-- Decimal text of a Go `int`, as the verb `%d` prints it. -/
def formatInt (i : Int) : List Char :=
  if i < 0 then '-' :: Nat.toDigits 10 i.natAbs else Nat.toDigits 10 i.natAbs

/-- Bytes of a Go string given by its characters. -/
def bytesOf (s : List Char) : List Nat :=
  (String.mk s).toUTF8.toList.map UInt8.toNat

/-- The read loop of `HandleRead`, `k` iterations left at index `i`:
`ReadSector(deviceID, startSector+i, buffer[i*512:(i+1)*512])`, the first error ends the
call. -/
def readSectors {σ : Type} (drv : StorageDriver σ) (deviceID : Int) (startSector : Nat) :
    Nat → Nat → σ → List Nat → σ × Except Err (List Nat)
  | 0, _, st, buffer => (st, Except.ok buffer)
  | k + 1, i, st, buffer =>
    match drv.ReadSector st deviceID (startSector + i) with
    | (st, Except.error err) => (st, Except.error (Err.failedToReadSector (startSector + i) err))
    | (st, Except.ok sec) =>
      readSectors drv deviceID startSector k (i + 1) st (copyAt buffer (i * 512) (sec.take 512))

/-- Method `BlockDeviceDriver.HandleRead`: the backend state afterwards and the result.
Indexing `b.devices` with a negative `deviceID` panics. -/
def HandleRead {σ : Type} (b : BlockDeviceDriver σ) (st : σ) (path : List Char)
    (offset count : Nat) : σ × Result (List Nat) :=
  if path.length ≥ 5 ∧ path.take 5 = "disk/".toList then
    match sscanfDeviceID (path.drop 5) with
    | none => (st, Result.error (Err.invalidDevicePath path))
    | some deviceID =>
      if deviceID ≥ b.devices.length then (st, Result.error (Err.deviceNotFound deviceID))
      else if filepathBase path = "ctl".toList then
        if deviceID < 0 then (st, Result.panic)
        else
          match b.devices.get? deviceID.toNat with
          | none => (st, Result.panic)
          | some dev =>
            (st, Result.ok (bytesOf ("device: ".toList ++ formatInt deviceID
              ++ "\nmodel: ".toList ++ dev.Model
              ++ "\ncapacity: ".toList ++ Nat.toDigits 10 dev.Capacity
              ++ " sectors\nsector_size: 512\n".toList)))
      else
        let sectorSize := 512
        let startSector := offset / sectorSize
        let byteOffset := offset % sectorSize
        let sectorsNeeded := (count + byteOffset + sectorSize - 1) % 2 ^ 64 / sectorSize
        let sectorsNeeded := if sectorsNeeded = 0 ∧ count > 0 then 1 else sectorsNeeded
        let buffer := List.replicate (sectorsNeeded * sectorSize) 0
        match readSectors b.driver deviceID startSector sectorsNeeded 0 st buffer with
        | (st, Except.error err) => (st, Result.error err)
        | (st, Except.ok buffer) =>
          let endOffset := byteOffset + count
          let endOffset := if endOffset > buffer.length then buffer.length else endOffset
          (st, slice buffer byteOffset endOffset)
  else (st, Result.error (Err.invalidPath path))

/-- The read-modify-write loop of `HandleWrite`, `k` iterations left at index `i`: a
sector whose read fails is zero-filled in the buffer. -/
def rmwSectors {σ : Type} (drv : StorageDriver σ) (deviceID : Int) (startSector : Nat) :
    Nat → Nat → σ → List Nat → σ × List Nat
  | 0, _, st, buffer => (st, buffer)
  | k + 1, i, st, buffer =>
    match drv.ReadSector st deviceID (startSector + i) with
    | (st, Except.error _) =>
      rmwSectors drv deviceID startSector k (i + 1) st
        (copyAt buffer (i * 512) (List.replicate 512 0))
    | (st, Except.ok sec) =>
      rmwSectors drv deviceID startSector k (i + 1) st (copyAt buffer (i * 512) (sec.take 512))

/-- The write loop of `HandleWrite`, `k` iterations left at index `i`: the first failing
`WriteSector` ends the call with the count `uint32(i*sectorSize)` and the error. -/
def writeSectors {σ : Type} (drv : StorageDriver σ) (deviceID : Int) (startSector : Nat)
    (buffer : List Nat) : Nat → Nat → σ → σ × Option (Nat × Err)
  | 0, _, st => (st, none)
  | k + 1, i, st =>
    match drv.WriteSector st deviceID (startSector + i)
        ((buffer.drop (i * 512)).take 512) with
    | (st, some err) =>
      (st, some ((i * 512) % 2 ^ 32, Err.failedToWriteSector (startSector + i) err))
    | (st, none) => writeSectors drv deviceID startSector buffer k (i + 1) st

/-- Method `BlockDeviceDriver.HandleWrite`: the backend state afterwards, the returned count
and the returned error (`none` for nil). -/
def HandleWrite {σ : Type} (b : BlockDeviceDriver σ) (st : σ) (path : List Char)
    (offset : Nat) (data : List Nat) : σ × Nat × Option Err :=
  if path.length ≥ 5 ∧ path.take 5 = "disk/".toList then
    match sscanfDeviceID (path.drop 5) with
    | none => (st, 0, some (Err.invalidDevicePath path))
    | some deviceID =>
      if deviceID ≥ b.devices.length then (st, 0, some (Err.deviceNotFound deviceID))
      else if filepathBase path = "ctl".toList then (st, 0, some Err.controlFileReadOnly)
      else
        let sectorSize := 512
        let startSector := offset / sectorSize
        let byteOffset := offset % sectorSize
        let sectorsNeeded := (data.length + byteOffset + sectorSize - 1) % 2 ^ 64 / sectorSize
        let sectorsNeeded := if sectorsNeeded = 0 ∧ data.length > 0 then 1 else sectorsNeeded
        let buffer := List.replicate (sectorsNeeded * sectorSize) 0
        let (st, buffer) :=
          if byteOffset > 0 ∨ data.length % sectorSize ≠ 0 then
            rmwSectors b.driver deviceID startSector sectorsNeeded 0 st buffer
          else (st, buffer)
        let buffer := copyAt buffer byteOffset data
        match writeSectors b.driver deviceID startSector buffer sectorsNeeded 0 st with
        | (st, some (n, err)) => (st, n, some err)
        | (st, none) => (st, data.length % 2 ^ 32, none)
  else (st, 0, some (Err.invalidPath path))

/-- A backend that faithfully stores sectors of 512 bytes: `disk dev` holds the bytes of
device `dev`, sector `lba` at positions `lba*512 .. lba*512 + 511`. A sector can be read
and written when it lies inside the device, and a written sector is stored as given. -/
structure MemDisk where
  disk : Int → List Nat

/-- The faithful backend as a `StorageDriver`. -/
def MemDisk.driver : StorageDriver MemDisk where
  Name := "memdisk".toList
  Init := fun st => (st, none)
  ReadSector := fun st dev lba =>
    if (lba + 1) * 512 ≤ (st.disk dev).length then
      (st, Except.ok (((st.disk dev).drop (lba * 512)).take 512))
    else (st, Except.error (Err.backend "sector out of range"))
  WriteSector := fun st dev lba buf =>
    if (lba + 1) * 512 ≤ (st.disk dev).length ∧ buf.length = 512 then
      ({ disk := fun d => if d = dev then copyAt (st.disk dev) (lba * 512) buf else st.disk d },
       none)
    else (st, some (Err.backend "sector out of range"))
  GetDeviceCapacity := fun st dev => Except.ok ((st.disk dev).length / 512)
  GetDeviceCount := fun _ => 1

/-- The path `disk/N/data` of device number `N`. -/
def dataPath (N : Nat) : List Char :=
  "disk/".toList ++ Nat.toDigits 10 N ++ "/data".toList

/-! ### A backend that records its calls -/

/-- One call of the backend, with what the backend answered: the bytes or the error of a
`ReadSector`, the buffer handed to a `WriteSector` and its error (`none` for nil). -/
inductive Access where
  | read (dev : Int) (lba : Nat) (res : Except Err (List Nat))
  | write (dev : Int) (lba : Nat) (buf : List Nat) (res : Option Err)

/-- Whether a recorded call is a `WriteSector`. -/
def Access.isWrite : Access → Bool
  | Access.read _ _ _ => false
  | Access.write _ _ _ _ => true

/-- A backend wrapped so that every `ReadSector` and `WriteSector` it receives is appended
to a log, next to the state of the backend; the answers are those of the backend. -/
def logging {σ : Type} (drv : StorageDriver σ) : StorageDriver (σ × List Access) where
  Name := drv.Name
  Init := fun s => (((drv.Init s.1).1, s.2), (drv.Init s.1).2)
  ReadSector := fun s dev lba =>
    (((drv.ReadSector s.1 dev lba).1,
      s.2 ++ [Access.read dev lba (drv.ReadSector s.1 dev lba).2]),
     (drv.ReadSector s.1 dev lba).2)
  WriteSector := fun s dev lba buf =>
    (((drv.WriteSector s.1 dev lba buf).1,
      s.2 ++ [Access.write dev lba buf (drv.WriteSector s.1 dev lba buf).2]),
     (drv.WriteSector s.1 dev lba buf).2)
  GetDeviceCapacity := fun s dev => drv.GetDeviceCapacity s.1 dev
  GetDeviceCount := fun s => drv.GetDeviceCount s.1

/-- The 512 bytes of a buffer slice, zero before the read, after the backend stored `sec`
at its start. -/
def pad512 (sec : List Nat) : List Nat :=
  sec.take 512 ++ List.replicate (512 - sec.length) 0

/-- Log of successful reads of consecutive sectors of device `dev` from sector `lba` on,
one per element of `secs`, which are the bytes the backend returned. -/
def readEntries (dev : Int) : Nat → List (List Nat) → List Access
  | _, [] => []
  | lba, sec :: secs => Access.read dev lba (Except.ok sec) :: readEntries dev (lba + 1) secs

/-- Log of `k` successful writes of the consecutive sectors `startSector + i`,
`startSector + i + 1`, ... of device `dev`, each with its 512-byte slice of `buffer`. -/
def writeEntries (dev : Int) (startSector : Nat) (buffer : List Nat) : Nat → Nat → List Access
  | _, 0 => []
  | i, k + 1 =>
    Access.write dev (startSector + i) ((buffer.drop (i * 512)).take 512) none
      :: writeEntries dev startSector buffer (i + 1) k

/-- A block driver over the faithful backend with one device of one sector. -/
def exampleDriver : BlockDeviceDriver MemDisk :=
  { driver := MemDisk.driver, devices := [{ ID := 0, Capacity := 1, Model := [] }] }

/-- A backend whose devices hold one zeroed sector. -/
def exampleDisk : MemDisk := { disk := fun _ => List.replicate 512 0 }

/-- The one-sector block driver over the faithful backend wrapped to record its calls. -/
def recordingExampleDriver : BlockDeviceDriver (MemDisk × List Access) :=
  { driver := logging MemDisk.driver, devices := [{ ID := 0, Capacity := 1, Model := [] }] }

/-- The path `disk/N/ctl` of device number `N`. -/
def ctlPath (N : Nat) : List Char :=
  "disk/".toList ++ Nat.toDigits 10 N ++ "/ctl".toList

end Storage

/-! ## ahci-driver/block9p.go -/

namespace Ahci

/-- Struct `Partition` (field `Type` is spelled `Typ`); `EndLBA` is documented as the
ending LBA, inclusive. -/
structure Partition where
  Number : Int
  StartLBA : Nat
  EndLBA : Nat
  Typ : List Char
  Name : List Char
deriving DecidableEq, Repr

/-- The methods of `*AHCIPort` that block9p.go calls, over a port state `π`: `Read(lba,
sectorCount)`, `Write(lba, data)` and `Flush()`. What they do is hardware access and is
left to the port. -/
structure PortOps (π : Type) where
  Read : π → Nat → Nat → π × Except Err (List Nat)
  Write : π → Nat → List Nat → π × Option Err
  Flush : π → π × Option Err

/-- Struct `BlockDevice` (its port as the state `π` of the port). -/
structure BlockDevice (π : Type) where
  Name : List Char
  SectorSize : Nat
  Sectors : Nat
  Model : List Char
  Serial : List Char
  Port : π
  Partitions : List Partition

/-- Method `Block9PServer.readPartition`: the device afterwards and the result. Indexing
the partition list with a negative number and dividing by a zero sector size panic. The
sector count is computed in `uint32`, the absolute LBA and the bound in `uint64`. -/
def readPartition {π : Type} (ops : PortOps π) (dev : BlockDevice π) (partNum : Int)
    (offset count : Nat) : BlockDevice π × Result (List Nat) :=
  if partNum ≥ dev.Partitions.length then (dev, Result.error (Err.partitionNotFound partNum))
  else if partNum < 0 then (dev, Result.panic)
  else
    match dev.Partitions.get? partNum.toNat with
    | none => (dev, Result.panic)
    | some part =>
      if dev.SectorSize = 0 then (dev, Result.panic)
      else
        let partLBA := offset / dev.SectorSize
        let absoluteLBA := (part.StartLBA + partLBA) % 2 ^ 64
        let sectors := (count + dev.SectorSize + (2 ^ 32 - 1)) % 2 ^ 32 / dev.SectorSize
        if (absoluteLBA + sectors) % 2 ^ 64 > part.EndLBA then (dev, Result.error Err.EOF)
        else
          match ops.Read dev.Port absoluteLBA sectors with
          | (port, Except.error err) => ({ dev with Port := port }, Result.error err)
          | (port, Except.ok data) => ({ dev with Port := port }, Result.ok data)

/-- Method `Block9PServer.writePartition`: the device afterwards and the result, the count
on success and the error (with count 0) otherwise. The sector count is computed in `int`
and converted to `uint32`. -/
def writePartition {π : Type} (ops : PortOps π) (dev : BlockDevice π) (partNum : Int)
    (offset : Nat) (data : List Nat) : BlockDevice π × Result Nat :=
  if partNum ≥ dev.Partitions.length then (dev, Result.error (Err.partitionNotFound partNum))
  else if partNum < 0 then (dev, Result.panic)
  else
    match dev.Partitions.get? partNum.toNat with
    | none => (dev, Result.panic)
    | some part =>
      if dev.SectorSize = 0 then (dev, Result.panic)
      else
        let partLBA := offset / dev.SectorSize
        let absoluteLBA := (part.StartLBA + partLBA) % 2 ^ 64
        let sectors := (data.length + dev.SectorSize - 1) / dev.SectorSize % 2 ^ 32
        if (absoluteLBA + sectors) % 2 ^ 64 > part.EndLBA then
          (dev, Result.error Err.writeBeyondPartition)
        else
          match ops.Write dev.Port absoluteLBA data with
          | (port, some err) => ({ dev with Port := port }, Result.error err)
          | (port, none) => ({ dev with Port := port }, Result.ok (data.length % 2 ^ 32))

/-- The text `fmt.Sprintf("0x%02x", partType)` of a byte: `0x` and two lower-case
hexadecimal digits. -/
def hex02 (b : Nat) : List Char :=
  let ds := Nat.toDigits 16 b
  '0' :: 'x' :: (List.replicate (2 - ds.length) '0' ++ ds)

/-- The loop of `parseMBR`, `k` iterations left at index `i`, `parts` appended so far: it
breaks when the entry does not fit the sector and skips an entry whose type is zero. -/
def parseMBRLoop (mbr : List Nat) : Nat → Nat → List Partition → List Partition
  | 0, _, parts => parts
  | k + 1, i, parts =>
    let offset := 446 + i * 16
    if offset + 16 > mbr.length then parts
    else
      let entry := (mbr.drop offset).take 16
      let partType := entry.getD 4 0
      if partType = 0 then parseMBRLoop mbr k (i + 1) parts
      else
        let startLBA := entry.getD 8 0 ||| entry.getD 9 0 <<< 8 ||| entry.getD 10 0 <<< 16
          ||| entry.getD 11 0 <<< 24
        let numSectors := entry.getD 12 0 ||| entry.getD 13 0 <<< 8
          ||| entry.getD 14 0 <<< 16 ||| entry.getD 15 0 <<< 24
        parseMBRLoop mbr k (i + 1)
          (parts ++ [{ Number := (i : Int) + 1,
                       StartLBA := startLBA,
                       EndLBA := (startLBA + numSectors + (2 ^ 64 - 1)) % 2 ^ 64,
                       Typ := hex02 partType,
                       Name := "partition".toList ++ Nat.toDigits 10 (i + 1) }])

/-- Method `Block9PServer.parseMBR`: the device afterwards and the error (always nil). -/
def parseMBR {π : Type} (dev : BlockDevice π) (mbr : List Nat) :
    BlockDevice π × Option Err :=
  ({ dev with Partitions := parseMBRLoop mbr 4 0 [] }, none)

/-- Method `Block9PServer.parseGPT`. -/
def parseGPT {π : Type} (dev : BlockDevice π) (_header : List Nat) :
    BlockDevice π × Option Err :=
  ({ dev with Partitions := [] }, some Err.gptNotImplemented)

/-- Method `Block9PServer.rescanPartitions`. -/
def rescanPartitions {π : Type} (ops : PortOps π) (dev : BlockDevice π) :
    BlockDevice π × Option Err :=
  match ops.Read dev.Port 0 1 with
  | (port, Except.error err) => ({ dev with Port := port }, some (Err.failedToReadMBR err))
  | (port, Except.ok mbr) =>
    if mbr.length ≥ 512 ∧ mbr.getD 510 0 = 0x55 ∧ mbr.getD 511 0 = 0xAA then
      match ops.Read port 1 1 with
      | (port, Except.ok gptHeader) =>
        if gptHeader.length ≥ 512 ∧ gptHeader.take 8 = ascii "EFI PART" then
          parseGPT { dev with Port := port } gptHeader
        else parseMBR { dev with Port := port } mbr
      | (port, Except.error _) => parseMBR { dev with Port := port } mbr
    else ({ dev with Port := port }, some Err.noValidPartitionTable)

/-- Method `Block9PServer.writeCtl`: the device afterwards, the returned count and the
returned error (`none` for nil). -/
def writeCtl {π : Type} (ops : PortOps π) (dev : BlockDevice π) (data : List Nat) :
    BlockDevice π × Nat × Option Err :=
  if data = ascii "flush\n" ∨ data = ascii "flush" then
    match ops.Flush dev.Port with
    | (port, err) => ({ dev with Port := port }, data.length % 2 ^ 32, err)
  else if data = ascii "rescan\n" ∨ data = ascii "rescan" then
    match rescanPartitions ops dev with
    | (dev, err) => (dev, data.length % 2 ^ 32, err)
  else (dev, 0, some (Err.unknownControlCommand data))

/-- The partition that the MBR layout assigns to table entry `i` of sector 0: none for a
type byte of zero; otherwise number `i + 1`, the start LBA and the sector count read as
little-endian 32-bit values at entry offsets 8 and 12, the end LBA `start + count - 1` in
64-bit arithmetic, and the type as `0x` with two lower-case hexadecimal digits. -/
def mbrEntry (mbr : List Nat) (i : Nat) : Option Partition :=
  let e := 446 + 16 * i
  let partType := mbr.getD (e + 4) 0
  let start := uint32LE ((mbr.drop (e + 8)).take 4)
  let count := uint32LE ((mbr.drop (e + 12)).take 4)
  if partType = 0 then none
  else some { Number := (i : Int) + 1,
              StartLBA := start,
              EndLBA := if start + count = 0 then 2 ^ 64 - 1 else start + count - 1,
              Typ := ['0', 'x', Nat.digitChar (partType / 16), Nat.digitChar (partType % 16)],
              Name := "partition".toList ++ Nat.toDigits 10 (i + 1) }

/-- White space in the sense of the specification's "trim": the ASCII white space that
`strings.TrimSpace` removes (tab, line feed, vertical tab, form feed, carriage return,
space). -/
def isAsciiSpace (b : Nat) : Bool :=
  b = 9 || b = 10 || b = 11 || b = 12 || b = 13 || b = 32

/-- The bytes with leading and trailing white space removed. -/
def trimSpace (data : List Nat) : List Nat :=
  ((data.dropWhile isAsciiSpace).reverse.dropWhile isAsciiSpace).reverse

/-- A port whose operations all succeed: reads return zero bytes, 512 per sector. -/
def okPort : PortOps Unit where
  Read := fun _ _ sectors => ((), Except.ok (List.replicate ((sectors * 512) % 2 ^ 32) 0))
  Write := fun _ _ _ => ((), none)
  Flush := fun _ => ((), none)

/-- A device of 512-byte sectors with the one partition of scenario S5, sectors 2048 to
206847 inclusive. -/
def exampleDevice : BlockDevice Unit :=
  { Name := "sdC0".toList, SectorSize := 512, Sectors := 409600, Model := [], Serial := [],
    Port := (),
    Partitions := [{ Number := 1, StartLBA := 2048, EndLBA := 206847, Typ := "0x83".toList,
                     Name := "partition1".toList }] }

/-- The sector 0 of scenario S5: one table entry at offset 446 with type 0x83, start LBA
2048 and 204800 sectors, and the boot signature 0x55 0xAA at offsets 510 and 511. -/
def s5Sector : List Nat :=
  List.replicate 446 0 ++ [0x80, 0, 0, 0, 0x83, 0, 0, 0, 0, 8, 0, 0, 0, 0x20, 3, 0]
    ++ List.replicate 48 0 ++ [0x55, 0xAA]

end Ahci

/-! ## fbdriver/screen.go -/

namespace Fb

/-- Go's `int` is 64 bits wide: the value of an arithmetic result after wrap-around. -/
def wrapInt (v : Int) : Int := (v + 2 ^ 63) % 2 ^ 64 - 2 ^ 63

/-- Struct `Color`; each channel is a `uint8`. -/
structure Color where
  R : Nat
  G : Nat
  B : Nat
  A : Nat
deriving DecidableEq, Repr

/-- Variable `ColorBlack`. -/
def ColorBlack : Color := { R := 0, G := 0, B := 0, A := 255 }

/-- Variable `ColorWhite`. -/
def ColorWhite : Color := { R := 255, G := 255, B := 255, A := 255 }

/-- Type `PixelFormat` with its four constants `PixelFormatRGB32`, `PixelFormatBGR32`,
`PixelFormatRGB24` and `PixelFormatRGB565`. -/
inductive PixelFormat where
  | RGB32
  | BGR32
  | RGB24
  | RGB565
deriving DecidableEq, Repr

/-- Modelled from the spec: type `Font`, whose declaration (with `LoadVGAFont` and
`Font.GetGlyph`) is not among the sources. A font is the glyph width and height and, for
each character, a bitmap of one byte per glyph row whose high-to-low bits are the
left-to-right pixels. -/
structure Font where
  Width : Int
  Height : Int
  GetGlyph : Char → List Nat

/-- The file `/dev/mem` that `Screen.memFile` holds once it is opened: the byte at each
physical address and the file position. -/
structure MemFile where
  mem : Nat → Nat
  pos : Nat

/-- Method `os.File.Seek(offset, 0)` on `memFile`: a nil file answers `os.ErrInvalid`; the
memory device takes the 64 bits of the offset as a physical address. -/
def MemFile.Seek (f : Option MemFile) (offset : Int) : Option MemFile × Option Err :=
  match f with
  | none => (none, some Err.ErrInvalid)
  | some m => (some { m with pos := (offset % 2 ^ 64).toNat }, none)

/-- Method `os.File.Write(b)` on `memFile`: a nil file answers `os.ErrInvalid`; otherwise
the bytes are stored from the file position on, which moves past them. -/
def MemFile.Write (f : Option MemFile) (b : List Nat) : Option MemFile × Option Err :=
  match f with
  | none => (none, some Err.ErrInvalid)
  | some m =>
    (some { mem := fun a => if m.pos ≤ a ∧ a < m.pos + b.length then b.getD (a - m.pos) 0
                            else m.mem a,
            pos := m.pos + b.length }, none)

/-- Struct `Screen` (the mutex left out): `buffer` is the shadow buffer, `memFile` is nil
(`none`) until the screen is opened. -/
structure Screen where
  Name : List Char
  Width : Int
  Height : Int
  Depth : Int
  Pitch : Int
  FBAddr : Nat
  FBSize : Nat
  Format : PixelFormat
  memFile : Option MemFile
  buffer : List Nat
  CursorX : Int
  CursorY : Int
  Font : Font
  FgColor : Color
  BgColor : Color
  dirty : Bool
  dirtyX1 : Int
  dirtyY1 : Int
  dirtyX2 : Int
  dirtyY2 : Int

/-- Go assignment `buf[i] = v` with an `int` index; it panics unless `0 ≤ i < len(buf)`. -/
def store (buf : List Nat) (i : Int) (v : Nat) : Result (List Nat) :=
  if 0 ≤ i ∧ i < buf.length then Result.ok (buf.set i.toNat v) else Result.panic

/-- Go index expression `buf[i]` with an `int` index; it panics unless
`0 ≤ i < len(buf)`. -/
def load (buf : List Nat) (i : Int) : Result Nat :=
  if 0 ≤ i ∧ i < buf.length then Result.ok (buf.getD i.toNat 0) else Result.panic

/-- Method `Screen.markDirty`: on a screen that is dirty already, each of the four `if`
statements moves one edge of the rectangle. -/
def markDirty (s : Screen) (x1 y1 x2 y2 : Int) : Screen :=
  if ¬ s.dirty then
    { s with dirty := true, dirtyX1 := x1, dirtyY1 := y1, dirtyX2 := x2, dirtyY2 := y2 }
  else
    { s with dirtyX1 := if x1 < s.dirtyX1 then x1 else s.dirtyX1,
             dirtyY1 := if y1 < s.dirtyY1 then y1 else s.dirtyY1,
             dirtyX2 := if x2 > s.dirtyX2 then x2 else s.dirtyX2,
             dirtyY2 := if y2 > s.dirtyY2 then y2 else s.dirtyY2 }

/-- The stores of the `switch s.Format` in `PutPixel`, one per byte in source order; the
first store out of range panics. In `PixelFormatRGB565` the operands of the shifts are
`uint8`, so is each shifted value, and the `uint16` conversion comes last. -/
def putBytes (format : PixelFormat) (buf : List Nat) (offset : Int) (color : Color) :
    Result (List Nat) :=
  match format with
  | PixelFormat.RGB32 => do
    let b ← store buf (offset + 0) color.R
    let b ← store b (offset + 1) color.G
    let b ← store b (offset + 2) color.B
    store b (offset + 3) color.A
  | PixelFormat.BGR32 => do
    let b ← store buf (offset + 0) color.B
    let b ← store b (offset + 1) color.G
    let b ← store b (offset + 2) color.R
    store b (offset + 3) color.A
  | PixelFormat.RGB24 => do
    let b ← store buf (offset + 0) color.R
    let b ← store b (offset + 1) color.G
    store b (offset + 2) color.B
  | PixelFormat.RGB565 =>
    let rgb565 := ((color.R >>> 3) <<< 11) % 2 ^ 8 ||| ((color.G >>> 2) <<< 5) % 2 ^ 8
      ||| color.B >>> 3
    do
    let b ← store buf (offset + 0) ((rgb565 &&& 0xFF) % 2 ^ 8)
    store b (offset + 1) ((rgb565 >>> 8) % 2 ^ 8)

/-- Method `Screen.PutPixel`: the screen afterwards and the returned error, or the panic
of a store outside the shadow buffer. -/
def PutPixel (s : Screen) (x y : Int) (color : Color) : Screen × Result Unit :=
  if x < 0 ∨ x ≥ s.Width ∨ y < 0 ∨ y ≥ s.Height then
    (s, Result.error (Err.pixelOutOfBounds x y))
  else
    let offset := wrapInt (wrapInt (y * s.Pitch) + wrapInt (x * 4))
    match putBytes s.Format s.buffer offset color with
    | Result.ok b => (markDirty { s with buffer := b } x y x y, Result.ok ())
    | Result.error e => (s, Result.error e)
    | Result.panic => (s, Result.panic)

/-- Method `Screen.GetPixel`. -/
def GetPixel (s : Screen) (x y : Int) : Result Color :=
  if x < 0 ∨ x ≥ s.Width ∨ y < 0 ∨ y ≥ s.Height then
    Result.error (Err.pixelOutOfBounds x y)
  else
    let offset := wrapInt (wrapInt (y * s.Pitch) + wrapInt (x * 4))
    match s.Format with
    | PixelFormat.RGB32 => do
      let r ← load s.buffer (offset + 0)
      let g ← load s.buffer (offset + 1)
      let b ← load s.buffer (offset + 2)
      let a ← load s.buffer (offset + 3)
      pure { R := r, G := g, B := b, A := a }
    | PixelFormat.BGR32 => do
      let r ← load s.buffer (offset + 2)
      let g ← load s.buffer (offset + 1)
      let b ← load s.buffer (offset + 0)
      let a ← load s.buffer (offset + 3)
      pure { R := r, G := g, B := b, A := a }
    | PixelFormat.RGB24 => do
      let r ← load s.buffer (offset + 0)
      let g ← load s.buffer (offset + 1)
      let b ← load s.buffer (offset + 2)
      pure { R := r, G := g, B := b, A := 255 }
    | PixelFormat.RGB565 => do
      let lo ← load s.buffer (offset + 0)
      let hi ← load s.buffer (offset + 1)
      let rgb565 := lo ||| (hi <<< 8) % 2 ^ 16
      pure { R := ((rgb565 >>> 11) <<< 3) % 2 ^ 8,
             G := (((rgb565 >>> 5) &&& 0x3F) <<< 2) % 2 ^ 8,
             B := ((rgb565 &&& 0x1F) <<< 3) % 2 ^ 8,
             A := 255 }

/-- The inner loop of `DrawRect` over a pixel writer `put`, `k` iterations left at
column `dx` of row `dy`; the first call of `put` that does not return nil ends the
call. -/
def drawRectRow {σ : Type} (put : σ → Int → Int → Color → σ × Result Unit)
    (x y dy : Int) (color : Color) : Nat → Int → σ → σ × Result Unit
  | 0, _, s => (s, Result.ok ())
  | k + 1, dx, s =>
    match put s (wrapInt (x + dx)) (wrapInt (y + dy)) color with
    | (s, Result.ok ()) => drawRectRow put x y dy color k (dx + 1) s
    | (s, r) => (s, r)

/-- The outer loop of `DrawRect`, `k` iterations left at row `dy`. -/
def drawRectRows {σ : Type} (put : σ → Int → Int → Color → σ × Result Unit)
    (x y w : Int) (color : Color) : Nat → Int → σ → σ × Result Unit
  | 0, _, s => (s, Result.ok ())
  | k + 1, dy, s =>
    match drawRectRow put x y dy color w.toNat 0 s with
    | (s, Result.ok ()) => drawRectRows put x y w color k (dy + 1) s
    | (s, r) => (s, r)

/-- The body of `DrawRect` with the pixel writer as a parameter: `for dy := 0; dy < h`
and `for dx := 0; dx < w` run `h` and `w` times, or not at all when the bound is not
positive. -/
def drawRectWith {σ : Type} (put : σ → Int → Int → Color → σ × Result Unit)
    (s : σ) (x y w h : Int) (color : Color) : σ × Result Unit :=
  drawRectRows put x y w color h.toNat 0 s

/-- Method `Screen.DrawRect`: the loops over `s.PutPixel`. -/
def DrawRect (s : Screen) (x y w h : Int) (color : Color) : Screen × Result Unit :=
  drawRectWith PutPixel s x y w h color

/-- Function `abs`. -/
def abs (x : Int) : Int := if x < 0 then wrapInt (-x) else x

/-- The loop `for { ... }` of `DrawLine` over a pixel writer `put`, at most `fuel`
iterations: `none` when they do not reach the `break` or an error. -/
def drawLineLoop {σ : Type} (put : σ → Int → Int → Color → σ × Result Unit)
    (x2 y2 dx dy sx sy : Int) (color : Color) :
    Nat → Int → Int → Int → σ → Option (σ × Result Unit)
  | 0, _, _, _, _ => none
  | fuel + 1, x, y, err, s =>
    match put s x y color with
    | (s, Result.ok ()) =>
      if x = x2 ∧ y = y2 then some (s, Result.ok ())
      else
        let e2 := wrapInt (2 * err)
        let err1 := if e2 > wrapInt (-dy) then wrapInt (err - dy) else err
        let x := if e2 > wrapInt (-dy) then wrapInt (x + sx) else x
        let err2 := if e2 < dx then wrapInt (err1 + dx) else err1
        let y := if e2 < dx then wrapInt (y + sy) else y
        drawLineLoop put x2 y2 dx dy sx sy color fuel x y err2 s
    | (s, r) => some (s, r)

/-- The body of `DrawLine` with the pixel writer as a parameter. -/
def drawLineWith {σ : Type} (put : σ → Int → Int → Color → σ × Result Unit)
    (fuel : Nat) (s : σ) (x1 y1 x2 y2 : Int) (color : Color) : Option (σ × Result Unit) :=
  let dx := abs (wrapInt (x2 - x1))
  let dy := abs (wrapInt (y2 - y1))
  let sx : Int := if x1 > x2 then -1 else 1
  let sy : Int := if y1 > y2 then -1 else 1
  let err := wrapInt (dx - dy)
  drawLineLoop put x2 y2 dx dy sx sy color fuel x1 y1 err s

/-- Method `Screen.DrawLine`, its loop run for at most `fuel` iterations. -/
def DrawLine (fuel : Nat) (s : Screen) (x1 y1 x2 y2 : Int) (color : Color) :
    Option (Screen × Result Unit) :=
  drawLineWith PutPixel fuel s x1 y1 x2 y2 color

/-- Method `Screen.Clear`. -/
def Clear (s : Screen) (color : Color) : Screen × Result Unit :=
  DrawRect s 0 0 s.Width s.Height color

/-- The inner loop of `drawGlyph`, `k` iterations left at column `col` of glyph row `row`
whose bitmap byte is `bits`: the shadow buffer afterwards. The shift `1<<(7-col)` is a
`uint8` shift that panics on a negative count; formats other than the two 32-bit ones
store nothing. -/
def drawGlyphCols (s : Screen) (x y row : Int) (bits : Nat) (fg bg : Color) :
    Nat → Int → List Nat → Result (List Nat)
  | 0, _, buf => Result.ok buf
  | k + 1, col, buf =>
    if wrapInt (x + col) ≥ s.Width then Result.ok buf
    else
      let offset :=
        wrapInt (wrapInt (wrapInt (y + row) * s.Pitch) + wrapInt (wrapInt (x + col) * 4))
      if 7 - col < 0 then Result.panic
      else
        let color := if bits &&& (1 <<< (7 - col).toNat) % 2 ^ 8 ≠ 0 then fg else bg
        match s.Format with
        | PixelFormat.RGB32 | PixelFormat.BGR32 =>
          match putBytes s.Format buf offset color with
          | Result.ok b => drawGlyphCols s x y row bits fg bg k (col + 1) b
          | r => r
        | _ => drawGlyphCols s x y row bits fg bg k (col + 1) buf

/-- The outer loop of `drawGlyph`, `k` iterations left at glyph row `row`; `bitmap[row]`
panics when the bitmap has no such row. -/
def drawGlyphRows (s : Screen) (x y : Int) (bitmap : List Nat) (fg bg : Color) :
    Nat → Int → List Nat → Result (List Nat)
  | 0, _, buf => Result.ok buf
  | k + 1, row, buf =>
    if wrapInt (y + row) ≥ s.Height then Result.ok buf
    else
      match load bitmap row with
      | Result.ok bits =>
        match drawGlyphCols s x y row bits fg bg s.Font.Width.toNat 0 buf with
        | Result.ok b => drawGlyphRows s x y bitmap fg bg k (row + 1) b
        | r => r
      | Result.error e => Result.error e
      | Result.panic => Result.panic

/-- Method `Screen.drawGlyph`. -/
def drawGlyph (s : Screen) (x y : Int) (bitmap : List Nat) (fg bg : Color) :
    Screen × Result Unit :=
  match drawGlyphRows s x y bitmap fg bg s.Font.Height.toNat 0 s.buffer with
  | Result.ok b =>
    (markDirty { s with buffer := b } x y (wrapInt (x + s.Font.Width))
      (wrapInt (y + s.Font.Height)), Result.ok ())
  | Result.error e => (s, Result.error e)
  | Result.panic => (s, Result.panic)

/-- The loop `for i := bottomStart; i < len(s.buffer); i += 4` of `scroll`, at most `k`
iterations (one more than the length of the buffer is enough: `i` grows by 4, and a
negative `i` panics at once). -/
def scrollFill (bg : Color) : Nat → Int → List Nat → Result (List Nat)
  | 0, _, buf => Result.ok buf
  | k + 1, i, buf =>
    if i < buf.length then
      match putBytes PixelFormat.RGB32 buf i bg with
      | Result.ok b => scrollFill bg k (wrapInt (i + 4)) b
      | r => r
    else Result.ok buf

/-- Method `Screen.scroll`; the slice `s.buffer[lineBytes:]` panics unless
`0 ≤ lineBytes ≤ len(s.buffer)`. -/
def scroll (s : Screen) : Screen × Result Unit :=
  let lineBytes := wrapInt (s.Font.Height * s.Pitch)
  if lineBytes < 0 ∨ lineBytes > s.buffer.length then (s, Result.panic)
  else
    let buf := Storage.copyAt s.buffer 0 (s.buffer.drop lineBytes.toNat)
    let bottomStart := wrapInt (wrapInt (s.Height - s.Font.Height) * s.Pitch)
    match scrollFill s.BgColor (buf.length + 1) bottomStart buf with
    | Result.ok b =>
      ({ s with buffer := b, dirty := true, dirtyX1 := 0, dirtyY1 := 0,
                dirtyX2 := wrapInt (s.Width - 1), dirtyY2 := wrapInt (s.Height - 1) },
       Result.ok ())
    | Result.error e => (s, Result.error e)
    | Result.panic => (s, Result.panic)

/-- The statements that the newline case and the wrap case of `RenderText` share:
`s.CursorX = 0`, `s.CursorY += s.Font.Height`, and the scroll when
`s.CursorY+s.Font.Height > s.Height`. -/
def lineFeed (s : Screen) : Screen × Result Unit :=
  let s := { s with CursorX := 0, CursorY := wrapInt (s.CursorY + s.Font.Height) }
  if wrapInt (s.CursorY + s.Font.Height) > s.Height then
    match scroll s with
    | (s, Result.ok ()) =>
      ({ s with CursorY := wrapInt (s.Height - s.Font.Height) }, Result.ok ())
    | (s, r) => (s, r)
  else (s, Result.ok ())

/-- The body of the loop of `RenderText` for one character. The division of the tab case
panics when the glyph width is 0. -/
def renderChar (s : Screen) (ch : Char) : Screen × Result Unit :=
  if ch = '\n' then lineFeed s
  else if ch = '\r' then ({ s with CursorX := 0 }, Result.ok ())
  else if ch = '\t' then
    if s.Font.Width = 0 then (s, Result.panic)
    else
      let cx := wrapInt (wrapInt (wrapInt (Int.tdiv s.CursorX s.Font.Width) + 1) * s.Font.Width)
      let s := { s with CursorX := cx }
      if s.CursorX ≥ s.Width then
        ({ s with CursorX := 0, CursorY := wrapInt (s.CursorY + s.Font.Height) },
         Result.ok ())
      else (s, Result.ok ())
  else
    let glyph := s.Font.GetGlyph ch
    match drawGlyph s s.CursorX s.CursorY glyph s.FgColor s.BgColor with
    | (s, Result.ok ()) =>
      let s := { s with CursorX := wrapInt (s.CursorX + s.Font.Width) }
      if wrapInt (s.CursorX + s.Font.Width) > s.Width then lineFeed s
      else (s, Result.ok ())
    | (s, r) => (s, r)

/-- Method `Screen.RenderText` on the characters of the text (`for _, ch := range text`);
it returns nil unless it panics. -/
def RenderText (s : Screen) : List Char → Screen × Result Unit
  | [] => (s, Result.ok ())
  | ch :: rest =>
    match renderChar s ch with
    | (s, Result.ok ()) => RenderText s rest
    | (s, r) => (s, r)

/-- Method `Screen.Flush`: the screen afterwards and the returned error (`none` for
nil). -/
def Flush (s : Screen) : Screen × Option Err :=
  if ¬ s.dirty then (s, none)
  else
    match MemFile.Seek s.memFile (wrapInt s.FBAddr) with
    | (f, some e) => ({ s with memFile := f }, some (Err.failedToSeek e))
    | (f, none) =>
      match MemFile.Write f s.buffer with
      | (f, some e) => ({ s with memFile := f }, some (Err.failedToWriteFramebuffer e))
      | (f, none) => ({ s with memFile := f, dirty := false }, none)

end Fb

/-! ## fbdriver/fb9p.go -/

namespace Fb

/-- Function `utf8.DecodeRune` on the bytes of a Go string: the rune and the number of
bytes it takes; `U+FFFD` of width 1 stands for a byte that starts no valid encoding. -/
def decodeRune (p : List Nat) : Nat × Nat :=
  match p with
  | [] => (0xFFFD, 0)
  | p0 :: rest =>
    if p0 < 0x80 then (p0, 1)
    else if p0 < 0xC2 ∨ 0xF4 < p0 then (0xFFFD, 1)
    else
      let sz := if p0 < 0xE0 then 2 else if p0 < 0xF0 then 3 else 4
      let lo := if p0 = 0xE0 then 0xA0 else if p0 = 0xF0 then 0x90 else 0x80
      let hi := if p0 = 0xED then 0x9F else if p0 = 0xF4 then 0x8F else 0xBF
      let b1 := rest.getD 0 0
      let b2 := rest.getD 1 0
      let b3 := rest.getD 2 0
      if p.length < sz then (0xFFFD, 1)
      else if b1 < lo ∨ hi < b1 then (0xFFFD, 1)
      else if sz = 2 then ((p0 &&& 0x1F) <<< 6 ||| (b1 &&& 0x3F), 2)
      else if b2 < 0x80 ∨ 0xBF < b2 then (0xFFFD, 1)
      else if sz = 3 then
        ((p0 &&& 0x0F) <<< 12 ||| (b1 &&& 0x3F) <<< 6 ||| (b2 &&& 0x3F), 3)
      else if b3 < 0x80 ∨ 0xBF < b3 then (0xFFFD, 1)
      else
        ((p0 &&& 0x07) <<< 18 ||| (b1 &&& 0x3F) <<< 12 ||| (b2 &&& 0x3F) <<< 6
          ||| (b3 &&& 0x3F), 4)

/-- The runes of a Go string with the width of each, as `range` and `fmt` read them; the
first argument bounds the number of runes (the length of the string is enough). -/
def runesFrom : Nat → List Nat → List (Char × Nat)
  | 0, _ => []
  | k + 1, p =>
    if p = [] then []
    else
      let (r, w) := decodeRune p
      (Char.ofNat r, w) :: runesFrom k (p.drop w)

/-- The characters of the Go string `string(data)`. -/
def runes (data : List Nat) : List Char :=
  (runesFrom data.length data).map Prod.fst

/-- Function `strings.TrimSpace`: the bytes left once the leading and the trailing white
space runes are removed. -/
def TrimSpace (s : List Nat) : List Nat :=
  let rs := (runesFrom s.length s).dropWhile (fun r => Storage.isSpace r.1)
  let kept := (rs.reverse.dropWhile (fun r => Storage.isSpace r.1)).reverse
  let lead := s.length - (rs.map Prod.snd).sum
  (s.drop lead).take (kept.map Prod.snd).sum

/-- A verb `%d` of `fmt.Sscanf`: leading white space is skipped (a newline is an error),
one sign is accepted, at least one decimal digit must follow, and the token must fit an
`int`; the value and the input after the token. -/
def scanInt (input : List Char) : Option (Int × List Char) :=
  match Storage.skipSpace input with
  | none => none
  | some r =>
    let neg := r.head? = some '-'
    let r := if r.head? = some '+' ∨ r.head? = some '-' then r.drop 1 else r
    let ds := r.takeWhile Char.isDigit
    let r := r.dropWhile Char.isDigit
    if ds = [] then none
    else
      let v : Int :=
        if neg then -(Storage.digitsValue ds : Int) else (Storage.digitsValue ds : Int)
      if v < -(2 ^ 63) ∨ v > 2 ^ 63 - 1 then none else some (v, r)

/-- A space in the format of `fmt.Sscanf`: the input must continue with white space other
than a newline, or be at its end; that white space is consumed up to a newline. -/
def scanSpace : List Char → Option (List Char)
  | [] => some []
  | c :: cs =>
    if c = '\n' then none
    else if Storage.isSpace c then
      some (cs.dropWhile (fun c => Storage.isSpace c && c != '\n'))
    else none

/-- The call `fmt.Sscanf(input, "%d %d ... %d", ...)` with `k` verbs: `some` of the `k`
values when it returns `n = k` and a nil error. What follows the last token is not looked
at. -/
def sscanfInts : Nat → List Char → Option (List Int)
  | 0, _ => some []
  | k + 1, input =>
    match scanInt input with
    | none => none
    | some (v, r) =>
      if k = 0 then some [v]
      else
        match scanSpace r with
        | none => none
        | some r =>
          match sscanfInts k r with
          | none => none
          | some vs => some (v :: vs)

/-- The call `fmt.Sscanf(input, lit + " %d %d %d", ...)`: the characters of the literal
must match the input one by one before the space of the format. -/
def sscanfLit (lit : List Char) (input : List Char) : Option (List Int) :=
  if input.take lit.length = lit then
    match scanSpace (input.drop lit.length) with
    | none => none
    | some r => sscanfInts 3 r
  else none

/-- Conversion `uint8(v)` of an `int`. -/
def uint8 (v : Int) : Nat := (v % 256).toNat

/-- Struct `Framebuffer9PServer`: the map from screen names to screens. -/
structure Framebuffer9PServer where
  screens : List Char → Option Screen

/-- The map `fs.screens` after screen `name` was changed through its pointer. -/
def Framebuffer9PServer.set (fs : Framebuffer9PServer) (name : List Char) (s : Screen) :
    Framebuffer9PServer :=
  { screens := fun n => if n = name then some s else fs.screens n }

/-- Function `strings.Split(s, "/")`. -/
def splitSlash : List Char → List (List Char)
  | [] => [[]]
  | c :: cs =>
    match splitSlash cs with
    | [] => [[]]
    | p :: ps => if c = '/' then [] :: p :: ps else (c :: p) :: ps

/-- Function `strings.Trim(s, "/")`. -/
def trimSlash (s : List Char) : List Char :=
  ((s.dropWhile (· = '/')).reverse.dropWhile (· = '/')).reverse

/-- Method `Framebuffer9PServer.parsePath`: the name of the screen, the screen and the
file name, or `none` for the nil screen. -/
def parsePath (fs : Framebuffer9PServer) (path : List Char) :
    Option (List Char × Screen × List Char) :=
  let parts := splitSlash (trimSlash path)
  if parts.length < 4 then none
  else
    let screenName := parts.getD 2 []
    let fileName := parts.getD 3 []
    match fs.screens screenName with
    | none => none
    | some screen => some (screenName, screen, fileName)

/-- Method `Framebuffer9PServer.writePixelsBinary`: the screen afterwards, the returned
count and the outcome. The divisions by `screen.Pitch` panic when it is 0. -/
def writePixelsBinary (screen : Screen) (offset : Nat) (data : List Nat) :
    Screen × Nat × Result Unit :=
  if offset ≥ screen.buffer.length then
    (screen, 0, Result.error Err.offsetBeyondFramebuffer)
  else
    let n := min (screen.buffer.length - offset) data.length
    let buffer := Storage.copyAt screen.buffer offset data
    if screen.Pitch = 0 then ({ screen with buffer := buffer }, 0, Result.panic)
    else
      let startY := wrapInt (Int.tdiv (wrapInt offset) screen.Pitch)
      let endY := wrapInt (Int.tdiv (wrapInt (((offset + n) % 2 ^ 64 : Nat) : Int)) screen.Pitch)
      (markDirty { screen with buffer := buffer } 0 startY (wrapInt (screen.Width - 1)) endY,
       n % 2 ^ 32, Result.ok ())

/-- The value `(uint32(len(data)), nil)` or `(0, err)` that most cases of `Write` return
after a drawing call. -/
def countOf (data : List Nat) (r : Result Unit) : Nat × Result Unit :=
  match r with
  | Result.ok () => (data.length % 2 ^ 32, Result.ok ())
  | r => (0, r)

/-- Method `Framebuffer9PServer.handleControl`; `cmd` is the command as bytes. -/
def handleControl (screen : Screen) (cmd : List Nat) : Screen × Nat × Result Unit :=
  let cmd := TrimSpace cmd
  if cmd = ascii "clear" then
    match Clear screen screen.BgColor with
    | (screen, Result.ok ()) => ((Flush screen).1, cmd.length % 2 ^ 32, Result.ok ())
    | (screen, r) => (screen, 0, r)
  else if cmd = ascii "flush" then
    match Flush screen with
    | (screen, none) => (screen, cmd.length % 2 ^ 32, Result.ok ())
    | (screen, some e) => (screen, cmd.length % 2 ^ 32, Result.error e)
  else if cmd.take 8 = ascii "fgcolor " then
    match sscanfLit "fgcolor".toList (runes cmd) with
    | some [r, g, b] =>
      ({ screen with FgColor := { R := uint8 r, G := uint8 g, B := uint8 b, A := 255 } },
       cmd.length % 2 ^ 32, Result.ok ())
    | _ => (screen, 0, Result.error Err.invalidFgcolorFormat)
  else if cmd.take 8 = ascii "bgcolor " then
    match sscanfLit "bgcolor".toList (runes cmd) with
    | some [r, g, b] =>
      ({ screen with BgColor := { R := uint8 r, G := uint8 g, B := uint8 b, A := 255 } },
       cmd.length % 2 ^ 32, Result.ok ())
    | _ => (screen, 0, Result.error Err.invalidBgcolorFormat)
  else if cmd.take 5 = ascii "mode " then
    (screen, 0, Result.error Err.modeSwitchingNotImplemented)
  else (screen, 0, Result.error (Err.unknownControlCommand cmd))

/-- The `switch file` of `Framebuffer9PServer.Write` on the screen that `parsePath`
found: the screen afterwards, the returned count and the outcome; `none` when the loop of
`DrawLine` does not end within `fuel` iterations. The error of an automatic `Flush` is
dropped, as in the source. -/
def writeFile (fuel : Nat) (screen : Screen) (file : List Char) (offset : Nat)
    (data : List Nat) : Option (Screen × Nat × Result Unit) :=
  if file = "text".toList then
    match RenderText screen (runes data) with
    | (screen, Result.ok ()) => some ((Flush screen).1, data.length % 2 ^ 32, Result.ok ())
    | (screen, r) => some (screen, 0, r)
  else if file = "data".toList then
    if 0x20 ∈ data then
      match sscanfInts 5 (runes data) with
      | some [x, y, r, g, b] =>
        match PutPixel screen x y { R := uint8 r, G := uint8 g, B := uint8 b, A := 255 } with
        | (screen, Result.ok ()) =>
          some ((Flush screen).1, data.length % 2 ^ 32, Result.ok ())
        | (screen, r) => some (screen, 0, r)
      | _ => some (screen, 0, Result.error Err.invalidPixelFormat)
    else some (writePixelsBinary screen offset data)
  else if file = "rect".toList then
    match sscanfInts 7 (runes data) with
    | some [x, y, w, h, r, g, b] =>
      match DrawRect screen x y w h { R := uint8 r, G := uint8 g, B := uint8 b, A := 255 } with
      | (screen, Result.ok ()) =>
        some ((Flush screen).1, data.length % 2 ^ 32, Result.ok ())
      | (screen, r) => some (screen, 0, r)
    | _ => some (screen, 0, Result.error Err.invalidRectFormat)
  else if file = "line".toList then
    match sscanfInts 7 (runes data) with
    | some [x1, y1, x2, y2, r, g, b] =>
      match DrawLine fuel screen x1 y1 x2 y2
          { R := uint8 r, G := uint8 g, B := uint8 b, A := 255 } with
      | none => none
      | some (screen, Result.ok ()) =>
        some ((Flush screen).1, data.length % 2 ^ 32, Result.ok ())
      | some (screen, r) => some (screen, 0, r)
    | _ => some (screen, 0, Result.error Err.invalidLineFormat)
  else if file = "cursor".toList then
    match sscanfInts 2 (runes data) with
    | some [x, y] =>
      some ({ screen with CursorX := x, CursorY := y }, data.length % 2 ^ 32, Result.ok ())
    | _ => some (screen, 0, Result.error Err.invalidCursorFormat)
  else if file = "ctl".toList then some (handleControl screen data)
  else if file = "refresh".toList then
    match Flush screen with
    | (screen, none) => some (screen, data.length % 2 ^ 32, Result.ok ())
    | (screen, some e) => some (screen, 0, Result.error e)
  else some (screen, 0, Result.error (Err.cannotWriteTo file))

/-- Method `Framebuffer9PServer.Write`: the server afterwards, the returned count and the
outcome. -/
def Write (fuel : Nat) (fs : Framebuffer9PServer) (path : List Char) (offset : Nat)
    (data : List Nat) : Option (Framebuffer9PServer × Nat × Result Unit) :=
  match parsePath fs path with
  | none => some (fs, 0, Result.error (Err.screenNotFound path))
  | some (name, screen, file) =>
    match writeFile fuel screen file offset data with
    | none => none
    | some (screen, n, r) => some (fs.set name screen, n, r)

end Fb

/-! ## Framebuffer: definitions used to state the theorems -/

namespace Fb

open Storage

/-- Whether `(x, y)` is a pixel of the screen: `0 ≤ x < Width` and `0 ≤ y < Height`. -/
def InBounds (s : Screen) (x y : Int) : Prop :=
  0 ≤ x ∧ x < s.Width ∧ 0 ≤ y ∧ y < s.Height

instance (s : Screen) (x y : Int) : Decidable (InBounds s x y) := by
  unfold InBounds; infer_instance

/-- A correctly sized screen: a scanline holds `Width` pixels of 4 bytes, the shadow buffer
holds `Height` scanlines, and its length is a Go `int`. -/
def Sized (s : Screen) : Prop :=
  4 * s.Width ≤ s.Pitch ∧ s.Height * s.Pitch ≤ s.buffer.length ∧ s.buffer.length < 2 ^ 63

/-- The offset `y*s.Pitch + x*4` of a pixel of the screen, as an index of the buffer. -/
def pixelOffset (s : Screen) (x y : Int) : Nat := (y * s.Pitch + x * 4).toNat

/-- The bytes that the `switch s.Format` of `PutPixel` stores for a colour, in the order
of the stores. -/
def pixelBytes (format : PixelFormat) (color : Color) : List Nat :=
  match format with
  | PixelFormat.RGB32 => [color.R, color.G, color.B, color.A]
  | PixelFormat.BGR32 => [color.B, color.G, color.R, color.A]
  | PixelFormat.RGB24 => [color.R, color.G, color.B]
  | PixelFormat.RGB565 =>
    [((((color.R >>> 3) <<< 11) % 2 ^ 8 ||| ((color.G >>> 2) <<< 5) % 2 ^ 8
        ||| color.B >>> 3) &&& 0xFF) % 2 ^ 8,
     ((((color.R >>> 3) <<< 11) % 2 ^ 8 ||| ((color.G >>> 2) <<< 5) % 2 ^ 8
        ||| color.B >>> 3) >>> 8) % 2 ^ 8]

/-- Decimal integers separated by single spaces, as the text files of a screen take
them. -/
def spaced : List Int → List Char
  | [] => []
  | [v] => formatInt v
  | v :: w :: vs => formatInt v ++ ' ' :: spaced (w :: vs)

/-- The text `x y r g b` of a pixel write, as bytes. -/
def pixelText (x y r g b : Int) : List Nat :=
  (spaced [x, y, r, g, b]).map Char.toNat

/-- A font of 8 by 16 glyphs in which every character has the same bitmap of alternating
columns. -/
def exampleFont : Font :=
  { Width := 8, Height := 16, GetGlyph := fun _ => List.replicate 16 0xAA }

/-- A screen `screen0` of the given format, width, height and pitch, whose shadow buffer is
`n` zero bytes; it is not dirty and its memory file is open on zeroed memory. -/
def exampleScreen (format : PixelFormat) (w h pitch : Int) (n : Nat) : Screen :=
  { Name := "screen0".toList, Width := w, Height := h, Depth := 32, Pitch := pitch,
    FBAddr := 0xE0000000, FBSize := n, Format := format,
    memFile := some { mem := fun _ => 0, pos := 0 },
    buffer := List.replicate n 0, CursorX := 0, CursorY := 0, Font := exampleFont,
    FgColor := ColorWhite, BgColor := ColorBlack,
    dirty := false, dirtyX1 := 0, dirtyY1 := 0, dirtyX2 := 0, dirtyY2 := 0 }

/-- A server that exports the one screen `s` under the name `screen0`. -/
def exampleServer (s : Screen) : Framebuffer9PServer :=
  { screens := fun n => if n = "screen0".toList then some s else none }

/-- The RGB32 screen of scenario S6: 16 by 24 pixels with a pitch of 64 bytes. -/
def s6Screen : Screen := exampleScreen PixelFormat.RGB32 16 24 64 1536

/-- A pixel writer run on the points of a list in turn; the first call that does not
return nil ends the run. -/
def putAllWith {σ : Type} (put : σ → Int → Int → Color → σ × Result Unit) (color : Color) :
    List (Int × Int) → σ → σ × Result Unit
  | [], s => (s, Result.ok ())
  | p :: ps, s =>
    match put s p.1 p.2 color with
    | (s, Result.ok ()) => putAllWith put color ps s
    | (s, r) => (s, r)

/-- The points that the inner loop of `DrawRect` visits, `k` iterations left at column
`dx` of row `dy`. -/
def rowPoints (x y dy : Int) : Nat → Int → List (Int × Int)
  | 0, _ => []
  | k + 1, dx => (wrapInt (x + dx), wrapInt (y + dy)) :: rowPoints x y dy k (dx + 1)

/-- The points that the loops of `DrawRect` visit, `k` rows left at row `dy`. -/
def rectPoints (x y w : Int) : Nat → Int → List (Int × Int)
  | 0, _ => []
  | k + 1, dy => rowPoints x y dy w.toNat 0 ++ rectPoints x y w k (dy + 1)

/-- Two screens of the same geometry: width, height, pitch, format and buffer length. -/
def SameGeometry (s s' : Screen) : Prop :=
  s'.Width = s.Width ∧ s'.Height = s.Height ∧ s'.Pitch = s.Pitch ∧ s'.Format = s.Format
    ∧ s'.buffer.length = s.buffer.length

/-- The points that the loop of `DrawLine` visits from `(x, y)` with error term `err` until
its `break`, or `none` when `fuel` iterations do not reach it. -/
def linePoints (x2 y2 dx dy sx sy : Int) : Nat → Int → Int → Int → Option (List (Int × Int))
  | 0, _, _, _ => none
  | fuel + 1, x, y, err =>
    if x = x2 ∧ y = y2 then some [(x, y)]
    else
      let e2 := wrapInt (2 * err)
      let err1 := if e2 > wrapInt (-dy) then wrapInt (err - dy) else err
      let x' := if e2 > wrapInt (-dy) then wrapInt (x + sx) else x
      let err2 := if e2 < dx then wrapInt (err1 + dx) else err1
      let y' := if e2 < dx then wrapInt (y + sy) else y
      match linePoints x2 y2 dx dy sx sy fuel x' y' err2 with
      | none => none
      | some pts => some ((x, y) :: pts)

/-- The pixel writer `PutPixel` made to record its work: next to the screen goes the list
of the pixels that `PutPixel` has written, in the order of the calls; a call that returns
an error or panics records nothing. -/
def recordingPut (sl : Screen × List (Int × Int)) (x y : Int) (color : Color) :
    (Screen × List (Int × Int)) × Result Unit :=
  match PutPixel sl.1 x y color with
  | (s, Result.ok ()) => ((s, sl.2 ++ [(x, y)]), Result.ok ())
  | (s, r) => ((s, sl.2), r)

/-- A call of one of the drawing primitives of a screen. -/
inductive Prim where
  | putPixel (x y : Int) (color : Color)
  | drawRect (x y w h : Int) (color : Color)
  | drawLine (x1 y1 x2 y2 : Int) (color : Color)
  | clear (color : Color)

/-- One call of a primitive: the screen afterwards and what the call returned, `none` when
the loop of `DrawLine` does not end within `fuel` iterations. -/
def runPrim (fuel : Nat) (s : Screen) : Prim → Option (Screen × Result Unit)
  | Prim.putPixel x y color => some (PutPixel s x y color)
  | Prim.drawRect x y w h color => some (DrawRect s x y w h color)
  | Prim.drawLine x1 y1 x2 y2 color => DrawLine fuel s x1 y1 x2 y2 color
  | Prim.clear color => some (Clear s color)

/-- A sequence of calls of primitives, each on the screen that the one before left; a call
that returns an error does not end the sequence. `none` when a call panics or does not
end. -/
def runPrims (fuel : Nat) : List Prim → Screen → Option Screen
  | [], s => some s
  | p :: ps, s =>
    match runPrim fuel s p with
    | none => none
    | some (_, Result.panic) => none
    | some (s, _) => runPrims fuel ps s

/-- One call of a primitive, its body run over the recording pixel writer. -/
def recordedPrim (fuel : Nat) (sl : Screen × List (Int × Int)) :
    Prim → Option ((Screen × List (Int × Int)) × Result Unit)
  | Prim.putPixel x y color => some (recordingPut sl x y color)
  | Prim.drawRect x y w h color => some (drawRectWith recordingPut sl x y w h color)
  | Prim.drawLine x1 y1 x2 y2 color => drawLineWith recordingPut fuel sl x1 y1 x2 y2 color
  | Prim.clear color => some (drawRectWith recordingPut sl 0 0 sl.1.Width sl.1.Height color)

/-- A sequence of calls of primitives over the recording pixel writer: the screen
afterwards and the pixels written by the sequence. -/
def recordedPrims (fuel : Nat) :
    List Prim → Screen × List (Int × Int) → Option (Screen × List (Int × Int))
  | [], sl => some sl
  | p :: ps, sl =>
    match recordedPrim fuel sl p with
    | none => none
    | some (_, Result.panic) => none
    | some (sl, _) => recordedPrims fuel ps sl

/-- The dirty state is tight for the pixels written: the screen is dirty exactly when a
pixel was written, and then the dirty rectangle contains every pixel written and each of
its four edges passes through one of them. -/
def Tight (sl : Screen × List (Int × Int)) : Prop :=
  (sl.1.dirty = true ↔ sl.2 ≠ [])
  ∧ (sl.2 ≠ [] →
      (∀ p ∈ sl.2, sl.1.dirtyX1 ≤ p.1 ∧ p.1 ≤ sl.1.dirtyX2
        ∧ sl.1.dirtyY1 ≤ p.2 ∧ p.2 ≤ sl.1.dirtyY2)
      ∧ (∃ p ∈ sl.2, p.1 = sl.1.dirtyX1) ∧ (∃ p ∈ sl.2, p.1 = sl.1.dirtyX2)
      ∧ (∃ p ∈ sl.2, p.2 = sl.1.dirtyY1) ∧ (∃ p ∈ sl.2, p.2 = sl.1.dirtyY2))

/-- The hardware framebuffer region of a screen: the bytes of the memory file from the
address `FBAddr` on, as many as the shadow buffer has; `none` while the file is nil. -/
def hwRegion (s : Screen) : Option (List Nat) :=
  s.memFile.map (fun m => (List.range s.buffer.length).map (fun i => m.mem (s.FBAddr + i)))

/-- A screen of one RGB32 pixel that is not dirty, whose shadow buffer holds `1, 2, 3, 4`
over a hardware region of zero bytes. -/
def staleScreen : Screen :=
  { exampleScreen PixelFormat.RGB32 1 1 4 4 with buffer := [1, 2, 3, 4] }

/-- A dirty screen of one RGB32 pixel whose shadow buffer holds `1, 2, 3, 4` over a
hardware region of zero bytes. -/
def dirtyScreen : Screen := { staleScreen with dirty := true }

/-- A font of 2 by 2 glyphs for small examples. -/
def smallFont : Font := { Width := 2, Height := 2, GetGlyph := fun _ => [0x80, 0x40] }

/-- A screen of 4 by 4 RGB32 pixels with glyphs of 2 by 2 and the cursor at `(2, 2)`, in
the last column and on the last line of text. -/
def smallTextScreen : Screen :=
  { exampleScreen PixelFormat.RGB32 4 4 16 64 with Font := smallFont, CursorX := 2, CursorY := 2 }

/-- A sequence of four calls on a screen of 4 by 4 pixels: a pixel, a rectangle, a line and
a pixel outside the screen. -/
def examplePrims : List Prim :=
  [Prim.putPixel 1 2 ⟨1, 2, 3, 4⟩, Prim.drawRect 1 1 2 1 ⟨1, 2, 3, 4⟩,
   Prim.drawLine 1 1 3 2 ⟨1, 2, 3, 4⟩, Prim.putPixel 9 9 ⟨1, 2, 3, 4⟩]

end Fb

/-! ## fbdriver/fb9p.go: the boot information -/

namespace Fb

/-- Function `strings.Fields` on the characters of a string, the field read so far in
`cur` (reversed): the maximal runs of characters that are not white space
(`unicode.IsSpace`, the same characters as `isSpace` of package `fmt`). -/
def fieldsFrom : List Char → List Char → List (List Char)
  | [], cur => if cur = [] then [] else [cur.reverse]
  | c :: cs, cur =>
    if Storage.isSpace c then
      if cur = [] then fieldsFrom cs [] else cur.reverse :: fieldsFrom cs []
    else fieldsFrom cs (c :: cur)

/-- Function `strings.Fields`. -/
def Fields (s : List Char) : List (List Char) := fieldsFrom s []

/-- Function `strings.Split(s, sep)` for a separator of one character. -/
def Split : List Char → Char → List (List Char)
  | [], _ => [[]]
  | c :: cs, sep =>
    match Split cs sep with
    | [] => [[]]
    | p :: ps => if c = sep then [] :: p :: ps else (c :: p) :: ps

/-- Whether a character is one of `0123456789aAbBcCdDeEfF`, the digits of the verb
`%x`. -/
def isHexDigit (c : Char) : Bool :=
  c.isDigit || ('a'.toNat ≤ c.toNat && c.toNat ≤ 'f'.toNat)
    || ('A'.toNat ≤ c.toNat && c.toNat ≤ 'F'.toNat)

/-- Value of a hexadecimal digit. -/
def hexDigitValue (c : Char) : Nat :=
  if c.isDigit then c.toNat - '0'.toNat
  else if 'a'.toNat ≤ c.toNat then c.toNat - 'a'.toNat + 10
  else c.toNat - 'A'.toNat + 10

/-- Value of a string of hexadecimal digits, most significant first. -/
def hexValue (ds : List Char) : Nat :=
  ds.foldl (fun acc c => acc * 16 + hexDigitValue c) 0

/-- The call `fmt.Sscanf(value, "0x%x", &addr)` with `addr` a `uint64`: `some` of the
value it stores, `none` when it stores nothing. The input must start with the literal
`0x`; the verb skips white space (a newline is an error) and takes the hexadecimal digits
that follow, at least one, whose value must fit 64 bits; the rest is not looked at. -/
def sscanfHex (input : List Char) : Option Nat :=
  match input with
  | '0' :: 'x' :: r =>
    match Storage.skipSpace r with
    | none => none
    | some r =>
      let ds := r.takeWhile isHexDigit
      if ds = [] then none
      else if hexValue ds ≥ 2 ^ 64 then none
      else some (hexValue ds)
  | _ => none

/-- Function `strconv.Atoi` with its error dropped, as in `width, _ = strconv.Atoi(value)`:
an optional sign and decimal digits give their value, or the nearest `int` when the value
does not fit 64 bits; any other string gives 0. -/
def Atoi (s : List Char) : Int :=
  let neg := s.head? = some '-'
  let ds := if s.head? = some '+' ∨ s.head? = some '-' then s.drop 1 else s
  if ds = [] ∨ ¬ ds.all Char.isDigit then 0
  else
    let v := Storage.digitsValue ds
    if neg then (if v > 2 ^ 63 then -(2 ^ 63) else -(v : Int))
    else (if v ≥ 2 ^ 63 then 2 ^ 63 - 1 else (v : Int))

/-- The named results `addr`, `width`, `height`, `pitch`, `depth` of `ParseBootInfo`. -/
structure BootInfo where
  addr : Nat
  width : Int
  height : Int
  pitch : Int
  depth : Int
deriving DecidableEq, Repr

/-- The body of the loop of `ParseBootInfo` for one field `param`: a field that does not
split into a key and a value at `=` is skipped, and so is an unknown key. -/
def parseParam (r : BootInfo) (param : List Char) : BootInfo :=
  match Split param '=' with
  | [key, value] =>
    if key = "fb_addr".toList then
      match sscanfHex value with
      | some a => { r with addr := a }
      | none => r
    else if key = "fb_width".toList then { r with width := Atoi value }
    else if key = "fb_height".toList then { r with height := Atoi value }
    else if key = "fb_pitch".toList then { r with pitch := Atoi value }
    else if key = "fb_depth".toList then { r with depth := Atoi value }
    else r
  | _ => r

/-- Function `ParseBootInfo`: the five results, or the error `invalid boot info`. -/
def ParseBootInfo (bootInfo : List Char) : Result BootInfo :=
  let r := (Fields bootInfo).foldl parseParam
    { addr := 0, width := 0, height := 0, pitch := 0, depth := 0 }
  if r.addr = 0 ∨ r.width = 0 ∨ r.height = 0 then Result.error Err.invalidBootInfo
  else Result.ok r

end Fb

/-! ## sip/sip.go -/

namespace Sip

/-- Lookup `m[k]` in a Go map with string keys. A map is the list of its entries, each key
once; the order of the list stands for the order in which a `range` visits the entries,
which Go leaves open. -/
def mapGet {V : Type u} (m : List (List Char × V)) (k : List Char) : Option V :=
  match m with
  | [] => none
  | e :: rest => if e.1 = k then some e.2 else mapGet rest k

/-- Assignment `m[k] = v` in a Go map: the value of an entry that exists is replaced, a
new entry is added otherwise. -/
def mapSet {V : Type u} (m : List (List Char × V)) (k : List Char) (v : V) :
    List (List Char × V) :=
  match m with
  | [] => [(k, v)]
  | e :: rest => if e.1 = k then (k, v) :: rest else e :: mapSet rest k v

/-- Call `delete(m, k)` on a Go map. -/
def mapDelete {V : Type u} (m : List (List Char × V)) (k : List Char) :
    List (List Char × V) :=
  match m with
  | [] => []
  | e :: rest => if e.1 = k then mapDelete rest k else e :: mapDelete rest k

/-- Constant `CapNone`. In the constant block `CapNone` is the specification with
`iota = 0`, so that `CapFileSystem = 1 << iota` has `iota = 1` and each constant after it
shifts by one more. -/
def CapNone : Nat := 0

/-- Constant `CapFileSystem`. -/
def CapFileSystem : Nat := 1 <<< 1

/-- Constant `CapDeviceAccess`. -/
def CapDeviceAccess : Nat := 1 <<< 2

/-- Constant `CapPageExchange`. -/
def CapPageExchange : Nat := 1 <<< 3

/-- Constant `CapNetworking`. -/
def CapNetworking : Nat := 1 <<< 4

/-- Constant `CapInterrupt`. -/
def CapInterrupt : Nat := 1 <<< 5

/-- Constant `CapDMA`. -/
def CapDMA : Nat := 1 <<< 6

/-- Constant `CapAll`, all 64 bits of a `ServerCapability`. -/
def CapAll : Nat := 2 ^ 64 - 1

/-- Struct `ServerConfig`; `Capabilities` is a `ServerCapability` (`uint64`). -/
structure ServerConfig where
  Name : List Char
  Capabilities : Nat
  MountPoint : List Char
  Priority : Int
  MemoryLimit : Nat
  Metadata : List (List Char × List Char)
deriving DecidableEq, Repr

/-- Type `HealthStatus` with its six constants. -/
inductive HealthStatus where
  | HealthUnknown
  | HealthStarting
  | HealthHealthy
  | HealthDegraded
  | HealthFailing
  | HealthStopped
deriving DecidableEq, Repr

/-- Struct `ServerHealth`; `LastError` is `none` for nil. -/
structure ServerHealth where
  Status : HealthStatus
  Message : List Char
  Uptime : Int
  Requests : Nat
  Errors : Nat
  LastError : Option Err
deriving DecidableEq, Repr

/-- Interface `IServer`. A value of the interface is an object: a state of some type and
the five methods on it. A method that changes the object returns the state afterwards;
the context argument of the methods is left out. Objects do not share state. -/
structure IServer : Type 1 where
  State : Type
  self : State
  onInitialize : State → ServerConfig → State × Option Err
  onStart : State → State × Option Err
  onStop : State → State × Option Err
  onHealth : State → ServerHealth
  onGetConfig : State → ServerConfig

/-- Call `server.Initialize(ctx, config)` through the interface: the object afterwards
and the returned error (`none` for nil). -/
def IServer.Initialize (server : IServer) (config : ServerConfig) : IServer × Option Err :=
  ({ server with self := (server.onInitialize server.self config).1 },
   (server.onInitialize server.self config).2)

/-- Call `server.Start(ctx)` through the interface. -/
def IServer.Start (server : IServer) : IServer × Option Err :=
  ({ server with self := (server.onStart server.self).1 }, (server.onStart server.self).2)

/-- Call `server.Stop(ctx)` through the interface. -/
def IServer.Stop (server : IServer) : IServer × Option Err :=
  ({ server with self := (server.onStop server.self).1 }, (server.onStop server.self).2)

/-- Call `server.Health()` through the interface. -/
def IServer.Health (server : IServer) : ServerHealth := server.onHealth server.self

/-- Call `server.GetConfig()` through the interface. -/
def IServer.GetConfig (server : IServer) : ServerConfig := server.onGetConfig server.self

/-- Struct `BaseServer` (the mutex left out). The fields `ctx` and `cancel` are `cancel`:
`none` while the cancel function is nil, otherwise whether the context made by
`context.WithCancel` has been cancelled. -/
structure BaseServer where
  config : ServerConfig
  health : ServerHealth
  startTime : Int
  cancel : Option Bool
deriving DecidableEq, Repr

/-- Function `NewBaseServer`. -/
def NewBaseServer (config : ServerConfig) : BaseServer :=
  { config := config,
    health := { Status := HealthStatus.HealthUnknown, Message := [], Uptime := 0,
                Requests := 0, Errors := 0, LastError := none },
    startTime := 0, cancel := none }

/-- Method `BaseServer.updateHealth`. -/
def BaseServer.updateHealth (s : BaseServer) (status : HealthStatus) (message : List Char)
    (err : Option Err) : BaseServer :=
  match err with
  | none => { s with health := { s.health with Status := status, Message := message } }
  | some e =>
    { s with health := { s.health with Status := status, Message := message,
                                       LastError := some e,
                                       Errors := (s.health.Errors + 1) % 2 ^ 64 } }

/-- Method `BaseServer.Initialize`. -/
def BaseServer.Initialize (s : BaseServer) (config : ServerConfig) :
    BaseServer × Option Err :=
  (({ s with config := config, cancel := some false }).updateHealth
      HealthStatus.HealthStarting "Initializing".toList none, none)

/-- Method `BaseServer.Start`. -/
def BaseServer.Start (s : BaseServer) : BaseServer × Option Err :=
  (s.updateHealth HealthStatus.HealthHealthy "Running".toList none, none)

/-- Method `BaseServer.Stop`. -/
def BaseServer.Stop (s : BaseServer) : BaseServer × Option Err :=
  ((match s.cancel with
    | some _ => { s with cancel := some true }
    | none => s).updateHealth HealthStatus.HealthStopped "Stopped".toList none, none)

/-- Method `BaseServer.Health`. -/
def BaseServer.Health (s : BaseServer) : ServerHealth := s.health

/-- Method `BaseServer.GetConfig`. -/
def BaseServer.GetConfig (s : BaseServer) : ServerConfig := s.config

/-- Method `BaseServer.IncrementRequests`. -/
def BaseServer.IncrementRequests (s : BaseServer) : BaseServer :=
  { s with health := { s.health with Requests := (s.health.Requests + 1) % 2 ^ 64 } }

/-- Type `ServerConstructor`: a constructor returns a server or an error. -/
abbrev ServerConstructor : Type 1 := ServerConfig → Except Err IServer

/-- Struct `ServerFactory` (the mutex left out). -/
structure ServerFactory : Type 1 where
  registry : List (List Char × ServerConstructor)

/-- Function `NewServerFactory`. -/
def NewServerFactory : ServerFactory := { registry := [] }

/-- Method `ServerFactory.Register`: the factory afterwards and the returned error. -/
def ServerFactory.Register (f : ServerFactory) (serverType : List Char)
    (constructor : ServerConstructor) : ServerFactory × Option Err :=
  match mapGet f.registry serverType with
  | some _ => (f, some (Err.serverTypeAlreadyRegistered serverType))
  | none => ({ f with registry := mapSet f.registry serverType constructor }, none)

/-- Method `ServerFactory.Create`. -/
def ServerFactory.Create (f : ServerFactory) (serverType : List Char)
    (config : ServerConfig) : Except Err IServer :=
  match mapGet f.registry serverType with
  | none => Except.error (Err.unknownServerType serverType)
  | some constructor =>
    match constructor config with
    | Except.error err => Except.error (Err.failedToCreateServer serverType err)
    | Except.ok server => Except.ok server

/-- Method `ServerFactory.ListTypes`: the keys of the registry in the order of the
`range`. -/
def ServerFactory.ListTypes (f : ServerFactory) : List (List Char) :=
  f.registry.map Prod.fst

/-- Struct `ServerManager` (the mutex left out). -/
structure ServerManager : Type 1 where
  servers : List (List Char × IServer)
  factory : ServerFactory

/-- Function `NewServerManager`. -/
def NewServerManager (factory : ServerFactory) : ServerManager :=
  { servers := [], factory := factory }

/-- Method `ServerManager.StartServer`: the manager afterwards and the returned error. -/
def ServerManager.StartServer (m : ServerManager) (serverType : List Char)
    (config : ServerConfig) : ServerManager × Option Err :=
  match mapGet m.servers config.Name with
  | some _ => (m, some (Err.serverAlreadyRunning config.Name))
  | none =>
    match m.factory.Create serverType config with
    | Except.error err => (m, some err)
    | Except.ok server =>
      match server.Initialize config with
      | (_, some err) => (m, some (Err.failedToInitialize config.Name err))
      | (server, none) =>
        match server.Start with
        | (_, some err) => (m, some (Err.failedToStart config.Name err))
        | (server, none) =>
          ({ m with servers := mapSet m.servers config.Name server }, none)

/-- Method `ServerManager.StopServer`: the manager afterwards and the returned error. A
server whose `Stop` fails stays in the map, in its state after the call. -/
def ServerManager.StopServer (m : ServerManager) (name : List Char) :
    ServerManager × Option Err :=
  match mapGet m.servers name with
  | none => (m, some (Err.serverNotFound name))
  | some server =>
    match server.Stop with
    | (server, some err) =>
      ({ m with servers := mapSet m.servers name server }, some (Err.failedToStop name err))
    | (_, none) => ({ m with servers := mapDelete m.servers name }, none)

/-- Method `ServerManager.GetServer`: `none` stands for `(nil, false)`. -/
def ServerManager.GetServer (m : ServerManager) (name : List Char) : Option IServer :=
  mapGet m.servers name

/-- Method `ServerManager.ListServers`: the keys of the map in the order of the
`range`. -/
def ServerManager.ListServers (m : ServerManager) : List (List Char) :=
  m.servers.map Prod.fst

/-- The loop of `StopAll` over the entries that the `range` has still to visit, with
`lastErr` so far: the final `lastErr`, and the calls of `Stop` that the loop made, in
order, each as the name of the server, the server after the call and the error it
returned. -/
def stopAllLoop : List (List Char × IServer) → Option Err →
    Option Err × List (List Char × IServer × Option Err)
  | [], lastErr => (lastErr, [])
  | (name, server) :: rest, lastErr =>
    match server.Stop with
    | (server, some err) =>
      ((stopAllLoop rest (some err)).1, (name, server, some err) :: (stopAllLoop rest (some err)).2)
    | (server, none) =>
      ((stopAllLoop rest lastErr).1, (name, server, none) :: (stopAllLoop rest lastErr).2)

/-- Method `ServerManager.StopAll`: the manager afterwards, the returned error, and the
calls of `Stop` that were made. -/
def ServerManager.StopAll (m : ServerManager) :
    ServerManager × Option Err × List (List Char × IServer × Option Err) :=
  ({ m with servers := [] }, stopAllLoop m.servers none)

end Sip

/-! ## sip/example_driver.go -/

namespace Sip

/-- Struct `ExampleDriver` (the logger left out); `base` is the embedded `*BaseServer`. -/
structure ExampleDriver where
  base : BaseServer
  devices : List (List Char)
deriving DecidableEq, Repr

/-- Method `ExampleDriver.Probe`. -/
def ExampleDriver.Probe (d : ExampleDriver) : ExampleDriver × List (List Char) × Option Err :=
  ({ d with devices := ["/dev/example0".toList, "/dev/example1".toList] },
   ["/dev/example0".toList, "/dev/example1".toList], none)

/-- Method `ExampleDriver.AttachDevice`. -/
def ExampleDriver.AttachDevice (d : ExampleDriver) (_devicePath : List Char) :
    ExampleDriver × Option Err :=
  ({ d with base := d.base.IncrementRequests }, none)

/-- Method `ExampleDriver.DetachDevice`. -/
def ExampleDriver.DetachDevice (d : ExampleDriver) (_devicePath : List Char) :
    ExampleDriver × Option Err :=
  (d, none)

/-- Method `ExampleDriver.HandleInterrupt`. -/
def ExampleDriver.HandleInterrupt (d : ExampleDriver) (_irq : Int) :
    ExampleDriver × Option Err :=
  ({ d with base := d.base.IncrementRequests }, none)

/-- Method `ExampleDriver.Initialize`. -/
def ExampleDriver.Initialize (d : ExampleDriver) (config : ServerConfig) :
    ExampleDriver × Option Err :=
  match d.base.Initialize config with
  | (base, some err) => ({ d with base := base }, some err)
  | (base, none) =>
    if config.Capabilities &&& CapDeviceAccess = 0 then
      ({ d with base := base }, some Err.driverRequiresCapDeviceAccess)
    else ({ d with base := base }, none)

/-- Method `ExampleDriver.Start`: a device that fails to attach is logged and skipped. -/
def ExampleDriver.Start (d : ExampleDriver) : ExampleDriver × Option Err :=
  match d.base.Start with
  | (base, some err) => ({ d with base := base }, some err)
  | (base, none) =>
    match ({ d with base := base }).Probe with
    | (d, _, some err) => (d, some err)
    | (d, devices, none) => (devices.foldl (fun d dev => (d.AttachDevice dev).1) d, none)

/-- Method `ExampleDriver.Stop`: a device that fails to detach is logged. -/
def ExampleDriver.Stop (d : ExampleDriver) : ExampleDriver × Option Err :=
  match (d.devices.foldl (fun d dev => (d.DetachDevice dev).1) d).base.Stop with
  | (base, err) =>
    ({ d.devices.foldl (fun d dev => (d.DetachDevice dev).1) d with base := base }, err)

/-- An `*ExampleDriver` as a value of the interface `IServer`; `Health` and `GetConfig`
are the methods of the embedded `BaseServer`. -/
def ExampleDriver.asServer (d : ExampleDriver) : IServer :=
  { State := ExampleDriver, self := d,
    onInitialize := ExampleDriver.Initialize, onStart := ExampleDriver.Start,
    onStop := ExampleDriver.Stop,
    onHealth := fun d => d.base.Health, onGetConfig := fun d => d.base.GetConfig }

/-- Function `NewExampleDriver`. -/
def NewExampleDriver (config : ServerConfig) : Except Err IServer :=
  Except.ok (ExampleDriver.asServer { base := NewBaseServer config, devices := [] })

/-- Struct `ExampleFileServer` (the logger left out); `base` is the embedded
`*BaseServer`. -/
structure ExampleFileServer where
  base : BaseServer
  mounted : Bool
  fileCache : List (List Char × List Nat)
deriving DecidableEq, Repr

/-- Method `ExampleFileServer.Mount9P`. -/
def ExampleFileServer.Mount9P (f : ExampleFileServer) : ExampleFileServer × Option Err :=
  ({ f with mounted := true }, none)

/-- Method `ExampleFileServer.Unmount9P`. -/
def ExampleFileServer.Unmount9P (f : ExampleFileServer) : ExampleFileServer × Option Err :=
  ({ f with mounted := false }, none)

/-- Method `ExampleFileServer.Initialize`. -/
def ExampleFileServer.Initialize (f : ExampleFileServer) (config : ServerConfig) :
    ExampleFileServer × Option Err :=
  match f.base.Initialize config with
  | (base, some err) => ({ f with base := base }, some err)
  | (base, none) =>
    if config.Capabilities &&& CapFileSystem = 0 then
      ({ f with base := base }, some Err.fileServerRequiresCapFileSystem)
    else ({ f with base := base }, none)

/-- Method `ExampleFileServer.Start`. -/
def ExampleFileServer.Start (f : ExampleFileServer) : ExampleFileServer × Option Err :=
  match f.base.Start with
  | (base, some err) => ({ f with base := base }, some err)
  | (base, none) =>
    match ({ f with base := base }).Mount9P with
    | (f, some err) => (f, some err)
    | (f, none) => (f, none)

/-- Method `ExampleFileServer.Stop`. -/
def ExampleFileServer.Stop (f : ExampleFileServer) : ExampleFileServer × Option Err :=
  match f.Unmount9P with
  | (f, some err) => (f, some err)
  | (f, none) =>
    match f.base.Stop with
    | (base, err) => ({ f with base := base }, err)

/-- An `*ExampleFileServer` as a value of the interface `IServer`. -/
def ExampleFileServer.asServer (f : ExampleFileServer) : IServer :=
  { State := ExampleFileServer, self := f,
    onInitialize := ExampleFileServer.Initialize, onStart := ExampleFileServer.Start,
    onStop := ExampleFileServer.Stop,
    onHealth := fun f => f.base.Health, onGetConfig := fun f => f.base.GetConfig }

/-- Function `NewExampleFileServer`. -/
def NewExampleFileServer (config : ServerConfig) : Except Err IServer :=
  Except.ok (ExampleFileServer.asServer
    { base := NewBaseServer config, mounted := false, fileCache := [] })

/-- Function `RegisterExampleServers`: the factory afterwards and the returned error. -/
def RegisterExampleServers (factory : ServerFactory) : ServerFactory × Option Err :=
  match factory.Register "example-driver".toList NewExampleDriver with
  | (factory, some err) => (factory, some err)
  | (factory, none) =>
    match factory.Register "example-fileserver".toList NewExampleFileServer with
    | (factory, some err) => (factory, some err)
    | (factory, none) => (factory, none)

end Sip

/-! ## Boot information, server framework and partitions: definitions used to state the theorems -/

namespace Fb

/-- Whether a key is present in a boot-info string: one of its fields splits at `=` into
that key and a value. -/
def keyPresent (bootInfo : List Char) (key : List Char) : Bool :=
  (Fields bootInfo).any (fun param =>
    match Split param '=' with
    | [k, _] => decide (k = key)
    | _ => false)

end Fb

namespace Sip

/-- The registrations of a list of server types with `Register`, in turn: the factory
afterwards and the error of each call. -/
def registerAll (f : ServerFactory) :
    List (List Char × ServerConstructor) → ServerFactory × List (Option Err)
  | [] => (f, [])
  | e :: rest =>
    ((registerAll (f.Register e.1 e.2).1 rest).1,
     (f.Register e.1 e.2).2 :: (registerAll (f.Register e.1 e.2).1 rest).2)

/-- A server that starts and whose `Stop` fails. -/
def failingServer : IServer :=
  { State := Unit, self := (),
    onInitialize := fun _ _ => ((), none), onStart := fun _ => ((), none),
    onStop := fun _ => ((), some (Err.server "stop failed")),
    onHealth := fun _ =>
      { Status := HealthStatus.HealthFailing, Message := [], Uptime := 0, Requests := 0,
        Errors := 0, LastError := none },
    onGetConfig := fun _ =>
      { Name := [], Capabilities := 0, MountPoint := [], Priority := 0, MemoryLimit := 0,
        Metadata := [] } }

/-- The factory of `RegisterExampleServers`. -/
def exampleFactory : ServerFactory := (RegisterExampleServers NewServerFactory).1

/-- A configuration with a name and capabilities. -/
def exampleConfig (name : List Char) (caps : Nat) : ServerConfig :=
  { Name := name, Capabilities := caps, MountPoint := "/dev/test".toList, Priority := 0,
    MemoryLimit := 0, Metadata := [] }

/-- A manager over the example factory that runs the example driver `test-driver-1` and a
server `broken` whose `Stop` fails. -/
def exampleManager : ServerManager :=
  { servers :=
      [("test-driver-1".toList,
        ExampleDriver.asServer
          { base := NewBaseServer (exampleConfig "test-driver-1".toList CapDeviceAccess),
            devices := [] }),
       ("broken".toList, failingServer)],
    factory := exampleFactory }

end Sip

namespace Ahci

/-- A sector 0 with the boot signature and one table entry of type 0x83, whose start LBA
and sector count are the given bytes (four each, little-endian). -/
def oneEntrySector (start count : List Nat) : List Nat :=
  List.replicate 446 0 ++ [0x80, 0, 0, 0, 0x83, 0, 0, 0] ++ start ++ count
    ++ List.replicate 48 0 ++ [0x55, 0xAA]

end Ahci

end Lux9

/-! # Theorems -/

namespace Lux9

open P9

/-! ## Little-endian helpers -/

theorem uint16LE_putU16 (v : Nat) : uint16LE (putU16 v) = v % 2 ^ 16 := by
  simp only [uint16LE, putU16, List.getD_cons_zero, List.getD_cons_succ,
    Nat.shiftRight_eq_div_pow]
  omega

theorem uint32LE_putU32 (v : Nat) : uint32LE (putU32 v) = v % 2 ^ 32 := by
  simp only [uint32LE, putU32, List.getD_cons_zero, List.getD_cons_succ,
    Nat.shiftRight_eq_div_pow]
  omega

theorem putU32_length (v : Nat) : (putU32 v).length = 4 := rfl

theorem putU16_length (v : Nat) : (putU16 v).length = 2 := rfl

/-! ## The codec -/

theorem marshalWqid_extends (wqid : List Qid) (k : Nat) :
    ∀ (i : Nat) (buf out : List Nat), marshalWqid wqid k i buf = Result.ok out →
      buf <+: out := by
  induction k with
  | zero =>
    intro i buf out h
    simp only [marshalWqid, Result.ok.injEq] at h
    exact h ▸ List.prefix_rfl
  | succ k ih =>
    intro i buf out h
    simp only [marshalWqid] at h
    split at h
    · exact absurd h (by simp)
    · exact (List.prefix_append _ _).trans (ih _ _ _ h)

/-- Whatever the message, the buffer of `writeMsg` starts with the type byte and the
two tag bytes. -/
theorem encodeBody_header (fc : Fcall) (buf : List Nat) (h : encodeBody fc = Result.ok buf) :
    ∃ body, buf = [fc.Typ % 256] ++ putU16 fc.Tag ++ body := by
  suffices hp : ([fc.Typ % 256] ++ putU16 fc.Tag) <+: buf from hp.imp fun _ e => e.symm
  unfold encodeBody at h
  simp only at h
  by_cases hw : fc.Typ = Rwalk
  · rw [if_neg (by rw [hw]; decide), if_neg (by rw [hw]; decide), if_pos hw] at h
    exact (List.prefix_append _ _).trans (marshalWqid_extends _ _ _ _ _ h)
  · rw [if_neg hw] at h
    split_ifs at h
    all_goals
      simp only [Result.ok.injEq] at h
      subst h
      first
        | exact List.prefix_rfl
        | (simp only [List.append_assoc]; exact List.prefix_append _ _)

/-- Bytes of a frame that `writeMsg` produced: the size header, the type byte, the tag and
a body; the header holds the length of the whole frame. -/
theorem writeMsg_frame (fc : Fcall) (bytes : List Nat) (h : writeMsg fc = Result.ok bytes) :
    ∃ body, bytes = putU32 ((3 + body.length + 4) % 2 ^ 32)
      ++ ([fc.Typ % 256] ++ putU16 fc.Tag ++ body) := by
  unfold writeMsg at h
  split at h
  · rename_i buf hb
    obtain ⟨body, rfl⟩ := encodeBody_header fc buf hb
    simp only [Result.ok.injEq] at h
    refine ⟨body, ?_⟩
    have hl : ([fc.Typ % 256] ++ putU16 fc.Tag ++ body).length = 3 + body.length := by
      simp only [List.length_append, List.length_cons, List.length_nil, putU16_length]
    rw [← h, hl]
  · exact absurd h (by simp)
  · exact absurd h (by simp)


/-- The decoder on a buffer `type, tag, body` whose type is none of the ten T-types with a
parsed body: type and tag only, the body is not looked at. -/
theorem decode_other (typ tag : Nat) (body : List Nat) (ht : typ < 2 ^ 8) (hg : tag < 2 ^ 16)
    (hT : typ ∉ [Tversion, Tattach, Twalk, Topen, Tcreate, Tread, Twrite, Tclunk, Tremove,
      Tstat]) :
    decode ([typ % 256] ++ putU16 tag ++ body) = Result.ok { Typ := typ, Tag := tag } := by
  have h8 : typ % 256 = typ := Nat.mod_eq_of_lt ht
  have h16 : uint16LE (putU16 tag) = tag := by
    rw [uint16LE_putU16]; exact Nat.mod_eq_of_lt hg
  simp only [List.mem_cons, List.mem_singleton, List.not_mem_nil, or_false, not_or] at hT
  obtain ⟨h1, h2, h3, h4, h5, h6, h7, h8', h9, h10⟩ := hT
  have hd : (([typ % 256] ++ putU16 tag ++ body).drop 1).take 2 = putU16 tag := by
    simp [putU16]
  have hg0 : ([typ % 256] ++ putU16 tag ++ body).getD 0 0 = typ := by
    simp [h8]
  unfold decode
  simp only [hd, hg0, h16]
  rw [if_neg h1, if_neg h2, if_neg h3, if_neg h4, if_neg h5, if_neg h6, if_neg h7,
    if_neg (by simp [h8', h9, h10])]
  rfl


/-- On a well-framed input (size header, then exactly `size - 4` bytes of frame, then
anything) `readMsg` returns what the decoder makes of the frame. -/
theorem readMsg_framed (msize : Nat) (frame rest : List Nat) (h3 : 3 ≤ frame.length)
    (hfit : frame.length + 4 ≤ msize) (h32 : frame.length + 4 < 2 ^ 32) :
    readMsg msize (putU32 (frame.length + 4) ++ (frame ++ rest)) =
      match decode frame with
      | Result.ok fc => Result.ok (fc, rest)
      | Result.error e => Result.error e
      | Result.panic => Result.panic := by
  have htake : (putU32 (frame.length + 4) ++ (frame ++ rest)).take 4
      = putU32 (frame.length + 4) := List.take_left' (putU32_length _)
  have hdrop : (putU32 (frame.length + 4) ++ (frame ++ rest)).drop 4 = frame ++ rest :=
    List.drop_left' (putU32_length _)
  have hsz : uint32LE (putU32 (frame.length + 4)) = frame.length + 4 := by
    rw [uint32LE_putU32]; exact Nat.mod_eq_of_lt h32
  have hlen : (putU32 (frame.length + 4) ++ (frame ++ rest)).length
      = 4 + (frame.length + rest.length) := by
    simp only [List.length_append, putU32_length]
  unfold readMsg
  rw [if_neg (by rw [hlen]; omega), if_neg (by rw [hlen]; omega)]
  simp only [htake, hdrop, hsz]
  rw [if_neg (by omega), if_neg (by rw [List.length_append]; omega)]
  have h4 : frame.length + 4 - 4 = frame.length := by omega
  rw [h4, List.take_left, List.drop_left]

/-! ## C1: codec round trip -/

/-- C1, as stated, fails. `writeMsg` encodes the body of R-messages only and `readMsg`
decodes the body of T-messages only: the `Rversion` of scenario S1 is written as a 19-byte
frame and read back with `Msize = 0` and an empty `Version`, and a `Tversion` is written as
a bare 7-byte frame on which `readMsg` panics. -/
theorem C1_roundtrip_counterexample :
    writeMsg { Typ := Rversion, Tag := 0xFFFF, Msize := 8192, Version := ascii "9P2000" }
        = Result.ok [19, 0, 0, 0, 101, 255, 255, 0, 32, 0, 0, 6, 0, 57, 80, 50, 48, 48, 48]
      ∧ readMsg 8192 [19, 0, 0, 0, 101, 255, 255, 0, 32, 0, 0, 6, 0, 57, 80, 50, 48, 48, 48]
        = Result.ok ({ Typ := Rversion, Tag := 0xFFFF }, [])
      ∧ ({ Typ := Rversion, Tag := 0xFFFF } : Fcall)
        ≠ { Typ := Rversion, Tag := 0xFFFF, Msize := 8192, Version := ascii "9P2000" }
      ∧ writeMsg { Typ := Tversion, Tag := 0xFFFF, Msize := 8192, Version := ascii "9P2000" }
        = Result.ok [7, 0, 0, 0, 100, 255, 255]
      ∧ readMsg 8192 [7, 0, 0, 0, 100, 255, 255] = Result.panic := by
  decide

/-- C1, amended. For every message `m` whose type is none of the ten T-types of which
`readMsg` parses a body, and whose frame as written by `writeMsg` fits `msize`, `readMsg`
on the bytes of `writeMsg` returns a message with the type and the tag of `m` and every
other field zero (and leaves the bytes after the frame in the reader); so the result is
`m` exactly when `m` has no other non-zero field, as an `Rclunk` or an `Rremove`. -/
theorem C1_readMsg_writeMsg (msize : Nat) (m : Fcall) (bytes rest : List Nat)
    (hr : m.InRange)
    (hT : m.Typ ∉ [Tversion, Tattach, Twalk, Topen, Tcreate, Tread, Twrite, Tclunk, Tremove,
      Tstat])
    (hw : writeMsg m = Result.ok bytes) (hfit : bytes.length ≤ msize)
    (h32 : bytes.length < 2 ^ 32) :
    readMsg msize (bytes ++ rest) = Result.ok ({ Typ := m.Typ, Tag := m.Tag }, rest)
      ∧ (readMsg msize (bytes ++ rest) = Result.ok (m, rest)
          ↔ m = { Typ := m.Typ, Tag := m.Tag }) := by
  obtain ⟨body, rfl⟩ := writeMsg_frame m bytes hw
  have hbl : ([m.Typ % 256] ++ putU16 m.Tag ++ body).length = 3 + body.length := by
    simp only [List.length_append, List.length_cons, List.length_nil, putU16_length]
  have hlen : (putU32 ((3 + body.length + 4) % 2 ^ 32)
      ++ ([m.Typ % 256] ++ putU16 m.Tag ++ body)).length = 3 + body.length + 4 := by
    rw [List.length_append, hbl, putU32_length]
    omega
  rw [hlen] at hfit h32
  have hfirst : readMsg msize ((putU32 ((3 + body.length + 4) % 2 ^ 32)
      ++ ([m.Typ % 256] ++ putU16 m.Tag ++ body)) ++ rest)
      = Result.ok ({ Typ := m.Typ, Tag := m.Tag }, rest) := by
    rw [Nat.mod_eq_of_lt h32, List.append_assoc, ← hbl,
      readMsg_framed msize _ rest (by omega) (by omega) (by omega),
      decode_other m.Typ m.Tag body hr.1 hr.2 hT]
  refine ⟨hfirst, ?_⟩
  rw [hfirst]
  constructor
  · intro h
    simp only [Result.ok.injEq, Prod.mk.injEq, and_true] at h
    exact h.symm
  · intro h
    rw [← h]

/-- Witness for `C1_readMsg_writeMsg`: an `Rclunk` with tag 4 survives the round trip. -/
theorem C1_readMsg_writeMsg_witness :
    readMsg 8192 ([7, 0, 0, 0, 121, 4, 0] ++ []) = Result.ok ({ Typ := Rclunk, Tag := 4 }, [])
      ∧ (readMsg 8192 ([7, 0, 0, 0, 121, 4, 0] ++ []) = Result.ok ({ Typ := Rclunk, Tag := 4 }, [])
          ↔ ({ Typ := Rclunk, Tag := 4 } : Fcall) = { Typ := Rclunk, Tag := 4 }) :=
  C1_readMsg_writeMsg 8192 { Typ := Rclunk, Tag := 4 } [7, 0, 0, 0, 121, 4, 0] []
    (by decide) (by decide) (by decide) (by decide) (by decide)


/-! ## The decoder returns no error -/

theorem noError_pure {α : Type} (a : α) : NoError (pure a : Result α) := by
  intro e h; cases h

theorem noError_bind {α β : Type} (x : Result α) (f : α → Result β) (hx : NoError x)
    (hf : ∀ a, NoError (f a)) : NoError (x >>= f) := by
  intro e h
  cases x with
  | ok a => exact hf a e h
  | error e' => exact hx e' rfl
  | panic => cases h

theorem noError_slice (s : List Nat) (lo hi : Nat) : NoError (slice s lo hi) := by
  intro e h; unfold slice at h; split_ifs at h

theorem noError_sliceFrom (s : List Nat) (lo : Nat) : NoError (sliceFrom s lo) := by
  intro e h; unfold sliceFrom at h; split_ifs at h

theorem noError_index (s : List Nat) (i : Nat) : NoError (index s i) := by
  intro e h; unfold index at h; split at h <;> cases h

/-- The decoder discards every error of `readString`: it ends with a message or a panic. -/
theorem decode_noError (buf : List Nat) : NoError (decode buf) := by
  unfold decode
  simp only
  split_ifs
  all_goals
    repeat' first
      | exact noError_pure _
      | exact noError_slice _ _ _
      | exact noError_sliceFrom _ _
      | exact noError_index _ _
      | (apply noError_bind)
      | intro _

/-! ## C3: the size check of `readMsg` -/

/-- C3. On every input whose first four bytes encode, little-endian, a size `s` with
`s < 7` or `s > msize`, `readMsg` returns the error "invalid message size: s" (no message).
For `7 ≤ s ≤ msize` the check passes: `readMsg` never returns that error, and when the
`s - 4` bytes of the frame are there its result is the decoder's result on them. -/
theorem C3_readMsg_size_check (msize b0 b1 b2 b3 : Nat) (rest : List Nat) :
    ((uint32LE [b0, b1, b2, b3] < 7 ∨ uint32LE [b0, b1, b2, b3] > msize) →
        readMsg msize (b0 :: b1 :: b2 :: b3 :: rest)
          = Result.error (Err.invalidMessageSize (uint32LE [b0, b1, b2, b3])))
      ∧ ((7 ≤ uint32LE [b0, b1, b2, b3] ∧ uint32LE [b0, b1, b2, b3] ≤ msize) →
        (∀ n, readMsg msize (b0 :: b1 :: b2 :: b3 :: rest)
          ≠ Result.error (Err.invalidMessageSize n))
        ∧ (uint32LE [b0, b1, b2, b3] - 4 ≤ rest.length →
          readMsg msize (b0 :: b1 :: b2 :: b3 :: rest) =
            match decode (rest.take (uint32LE [b0, b1, b2, b3] - 4)) with
            | Result.ok fc => Result.ok (fc, rest.drop (uint32LE [b0, b1, b2, b3] - 4))
            | Result.error e => Result.error e
            | Result.panic => Result.panic)) := by
  have hunf : readMsg msize (b0 :: b1 :: b2 :: b3 :: rest) =
      if uint32LE [b0, b1, b2, b3] < 7 ∨ uint32LE [b0, b1, b2, b3] > msize then
        Result.error (Err.invalidMessageSize (uint32LE [b0, b1, b2, b3]))
      else if rest.length < uint32LE [b0, b1, b2, b3] - 4 then
        Result.error (if rest.length = 0 then Err.EOF else Err.ErrUnexpectedEOF)
      else
        match decode (rest.take (uint32LE [b0, b1, b2, b3] - 4)) with
        | Result.ok fc => Result.ok (fc, rest.drop (uint32LE [b0, b1, b2, b3] - 4))
        | Result.error e => Result.error e
        | Result.panic => Result.panic := by
    unfold readMsg
    rw [if_neg (by simp), if_neg (by simp)]
    rfl
  refine ⟨fun h => ?_, fun h => ⟨fun n hn => ?_, fun hl => ?_⟩⟩
  · rw [hunf, if_pos h]
  · rw [hunf, if_neg (by omega)] at hn
    split_ifs at hn
    · cases hn
    · cases hn
    · split at hn
      · cases hn
      · rename_i e he
        exact decode_noError _ e he
      · cases hn
  · rw [hunf, if_neg (by omega), if_neg (by omega)]

/-- Witness for `C3_readMsg_size_check`: with `msize = 8192` a header announcing 6 bytes is
refused, and a 7-byte `Rclunk` frame passes the check and is decoded. -/
theorem C3_readMsg_size_check_witness :
    readMsg 8192 [6, 0, 0, 0, 121, 4] = Result.error (Err.invalidMessageSize 6)
      ∧ readMsg 8192 [7, 0, 0, 0, 121, 4, 0] = Result.ok ({ Typ := Rclunk, Tag := 4 }, []) :=
  ⟨(C3_readMsg_size_check 8192 6 0 0 0 [121, 4]).1 (by decide),
   (((C3_readMsg_size_check 8192 7 0 0 0 [121, 4, 0]).2 (by decide)).2 (by decide)).trans
     (by decide)⟩

/-! ## C4: malformed bodies -/

/-- C4, the code at the failing inputs (`msize = 8192`, every frame passes the size check).
A `Tversion` frame without body makes `readMsg` slice `data[0:4]` of an empty slice: a
run-time panic, not an error. A `Tversion` whose version string announces 10 bytes with 2
left is returned as a decoded message with an empty version. A `Twrite` whose count is 100
with one data byte left panics in `data[16:16+fc.Count]`. A `Tcreate` whose name announces
10 bytes with 5 left panics in `r.data[0:4]`. -/
theorem C4_malformed_body_evaluation :
    readMsg 8192 [7, 0, 0, 0, 100, 1, 0] = Result.panic
      ∧ readMsg 8192 [15, 0, 0, 0, 100, 1, 0, 0, 32, 0, 0, 10, 0, 57, 80]
          = Result.ok ({ Typ := Tversion, Tag := 1, Msize := 8192, Version := [] }, [])
      ∧ readMsg 8192 [24, 0, 0, 0, 118, 1, 0, 1, 0, 0, 0, 0, 0, 0, 0, 0, 0, 0, 0,
            100, 0, 0, 0, 65] = Result.panic
      ∧ readMsg 8192 [18, 0, 0, 0, 114, 1, 0, 1, 0, 0, 0, 10, 0, 97, 0, 0, 0, 0]
          = Result.panic := by
  decide


/-! ## `dispatch`, one case of the switch at a time -/

theorem dispatch_Tversion {σ : Type} (impl : FileServer σ) (s : Server σ) (fc : Fcall)
    (h : fc.Typ = Tversion) :
    dispatch impl s fc =
      match impl.Version s.fs fc.Msize fc.Version with
      | (fs, Except.error err) => ({ s with fs := fs }, rerror fc.Tag err)
      | (fs, Except.ok (msize, version)) =>
        ({ fs := fs, msize := msize },
         { Typ := Rversion, Tag := fc.Tag, Msize := msize, Version := version }) := by
  unfold dispatch
  simp only
  rw [if_pos h]

theorem dispatch_Tattach {σ : Type} (impl : FileServer σ) (s : Server σ) (fc : Fcall)
    (h : fc.Typ = Tattach) :
    dispatch impl s fc =
      match impl.Attach s.fs fc.Fid fc.Afid fc.Uname fc.Aname with
      | (fs, Except.error err) => ({ s with fs := fs }, rerror fc.Tag err)
      | (fs, Except.ok qid) => ({ s with fs := fs }, { Typ := Rattach, Tag := fc.Tag, Qid := qid }) := by
  unfold dispatch
  simp only
  rw [if_neg (by rw [h]; decide), if_pos h]

theorem dispatch_Twalk {σ : Type} (impl : FileServer σ) (s : Server σ) (fc : Fcall)
    (h : fc.Typ = Twalk) :
    dispatch impl s fc =
      match impl.Walk s.fs fc.Fid fc.Newfid fc.Wname with
      | (fs, Except.error err) => ({ s with fs := fs }, rerror fc.Tag err)
      | (fs, Except.ok qids) =>
        ({ s with fs := fs },
         { Typ := Rwalk, Tag := fc.Tag, Nwqid := qids.length % 2 ^ 16, Wqid := qids }) := by
  unfold dispatch
  simp only
  rw [if_neg (by rw [h]; decide), if_neg (by rw [h]; decide), if_pos h]

theorem dispatch_Topen {σ : Type} (impl : FileServer σ) (s : Server σ) (fc : Fcall)
    (h : fc.Typ = Topen) :
    dispatch impl s fc =
      match impl.Open s.fs fc.Fid fc.Mode with
      | (fs, Except.error err) => ({ s with fs := fs }, rerror fc.Tag err)
      | (fs, Except.ok (qid, iounit)) =>
        ({ s with fs := fs }, { Typ := Ropen, Tag := fc.Tag, Qid := qid, Iounit := iounit }) := by
  unfold dispatch
  simp only
  rw [if_neg (by rw [h]; decide), if_neg (by rw [h]; decide), if_neg (by rw [h]; decide), if_pos h]

theorem dispatch_Tcreate {σ : Type} (impl : FileServer σ) (s : Server σ) (fc : Fcall)
    (h : fc.Typ = Tcreate) :
    dispatch impl s fc =
      match impl.Create s.fs fc.Fid fc.Name fc.Perm fc.Mode with
      | (fs, Except.error err) => ({ s with fs := fs }, rerror fc.Tag err)
      | (fs, Except.ok (qid, iounit)) =>
        ({ s with fs := fs }, { Typ := Rcreate, Tag := fc.Tag, Qid := qid, Iounit := iounit }) := by
  unfold dispatch
  simp only
  rw [if_neg (by rw [h]; decide), if_neg (by rw [h]; decide), if_neg (by rw [h]; decide), if_neg (by rw [h]; decide), if_pos h]

theorem dispatch_Tread {σ : Type} (impl : FileServer σ) (s : Server σ) (fc : Fcall)
    (h : fc.Typ = Tread) :
    dispatch impl s fc =
      match impl.Read s.fs fc.Fid fc.Offset fc.Count with
      | (fs, Except.error err) => ({ s with fs := fs }, rerror fc.Tag err)
      | (fs, Except.ok data) =>
        ({ s with fs := fs },
         { Typ := Rread, Tag := fc.Tag, Count := data.length % 2 ^ 32, Data := data }) := by
  unfold dispatch
  simp only
  rw [if_neg (by rw [h]; decide), if_neg (by rw [h]; decide), if_neg (by rw [h]; decide), if_neg (by rw [h]; decide), if_neg (by rw [h]; decide), if_pos h]

theorem dispatch_Twrite {σ : Type} (impl : FileServer σ) (s : Server σ) (fc : Fcall)
    (h : fc.Typ = Twrite) :
    dispatch impl s fc =
      match impl.Write s.fs fc.Fid fc.Offset fc.Data with
      | (fs, Except.error err) => ({ s with fs := fs }, rerror fc.Tag err)
      | (fs, Except.ok count) => ({ s with fs := fs }, { Typ := Rwrite, Tag := fc.Tag, Count := count }) := by
  unfold dispatch
  simp only
  rw [if_neg (by rw [h]; decide), if_neg (by rw [h]; decide), if_neg (by rw [h]; decide), if_neg (by rw [h]; decide), if_neg (by rw [h]; decide), if_neg (by rw [h]; decide), if_pos h]

theorem dispatch_Tclunk {σ : Type} (impl : FileServer σ) (s : Server σ) (fc : Fcall)
    (h : fc.Typ = Tclunk) :
    dispatch impl s fc =
      match impl.Clunk s.fs fc.Fid with
      | (fs, Except.error err) => ({ s with fs := fs }, rerror fc.Tag err)
      | (fs, Except.ok _) => ({ s with fs := fs }, { Typ := Rclunk, Tag := fc.Tag }) := by
  unfold dispatch
  simp only
  rw [if_neg (by rw [h]; decide), if_neg (by rw [h]; decide), if_neg (by rw [h]; decide), if_neg (by rw [h]; decide), if_neg (by rw [h]; decide), if_neg (by rw [h]; decide), if_neg (by rw [h]; decide), if_pos h]

theorem dispatch_Tremove {σ : Type} (impl : FileServer σ) (s : Server σ) (fc : Fcall)
    (h : fc.Typ = Tremove) :
    dispatch impl s fc =
      match impl.Remove s.fs fc.Fid with
      | (fs, Except.error err) => ({ s with fs := fs }, rerror fc.Tag err)
      | (fs, Except.ok _) => ({ s with fs := fs }, { Typ := Rremove, Tag := fc.Tag }) := by
  unfold dispatch
  simp only
  rw [if_neg (by rw [h]; decide), if_neg (by rw [h]; decide), if_neg (by rw [h]; decide), if_neg (by rw [h]; decide), if_neg (by rw [h]; decide), if_neg (by rw [h]; decide), if_neg (by rw [h]; decide), if_neg (by rw [h]; decide), if_pos h]

theorem dispatch_Tstat {σ : Type} (impl : FileServer σ) (s : Server σ) (fc : Fcall)
    (h : fc.Typ = Tstat) :
    dispatch impl s fc =
      match impl.Stat s.fs fc.Fid with
      | (fs, Except.error err) => ({ s with fs := fs }, rerror fc.Tag err)
      | (fs, Except.ok stat) => ({ s with fs := fs }, { Typ := Rstat, Tag := fc.Tag, Stat := stat }) := by
  unfold dispatch
  simp only
  rw [if_neg (by rw [h]; decide), if_neg (by rw [h]; decide), if_neg (by rw [h]; decide), if_neg (by rw [h]; decide), if_neg (by rw [h]; decide), if_neg (by rw [h]; decide), if_neg (by rw [h]; decide), if_neg (by rw [h]; decide), if_neg (by rw [h]; decide), if_pos h]

theorem dispatch_default {σ : Type} (impl : FileServer σ) (s : Server σ) (fc : Fcall)
    (h : fc.Typ ∉ [Tversion, Tattach, Twalk, Topen, Tcreate, Tread, Twrite, Tclunk, Tremove,
      Tstat]) :
    dispatch impl s fc = (s, rerror fc.Tag (ascii "unknown message type")) := by
  simp only [List.mem_cons, List.mem_singleton, List.not_mem_nil, or_false, not_or] at h
  obtain ⟨h1, h2, h3, h4, h5, h6, h7, h8, h9, h10⟩ := h
  unfold dispatch
  simp only
  rw [if_neg h1, if_neg h2, if_neg h3, if_neg h4, if_neg h5, if_neg h6, if_neg h7, if_neg h8,
    if_neg h9, if_neg h10]

/-- The cases of the switch in `dispatch`. -/
theorem typ_cases (t : Nat) :
    t = Tversion ∨ t = Tattach ∨ t = Twalk ∨ t = Topen ∨ t = Tcreate ∨ t = Tread
      ∨ t = Twrite ∨ t = Tclunk ∨ t = Tremove ∨ t = Tstat
      ∨ t ∉ [Tversion, Tattach, Twalk, Topen, Tcreate, Tread, Twrite, Tclunk, Tremove,
          Tstat] := by
  simp only [List.mem_cons, List.mem_singleton, List.not_mem_nil, or_false, not_or,
    Tversion, Tattach, Twalk, Topen, Tcreate, Tread, Twrite, Tclunk, Tremove, Tstat]
  omega

/-! ## C5 - C10: `dispatch` over MemFS -/

open Memfs

/-- C5. For every `Tversion` request with version "9P2000" and proposed msize `m ≥ 7`, on
every state of a server over MemFS, `dispatch` replies `Rversion` with the tag of the
request, version "9P2000" and msize `min m 8192` (every other field zero), and the
`msize` of the server, which `readMsg` checks frames against, becomes `min m 8192`; the
fid table is untouched. -/
theorem C5_version_negotiation (s : Server MemFS) (fc : Fcall) (hT : fc.Typ = Tversion)
    (hv : fc.Version = ascii "9P2000") (_hm : 7 ≤ fc.Msize) :
    dispatch Memfs.impl s fc =
      ({ fs := s.fs, msize := min fc.Msize 8192 },
       { Typ := Rversion, Tag := fc.Tag, Msize := min fc.Msize 8192,
         Version := ascii "9P2000" }) := by
  unfold dispatch
  simp only [hT, if_true, Memfs.impl, Memfs.Version, hv, ne_eq, not_true_eq_false, if_false]
  by_cases h : fc.Msize > 8192
  · rw [if_pos h, Nat.min_eq_right (by omega)]
  · rw [if_neg h, Nat.min_eq_left (by omega)]

/-- Witness for `C5_version_negotiation`: scenario S1 on the server of `main`. -/
theorem C5_version_negotiation_witness :
    dispatch Memfs.impl Memfs.newServer
        { Typ := Tversion, Tag := 0xFFFF, Msize := 8192, Version := ascii "9P2000" } =
      ({ fs := Memfs.newServer.fs, msize := min 8192 8192 },
       { Typ := Rversion, Tag := 0xFFFF, Msize := min 8192 8192,
         Version := ascii "9P2000" }) :=
  C5_version_negotiation Memfs.newServer
    { Typ := Tversion, Tag := 0xFFFF, Msize := 8192, Version := ascii "9P2000" }
    rfl rfl (by decide)

/-- C6, as stated, fails: in scenario S2 (`Tversion`, tag 0xFFFF, msize 4096, version
"9P2000.L") the reply of the server over MemFS is an `Rerror`, not an `Rversion`, and its
version field is empty, not "unknown". -/
theorem C6_unsupported_version_counterexample :
    (dispatch Memfs.impl Memfs.newServer
        { Typ := Tversion, Tag := 0xFFFF, Msize := 4096, Version := ascii "9P2000.L" }).2.Typ
        = Rerror
      ∧ (dispatch Memfs.impl Memfs.newServer
        { Typ := Tversion, Tag := 0xFFFF, Msize := 4096, Version := ascii "9P2000.L" }).2.Typ
        ≠ Rversion
      ∧ (dispatch Memfs.impl Memfs.newServer
        { Typ := Tversion, Tag := 0xFFFF, Msize := 4096, Version := ascii "9P2000.L" }).2.Version
        ≠ ascii "unknown" := by
  decide

/-- C6, amended. For every `Tversion` request whose version string is not exactly
"9P2000", on every state of a server over MemFS, the reply is the `Rerror` with the tag
of the request and the text "unsupported version", and the server (its `msize` and its fid
table) is unchanged. -/
theorem C6_unsupported_version (s : Server MemFS) (fc : Fcall) (hT : fc.Typ = Tversion)
    (hv : fc.Version ≠ ascii "9P2000") :
    dispatch Memfs.impl s fc = (s, rerror fc.Tag (ascii "unsupported version")) := by
  unfold dispatch
  simp only [hT, if_true, Memfs.impl, Memfs.Version, ne_eq, hv, not_false_eq_true]

/-- Witness for `C6_unsupported_version`: scenario S2 on the server of `main`. -/
theorem C6_unsupported_version_witness :
    dispatch Memfs.impl Memfs.newServer
        { Typ := Tversion, Tag := 0xFFFF, Msize := 4096, Version := ascii "9P2000.L" } =
      (Memfs.newServer, rerror 0xFFFF (ascii "unsupported version")) :=
  C6_unsupported_version Memfs.newServer
    { Typ := Tversion, Tag := 0xFFFF, Msize := 4096, Version := ascii "9P2000.L" }
    rfl (by decide)


/-- C7, as stated, fails: on the server of `main`, before any `Tversion`, and equally after
a failed `Tversion`, a `Tattach` of fid 1 is answered with `Rattach`, not `Rerror`, and
binds fid 1, which was unbound. -/
theorem C7_before_version_counterexample :
    (dispatch Memfs.impl Memfs.newServer
        { Typ := Tattach, Tag := 1, Fid := 1, Afid := NOFID, Uname := ascii "user" }).2.Typ
        = Rattach
      ∧ Memfs.newServer.fs.fids 1 = none
      ∧ ((dispatch Memfs.impl Memfs.newServer
        { Typ := Tattach, Tag := 1, Fid := 1, Afid := NOFID, Uname := ascii "user" }).1.fs.fids 1).isSome
        = true
      ∧ (dispatch Memfs.impl
          (dispatch Memfs.impl Memfs.newServer
            { Typ := Tversion, Tag := 0xFFFF, Msize := 4096, Version := ascii "9P2000.L" }).1
          { Typ := Tattach, Tag := 1, Fid := 1, Afid := NOFID, Uname := ascii "user" }).2.Typ
        = Rattach := by
  decide

/-- C7, amended. `dispatch` keeps no record of a completed `Tversion`: on every state of a
server over MemFS (fresh, after a failed `Tversion`, or any other) a request other than
`Tversion` is answered with `Rerror` exactly when it is not a `Tattach`, a `Tread`, a
`Tclunk`, or a `Twalk` or `Topen` on a bound fid; whenever the answer is `Rerror` the
server, fid table included, is left unchanged; and the answer does not depend on the
`msize` of the server. -/
theorem C7_dispatch_without_version (s : Server MemFS) (fc : Fcall)
    (hT : fc.Typ ≠ Tversion) :
    ((dispatch Memfs.impl s fc).2.Typ = Rerror ↔
        ¬ (fc.Typ = Tattach ∨ fc.Typ = Tread ∨ fc.Typ = Tclunk
            ∨ ((fc.Typ = Twalk ∨ fc.Typ = Topen) ∧ (s.fs.fids fc.Fid).isSome = true)))
      ∧ ((dispatch Memfs.impl s fc).2.Typ = Rerror → (dispatch Memfs.impl s fc).1 = s)
      ∧ (∀ k, (dispatch Memfs.impl { s with msize := k } fc).2
          = (dispatch Memfs.impl s fc).2) := by
  rcases typ_cases fc.Typ with h | h | h | h | h | h | h | h | h | h | h
  · exact absurd h hT
  · simp [dispatch_Tattach _ _ _ h, h, Memfs.impl, Memfs.Attach]
  · cases hf : s.fs.fids fc.Fid <;>
      simp [dispatch_Twalk _ _ _ h, h, Memfs.impl, Memfs.Walk, hf, rerror]
  · cases hf : s.fs.fids fc.Fid <;>
      simp [dispatch_Topen _ _ _ h, h, Memfs.impl, Memfs.Open, hf, rerror]
  · simp [dispatch_Tcreate _ _ _ h, h, Memfs.impl, Memfs.Create, rerror]
  · simp [dispatch_Tread _ _ _ h, h, Memfs.impl, Memfs.Read]
  · simp [dispatch_Twrite _ _ _ h, h, Memfs.impl, Memfs.Write, rerror]
  · simp [dispatch_Tclunk _ _ _ h, h, Memfs.impl, Memfs.Clunk]
  · simp [dispatch_Tremove _ _ _ h, h, Memfs.impl, Memfs.Remove, rerror]
  · simp [dispatch_Tstat _ _ _ h, h, Memfs.impl, Memfs.Stat, rerror]
  · have h' := h
    simp only [List.mem_cons, List.mem_singleton, List.not_mem_nil, or_false, not_or] at h'
    simp [dispatch_default _ _ _ h, h', rerror]

/-- Witness for `C7_dispatch_without_version`: on the server of `main` a `Tstat` is answered
with `Rerror`. -/
theorem C7_dispatch_without_version_witness :
    (dispatch Memfs.impl Memfs.newServer { Typ := Tstat, Tag := 2, Fid := 1 }).2.Typ
      = Rerror :=
  (C7_dispatch_without_version Memfs.newServer { Typ := Tstat, Tag := 2, Fid := 1 }
    (by decide)).1.2 (by decide)

/-- C8. For every request and every file server behind the interface (whatever its
methods return, success or error), `dispatch` returns one reply, and the tag of the reply
is the tag of the request. -/
theorem C8_dispatch_tag {σ : Type} (impl : FileServer σ) (s : Server σ) (fc : Fcall) :
    (dispatch impl s fc).2.Tag = fc.Tag := by
  rcases typ_cases fc.Typ with h | h | h | h | h | h | h | h | h | h | h
  · rw [dispatch_Tversion _ _ _ h]; split <;> rfl
  · rw [dispatch_Tattach _ _ _ h]; split <;> rfl
  · rw [dispatch_Twalk _ _ _ h]; split <;> rfl
  · rw [dispatch_Topen _ _ _ h]; split <;> rfl
  · rw [dispatch_Tcreate _ _ _ h]; split <;> rfl
  · rw [dispatch_Tread _ _ _ h]; split <;> rfl
  · rw [dispatch_Twrite _ _ _ h]; split <;> rfl
  · rw [dispatch_Tclunk _ _ _ h]; split <;> rfl
  · rw [dispatch_Tremove _ _ _ h]; split <;> rfl
  · rw [dispatch_Tstat _ _ _ h]; split <;> rfl
  · rw [dispatch_default _ _ _ h]; rfl

/-- C9, as stated, fails: with fid 1 bound by `Tattach`, the clone walk (no names) from fid 1
to fid 2 is answered with an `Rwalk` that carries one qid, not zero, and a walk of two
names is answered with one qid, not two. -/
theorem C9_walk_counterexample :
    (attachedServer.fs.fids 1).isSome = true
      ∧ (dispatch Memfs.impl attachedServer
          { Typ := Twalk, Tag := 2, Fid := 1, Newfid := 2, Nwname := 0, Wname := [] }).2
        = { Typ := Rwalk, Tag := 2, Nwqid := 1, Wqid := [{ Typ := QTDIR, Vers := 0, Path := 1 }] }
      ∧ (dispatch Memfs.impl attachedServer
          { Typ := Twalk, Tag := 2, Fid := 1, Newfid := 2, Nwname := 2,
            Wname := [ascii "usr", ascii "bin"] }).2.Wqid.length = 1 := by
  decide

/-- C9, amended. For every `Twalk` from a bound fid, with any list of names (any `n ≥ 0`),
the walk succeeds, `newfid` becomes bound to a copy of the path and qid of the fid, every
other binding is kept, and the `Rwalk` reply carries exactly one qid, the qid of the fid;
so it carries `n` qids only for `n = 1`, and the clone walk returns one qid. -/
theorem C9_walk (s : Server MemFS) (fc : Fcall) (f : Memfs.Fid) (hT : fc.Typ = Twalk)
    (hf : s.fs.fids fc.Fid = some f) :
    (dispatch Memfs.impl s fc).2
        = { Typ := Rwalk, Tag := fc.Tag, Nwqid := 1, Wqid := [f.qid] }
      ∧ (dispatch Memfs.impl s fc).1.fs.fids fc.Newfid
        = some { path := f.path, qid := f.qid }
      ∧ (∀ k, k ≠ fc.Newfid → (dispatch Memfs.impl s fc).1.fs.fids k = s.fs.fids k)
      ∧ ((dispatch Memfs.impl s fc).2.Wqid.length = fc.Wname.length
          ↔ fc.Wname.length = 1) := by
  rw [dispatch_Twalk _ _ _ hT]
  simp only [Memfs.impl, Memfs.Walk, hf, MemFS.set, List.length_singleton]
  refine ⟨rfl, by simp, fun k hk => by simp [hk], ⟨fun h => h.symm, fun h => h.symm⟩⟩

/-- Witness for `C9_walk`: the clone walk from fid 1 to fid 2 after `Tattach` of fid 1. -/
theorem C9_walk_witness :
    (dispatch Memfs.impl attachedServer
        { Typ := Twalk, Tag := 2, Fid := 1, Newfid := 2 }).1.fs.fids 2
      = some { path := ascii "/", qid := { Typ := QTDIR, Vers := 0, Path := 1 } } :=
  (C9_walk attachedServer { Typ := Twalk, Tag := 2, Fid := 1, Newfid := 2 }
    { path := ascii "/", qid := { Typ := QTDIR, Vers := 0, Path := 1 } } rfl (by decide)).2.1

/-- C10, as stated, fails: with fid 1 bound by `Tattach`, a `Tremove` of fid 1 is answered
with `Rerror` and fid 1 is still bound afterwards. -/
theorem C10_remove_counterexample :
    (attachedServer.fs.fids 1).isSome = true
      ∧ (dispatch Memfs.impl attachedServer { Typ := Tremove, Tag := 3, Fid := 1 }).2.Typ
        = Rerror
      ∧ ((dispatch Memfs.impl attachedServer
          { Typ := Tremove, Tag := 3, Fid := 1 }).1.fs.fids 1).isSome = true := by
  decide

/-- C10, amended. For every fid table and every fid, bound or not, a `Tremove` over MemFS
is answered with the `Rerror` "not implemented" and leaves the server unchanged: every
binding of the fid table, that of the removed fid included, is as before. -/
theorem C10_remove (s : Server MemFS) (fc : Fcall) (hT : fc.Typ = Tremove) :
    dispatch Memfs.impl s fc = (s, rerror fc.Tag (ascii "not implemented")) := by
  rw [dispatch_Tremove _ _ _ hT]
  rfl

/-- Witness for `C10_remove`: `Tremove` of fid 1 after `Tattach` of fid 1. -/
theorem C10_remove_witness :
    dispatch Memfs.impl attachedServer { Typ := Tremove, Tag := 3, Fid := 1 }
      = (attachedServer, rerror 3 (ascii "not implemented")) :=
  C10_remove attachedServer { Typ := Tremove, Tag := 3, Fid := 1 } rfl

end Lux9

/-! ## C2: read-modify-write on the block device -/

namespace Lux9

namespace Storage

theorem copyAt_length (dst : List Nat) (lo : Nat) (src : List Nat)
    (h : lo + src.length ≤ dst.length) : (copyAt dst lo src).length = dst.length := by
  simp only [copyAt, List.length_append, List.length_take, List.length_drop]
  omega

theorem getElem?_copyAt (dst : List Nat) (lo : Nat) (src : List Nat)
    (h : lo + src.length ≤ dst.length) (j : Nat) :
    (copyAt dst lo src)[j]? = if lo ≤ j ∧ j < lo + src.length then src[j - lo]? else dst[j]? := by
  have h1 : src.take (dst.length - lo) = src := List.take_of_length_le (by omega)
  have hl : (dst.take lo).length = lo := by rw [List.length_take]; omega
  rw [copyAt, h1, List.append_assoc]
  by_cases c1 : j < lo
  · rw [List.getElem?_append_left (by omega), List.getElem?_take, if_pos c1, if_neg (by omega)]
  · rw [List.getElem?_append_right (by omega), hl]
    by_cases c2 : j < lo + src.length
    · rw [List.getElem?_append_left (by omega), if_pos (by omega)]
    · rw [List.getElem?_append_right (by omega), List.getElem?_drop, if_neg (by omega)]
      congr 1
      omega

/-- A sector of the faithful backend. -/
theorem sector_length (D : List Nat) (lba : Nat) (h : (lba + 1) * 512 ≤ D.length) :
    ((D.drop (lba * 512)).take 512).length = 512 := by
  rw [List.length_take, List.length_drop]; omega

theorem readSectors_memDisk (st : MemDisk) (dev : Int) (start : Nat) (k : Nat) :
    ∀ (i : Nat) (buf : List Nat), (start + i + k) * 512 ≤ (st.disk dev).length →
      (i + k) * 512 ≤ buf.length →
      ∃ buf', readSectors MemDisk.driver dev start k i st buf = (st, Except.ok buf')
        ∧ buf'.length = buf.length
        ∧ ∀ j, buf'[j]? = if i * 512 ≤ j ∧ j < (i + k) * 512
            then (st.disk dev)[start * 512 + j]? else buf[j]? := by
  induction k with
  | zero =>
    intro i buf _ _
    refine ⟨buf, rfl, rfl, fun j => ?_⟩
    rw [if_neg (by omega)]
  | succ k ih =>
    intro i buf hD hB
    have hsec : (start + i + 1) * 512 ≤ (st.disk dev).length := by omega
    have hsl := sector_length (st.disk dev) (start + i) hsec
    have hcl : (copyAt buf (i * 512) (((st.disk dev).drop ((start + i) * 512)).take 512)).length
        = buf.length := copyAt_length _ _ _ (by rw [hsl]; omega)
    obtain ⟨buf', hrun, hlen, hget⟩ := ih (i + 1)
      (copyAt buf (i * 512) (((st.disk dev).drop ((start + i) * 512)).take 512))
      (by omega) (by rw [hcl]; omega)
    refine ⟨buf', ?_, by rw [hlen, hcl], fun j => ?_⟩
    · simp only [readSectors, MemDisk.driver, if_pos hsec]
      rw [List.take_of_length_le (le_of_eq hsl)]
      exact hrun
    · rw [hget j, getElem?_copyAt _ _ _ (by rw [hsl]; omega), hsl]
      by_cases c1 : (i + 1) * 512 ≤ j ∧ j < (i + 1 + k) * 512
      · rw [if_pos c1, if_pos (by omega)]
      · rw [if_neg c1]
        by_cases c2 : i * 512 ≤ j ∧ j < i * 512 + 512
        · have e : (start + i) * 512 + (j - i * 512) = start * 512 + j := by omega
          rw [if_pos c2, if_pos (by omega), List.getElem?_take, if_pos (by omega),
            List.getElem?_drop, e]
        · rw [if_neg c2, if_neg (by omega)]

theorem rmwSectors_memDisk (st : MemDisk) (dev : Int) (start : Nat) (k : Nat) :
    ∀ (i : Nat) (buf : List Nat), (start + i + k) * 512 ≤ (st.disk dev).length →
      (i + k) * 512 ≤ buf.length →
      ∃ buf', rmwSectors MemDisk.driver dev start k i st buf = (st, buf')
        ∧ buf'.length = buf.length
        ∧ ∀ j, buf'[j]? = if i * 512 ≤ j ∧ j < (i + k) * 512
            then (st.disk dev)[start * 512 + j]? else buf[j]? := by
  induction k with
  | zero =>
    intro i buf _ _
    refine ⟨buf, rfl, rfl, fun j => ?_⟩
    rw [if_neg (by omega)]
  | succ k ih =>
    intro i buf hD hB
    have hsec : (start + i + 1) * 512 ≤ (st.disk dev).length := by omega
    have hsl := sector_length (st.disk dev) (start + i) hsec
    have hcl : (copyAt buf (i * 512) (((st.disk dev).drop ((start + i) * 512)).take 512)).length
        = buf.length := copyAt_length _ _ _ (by rw [hsl]; omega)
    obtain ⟨buf', hrun, hlen, hget⟩ := ih (i + 1)
      (copyAt buf (i * 512) (((st.disk dev).drop ((start + i) * 512)).take 512))
      (by omega) (by rw [hcl]; omega)
    refine ⟨buf', ?_, by rw [hlen, hcl], fun j => ?_⟩
    · simp only [rmwSectors, MemDisk.driver, if_pos hsec]
      rw [List.take_of_length_le (le_of_eq hsl)]
      exact hrun
    · rw [hget j, getElem?_copyAt _ _ _ (by rw [hsl]; omega), hsl]
      by_cases c1 : (i + 1) * 512 ≤ j ∧ j < (i + 1 + k) * 512
      · rw [if_pos c1, if_pos (by omega)]
      · rw [if_neg c1]
        by_cases c2 : i * 512 ≤ j ∧ j < i * 512 + 512
        · have e : (start + i) * 512 + (j - i * 512) = start * 512 + j := by omega
          rw [if_pos c2, if_pos (by omega), List.getElem?_take, if_pos (by omega),
            List.getElem?_drop, e]
        · rw [if_neg c2, if_neg (by omega)]

theorem writeSectors_memDisk (dev : Int) (start : Nat) (buffer : List Nat) (k : Nat) :
    ∀ (i : Nat) (st : MemDisk), (start + i + k) * 512 ≤ (st.disk dev).length →
      (i + k) * 512 ≤ buffer.length →
      ∃ st', writeSectors MemDisk.driver dev start buffer k i st = (st', none)
        ∧ (∀ d, d ≠ dev → st'.disk d = st.disk d)
        ∧ (st'.disk dev).length = (st.disk dev).length
        ∧ ∀ j, (st'.disk dev)[j]? = if (start + i) * 512 ≤ j ∧ j < (start + i + k) * 512
            then buffer[j - start * 512]? else (st.disk dev)[j]? := by
  induction k with
  | zero =>
    intro i st _ _
    refine ⟨st, rfl, fun _ _ => rfl, rfl, fun j => ?_⟩
    rw [if_neg (by omega)]
  | succ k ih =>
    intro i st hD hB
    have hsec : (start + i + 1) * 512 ≤ (st.disk dev).length := by omega
    have hsl : ((buffer.drop (i * 512)).take 512).length = 512 := by
      rw [List.length_take, List.length_drop]; omega
    have hcl : (copyAt (st.disk dev) ((start + i) * 512)
        ((buffer.drop (i * 512)).take 512)).length = (st.disk dev).length :=
      copyAt_length _ _ _ (by rw [hsl]; omega)
    obtain ⟨st', hrun, hother, hlen, hget⟩ := ih (i + 1)
      { disk := fun d => if d = dev then copyAt (st.disk dev) ((start + i) * 512)
          ((buffer.drop (i * 512)).take 512) else st.disk d }
      (by simp only [if_true]; rw [hcl]; omega) (by omega)
    simp only [if_true] at hlen hget
    refine ⟨st', ?_, fun d hd => ?_, by rw [hlen, hcl], fun j => ?_⟩
    · simp only [writeSectors, MemDisk.driver, hsec, hsl, and_self, if_true]
      exact hrun
    · rw [hother d hd]
      simp only [if_neg hd]
    · rw [hget j, getElem?_copyAt _ _ _ (by rw [hsl]; omega), hsl]
      by_cases c1 : (start + (i + 1)) * 512 ≤ j ∧ j < (start + (i + 1) + k) * 512
      · rw [if_pos c1, if_pos (by omega)]
      · rw [if_neg c1]
        by_cases c2 : (start + i) * 512 ≤ j ∧ j < (start + i) * 512 + 512
        · have e : i * 512 + (j - (start + i) * 512) = j - start * 512 := by omega
          rw [if_pos c2, if_pos (by omega), List.getElem?_take, if_pos (by omega),
            List.getElem?_drop, e]
        · rw [if_neg c2, if_neg (by omega)]

/-- A data read on the faithful backend, for a path that selects the data file of device
`N`: the bytes `[offset, offset + count)` of the device, when they lie inside it. -/
theorem HandleRead_memDisk (b : BlockDeviceDriver MemDisk) (hb : b.driver = MemDisk.driver)
    (st : MemDisk) (path : List Char) (N C offset count : Nat)
    (hp : path.length ≥ 5 ∧ path.take 5 = "disk/".toList)
    (hs : sscanfDeviceID (path.drop 5) = some (N : Int))
    (hbase : filepathBase path ≠ "ctl".toList)
    (hN : N < b.devices.length) (hC : (st.disk N).length = C * 512)
    (hfit : offset + count ≤ C * 512) (hc : count < 2 ^ 32) :
    HandleRead b st path offset count
      = (st, Result.ok (((st.disk N).drop offset).take count)) := by
  have hmod : (count + offset % 512 + 512 - 1) % 2 ^ 64 = count + offset % 512 + 512 - 1 :=
    Nat.mod_eq_of_lt (by omega)
  have hn0 : ¬ ((count + offset % 512 + 512 - 1) / 512 = 0 ∧ count > 0) := by omega
  obtain ⟨buf', hrun, hlen, hget⟩ := readSectors_memDisk st (N : Int) (offset / 512)
    ((count + offset % 512 + 512 - 1) / 512) 0
    (List.replicate ((count + offset % 512 + 512 - 1) / 512 * 512) 0)
    (by rw [hC]; omega) (by rw [List.length_replicate]; omega)
  rw [List.length_replicate] at hlen
  unfold HandleRead
  rw [if_pos hp, hs]
  simp only [ge_iff_le, Nat.cast_le, if_neg (Nat.not_le.mpr hN), if_neg hbase, hmod, if_neg hn0,
    hb, hrun, hlen]
  rw [if_neg (by omega)]
  unfold slice
  rw [if_pos (by rw [hlen]; omega)]
  refine congrArg (fun x => (st, Result.ok x)) ?_
  apply List.ext_getElem?
  intro j
  simp only [List.getElem?_take, List.getElem?_drop, Nat.add_sub_cancel_left]
  by_cases cj : j < count
  · rw [if_pos cj, if_pos cj, hget, if_pos (by omega)]
    have e : offset / 512 * 512 + (offset % 512 + j) = offset + j := by omega
    rw [e]
  · rw [if_neg cj, if_neg cj]

/-- A data write on the faithful backend, for a path that selects the data file of device
`N` and a span inside the device: it succeeds with the full count, and afterwards the
device holds the data at `[offset, offset + len)` and its old bytes everywhere else. -/
theorem HandleWrite_memDisk (b : BlockDeviceDriver MemDisk) (hb : b.driver = MemDisk.driver)
    (st : MemDisk) (path : List Char) (N C offset : Nat) (data : List Nat)
    (hp : path.length ≥ 5 ∧ path.take 5 = "disk/".toList)
    (hs : sscanfDeviceID (path.drop 5) = some (N : Int))
    (hbase : filepathBase path ≠ "ctl".toList)
    (hN : N < b.devices.length) (hC : (st.disk N).length = C * 512)
    (hfit : offset + data.length ≤ C * 512) (hd : data.length < 2 ^ 32) :
    ∃ st', HandleWrite b st path offset data = (st', data.length, none)
      ∧ (∀ d, d ≠ (N : Int) → st'.disk d = st.disk d)
      ∧ (st'.disk N).length = (st.disk N).length
      ∧ ∀ j, (st'.disk N)[j]? = if offset ≤ j ∧ j < offset + data.length
          then data[j - offset]? else (st.disk N)[j]? := by
  have hmod : (data.length + offset % 512 + 512 - 1) % 2 ^ 64
      = data.length + offset % 512 + 512 - 1 := Nat.mod_eq_of_lt (by omega)
  have hn0 : ¬ ((data.length + offset % 512 + 512 - 1) / 512 = 0 ∧ data.length > 0) := by
    omega
  -- the buffer before the new data is copied in
  have hbuf : ∃ buf1,
      (if offset % 512 > 0 ∨ data.length % 512 ≠ 0 then
          rmwSectors MemDisk.driver (N : Int) (offset / 512)
            ((data.length + offset % 512 + 512 - 1) / 512) 0 st
            (List.replicate ((data.length + offset % 512 + 512 - 1) / 512 * 512) 0)
        else (st, List.replicate ((data.length + offset % 512 + 512 - 1) / 512 * 512) 0))
        = (st, buf1)
      ∧ buf1.length = (data.length + offset % 512 + 512 - 1) / 512 * 512
      ∧ ∀ m, ¬ (offset % 512 ≤ m ∧ m < offset % 512 + data.length) →
          m < (data.length + offset % 512 + 512 - 1) / 512 * 512 →
          buf1[m]? = (st.disk N)[offset / 512 * 512 + m]? := by
    by_cases hr : offset % 512 > 0 ∨ data.length % 512 ≠ 0
    · obtain ⟨buf1, hrun, hlen, hget⟩ := rmwSectors_memDisk st (N : Int) (offset / 512)
        ((data.length + offset % 512 + 512 - 1) / 512) 0
        (List.replicate ((data.length + offset % 512 + 512 - 1) / 512 * 512) 0)
        (by rw [hC]; omega) (by rw [List.length_replicate]; omega)
      refine ⟨buf1, by rw [if_pos hr, hrun], by rw [hlen, List.length_replicate], ?_⟩
      intro m _ hm
      rw [hget, if_pos (by omega)]
    · refine ⟨_, by rw [if_neg hr], List.length_replicate _ _, ?_⟩
      intro m hm1 hm2
      omega
  obtain ⟨buf1, hrun1, hlen1, hget1⟩ := hbuf
  have hcl : (copyAt buf1 (offset % 512) data).length
      = (data.length + offset % 512 + 512 - 1) / 512 * 512 := by
    rw [copyAt_length _ _ _ (by rw [hlen1]; omega), hlen1]
  obtain ⟨st', hrun2, hother, hlen2, hget2⟩ := writeSectors_memDisk (N : Int) (offset / 512)
    (copyAt buf1 (offset % 512) data) ((data.length + offset % 512 + 512 - 1) / 512) 0 st
    (by rw [hC]; omega) (by rw [hcl]; omega)
  refine ⟨st', ?_, hother, hlen2, fun j => ?_⟩
  · unfold HandleWrite
    rw [if_pos hp, hs]
    simp only [ge_iff_le, Nat.cast_le, if_neg (Nat.not_le.mpr hN), if_neg hbase, hmod,
      if_neg hn0, hb, hrun1, hrun2]
    rw [Nat.mod_eq_of_lt hd]
  · rw [hget2 j]
    by_cases c1 : offset ≤ j ∧ j < offset + data.length
    · have e : j - offset / 512 * 512 - offset % 512 = j - offset := by omega
      rw [if_pos c1, if_pos (by omega), getElem?_copyAt _ _ _ (by rw [hlen1]; omega),
        if_pos (by omega), e]
    · rw [if_neg c1]
      by_cases c2 : (offset / 512 + 0) * 512 ≤ j
          ∧ j < (offset / 512 + 0 + (data.length + offset % 512 + 512 - 1) / 512) * 512
      · have e : offset / 512 * 512 + (j - offset / 512 * 512) = j := by omega
        rw [if_pos c2, getElem?_copyAt _ _ _ (by rw [hlen1]; omega), if_neg (by omega),
          hget1 _ (by omega) (by omega), e]
      · rw [if_neg c2]

/-! ### The path `disk/N/data` -/

theorem digitChar_isDigit (k : Nat) (hk : k < 10) :
    (Nat.digitChar k).isDigit = true ∧ (Nat.digitChar k).toNat - '0'.toNat = k := by
  interval_cases k <;> decide

/-- The decimal text of core `Nat.toDigits`: digits only, at least one, with value `n`. -/
theorem toDigitsCore_spec (fuel : Nat) :
    ∀ (n : Nat) (ds : List Char), n < fuel →
      ∃ l, Nat.toDigitsCore 10 fuel n ds = l ++ ds ∧ l ≠ []
        ∧ (∀ c ∈ l, c.isDigit = true) ∧ digitsValue l = n := by
  induction fuel with
  | zero => intro n ds h; omega
  | succ fuel ih =>
    intro n ds h
    obtain ⟨hd1, hd2⟩ := digitChar_isDigit (n % 10) (Nat.mod_lt _ (by decide))
    by_cases h0 : n / 10 = 0
    · refine ⟨[Nat.digitChar (n % 10)], ?_, by simp, ?_, ?_⟩
      · simp only [Nat.toDigitsCore, h0, if_true, List.singleton_append]
      · intro c hc
        rw [List.mem_singleton] at hc
        rw [hc]; exact hd1
      · simp only [digitsValue, List.foldl_cons, List.foldl_nil, hd2]
        omega
    · obtain ⟨l, hl, _, hdig, hval⟩ := ih (n / 10) (Nat.digitChar (n % 10) :: ds) (by omega)
      refine ⟨l ++ [Nat.digitChar (n % 10)], ?_, by simp, ?_, ?_⟩
      · simp only [Nat.toDigitsCore, h0, if_false, hl, List.append_assoc, List.singleton_append]
      · intro c hc
        rw [List.mem_append, List.mem_singleton] at hc
        rcases hc with hc | hc
        · exact hdig c hc
        · rw [hc]; exact hd1
      · unfold digitsValue at hval ⊢
        rw [List.foldl_append, hval]
        simp only [List.foldl_cons, List.foldl_nil, hd2]
        omega

theorem toDigits_spec (n : Nat) :
    Nat.toDigits 10 n ≠ [] ∧ (∀ c ∈ Nat.toDigits 10 n, c.isDigit = true)
      ∧ digitsValue (Nat.toDigits 10 n) = n := by
  obtain ⟨l, hl, hne, hdig, hval⟩ := toDigitsCore_spec (n + 1) n [] (by omega)
  rw [List.append_nil] at hl
  unfold Nat.toDigits
  rw [hl]
  exact ⟨hne, hdig, hval⟩

theorem skipSpace_digit (c : Char) (cs : List Char) (hc : c.isDigit = true) :
    skipSpace (c :: cs) = some (c :: cs) := by
  have h1 : 48 ≤ c.val ∧ c.val ≤ 57 := by
    simpa [Char.isDigit] using hc
  have hn : 48 ≤ c.toNat ∧ c.toNat ≤ 57 := h1
  have hnl : c ≠ '\n' := by
    intro h; rw [h] at hn; revert hn; decide
  have hns : isSpace c = false := by
    simp only [isSpace, Bool.or_eq_false_iff, Bool.and_eq_false_iff, decide_eq_false_iff_not]
    omega
  simp [skipSpace, hnl, hns]

/-- The call of `Sscanf` with `%d/` reads the device number back from its decimal text. -/
theorem sscanfDeviceID_decimal (N : Nat) (rest : List Char) (hN : N < 2 ^ 63) :
    sscanfDeviceID (Nat.toDigits 10 N ++ '/' :: rest) = some (N : Int) := by
  obtain ⟨hne, hdig, hval⟩ := toDigits_spec N
  obtain ⟨c, cs, hl⟩ := List.exists_cons_of_ne_nil hne
  have hc : c.isDigit = true := hdig c (by rw [hl]; exact List.mem_cons_self _ _)
  have hcv : 48 ≤ c.val ∧ c.val ≤ 57 := by simpa [Char.isDigit] using hc
  have hplus : c ≠ '+' := by
    intro h; rw [h] at hcv; revert hcv; decide
  have hminus : c ≠ '-' := by
    intro h; rw [h] at hcv; revert hcv; decide
  have hskip : skipSpace (Nat.toDigits 10 N ++ '/' :: rest)
      = some (Nat.toDigits 10 N ++ '/' :: rest) := by
    rw [hl]; exact skipSpace_digit c _ hc
  have hhead : (Nat.toDigits 10 N ++ '/' :: rest).head? = some c := by
    rw [hl]; rfl
  have hslash : ¬ ('/' : Char).isDigit = true := by decide
  have htake : (Nat.toDigits 10 N ++ '/' :: rest).takeWhile Char.isDigit
      = Nat.toDigits 10 N := by
    rw [List.takeWhile_append_of_pos hdig, List.takeWhile_cons_of_neg hslash,
      List.append_nil]
  have hdrop : (Nat.toDigits 10 N ++ '/' :: rest).dropWhile Char.isDigit = '/' :: rest := by
    rw [List.dropWhile_append_of_pos hdig, List.dropWhile_cons_of_neg hslash]
  unfold sscanfDeviceID
  rw [hskip]
  simp only [hhead, Option.some.injEq, hplus, hminus, or_self, if_false, htake, hdrop, hne,
    hval, decide_False, Bool.false_eq_true, List.head?_cons, if_true]
  rw [if_neg (by omega)]

theorem dataPath_head (N : Nat) :
    (dataPath N).length ≥ 5 ∧ (dataPath N).take 5 = "disk/".toList := by
  constructor
  · simp [dataPath]
  · simp [dataPath]

/-- The path of device 0 and of device 12, spelled out. -/
theorem dataPath_examples :
    dataPath 0 = "disk/0/data".toList ∧ dataPath 12 = "disk/12/data".toList := by
  decide

theorem dataPath_drop (N : Nat) :
    (dataPath N).drop 5 = Nat.toDigits 10 N ++ '/' :: "data".toList := by
  simp [dataPath]

theorem dataPath_base (N : Nat) : filepathBase (dataPath N) ≠ "ctl".toList := by
  have h : filepathBase (dataPath N) = "data".toList := by
    simp [filepathBase, dataPath]
  rw [h]
  decide

/-- C2. Over a backend that faithfully stores `C` sectors of 512 bytes for device `N`, for
every offset `o` and data `d` with `o + |d| ≤ C * 512`: `HandleWrite` on `disk/N/data` at
`o` with `d` succeeds with count `|d|`; afterwards `HandleRead` at `o` with count `|d|`
returns exactly `d`; every other device is untouched, and every byte of device `N` outside
`[o, o + |d|)` is as before the write (the head and tail of partly overwritten sectors
included). -/
theorem C2_block_rmw (b : BlockDeviceDriver MemDisk) (hb : b.driver = MemDisk.driver)
    (st : MemDisk) (N C o : Nat) (d : List Nat)
    (hN : N < b.devices.length) (hN63 : N < 2 ^ 63)
    (hC : (st.disk N).length = C * 512) (hfit : o + d.length ≤ C * 512)
    (hd : d.length < 2 ^ 32) :
    ∃ st', HandleWrite b st (dataPath N) o d = (st', d.length, none)
      ∧ HandleRead b st' (dataPath N) o d.length = (st', Result.ok d)
      ∧ (∀ dev, dev ≠ (N : Int) → st'.disk dev = st.disk dev)
      ∧ (st'.disk N).length = (st.disk N).length
      ∧ ∀ j, (j < o ∨ o + d.length ≤ j) → (st'.disk N)[j]? = (st.disk N)[j]? := by
  have hs : sscanfDeviceID ((dataPath N).drop 5) = some (N : Int) := by
    rw [dataPath_drop]; exact sscanfDeviceID_decimal N _ hN63
  obtain ⟨st', hw, hother, hlen, hget⟩ := HandleWrite_memDisk b hb st (dataPath N) N C o d
    (dataPath_head N) hs (dataPath_base N) hN hC hfit hd
  have hr := HandleRead_memDisk b hb st' (dataPath N) N C o d.length
    (dataPath_head N) hs (dataPath_base N) hN (by rw [hlen, hC]) hfit hd
  have hback : ((st'.disk N).drop o).take d.length = d := by
    apply List.ext_getElem?
    intro j
    rw [List.getElem?_take, List.getElem?_drop, hget]
    by_cases cj : j < d.length
    · rw [if_pos cj, if_pos (by omega), Nat.add_sub_cancel_left]
    · rw [if_neg cj, List.getElem?_eq_none (by omega)]
  refine ⟨st', hw, by rw [hr, hback], hother, hlen, fun j hj => ?_⟩
  rw [hget, if_neg (by omega)]

/-- Witness for `C2_block_rmw`: three bytes written at offset 500 of a one-sector device. -/
theorem C2_block_rmw_witness :
    ∃ st', HandleWrite exampleDriver exampleDisk (dataPath 0) 500 [1, 2, 3]
          = (st', [1, 2, 3].length, none)
      ∧ HandleRead exampleDriver st' (dataPath 0) 500 [1, 2, 3].length
          = (st', Result.ok [1, 2, 3])
      ∧ (∀ dev, dev ≠ ((0 : Nat) : Int) → st'.disk dev = exampleDisk.disk dev)
      ∧ (st'.disk (0 : Nat)).length = (exampleDisk.disk (0 : Nat)).length
      ∧ ∀ j, (j < 500 ∨ 500 + [1, 2, 3].length ≤ j) →
          (st'.disk (0 : Nat))[j]? = (exampleDisk.disk (0 : Nat))[j]? :=
  C2_block_rmw exampleDriver rfl exampleDisk 0 1 500 [1, 2, 3] (by decide) (by decide)
    (List.length_replicate _ _) (by decide) (by decide)

end Storage

end Lux9

/-! ## C11: `Tread` over MemFS -/

namespace Lux9

open P9 Memfs

/-- C11, as stated, fails: with fid 1 attached, a `Tread` with count 5 is answered with an
`Rread` that carries 17 data bytes, more than the 5 requested (its count field is 17). -/
theorem C11_read_counterexample :
    (dispatch Memfs.impl attachedServer
        { Typ := Tread, Tag := 3, Fid := 1, Offset := 0, Count := 5 }).2.Typ = Rread
      ∧ (dispatch Memfs.impl attachedServer
        { Typ := Tread, Tag := 3, Fid := 1, Offset := 0, Count := 5 }).2.Data.length = 17
      ∧ ¬ (dispatch Memfs.impl attachedServer
        { Typ := Tread, Tag := 3, Fid := 1, Offset := 0, Count := 5 }).2.Data.length ≤ 5 := by
  decide

/-- C11, amended. For every `Tread` request, whatever its fid, offset and requested count
`c`, the server over MemFS replies `Rread` with the 17 bytes "Hello from MemFS\n" and leaves
the server unchanged; the count field of the reply equals the number of data bytes carried
(17), and the reply carries at most `c` bytes exactly when `c ≥ 17`. -/
theorem C11_read (s : Server MemFS) (fc : Fcall) (hT : fc.Typ = Tread) :
    dispatch Memfs.impl s fc
        = (s, { Typ := Rread, Tag := fc.Tag, Count := 17,
                Data := ascii "Hello from MemFS\n" })
      ∧ (dispatch Memfs.impl s fc).2.Count = (dispatch Memfs.impl s fc).2.Data.length
      ∧ ((dispatch Memfs.impl s fc).2.Data.length ≤ fc.Count ↔ 17 ≤ fc.Count) := by
  have h : dispatch Memfs.impl s fc
      = (s, { Typ := Rread, Tag := fc.Tag, Count := 17,
              Data := ascii "Hello from MemFS\n" }) := by
    rw [dispatch_Tread _ _ _ hT]
    rfl
  rw [h]
  refine ⟨rfl, ?_, Iff.rfl⟩
  show (17 : Nat) = (ascii "Hello from MemFS\n").length
  decide

/-- Witness for `C11_read`: scenario S3, a `Tread` of fid 1 with count 100. -/
theorem C11_read_witness :
    (dispatch Memfs.impl attachedServer
        { Typ := Tread, Tag := 3, Fid := 1, Offset := 0, Count := 100 }).2.Data.length ≤ 100 :=
  (C11_read attachedServer { Typ := Tread, Tag := 3, Fid := 1, Offset := 0, Count := 100 }
    rfl).2.2.2 (by decide)

end Lux9

/-! ## C12, C13: helper lemmas -/

namespace Lux9

open P9

theorem uint64LE_putU64 (v : Nat) : uint64LE (putU64 v) = v % 2 ^ 64 := by
  simp only [uint64LE, putU64, List.getD_cons_zero, List.getD_cons_succ,
    Nat.shiftRight_eq_div_pow]
  omega

/-- The `Rwalk` loop of `writeMsg` on a count within the list: the qids from index `i` on,
marshalled one after the other. -/
theorem marshalWqid_eq (wqid : List Qid) (k : Nat) :
    ∀ (i : Nat) (buf : List Nat), i + k ≤ wqid.length →
      marshalWqid wqid k i buf
        = Result.ok (buf ++ (((wqid.drop i).take k).map Qid.Marshal).flatten) := by
  induction k with
  | zero =>
    intro i buf _
    simp [marshalWqid]
  | succ k ih =>
    intro i buf h
    have hi : i < wqid.length := by omega
    have hd : wqid.drop i = wqid[i] :: wqid.drop (i + 1) := by
      rw [List.drop_eq_getElem_cons hi]
    simp only [marshalWqid, List.get?_eq_getElem?, List.getElem?_eq_getElem hi]
    rw [ih (i + 1) _ (by omega), hd, List.take_succ_cons, List.map_cons, List.flatten_cons,
      List.append_assoc]

/-- The buffer of `writeMsg` is the type byte, the tag and the body of the wire-format
table. -/
theorem encodeBody_wire (fc : Fcall) (hw : fc.Typ = Rwalk → fc.Nwqid ≤ fc.Wqid.length) :
    encodeBody fc = Result.ok ([fc.Typ % 256] ++ putU16 fc.Tag ++ wireBody fc) := by
  unfold encodeBody wireBody
  simp only
  by_cases h3 : fc.Typ = Rwalk
  · rw [if_neg (by rw [h3]; decide), if_neg (by rw [h3]; decide), if_pos h3,
      if_neg (by rw [h3]; decide), if_neg (by rw [h3]; decide), if_pos h3,
      marshalWqid_eq _ _ _ _ (by have := hw h3; omega)]
    simp
  · rw [if_neg h3]
    split_ifs <;> simp_all

/-- Every reply that `dispatch` builds announces, when it is an `Rwalk`, no more qids than
it carries, so `writeMsg` does not index `Wqid` out of range on it. -/
theorem dispatch_reply_walk_count {σ : Type} (impl : FileServer σ) (s : Server σ)
    (fc : Fcall) :
    (dispatch impl s fc).2.Nwqid ≤ (dispatch impl s fc).2.Wqid.length := by
  rcases typ_cases fc.Typ with h | h | h | h | h | h | h | h | h | h | h
  · rw [dispatch_Tversion _ _ _ h]; split <;> exact Nat.le_refl 0
  · rw [dispatch_Tattach _ _ _ h]; split <;> exact Nat.le_refl 0
  · rw [dispatch_Twalk _ _ _ h]
    split
    · exact Nat.le_refl 0
    · exact Nat.mod_le _ _
  · rw [dispatch_Topen _ _ _ h]; split <;> exact Nat.le_refl 0
  · rw [dispatch_Tcreate _ _ _ h]; split <;> exact Nat.le_refl 0
  · rw [dispatch_Tread _ _ _ h]; split <;> exact Nat.le_refl 0
  · rw [dispatch_Twrite _ _ _ h]; split <;> exact Nat.le_refl 0
  · rw [dispatch_Tclunk _ _ _ h]; split <;> exact Nat.le_refl 0
  · rw [dispatch_Tremove _ _ _ h]; split <;> exact Nat.le_refl 0
  · rw [dispatch_Tstat _ _ _ h]; split <;> exact Nat.le_refl 0
  · rw [dispatch_default _ _ _ h]; exact Nat.le_refl 0

/-! ## C12: the frame written by `writeMsg` -/

/-- C12. For every reply message (fields in the range of their types, an `Rwalk` with no
more than `len(Wqid)` announced qids) whose encoded length `7 + body length` fits in 32
bits, `writeMsg` emits the 4-byte little-endian size, the type byte, the 2-byte
little-endian tag and then the type-specific body of the wire-format table; the size field
decodes to the total number of bytes emitted, the size field included. -/
theorem C12_writeMsg_frame (fc : Fcall) (hr : fc.InRange)
    (hw : fc.Typ = Rwalk → fc.Nwqid ≤ fc.Wqid.length)
    (h32 : 7 + (wireBody fc).length < 2 ^ 32) :
    writeMsg fc
        = Result.ok (putU32 (7 + (wireBody fc).length) ++ [fc.Typ] ++ putU16 fc.Tag
            ++ wireBody fc)
      ∧ (putU32 (7 + (wireBody fc).length) ++ [fc.Typ] ++ putU16 fc.Tag
            ++ wireBody fc).length = 7 + (wireBody fc).length
      ∧ uint32LE (putU32 (7 + (wireBody fc).length)) = 7 + (wireBody fc).length
      ∧ uint16LE (putU16 fc.Tag) = fc.Tag := by
  have h8 : fc.Typ % 256 = fc.Typ := Nat.mod_eq_of_lt hr.1
  have hlen : ([fc.Typ] ++ putU16 fc.Tag ++ wireBody fc).length + 4
      = 7 + (wireBody fc).length := by
    simp only [List.length_append, List.length_cons, List.length_nil, putU16_length]
    omega
  refine ⟨?_, ?_, ?_, ?_⟩
  · unfold writeMsg
    rw [encodeBody_wire fc hw, h8]
    show Result.ok (putU32 ((([fc.Typ] ++ putU16 fc.Tag ++ wireBody fc).length + 4) % 2 ^ 32)
      ++ ([fc.Typ] ++ putU16 fc.Tag ++ wireBody fc)) = _
    rw [hlen, Nat.mod_eq_of_lt h32]
    simp only [List.append_assoc]
  · simp only [List.length_append, List.length_cons, List.length_nil, putU16_length,
      putU32_length]
  · rw [uint32LE_putU32, Nat.mod_eq_of_lt h32]
  · rw [uint16LE_putU16, Nat.mod_eq_of_lt hr.2]

/-- Witness for `C12_writeMsg_frame`: the `Rversion` of scenario S1, a frame of 19 bytes. -/
theorem C12_writeMsg_frame_witness :
    writeMsg { Typ := Rversion, Tag := 0xFFFF, Msize := 8192, Version := ascii "9P2000" }
      = Result.ok [19, 0, 0, 0, 101, 255, 255, 0, 32, 0, 0, 6, 0, 57, 80, 50, 48, 48, 48] :=
  (C12_writeMsg_frame
    { Typ := Rversion, Tag := 0xFFFF, Msize := 8192, Version := ascii "9P2000" }
    (by decide) (by decide) (by decide)).1.trans (by decide)

/-! ## C13: the 13 bytes of a qid -/

/-- C13. For every `Qid` (fields in the range of `uint8`, `uint32`, `uint64`), `Marshal`
writes exactly 13 bytes: the type byte, the version as 4 little-endian bytes, the path as
8 little-endian bytes; and `Unmarshal` on those 13 bytes (whatever follows them in the
reader) yields the same `Qid`. -/
theorem C13_qid_roundtrip (q : Qid) (rest : List Nat) (h1 : q.Typ < 2 ^ 8)
    (h2 : q.Vers < 2 ^ 32) (h3 : q.Path < 2 ^ 64) :
    q.Marshal = [q.Typ] ++ putU32 q.Vers ++ putU64 q.Path
      ∧ q.Marshal.length = 13
      ∧ uint32LE (putU32 q.Vers) = q.Vers
      ∧ uint64LE (putU64 q.Path) = q.Path
      ∧ Qid.Unmarshal (q.Marshal ++ rest) = Result.ok (q, rest) := by
  have h8 : q.Typ % 256 = q.Typ := Nat.mod_eq_of_lt h1
  have hm : q.Marshal = [q.Typ] ++ putU32 q.Vers ++ putU64 q.Path := by
    simp only [Qid.Marshal, h8]
  have hv : uint32LE (putU32 q.Vers) = q.Vers := by
    rw [uint32LE_putU32, Nat.mod_eq_of_lt h2]
  have hp : uint64LE (putU64 q.Path) = q.Path := by
    rw [uint64LE_putU64, Nat.mod_eq_of_lt h3]
  have hl : q.Marshal.length = 13 := by
    rw [hm]; rfl
  refine ⟨hm, hl, hv, hp, ?_⟩
  have hlen : (q.Marshal ++ rest).length = 13 + rest.length := by
    rw [List.length_append, hl]
  have e1 : ((q.Marshal ++ rest).drop 1).take 4 = putU32 q.Vers := by
    rw [hm]; rfl
  have e2 : ((q.Marshal ++ rest).drop 5).take 8 = putU64 q.Path := by
    rw [hm]; rfl
  have e0 : (q.Marshal ++ rest).getD 0 0 = q.Typ := by
    rw [hm]; rfl
  have e3 : (q.Marshal ++ rest).drop 13 = rest := by
    rw [hm]; rfl
  unfold Qid.Unmarshal
  rw [if_neg (by omega), if_neg (by omega), if_neg (by omega), e0, e1, e2, e3, hv, hp]

/-- Witness for `C13_qid_roundtrip`: the root qid of MemFS. -/
theorem C13_qid_roundtrip_witness :
    Qid.Unmarshal (({ Typ := QTDIR, Vers := 0, Path := 1 } : Qid).Marshal ++ [])
      = Result.ok ({ Typ := QTDIR, Vers := 0, Path := 1 }, []) :=
  (C13_qid_roundtrip { Typ := QTDIR, Vers := 0, Path := 1 } [] (by decide) (by decide)
    (by decide)).2.2.2.2

end Lux9

/-! ## C14 - C17: the block driver over any backend -/

namespace Lux9

namespace Storage

/-! ### Reads through a recording backend -/

/-- Storing what the backend returned into the next 512 bytes of a buffer whose tail is
still zero. -/
theorem copyAt_zero_tail (pre sec : List Nat) (lo k : Nat) (hpre : pre.length = lo) :
    copyAt (pre ++ List.replicate ((k + 1) * 512) 0) lo (sec.take 512)
      = (pre ++ pad512 sec) ++ List.replicate (k * 512) 0 := by
  have hm : (sec.take 512).length = min 512 sec.length := List.length_take _ _
  have h1 : (pre ++ List.replicate ((k + 1) * 512) 0).take lo = pre := List.take_left' hpre
  have h2 : (sec.take 512).take ((pre ++ List.replicate ((k + 1) * 512) 0).length - lo)
      = sec.take 512 := by
    apply List.take_of_length_le
    rw [List.length_append, List.length_replicate, hm]
    omega
  have h3 : (pre ++ List.replicate ((k + 1) * 512) 0).drop (lo + (sec.take 512).length)
      = List.replicate (512 - sec.length) 0 ++ List.replicate (k * 512) 0 := by
    rw [← hpre, List.drop_append, List.drop_replicate, hm, ← List.replicate_add]
    congr 1
    omega
  unfold copyAt pad512
  rw [h1, h2, h3]
  simp only [List.append_assoc]

theorem pad512_length (sec : List Nat) : (pad512 sec).length = 512 := by
  unfold pad512
  rw [List.length_append, List.length_take, List.length_replicate]
  omega

/-- The read loop over a recording backend, on a buffer whose tail is still zero: when it
ends without error it has logged one successful read per sector, in ascending order from
`startSector + i`, and the buffer holds what those reads returned. -/
theorem readSectors_logging {σ : Type} (drv : StorageDriver σ) (dev : Int) (start : Nat)
    (k : Nat) :
    ∀ (i : Nat) (st : σ) (log : List Access) (pre : List Nat) (s' : σ × List Access)
      (buf' : List Nat), pre.length = i * 512 →
      readSectors (logging drv) dev start k i (st, log) (pre ++ List.replicate (k * 512) 0)
        = (s', Except.ok buf') →
      ∃ secs : List (List Nat), secs.length = k
        ∧ s'.2 = log ++ readEntries dev (start + i) secs
        ∧ buf' = pre ++ (secs.map pad512).flatten := by
  induction k with
  | zero =>
    intro i st log pre s' buf' _ h
    simp only [readSectors, Nat.zero_mul, List.replicate_zero, List.append_nil,
      Prod.mk.injEq, Except.ok.injEq] at h
    refine ⟨[], rfl, ?_, ?_⟩
    · rw [← h.1]; simp [readEntries]
    · rw [← h.2]; simp
  | succ k ih =>
    intro i st log pre s' buf' hpre h
    simp only [readSectors, logging] at h
    cases hr : (drv.ReadSector st dev (start + i)).2 with
    | error e =>
      rw [hr] at h
      simp at h
    | ok sec =>
      rw [hr] at h
      simp only at h
      rw [copyAt_zero_tail pre sec (i * 512) k hpre] at h
      obtain ⟨secs, hlen, hlog, hbuf⟩ := ih (i + 1) _ _ (pre ++ pad512 sec) s' buf'
        (by rw [List.length_append, pad512_length, hpre]; omega) h
      refine ⟨sec :: secs, by rw [List.length_cons, hlen], ?_, ?_⟩
      · rw [hlog]
        simp only [readEntries, List.append_assoc, List.singleton_append]
        rw [Nat.add_assoc]
      · rw [hbuf]
        simp only [List.map_cons, List.flatten_cons, List.append_assoc]

/-- The data branch of `HandleRead` on the path `disk/N/data` of a valid device: the span
computation, the read loop and the final slice. -/
theorem HandleRead_dataPath {σ : Type} (b : BlockDeviceDriver σ) (st : σ)
    (N offset count : Nat) (hN : N < b.devices.length) (hN63 : N < 2 ^ 63)
    (hc : count < 2 ^ 32) :
    HandleRead b st (dataPath N) offset count =
      match readSectors b.driver (N : Int) (offset / 512)
          ((count + offset % 512 + 511) / 512) 0 st
          (List.replicate ((count + offset % 512 + 511) / 512 * 512) 0) with
      | (st, Except.error err) => (st, Result.error err)
      | (st, Except.ok buffer) =>
        (st, slice buffer (offset % 512)
          (if offset % 512 + count > buffer.length then buffer.length
            else offset % 512 + count)) := by
  have hs : sscanfDeviceID ((dataPath N).drop 5) = some (N : Int) := by
    rw [dataPath_drop]; exact sscanfDeviceID_decimal N _ hN63
  have hmod : (count + offset % 512 + 512 - 1) % 2 ^ 64 = count + offset % 512 + 511 := by
    rw [Nat.mod_eq_of_lt (by omega)]; omega
  have hn0 : ¬ ((count + offset % 512 + 511) / 512 = 0 ∧ count > 0) := by omega
  unfold HandleRead
  rw [if_pos (dataPath_head N), hs]
  simp only [ge_iff_le, Nat.cast_le, if_neg (Nat.not_le.mpr hN), if_neg (dataPath_base N),
    hmod, if_neg hn0]

theorem flatten_pad512_length (secs : List (List Nat)) :
    (secs.map pad512).flatten.length = secs.length * 512 := by
  induction secs with
  | nil => rfl
  | cons sec secs ih =>
    rw [List.map_cons, List.flatten_cons, List.length_append, pad512_length, ih,
      List.length_cons]
    omega

/-- C14. For every data read `(offset, count)` on the path `disk/N/data` of a valid device,
over any backend, in which no sector read fails: `HandleRead` issues `ReadSector` for
exactly the `ceil((count + offset mod 512) / 512)` consecutive sectors from sector
`floor(offset / 512)` on, in ascending order, and returns exactly `count` bytes, those at
positions `[offset mod 512, offset mod 512 + count)` of the concatenation of the sectors
read (the clamp to the buffer length does not shorten the result). -/
theorem C14_data_read {σ : Type} (drv : StorageDriver σ)
    (b : BlockDeviceDriver (σ × List Access)) (hb : b.driver = logging drv)
    (st : σ) (log : List Access) (N offset count : Nat)
    (hN : N < b.devices.length) (hN63 : N < 2 ^ 63) (hc : count < 2 ^ 32)
    (hok : ∀ e, (HandleRead b (st, log) (dataPath N) offset count).2 ≠ Result.error e) :
    ∃ (st' : σ) (secs : List (List Nat)),
      secs.length = (count + offset % 512 + 511) / 512
        ∧ HandleRead b (st, log) (dataPath N) offset count
          = ((st', log ++ readEntries (N : Int) (offset / 512) secs),
             Result.ok ((((secs.map pad512).flatten).drop (offset % 512)).take count))
        ∧ ((((secs.map pad512).flatten).drop (offset % 512)).take count).length = count := by
  have hHR := HandleRead_dataPath b (st, log) N offset count hN hN63 hc
  rw [hb] at hHR
  rw [hHR] at hok ⊢
  cases hrun : readSectors (logging drv) (N : Int) (offset / 512)
      ((count + offset % 512 + 511) / 512) 0 (st, log)
      (List.replicate ((count + offset % 512 + 511) / 512 * 512) 0) with
  | mk s' r =>
    cases r with
    | error e =>
      rw [hrun] at hok
      exact absurd rfl (hok e)
    | ok buf' =>
      obtain ⟨secs, hlen, hlog, hbuf⟩ := readSectors_logging drv (N : Int) (offset / 512)
        ((count + offset % 512 + 511) / 512) 0 st log [] s' buf' rfl
        (by rw [List.nil_append]; exact hrun)
      rw [List.nil_append] at hbuf
      rw [Nat.add_zero] at hlog
      have hfl : buf'.length = (count + offset % 512 + 511) / 512 * 512 := by
        rw [hbuf, flatten_pad512_length, hlen]
      have hs' : s' = (s'.1, log ++ readEntries (N : Int) (offset / 512) secs) := by
        rw [← hlog]
      refine ⟨s'.1, secs, hlen, ?_, ?_⟩
      · simp only
        rw [if_neg (by rw [hfl]; omega)]
        unfold slice
        rw [if_pos (by rw [hfl]; omega), Nat.add_sub_cancel_left, ← hbuf, ← hs']
      · rw [List.length_take, List.length_drop, flatten_pad512_length, hlen]
        omega

/-! ### Shape of a data read over any backend -/

/-- The read loop over any backend ends with the error of a failed sector read or with a
buffer of unchanged length. -/
theorem readSectors_shape {σ : Type} (drv : StorageDriver σ) (dev : Int) (start : Nat)
    (k : Nat) :
    ∀ (i : Nat) (st : σ) (buf : List Nat), (i + k) * 512 ≤ buf.length →
      (∃ lba e, (readSectors drv dev start k i st buf).2
          = Except.error (Err.failedToReadSector lba e))
        ∨ (∃ buf', (readSectors drv dev start k i st buf).2 = Except.ok buf'
            ∧ buf'.length = buf.length) := by
  induction k with
  | zero =>
    intro i st buf _
    exact Or.inr ⟨buf, rfl, rfl⟩
  | succ k ih =>
    intro i st buf hB
    simp only [readSectors]
    cases hr : drv.ReadSector st dev (start + i) with
    | mk st1 r =>
      cases r with
      | error e => exact Or.inl ⟨_, _, rfl⟩
      | ok sec =>
        have hcl : (copyAt buf (i * 512) (sec.take 512)).length = buf.length :=
          copyAt_length _ _ _ (by rw [List.length_take]; omega)
        rcases ih (i + 1) st1 (copyAt buf (i * 512) (sec.take 512)) (by rw [hcl]; omega)
          with h | ⟨buf', h1, h2⟩
        · exact Or.inl h
        · exact Or.inr ⟨buf', h1, by rw [h2, hcl]⟩

/-- C15, amended. `HandleRead` never consults the recorded capacity: on the path
`disk/N/data` of a valid device the result is the same whatever capacities (and models)
the device list records, and it is either the error of a failed sector read or exactly
`count` bytes, never a shorter read. -/
theorem C15_read_ignores_capacity {σ : Type} (b : BlockDeviceDriver σ) (st : σ)
    (N offset count : Nat) (hN : N < b.devices.length) (hN63 : N < 2 ^ 63)
    (hc : count < 2 ^ 32) :
    (∀ devices' : List StorageDevice, devices'.length = b.devices.length →
        HandleRead { b with devices := devices' } st (dataPath N) offset count
          = HandleRead b st (dataPath N) offset count)
      ∧ ((∃ lba e, (HandleRead b st (dataPath N) offset count).2
            = Result.error (Err.failedToReadSector lba e))
          ∨ (∃ data, (HandleRead b st (dataPath N) offset count).2 = Result.ok data
              ∧ data.length = count)) := by
  constructor
  · intro devices' hlen
    rw [HandleRead_dataPath b st N offset count hN hN63 hc,
      HandleRead_dataPath { b with devices := devices' } st N offset count
        (by rw [hlen]; exact hN) hN63 hc]
  · rw [HandleRead_dataPath b st N offset count hN hN63 hc]
    rcases readSectors_shape b.driver (N : Int) (offset / 512)
        ((count + offset % 512 + 511) / 512) 0 st
        (List.replicate ((count + offset % 512 + 511) / 512 * 512) 0)
        (by rw [List.length_replicate]; omega) with ⟨lba, e, h⟩ | ⟨buf', h1, h2⟩
    · left
      refine ⟨lba, e, ?_⟩
      revert h
      cases readSectors b.driver (N : Int) (offset / 512)
          ((count + offset % 512 + 511) / 512) 0 st
          (List.replicate ((count + offset % 512 + 511) / 512 * 512) 0) with
      | mk s1 r =>
        intro h
        simp only at h
        rw [h]
    · right
      rw [List.length_replicate] at h2
      revert h1
      cases readSectors b.driver (N : Int) (offset / 512)
          ((count + offset % 512 + 511) / 512) 0 st
          (List.replicate ((count + offset % 512 + 511) / 512 * 512) 0) with
      | mk s1 r =>
        intro h1
        simp only at h1
        rw [h1]
        simp only
        rw [if_neg (by rw [h2]; omega)]
        unfold slice
        rw [if_pos (by rw [h2]; omega)]
        refine ⟨_, rfl, ?_⟩
        rw [List.length_take, List.length_drop, h2]
        omega

/-! ### Writes through a recording backend -/

theorem logging_ReadSector {σ : Type} (drv : StorageDriver σ) (s : σ × List Access)
    (dev : Int) (lba : Nat) :
    (logging drv).ReadSector s dev lba
      = (((drv.ReadSector s.1 dev lba).1,
          s.2 ++ [Access.read dev lba (drv.ReadSector s.1 dev lba).2]),
         (drv.ReadSector s.1 dev lba).2) := rfl

theorem logging_WriteSector {σ : Type} (drv : StorageDriver σ) (s : σ × List Access)
    (dev : Int) (lba : Nat) (buf : List Nat) :
    (logging drv).WriteSector s dev lba buf
      = (((drv.WriteSector s.1 dev lba buf).1,
          s.2 ++ [Access.write dev lba buf (drv.WriteSector s.1 dev lba buf).2]),
         (drv.WriteSector s.1 dev lba buf).2) := rfl

/-- The read-modify-write loop over a recording backend logs reads only and keeps the
length of the buffer. -/
theorem rmwSectors_logging {σ : Type} (drv : StorageDriver σ) (dev : Int) (start : Nat)
    (k : Nat) :
    ∀ (i : Nat) (st : σ) (log : List Access) (buf : List Nat), (i + k) * 512 ≤ buf.length →
      ∃ rs, (rmwSectors (logging drv) dev start k i (st, log) buf).1.2 = log ++ rs
        ∧ (∀ a ∈ rs, a.isWrite = false)
        ∧ (rmwSectors (logging drv) dev start k i (st, log) buf).2.length = buf.length := by
  induction k with
  | zero =>
    intro i st log buf _
    exact ⟨[], by simp [rmwSectors], by simp, rfl⟩
  | succ k ih =>
    intro i st log buf hB
    simp only [rmwSectors, logging_ReadSector]
    cases hr : (drv.ReadSector st dev (start + i)).2 with
    | error e =>
      simp only
      have hcl : (copyAt buf (i * 512) (List.replicate 512 0)).length = buf.length :=
        copyAt_length _ _ _ (by rw [List.length_replicate]; omega)
      obtain ⟨rs, h1, h2, h3⟩ := ih (i + 1) (drv.ReadSector st dev (start + i)).1
        (log ++ [Access.read dev (start + i) (Except.error e)])
        (copyAt buf (i * 512) (List.replicate 512 0)) (by rw [hcl]; omega)
      refine ⟨Access.read dev (start + i) (Except.error e) :: rs, ?_, ?_, ?_⟩
      · rw [h1]; simp
      · intro a ha
        rcases List.mem_cons.mp ha with ha | ha
        · rw [ha]; rfl
        · exact h2 a ha
      · rw [h3, hcl]
    | ok sec =>
      simp only
      have hcl : (copyAt buf (i * 512) (sec.take 512)).length = buf.length :=
        copyAt_length _ _ _ (by rw [List.length_take]; omega)
      obtain ⟨rs, h1, h2, h3⟩ := ih (i + 1) (drv.ReadSector st dev (start + i)).1
        (log ++ [Access.read dev (start + i) (Except.ok sec)])
        (copyAt buf (i * 512) (sec.take 512)) (by rw [hcl]; omega)
      refine ⟨Access.read dev (start + i) (Except.ok sec) :: rs, ?_, ?_, ?_⟩
      · rw [h1]; simp
      · intro a ha
        rcases List.mem_cons.mp ha with ha | ha
        · rw [ha]; rfl
        · exact h2 a ha
      · rw [h3, hcl]

/-- The write loop over a recording backend: either every `WriteSector` succeeds and the
log gains the `k` writes in ascending order, or the first failure, at the `j`-th of them,
ends the loop with the count `uint32((i+j)*512)` and the error, the log having gained the
`j` successful writes and then the failed one. -/
theorem writeSectors_logging {σ : Type} (drv : StorageDriver σ) (dev : Int) (start : Nat)
    (buffer : List Nat) (k : Nat) :
    ∀ (i : Nat) (st : σ) (log : List Access),
      ((writeSectors (logging drv) dev start buffer k i (st, log)).2 = none
          ∧ (writeSectors (logging drv) dev start buffer k i (st, log)).1.2
            = log ++ writeEntries dev start buffer i k)
        ∨ (∃ j e, j < k
          ∧ (writeSectors (logging drv) dev start buffer k i (st, log)).2
            = some (((i + j) * 512) % 2 ^ 32, Err.failedToWriteSector (start + (i + j)) e)
          ∧ (writeSectors (logging drv) dev start buffer k i (st, log)).1.2
            = log ++ writeEntries dev start buffer i j
              ++ [Access.write dev (start + (i + j)) ((buffer.drop ((i + j) * 512)).take 512)
                    (some e)]) := by
  induction k with
  | zero =>
    intro i st log
    exact Or.inl ⟨rfl, by simp [writeSectors, writeEntries]⟩
  | succ k ih =>
    intro i st log
    simp only [writeSectors, logging_WriteSector]
    cases hw : (drv.WriteSector st dev (start + i) ((buffer.drop (i * 512)).take 512)).2 with
    | some e =>
      right
      exact ⟨0, e, by omega, by simp, by simp [writeEntries]⟩
    | none =>
      simp only
      rcases ih (i + 1)
          (drv.WriteSector st dev (start + i) ((buffer.drop (i * 512)).take 512)).1
          (log ++ [Access.write dev (start + i) ((buffer.drop (i * 512)).take 512) none])
        with ⟨h1, h2⟩ | ⟨j, e, hj, h1, h2⟩
      · left
        refine ⟨h1, ?_⟩
        rw [h2]
        simp [writeEntries]
      · right
        refine ⟨j + 1, e, by omega, ?_, ?_⟩
        · rw [h1]
          have e1 : i + 1 + j = i + (j + 1) := by omega
          rw [e1]
        · rw [h2]
          have e1 : i + 1 + j = i + (j + 1) := by omega
          rw [e1]
          simp [writeEntries]

/-- The data branch of `HandleWrite` on the path `disk/N/data` of a valid device: the span
computation, the optional read-modify-write loop, the copy of the data and the write
loop. -/
theorem HandleWrite_dataPath {σ : Type} (b : BlockDeviceDriver σ) (st : σ)
    (N offset : Nat) (data : List Nat) (hN : N < b.devices.length) (hN63 : N < 2 ^ 63)
    (hd : data.length < 2 ^ 32) :
    HandleWrite b st (dataPath N) offset data =
      match writeSectors b.driver (N : Int) (offset / 512)
          (copyAt
            (if offset % 512 > 0 ∨ data.length % 512 ≠ 0 then
              rmwSectors b.driver (N : Int) (offset / 512)
                ((data.length + offset % 512 + 511) / 512) 0 st
                (List.replicate ((data.length + offset % 512 + 511) / 512 * 512) 0)
            else (st, List.replicate ((data.length + offset % 512 + 511) / 512 * 512) 0)).2
            (offset % 512) data)
          ((data.length + offset % 512 + 511) / 512) 0
          (if offset % 512 > 0 ∨ data.length % 512 ≠ 0 then
              rmwSectors b.driver (N : Int) (offset / 512)
                ((data.length + offset % 512 + 511) / 512) 0 st
                (List.replicate ((data.length + offset % 512 + 511) / 512 * 512) 0)
            else (st, List.replicate ((data.length + offset % 512 + 511) / 512 * 512) 0)).1
        with
      | (st, some (n, err)) => (st, n, some err)
      | (st, none) => (st, data.length % 2 ^ 32, none) := by
  have hs : sscanfDeviceID ((dataPath N).drop 5) = some (N : Int) := by
    rw [dataPath_drop]; exact sscanfDeviceID_decimal N _ hN63
  have hmod : (data.length + offset % 512 + 512 - 1) % 2 ^ 64
      = data.length + offset % 512 + 511 := by
    rw [Nat.mod_eq_of_lt (by omega)]; omega
  have hn0 : ¬ ((data.length + offset % 512 + 511) / 512 = 0 ∧ data.length > 0) := by omega
  unfold HandleWrite
  rw [if_pos (dataPath_head N), hs]
  simp only [ge_iff_le, Nat.cast_le, if_neg (Nat.not_le.mpr hN), if_neg (dataPath_base N),
    hmod, if_neg hn0]

/-- C16. For every data write on the path `disk/N/data` of a valid device, over any
backend, whose span covers `n = ceil((len + offset mod 512) / 512)` sectors: after the reads
of the read-modify-write phase (`rs`, no write among them) either every `WriteSector`
succeeds, or `WriteSector` first fails on the `i`-th sector of the span (`i < n`), and then
`HandleWrite` returns the count `i * 512` together with the error, having issued
`WriteSector` for the span sectors `0 .. i` in ascending order and for no sector after
`i`. -/
theorem C16_short_write {σ : Type} (drv : StorageDriver σ)
    (b : BlockDeviceDriver (σ × List Access)) (hb : b.driver = logging drv)
    (st : σ) (log : List Access) (N offset : Nat) (data : List Nat)
    (hN : N < b.devices.length) (hN63 : N < 2 ^ 63)
    (hfit : data.length + offset % 512 < 2 ^ 32) :
    ∃ (rs : List Access) (buffer : List Nat), (∀ a ∈ rs, a.isWrite = false)
      ∧ ((∃ st', HandleWrite b (st, log) (dataPath N) offset data
            = ((st', log ++ rs ++ writeEntries (N : Int) (offset / 512) buffer 0
                  ((data.length + offset % 512 + 511) / 512)),
               data.length, none))
        ∨ (∃ st' i e, i < (data.length + offset % 512 + 511) / 512
            ∧ HandleWrite b (st, log) (dataPath N) offset data
              = ((st', log ++ rs ++ writeEntries (N : Int) (offset / 512) buffer 0 i
                    ++ [Access.write (N : Int) (offset / 512 + i)
                          ((buffer.drop (i * 512)).take 512) (some e)]),
                 i * 512, some (Err.failedToWriteSector (offset / 512 + i) e)))) := by
  have hd : data.length < 2 ^ 32 := by omega
  have hHW := HandleWrite_dataPath b (st, log) N offset data hN hN63 hd
  rw [hb] at hHW
  -- the state and the buffer after the read-modify-write phase
  have hp : ∃ (p : (σ × List Access) × List Nat) (rs : List Access),
      (if offset % 512 > 0 ∨ data.length % 512 ≠ 0 then
          rmwSectors (logging drv) (N : Int) (offset / 512)
            ((data.length + offset % 512 + 511) / 512) 0 (st, log)
            (List.replicate ((data.length + offset % 512 + 511) / 512 * 512) 0)
        else ((st, log),
          List.replicate ((data.length + offset % 512 + 511) / 512 * 512) 0)) = p
      ∧ p.1.2 = log ++ rs ∧ (∀ a ∈ rs, a.isWrite = false) := by
    by_cases hr : offset % 512 > 0 ∨ data.length % 512 ≠ 0
    · obtain ⟨rs, h1, h2, _⟩ := rmwSectors_logging drv (N : Int) (offset / 512)
        ((data.length + offset % 512 + 511) / 512) 0 st log
        (List.replicate ((data.length + offset % 512 + 511) / 512 * 512) 0)
        (by rw [List.length_replicate]; omega)
      exact ⟨_, rs, by rw [if_pos hr], h1, h2⟩
    · exact ⟨_, [], by rw [if_neg hr], by simp, by simp⟩
  obtain ⟨p, rs, hpe, hlog, hrs⟩ := hp
  rw [hpe] at hHW
  refine ⟨rs, copyAt p.2 (offset % 512) data, hrs, ?_⟩
  have hp1 : p.1 = (p.1.1, p.1.2) := rfl
  rw [hp1] at hHW
  rcases writeSectors_logging drv (N : Int) (offset / 512)
      (copyAt p.2 (offset % 512) data) ((data.length + offset % 512 + 511) / 512) 0
      p.1.1 p.1.2 with ⟨h1, h2⟩ | ⟨j, e, hj, h1, h2⟩
  · left
    revert h1 h2 hHW
    cases writeSectors (logging drv) (N : Int) (offset / 512)
        (copyAt p.2 (offset % 512) data) ((data.length + offset % 512 + 511) / 512) 0
        (p.1.1, p.1.2) with
    | mk s1 r =>
      intro hHW h1 h2
      simp only at h1 h2
      subst h1
      refine ⟨s1.1, ?_⟩
      rw [hHW]
      simp only
      rw [Nat.mod_eq_of_lt hd, ← hlog, ← h2]
  · right
    revert h1 h2 hHW
    cases writeSectors (logging drv) (N : Int) (offset / 512)
        (copyAt p.2 (offset % 512) data) ((data.length + offset % 512 + 511) / 512) 0
        (p.1.1, p.1.2) with
    | mk s1 r =>
      intro hHW h1 h2
      simp only at h1 h2
      subst h1
      refine ⟨s1.1, j, e, hj, ?_⟩
      rw [hHW]
      simp only [Nat.zero_add]
      rw [Nat.mod_eq_of_lt (by omega), ← hlog]
      simp only [Nat.zero_add] at h2
      rw [← h2]

set_option maxRecDepth 100000 in
/-- Witness for `C14_data_read`: three bytes read at offset 500 of the one-sector device. -/
theorem C14_data_read_witness :
    ∃ (st' : MemDisk) (secs : List (List Nat)),
      secs.length = (3 + 500 % 512 + 511) / 512
        ∧ HandleRead recordingExampleDriver (exampleDisk, []) (dataPath 0) 500 3
          = ((st', [] ++ readEntries ((0 : Nat) : Int) (500 / 512) secs),
             Result.ok ((((secs.map pad512).flatten).drop (500 % 512)).take 3))
        ∧ ((((secs.map pad512).flatten).drop (500 % 512)).take 3).length = 3 :=
  C14_data_read MemDisk.driver recordingExampleDriver rfl exampleDisk [] 0 500 3
    (by decide) (by decide) (by decide)
    (fun e h => by
      have hv : (HandleRead recordingExampleDriver (exampleDisk, []) (dataPath 0) 500 3).2
          = Result.ok [0, 0, 0] := by decide
      rw [hv] at h
      cases h)

set_option maxRecDepth 100000 in
/-- C15, as stated, fails. The device list records a capacity of one sector and the backend
holds one sector. A read of one byte at offset 512 (at the device end, where the claim
returns zero bytes without error) and a read of 1024 bytes at offset 0 (across the device
end, where the claim returns the 512 bytes before it) both issue `ReadSector` for sector 1
and return its error. -/
theorem C15_short_read_counterexample :
    exampleDriver.devices.map StorageDevice.Capacity = [1]
      ∧ (HandleRead exampleDriver exampleDisk (dataPath 0) 512 1).2
        = Result.error (Err.failedToReadSector 1 (Err.backend "sector out of range"))
      ∧ (HandleRead exampleDriver exampleDisk (dataPath 0) 0 1024).2
        = Result.error (Err.failedToReadSector 1 (Err.backend "sector out of range")) := by
  decide

/-- Witness for `C15_read_ignores_capacity`: the one-sector device, read at offset 0. -/
theorem C15_read_ignores_capacity_witness :
    (∀ devices' : List StorageDevice, devices'.length = exampleDriver.devices.length →
        HandleRead { exampleDriver with devices := devices' } exampleDisk (dataPath 0) 0 4
          = HandleRead exampleDriver exampleDisk (dataPath 0) 0 4)
      ∧ ((∃ lba e, (HandleRead exampleDriver exampleDisk (dataPath 0) 0 4).2
            = Result.error (Err.failedToReadSector lba e))
          ∨ (∃ data, (HandleRead exampleDriver exampleDisk (dataPath 0) 0 4).2 = Result.ok data
              ∧ data.length = 4)) :=
  C15_read_ignores_capacity exampleDriver exampleDisk 0 0 4 (by decide) (by decide)
    (by decide)

/-- Witness for `C16_short_write`: 600 bytes written at offset 0 of the one-sector device,
a span of two sectors of which the backend holds the first only. -/
theorem C16_short_write_witness :
    ∃ (rs : List Access) (buffer : List Nat), (∀ a ∈ rs, a.isWrite = false)
      ∧ ((∃ st', HandleWrite recordingExampleDriver (exampleDisk, []) (dataPath 0) 0
              (List.replicate 600 1)
            = ((st', [] ++ rs ++ writeEntries ((0 : Nat) : Int) (0 / 512) buffer 0
                  (((List.replicate 600 1).length + 0 % 512 + 511) / 512)),
               (List.replicate 600 1).length, none))
        ∨ (∃ st' i e, i < ((List.replicate 600 1).length + 0 % 512 + 511) / 512
            ∧ HandleWrite recordingExampleDriver (exampleDisk, []) (dataPath 0) 0
                (List.replicate 600 1)
              = ((st', [] ++ rs ++ writeEntries ((0 : Nat) : Int) (0 / 512) buffer 0 i
                    ++ [Access.write ((0 : Nat) : Int) (0 / 512 + i)
                          ((buffer.drop (i * 512)).take 512) (some e)]),
                 i * 512, some (Err.failedToWriteSector (0 / 512 + i) e)))) :=
  C16_short_write MemDisk.driver recordingExampleDriver rfl exampleDisk [] 0 0
    (List.replicate 600 1) (by decide) (by decide)
    (by rw [List.length_replicate]; decide)

set_option maxRecDepth 100000 in
/-- The run of the witness of C16, evaluated: the write of sector 0 succeeds, the write of
sector 1 fails, and `HandleWrite` returns the count 512 with the error. -/
theorem short_write_example :
    (HandleWrite recordingExampleDriver (exampleDisk, []) (dataPath 0) 0
        (List.replicate 600 1)).2
      = (512, some (Err.failedToWriteSector 1 (Err.backend "sector out of range"))) := by
  decide

set_option maxRecDepth 100000 in
/-- C17, the code at the failing inputs (one device, one zeroed sector). The path
`disk/0/foo` names no file of the tree, yet `HandleRead` serves it as the data file and
`HandleWrite` writes the device through it; `disk/0/foo/ctl` is served as the control
file; a path with white space and a sign before the device number is accepted too. -/
theorem C17_lenient_path_evaluation :
    (HandleRead exampleDriver exampleDisk "disk/0/foo".toList 0 3).2 = Result.ok [0, 0, 0]
      ∧ (HandleWrite exampleDriver exampleDisk "disk/0/foo".toList 0 [1, 2, 3]).2 = (3, none)
      ∧ (HandleRead exampleDriver
          (HandleWrite exampleDriver exampleDisk "disk/0/foo".toList 0 [1, 2, 3]).1
          "disk/0/data".toList 0 3).2 = Result.ok [1, 2, 3]
      ∧ (HandleRead exampleDriver exampleDisk "disk/0/foo/ctl".toList 0 3).2
        = Result.ok (bytesOf
            "device: 0\nmodel: \ncapacity: 1 sectors\nsector_size: 512\n".toList)
      ∧ (HandleRead exampleDriver exampleDisk "disk/ +0/data".toList 0 3).2
        = Result.ok [0, 0, 0] :=
  ⟨by decide, by decide, by decide, rfl, by decide⟩

end Storage

end Lux9

/-! ## C19, C20: partitions -/

namespace Lux9

namespace Ahci

set_option maxRecDepth 100000 in
theorem hex02_eq : ∀ t, t < 256 →
    hex02 t = ['0', 'x', Nat.digitChar (t / 16), Nat.digitChar (t % 16)] := by
  decide

theorem or_shift_eq (a b c d : Nat) (ha : a < 256) (hb : b < 256) (hc : c < 256)
    (_hd : d < 256) :
    a ||| b <<< 8 ||| c <<< 16 ||| d <<< 24 = a + b * 2 ^ 8 + c * 2 ^ 16 + d * 2 ^ 24 := by
  have h1 : a ||| b <<< 8 = a + b * 2 ^ 8 := by
    rw [Nat.lor_comm, Nat.shiftLeft_eq, Nat.mul_comm b, ← Nat.mul_add_lt_is_or (by omega)]
    omega
  have h2 : a + b * 2 ^ 8 ||| c <<< 16 = a + b * 2 ^ 8 + c * 2 ^ 16 := by
    rw [Nat.lor_comm, Nat.shiftLeft_eq, Nat.mul_comm c, ← Nat.mul_add_lt_is_or (by omega)]
    omega
  have h3 : a + b * 2 ^ 8 + c * 2 ^ 16 ||| d <<< 24
      = a + b * 2 ^ 8 + c * 2 ^ 16 + d * 2 ^ 24 := by
    rw [Nat.lor_comm, Nat.shiftLeft_eq, Nat.mul_comm d, ← Nat.mul_add_lt_is_or (by omega)]
    omega
  rw [h1, h2, h3]

theorem getD_lt_of_bytes (mbr : List Nat) (hb : ∀ x ∈ mbr, x < 256) (j : Nat) :
    mbr.getD j 0 < 256 := by
  rw [List.getD_eq_getElem?_getD]
  cases h : mbr[j]? with
  | none => simp
  | some x =>
    simp only [Option.getD_some]
    exact hb x (List.getElem?_mem h)

theorem getD_take_drop (mbr : List Nat) (off n j : Nat) (hj : j < n) :
    ((mbr.drop off).take n).getD j 0 = mbr.getD (off + j) 0 := by
  rw [List.getD_eq_getElem?_getD, List.getD_eq_getElem?_getD, List.getElem?_take,
    if_pos hj, List.getElem?_drop]

/-- One iteration of the loop of `parseMBR` on a 512-byte sector: it appends the
partition of table entry `i`, if there is one. -/
theorem parseMBRLoop_step (mbr : List Nat) (hlen : mbr.length = 512)
    (hb : ∀ x ∈ mbr, x < 256) (k i : Nat) (parts : List Partition) (hi : i < 4) :
    parseMBRLoop mbr (k + 1) i parts
      = parseMBRLoop mbr k (i + 1) (parts ++ (mbrEntry mbr i).toList) := by
  have hg : ∀ j, j < 16 →
      ((mbr.drop (446 + i * 16)).take 16).getD j 0 = mbr.getD (446 + i * 16 + j) 0 :=
    fun j hj => getD_take_drop mbr _ 16 j hj
  have hu : ∀ off, uint32LE ((mbr.drop off).take 4)
      = mbr.getD off 0 + mbr.getD (off + 1) 0 * 2 ^ 8 + mbr.getD (off + 2) 0 * 2 ^ 16
        + mbr.getD (off + 3) 0 * 2 ^ 24 := by
    intro off
    unfold uint32LE
    rw [getD_take_drop mbr off 4 0 (by omega), getD_take_drop mbr off 4 1 (by omega),
      getD_take_drop mbr off 4 2 (by omega), getD_take_drop mbr off 4 3 (by omega)]
    rfl
  have hB := getD_lt_of_bytes mbr hb
  have hmul : 446 + 16 * i = 446 + i * 16 := by omega
  rw [parseMBRLoop]
  simp only
  rw [if_neg (by rw [hlen]; omega), hg 4 (by omega)]
  unfold mbrEntry
  simp only
  rw [hmul]
  by_cases ht : mbr.getD (446 + i * 16 + 4) 0 = 0
  · rw [if_pos ht, if_pos ht]
    simp
  · rw [if_neg ht, if_neg ht, hg 8 (by omega), hg 9 (by omega), hg 10 (by omega),
      hg 11 (by omega), hg 12 (by omega), hg 13 (by omega), hg 14 (by omega),
      hg 15 (by omega), or_shift_eq _ _ _ _ (hB _) (hB _) (hB _) (hB _),
      or_shift_eq _ _ _ _ (hB _) (hB _) (hB _) (hB _), hex02_eq _ (hB _), hu, hu]
    have e1 : 446 + i * 16 + 8 + 1 = 446 + i * 16 + 9 := by omega
    have e2 : 446 + i * 16 + 8 + 2 = 446 + i * 16 + 10 := by omega
    have e3 : 446 + i * 16 + 8 + 3 = 446 + i * 16 + 11 := by omega
    have e4 : 446 + i * 16 + 12 + 1 = 446 + i * 16 + 13 := by omega
    have e5 : 446 + i * 16 + 12 + 2 = 446 + i * 16 + 14 := by omega
    have e6 : 446 + i * 16 + 12 + 3 = 446 + i * 16 + 15 := by omega
    rw [e1, e2, e3, e4, e5, e6]
    have h8 := hB (446 + i * 16 + 8)
    have h9 := hB (446 + i * 16 + 9)
    have h10 := hB (446 + i * 16 + 10)
    have h11 := hB (446 + i * 16 + 11)
    have h12 := hB (446 + i * 16 + 12)
    have h13 := hB (446 + i * 16 + 13)
    have h14 := hB (446 + i * 16 + 14)
    have h15 := hB (446 + i * 16 + 15)
    have hend : (mbr.getD (446 + i * 16 + 8) 0 + mbr.getD (446 + i * 16 + 9) 0 * 2 ^ 8
          + mbr.getD (446 + i * 16 + 10) 0 * 2 ^ 16 + mbr.getD (446 + i * 16 + 11) 0 * 2 ^ 24
          + (mbr.getD (446 + i * 16 + 12) 0 + mbr.getD (446 + i * 16 + 13) 0 * 2 ^ 8
            + mbr.getD (446 + i * 16 + 14) 0 * 2 ^ 16
            + mbr.getD (446 + i * 16 + 15) 0 * 2 ^ 24)
          + (2 ^ 64 - 1)) % 2 ^ 64
        = if mbr.getD (446 + i * 16 + 8) 0 + mbr.getD (446 + i * 16 + 9) 0 * 2 ^ 8
              + mbr.getD (446 + i * 16 + 10) 0 * 2 ^ 16
              + mbr.getD (446 + i * 16 + 11) 0 * 2 ^ 24
              + (mbr.getD (446 + i * 16 + 12) 0 + mbr.getD (446 + i * 16 + 13) 0 * 2 ^ 8
                + mbr.getD (446 + i * 16 + 14) 0 * 2 ^ 16
                + mbr.getD (446 + i * 16 + 15) 0 * 2 ^ 24) = 0
          then 2 ^ 64 - 1
          else mbr.getD (446 + i * 16 + 8) 0 + mbr.getD (446 + i * 16 + 9) 0 * 2 ^ 8
              + mbr.getD (446 + i * 16 + 10) 0 * 2 ^ 16
              + mbr.getD (446 + i * 16 + 11) 0 * 2 ^ 24
              + (mbr.getD (446 + i * 16 + 12) 0 + mbr.getD (446 + i * 16 + 13) 0 * 2 ^ 8
                + mbr.getD (446 + i * 16 + 14) 0 * 2 ^ 16
                + mbr.getD (446 + i * 16 + 15) 0 * 2 ^ 24) - 1 := by
      split_ifs <;> omega
    rw [hend]
    rfl

/-- C19. For every 512-byte sector 0, `parseMBR` returns nil and sets the partition list
of the device to exactly one partition per table entry `i` in `{0, 1, 2, 3}` whose type
byte is non-zero, in entry order, as `mbrEntry` describes it: number `i + 1`, start LBA the
little-endian u32 at entry offset 8, end LBA `start + count - 1` (64-bit arithmetic) with
`count` the little-endian u32 at entry offset 12, type `0x` and two lower-case hexadecimal
digits; an entry of type 0 produces no partition. -/
theorem C19_parseMBR {π : Type} (dev : BlockDevice π) (mbr : List Nat)
    (hlen : mbr.length = 512) (hb : ∀ x ∈ mbr, x < 256) :
    parseMBR dev mbr
      = ({ dev with Partitions := (List.range 4).filterMap (mbrEntry mbr) }, none) := by
  have hr : (List.range 4).filterMap (mbrEntry mbr)
      = (mbrEntry mbr 0).toList ++ (mbrEntry mbr 1).toList ++ (mbrEntry mbr 2).toList
        ++ (mbrEntry mbr 3).toList := by
    have h4 : List.range 4 = [0, 1, 2, 3] := by decide
    rw [h4]
    simp only [List.filterMap_cons, List.filterMap_nil]
    cases mbrEntry mbr 0 <;> cases mbrEntry mbr 1 <;> cases mbrEntry mbr 2
      <;> cases mbrEntry mbr 3 <;> rfl
  unfold parseMBR
  rw [hr, parseMBRLoop_step mbr hlen hb 3 0 [] (by omega),
    parseMBRLoop_step mbr hlen hb 2 1 _ (by omega),
    parseMBRLoop_step mbr hlen hb 1 2 _ (by omega),
    parseMBRLoop_step mbr hlen hb 0 3 _ (by omega)]
  simp only [parseMBRLoop, List.nil_append]

set_option maxRecDepth 100000 in
/-- Witness for `C19_parseMBR`: scenario S5 yields the one partition number 1, sectors 2048
to 206847, type `0x83`. -/
theorem C19_parseMBR_witness :
    parseMBR exampleDevice s5Sector
      = ({ exampleDevice with
            Partitions := [{ Number := 1, StartLBA := 2048, EndLBA := 206847,
                             Typ := "0x83".toList, Name := "partition1".toList }] },
         none) :=
  (C19_parseMBR exampleDevice s5Sector (by decide) (by decide)).trans
    (by
      have h : (List.range 4).filterMap (mbrEntry s5Sector)
          = [{ Number := 1, StartLBA := 2048, EndLBA := 206847,
               Typ := "0x83".toList, Name := "partition1".toList }] := by decide
      rw [h])

/-! ### Control commands -/

/-- The three cases of `writeCtl`: a flush command runs `Flush`, a rescan command runs
`rescanPartitions`, both returning the number of bytes written with the error of the
command; everything else is an unknown command with count 0. -/
theorem writeCtl_cases {π : Type} (ops : PortOps π) (dev : BlockDevice π) (data : List Nat) :
    ((data = ascii "flush\n" ∨ data = ascii "flush") →
        writeCtl ops dev data
          = ({ dev with Port := (ops.Flush dev.Port).1 }, data.length,
             (ops.Flush dev.Port).2))
      ∧ ((data = ascii "rescan\n" ∨ data = ascii "rescan") →
        writeCtl ops dev data
          = ((rescanPartitions ops dev).1, data.length, (rescanPartitions ops dev).2))
      ∧ (¬ (data = ascii "flush\n" ∨ data = ascii "flush" ∨ data = ascii "rescan\n"
            ∨ data = ascii "rescan") →
        writeCtl ops dev data = (dev, 0, some (Err.unknownControlCommand data))) := by
  refine ⟨fun h => ?_, fun h => ?_, fun h => ?_⟩
  · have hl : data.length % 2 ^ 32 = data.length := by
      rcases h with h | h <;> rw [h] <;> decide
    unfold writeCtl
    rw [if_pos h, hl]
  · have hl : data.length % 2 ^ 32 = data.length := by
      rcases h with h | h <;> rw [h] <;> decide
    have hn : ¬ (data = ascii "flush\n" ∨ data = ascii "flush") := by
      rcases h with h | h <;> rw [h] <;> decide
    unfold writeCtl
    rw [if_neg hn, if_pos h, hl]
  · unfold writeCtl
    rw [if_neg (fun h' => h (by tauto)), if_neg (fun h' => h (by tauto))]

set_option maxRecDepth 100000 in
/-- C20, the code at the failing inputs. On a device of 512-byte sectors whose partition 0
spans the sectors 2048 to 206847 inclusive, a read and a write of the one sector 206847,
the last of the partition, fail the bounds check: the read is answered with end-of-file,
the write with the boundary error. The same requests on the sector before are delegated
to the port at absolute LBA 206846. -/
theorem C20_last_sector_evaluation :
    (readPartition okPort exampleDevice 0 (204799 * 512) 512).2 = Result.error Err.EOF
      ∧ (writePartition okPort exampleDevice 0 (204799 * 512) (List.replicate 512 1)).2
        = Result.error Err.writeBeyondPartition
      ∧ (readPartition okPort exampleDevice 0 (204798 * 512) 512).2
        = Result.ok (List.replicate 512 0)
      ∧ (writePartition okPort exampleDevice 0 (204798 * 512) (List.replicate 512 1)).2
        = Result.ok 512 := by
  decide

/-- Every read whose span ends exactly on the last sector `EndLBA` of its partition is
answered with end-of-file: the check `absoluteLBA + sectors > EndLBA` treats `EndLBA` as
exclusive. -/
theorem readPartition_last_sector {π : Type} (ops : PortOps π) (dev : BlockDevice π)
    (k : Nat) (part : Partition) (offset count : Nat)
    (hk : dev.Partitions.get? k = some part)
    (hss : 0 < dev.SectorSize) (hc : count + dev.SectorSize - 1 < 2 ^ 32)
    (hend : part.StartLBA + offset / dev.SectorSize
      + (count + dev.SectorSize - 1) / dev.SectorSize = part.EndLBA + 1)
    (h64 : part.EndLBA + 1 < 2 ^ 64) :
    readPartition ops dev (k : Int) offset count = (dev, Result.error Err.EOF) := by
  have hlt : k < dev.Partitions.length := by
    by_contra hge
    rw [List.get?_eq_none.mpr (by omega)] at hk
    cases hk
  have hsec : (count + dev.SectorSize + (2 ^ 32 - 1)) % 2 ^ 32
      = count + dev.SectorSize - 1 := by
    omega
  have hle : (count + dev.SectorSize - 1) / dev.SectorSize ≤ count + dev.SectorSize - 1 :=
    Nat.div_le_self _ _
  unfold readPartition
  rw [if_neg (by omega), if_neg (by omega)]
  simp only [Int.toNat_ofNat, hk, if_neg (Nat.pos_iff_ne_zero.mp hss), hsec]
  have hc0 := Nat.zero_le ((count + dev.SectorSize - 1) / dev.SectorSize)
  have hS : part.StartLBA + offset / dev.SectorSize < 2 ^ 64 := by omega
  have hT : part.StartLBA + offset / dev.SectorSize
      + (count + dev.SectorSize - 1) / dev.SectorSize < 2 ^ 64 := by omega
  rw [Nat.mod_eq_of_lt hS, Nat.mod_eq_of_lt hT, if_pos (by omega)]

end Ahci

end Lux9

/-! ## C18: writes to the control file -/

namespace Lux9

open Storage Ahci

theorem ctlPath_head (N : Nat) :
    (ctlPath N).length ≥ 5 ∧ (ctlPath N).take 5 = "disk/".toList := by
  constructor
  · simp [ctlPath]
  · simp [ctlPath]

theorem ctlPath_drop (N : Nat) :
    (ctlPath N).drop 5 = Nat.toDigits 10 N ++ '/' :: "ctl".toList := by
  simp [ctlPath]

theorem ctlPath_base (N : Nat) : filepathBase (ctlPath N) = "ctl".toList := by
  simp [filepathBase, ctlPath]

/-- The control branch of `HandleWrite`: every write to `disk/N/ctl` of a valid device is
refused as read-only, whatever the bytes. -/
theorem HandleWrite_ctlPath {σ : Type} (b : BlockDeviceDriver σ) (st : σ) (N offset : Nat)
    (data : List Nat) (hN : N < b.devices.length) (hN63 : N < 2 ^ 63) :
    HandleWrite b st (ctlPath N) offset data = (st, 0, some Err.controlFileReadOnly) := by
  have hs : sscanfDeviceID ((ctlPath N).drop 5) = some (N : Int) := by
    rw [ctlPath_drop]; exact sscanfDeviceID_decimal N _ hN63
  unfold HandleWrite
  rw [if_pos (ctlPath_head N), hs]
  simp only [ge_iff_le, Nat.cast_le, if_neg (Nat.not_le.mpr hN), ctlPath_base N, if_true]

set_option maxRecDepth 100000 in
/-- C18, as stated, fails. The bytes `flush`, CR, LF and `flush`, LF, LF trim to `flush`, and
`rescan`, space, LF trims to `rescan`, yet `writeCtl` answers each with count 0 and the
error "unknown control command"; and `HandleWrite` of the block driver refuses the plain
command `flush` on `disk/0/ctl` as a write to a read-only file. -/
theorem C18_ctl_write_counterexample :
    trimSpace (ascii "flush\r\n") = ascii "flush"
      ∧ (writeCtl okPort exampleDevice (ascii "flush\r\n")).2
        = (0, some (Err.unknownControlCommand (ascii "flush\r\n")))
      ∧ trimSpace (ascii "flush\n\n") = ascii "flush"
      ∧ (writeCtl okPort exampleDevice (ascii "flush\n\n")).2
        = (0, some (Err.unknownControlCommand (ascii "flush\n\n")))
      ∧ trimSpace (ascii "rescan \n") = ascii "rescan"
      ∧ (writeCtl okPort exampleDevice (ascii "rescan \n")).2
        = (0, some (Err.unknownControlCommand (ascii "rescan \n")))
      ∧ (HandleWrite exampleDriver exampleDisk "disk/0/ctl".toList 0 (ascii "flush")).2
        = (0, some Err.controlFileReadOnly) := by
  decide

/-- C18, amended. `writeCtl` accepts a write exactly when the written bytes are `flush`,
`flush` with one line feed, `rescan`, or `rescan` with one line feed: it then runs the
command (`Flush` of the port, or `rescanPartitions`) and returns the number of bytes written
together with the error of the command; every other byte string, a command with any other
surrounding white space included, returns count 0 and the error "unknown control command"
and leaves the device unchanged. `HandleWrite` of the block driver refuses every write to
`disk/N/ctl` as read-only. -/
theorem C18_ctl_write {π σ : Type} (ops : PortOps π) (dev : BlockDevice π)
    (b : BlockDeviceDriver σ) (st : σ) (N offset : Nat) (data : List Nat)
    (hN : N < b.devices.length) (hN63 : N < 2 ^ 63) :
    ((data = ascii "flush\n" ∨ data = ascii "flush") →
        writeCtl ops dev data
          = ({ dev with Port := (ops.Flush dev.Port).1 }, data.length,
             (ops.Flush dev.Port).2))
      ∧ ((data = ascii "rescan\n" ∨ data = ascii "rescan") →
        writeCtl ops dev data
          = ((rescanPartitions ops dev).1, data.length, (rescanPartitions ops dev).2))
      ∧ (¬ (data = ascii "flush\n" ∨ data = ascii "flush" ∨ data = ascii "rescan\n"
            ∨ data = ascii "rescan") →
        writeCtl ops dev data = (dev, 0, some (Err.unknownControlCommand data)))
      ∧ HandleWrite b st (ctlPath N) offset data = (st, 0, some Err.controlFileReadOnly) :=
  ⟨(writeCtl_cases ops dev data).1, (writeCtl_cases ops dev data).2.1,
    (writeCtl_cases ops dev data).2.2, HandleWrite_ctlPath b st N offset data hN hN63⟩

/-- Witness for `C18_ctl_write`: the command `flush` with one line feed on the example
device, and the same bytes written to `disk/0/ctl` of the block driver. -/
theorem C18_ctl_write_witness :
    writeCtl okPort exampleDevice (ascii "flush\n")
        = ({ exampleDevice with Port := (okPort.Flush exampleDevice.Port).1 },
           (ascii "flush\n").length, (okPort.Flush exampleDevice.Port).2)
      ∧ HandleWrite exampleDriver exampleDisk (ctlPath 0) 0 (ascii "flush\n")
        = (exampleDisk, 0, some Err.controlFileReadOnly) :=
  ⟨(C18_ctl_write okPort exampleDevice exampleDriver exampleDisk 0 0 (ascii "flush\n")
      (by decide) (by decide)).1 (Or.inl rfl),
   (C18_ctl_write okPort exampleDevice exampleDriver exampleDisk 0 0 (ascii "flush\n")
      (by decide) (by decide)).2.2.2⟩

end Lux9

/-! ## The framebuffer driver -/

namespace Lux9

namespace Fb

open Storage

set_option linter.unusedVariables false

/-! ### PutPixel on a correctly sized screen -/

theorem wrapInt_eq (v : Int) (h1 : -(2 ^ 63) ≤ v) (h2 : v < 2 ^ 63) : wrapInt v = v := by
  unfold wrapInt; omega

theorem store_eq (buf : List Nat) (i : Nat) (v : Nat) (h : i < buf.length) :
    store buf (i : Int) v = Result.ok (buf.set i v) := by
  unfold store
  rw [if_pos ⟨by omega, by omega⟩]
  rfl

theorem store_add (buf : List Nat) (i k : Nat) (v : Nat) (h : i + k < buf.length) :
    store buf ((i : Int) + (k : Int)) v = Result.ok (buf.set (i + k) v) := by
  have := store_eq buf (i + k) v h
  rwa [Nat.cast_add] at this

theorem ok_bind {α β : Type} (a : α) (f : α → Result β) : (Result.ok a >>= f) = f a := rfl

theorem getElem?_set_copy (buf : List Nat) (i : Nat) (v : Nat) (j : Nat) :
    (buf.set i v)[j]? = if i = j then (if j < buf.length then some v else none) else buf[j]? := by
  rw [List.getElem?_set]
  by_cases h : i = j
  · simp [h]
  · simp [h]

theorem pixelBytes_length_le (format : PixelFormat) (color : Color) :
    (pixelBytes format color).length ≤ 4 := by
  cases format <;> simp [pixelBytes]

theorem copyAt_ext (buf : List Nat) (o : Nat) (bytes res : List Nat)
    (h : o + bytes.length ≤ buf.length)
    (hres : ∀ j, res[j]? = if o ≤ j ∧ j < o + bytes.length then bytes[j - o]? else buf[j]?) :
    res = Storage.copyAt buf o bytes := by
  apply List.ext_getElem?
  intro j
  rw [Storage.getElem?_copyAt _ _ _ h, hres]

theorem sets_eq_copyAt (buf : List Nat) (o : Nat) (a b c d : Nat) (h : o + 4 ≤ buf.length) :
    (buf.set (o + 0) a).set (o + 1) b = Storage.copyAt buf o [a, b]
    ∧ ((buf.set (o + 0) a).set (o + 1) b).set (o + 2) c = Storage.copyAt buf o [a, b, c]
    ∧ (((buf.set (o + 0) a).set (o + 1) b).set (o + 2) c).set (o + 3) d
        = Storage.copyAt buf o [a, b, c, d] := by
  refine ⟨?_, ?_, ?_⟩ <;>
  · apply copyAt_ext _ _ _ _ (by simp only [List.length_cons, List.length_nil]; omega)
    intro j
    simp only [getElem?_set_copy, List.length_set, List.length_cons, List.length_nil]
    by_cases h0 : j < o
    · simp [show ¬ (o ≤ j) by omega, show o + 3 ≠ j by omega, show o + 2 ≠ j by omega,
        show o + 1 ≠ j by omega, show o ≠ j by omega]
    by_cases h4 : o + 4 ≤ j
    · simp [show ¬ (j < o + 4) by omega, show ¬ (j < o + 3) by omega,
        show ¬ (j < o + 2) by omega,
        show o + 3 ≠ j by omega, show o + 2 ≠ j by omega,
        show o + 1 ≠ j by omega, show o ≠ j by omega]
    obtain ⟨k, hk, hj⟩ : ∃ k, k < 4 ∧ j = o + k := ⟨j - o, by omega, by omega⟩
    subst hj
    interval_cases k <;>
      simp [show o < buf.length by omega, show o + 1 < buf.length by omega,
        show o + 2 < buf.length by omega, show o + 3 < buf.length by omega]

theorem putBytes_eq (format : PixelFormat) (buf : List Nat) (o : Nat) (c : Color)
    (h : o + 4 ≤ buf.length) :
    putBytes format buf (o : Int) c = Result.ok (Storage.copyAt buf o (pixelBytes format c)) := by
  have e0 : ((o : Int) + 0) = ((o : Int) + ((0 : Nat) : Int)) := by simp
  have e1 : ((o : Int) + 1) = ((o : Int) + ((1 : Nat) : Int)) := by simp
  have e2 : ((o : Int) + 2) = ((o : Int) + ((2 : Nat) : Int)) := by simp
  have e3 : ((o : Int) + 3) = ((o : Int) + ((3 : Nat) : Int)) := by simp
  cases format
  · simp only [putBytes, e0, e1, e2, e3]
    rw [store_add, ok_bind, store_add, ok_bind, store_add, ok_bind, store_add]
    · rw [(sets_eq_copyAt buf o _ _ _ _ h).2.2]; rfl
    all_goals first | omega | (simp only [List.length_set]; omega)
  · simp only [putBytes, e0, e1, e2, e3]
    rw [store_add, ok_bind, store_add, ok_bind, store_add, ok_bind, store_add]
    · rw [(sets_eq_copyAt buf o _ _ _ _ h).2.2]; rfl
    all_goals first | omega | (simp only [List.length_set]; omega)
  · simp only [putBytes, e0, e1, e2, e3]
    rw [store_add, ok_bind, store_add, ok_bind, store_add]
    · rw [(sets_eq_copyAt buf o _ _ _ 0 h).2.1]; rfl
    all_goals first | omega | (simp only [List.length_set]; omega)
  · simp only [putBytes, e0, e1, e2, e3]
    rw [store_add, ok_bind, store_add]
    · rw [(sets_eq_copyAt buf o _ _ 0 0 h).1]; rfl
    all_goals first | omega | (simp only [List.length_set]; omega)

theorem pixelOffset_spec (s : Screen) (x y : Int) (hs : Sized s) (hb : InBounds s x y) :
    wrapInt (wrapInt (y * s.Pitch) + wrapInt (x * 4)) = (pixelOffset s x y : Int)
    ∧ pixelOffset s x y + 4 ≤ s.buffer.length
    ∧ (pixelOffset s x y : Int) = y * s.Pitch + x * 4 := by
  obtain ⟨h1, h2, h3⟩ := hs
  obtain ⟨hx0, hx1, hy0, hy1⟩ := hb
  have hp : 0 ≤ s.Pitch := by omega
  have hyp : 0 ≤ y * s.Pitch := Int.mul_nonneg hy0 hp
  have hyp1 : (y + 1) * s.Pitch ≤ s.Height * s.Pitch :=
    Int.mul_le_mul_of_nonneg_right (by omega) hp
  have hexp : (y + 1) * s.Pitch = y * s.Pitch + s.Pitch := by ring
  have hnat : ((pixelOffset s x y : Nat) : Int) = y * s.Pitch + x * 4 := by
    unfold pixelOffset
    rw [Int.toNat_of_nonneg (by omega)]
  refine ⟨?_, ?_, hnat⟩
  · rw [wrapInt_eq (y * s.Pitch) (by omega) (by omega), wrapInt_eq (x * 4) (by omega) (by omega),
      wrapInt_eq _ (by omega) (by omega), hnat]
  · omega

theorem PutPixel_inBounds (s : Screen) (x y : Int) (c : Color) (hs : Sized s)
    (hb : InBounds s x y) :
    PutPixel s x y c
      = (markDirty { s with buffer := Storage.copyAt s.buffer (pixelOffset s x y)
                                        (pixelBytes s.Format c) } x y x y, Result.ok ()) := by
  obtain ⟨ho, hlen, _⟩ := pixelOffset_spec s x y hs hb
  obtain ⟨hx0, hx1, hy0, hy1⟩ := hb
  unfold PutPixel
  rw [if_neg (by omega)]
  simp only [ho, putBytes_eq _ _ _ _ hlen]

theorem PutPixel_outOfBounds (s : Screen) (x y : Int) (c : Color) (hb : ¬ InBounds s x y) :
    PutPixel s x y c = (s, Result.error (Err.pixelOutOfBounds x y)) := by
  unfold PutPixel
  rw [if_pos (by unfold InBounds at hb; omega)]

/-! ### Decimal texts read by Sscanf -/

theorem isDigit_facts (c : Char) (hc : c.isDigit = true) :
    c.toNat < 128 ∧ c ≠ '\n' ∧ isSpace c = false ∧ c ≠ '+' ∧ c ≠ '-' := by
  have h1 : 48 ≤ c.val ∧ c.val ≤ 57 := by simpa [Char.isDigit] using hc
  have hn : 48 ≤ c.toNat ∧ c.toNat ≤ 57 := h1
  refine ⟨by omega, ?_, ?_, ?_, ?_⟩
  · intro h; rw [h] at hn; revert hn; decide
  · simp only [isSpace, Bool.or_eq_false_iff, Bool.and_eq_false_iff, decide_eq_false_iff_not]
    omega
  · intro h; rw [h] at hn; revert hn; decide
  · intro h; rw [h] at hn; revert hn; decide

/-- The decimal text of an `int`: an optional minus sign and then digits with the value of
the number. -/
theorem formatInt_spec (v : Int) :
    ∃ ds, ds ≠ [] ∧ (∀ c ∈ ds, c.isDigit = true) ∧ digitsValue ds = v.natAbs
      ∧ formatInt v = (if v < 0 then '-' :: ds else ds) := by
  obtain ⟨hne, hdig, hval⟩ := toDigits_spec v.natAbs
  refine ⟨Nat.toDigits 10 v.natAbs, hne, hdig, hval, ?_⟩
  unfold formatInt
  split_ifs <;> rfl

theorem formatInt_ascii (v : Int) : ∀ c ∈ formatInt v, c.toNat < 128 := by
  obtain ⟨ds, hne, hdig, hval, hf⟩ := formatInt_spec v
  intro c hc
  rw [hf] at hc
  split_ifs at hc
  · rcases List.mem_cons.1 hc with h | h
    · rw [h]; decide
    · exact (isDigit_facts c (hdig c h)).1
  · exact (isDigit_facts c (hdig c hc)).1

/-- The first character of the decimal text is not white space. -/
theorem formatInt_head (v : Int) :
    ∃ c cs, formatInt v = c :: cs ∧ c ≠ '\n' ∧ isSpace c = false := by
  obtain ⟨ds, hne, hdig, hval, hf⟩ := formatInt_spec v
  obtain ⟨d, ds', hd⟩ := List.exists_cons_of_ne_nil hne
  have hdd := isDigit_facts d (hdig d (by rw [hd]; exact List.mem_cons_self _ _))
  by_cases hv : v < 0
  · refine ⟨'-', ds, by rw [hf, if_pos hv], by decide, by decide⟩
  · refine ⟨d, ds', by rw [hf, if_neg hv, hd], hdd.2.1, hdd.2.2.1⟩

/-- The verb `%d` reads a decimal text back when no digit follows it. -/
theorem scanInt_formatInt (v : Int) (rest : List Char) (h1 : -(2 ^ 63) ≤ v) (h2 : v < 2 ^ 63)
    (hrest : ∀ c, rest.head? = some c → c.isDigit = false) :
    scanInt (formatInt v ++ rest) = some (v, rest) := by
  obtain ⟨ds, hne, hdig, hval, hf⟩ := formatInt_spec v
  obtain ⟨d, ds', hd⟩ := List.exists_cons_of_ne_nil hne
  have hdd := isDigit_facts d (hdig d (by rw [hd]; exact List.mem_cons_self _ _))
  have htake : (ds ++ rest).takeWhile Char.isDigit = ds := by
    rw [List.takeWhile_append_of_pos hdig]
    cases rest with
    | nil => simp
    | cons r rs =>
      rw [List.takeWhile_cons_of_neg (by simp [hrest r rfl]), List.append_nil]
  have hdrop : (ds ++ rest).dropWhile Char.isDigit = rest := by
    rw [List.dropWhile_append_of_pos hdig]
    cases rest with
    | nil => simp
    | cons r rs => rw [List.dropWhile_cons_of_neg (by simp [hrest r rfl])]
  unfold scanInt
  by_cases hv : v < 0
  · rw [hf, if_pos hv]
    have hskip : skipSpace (('-' :: ds) ++ rest) = some (('-' :: ds) ++ rest) := by
      simp [skipSpace, isSpace]
    rw [hskip]
    simp only [List.cons_append, List.head?_cons, Option.some.injEq, or_true, if_true,
      List.drop_succ_cons, List.drop_zero, htake, hdrop, hne, if_false, hval, decide_True]
    rw [if_neg (by omega)]
    congr 2
    omega
  · rw [hf, if_neg hv]
    have hskip : skipSpace (ds ++ rest) = some (ds ++ rest) := by
      rw [hd]; exact skipSpace_digit d _ (hdig d (by rw [hd]; exact List.mem_cons_self _ _))
    rw [hskip]
    have hhead : (ds ++ rest).head? = some d := by rw [hd]; rfl
    simp only [hhead, Option.some.injEq, hdd.2.2.2.1, hdd.2.2.2.2, or_self, if_false, htake,
      hdrop, hne, hval, decide_False, Bool.false_eq_true]
    rw [if_neg (by omega)]
    congr 2
    omega

theorem spaced_ascii (vs : List Int) : ∀ c ∈ spaced vs, c.toNat < 128 := by
  induction vs with
  | nil => intro c hc; simp [spaced] at hc
  | cons v vs ih =>
    cases vs with
    | nil => exact formatInt_ascii v
    | cons w vs =>
      intro c hc
      simp only [spaced, List.mem_append, List.mem_cons] at hc
      rcases hc with h | h | h
      · exact formatInt_ascii v c h
      · rw [h]; decide
      · exact ih c h

/-- The call of `Sscanf` with `k` verbs `%d` reads `k` integers back from their decimal
texts separated by single spaces, whatever follows them that is not a digit. -/
theorem sscanfInts_spaced (vs : List Int) (tail : List Char) (hne : vs ≠ [])
    (hvs : ∀ v ∈ vs, -(2 ^ 63) ≤ v ∧ v < 2 ^ 63)
    (htail : ∀ c, tail.head? = some c → c.isDigit = false) :
    sscanfInts vs.length (spaced vs ++ tail) = some vs := by
  induction vs with
  | nil => exact absurd rfl hne
  | cons v vs ih =>
    have hv := hvs v (List.mem_cons_self _ _)
    cases vs with
    | nil =>
      simp only [spaced, List.length_singleton, sscanfInts]
      rw [scanInt_formatInt v tail hv.1 hv.2 htail]
      simp
    | cons w vs =>
      have ih' := ih (by simp) (fun u hu => hvs u (List.mem_cons_of_mem _ hu))
      obtain ⟨c, cs, hc, hnl, hsp⟩ : ∃ c cs, spaced (w :: vs) ++ tail = c :: cs ∧ c ≠ '\n'
          ∧ isSpace c = false := by
        obtain ⟨c, cs, hc, h1, h2⟩ := formatInt_head w
        cases vs with
        | nil => exact ⟨c, cs ++ tail, by simp [spaced, hc], h1, h2⟩
        | cons u us => exact ⟨c, cs ++ ' ' :: spaced (u :: us) ++ tail, by simp [spaced, hc], h1, h2⟩
      have hsc : scanSpace (' ' :: (spaced (w :: vs) ++ tail)) = some (spaced (w :: vs) ++ tail) := by
        rw [hc]
        show (if (' ' : Char) = '\n' then none
          else if isSpace ' ' then
            some ((c :: cs).dropWhile (fun c => isSpace c && c != '\n')) else none) = _
        rw [if_neg (by decide), if_pos (by decide), List.dropWhile_cons_of_neg (by simp [hsp])]
      have happ : spaced (v :: w :: vs) ++ tail
          = formatInt v ++ ' ' :: (spaced (w :: vs) ++ tail) := by
        simp [spaced]
      rw [happ]
      show sscanfInts ((w :: vs).length + 1) _ = _
      rw [sscanfInts, scanInt_formatInt v _ hv.1 hv.2 (by intro c hc; simp at hc; rw [← hc]; decide)]
      simp only [List.length_cons, Nat.add_eq_zero, one_ne_zero, and_false, if_false, hsc]
      simp only [List.length_cons] at ih'
      rw [ih']

theorem decodeRune_ascii (b : Nat) (rest : List Nat) (hb : b < 128) :
    decodeRune (b :: rest) = (b, 1) := by
  simp [decodeRune, hb]

theorem runesFrom_ascii (t : List Char) (h : ∀ c ∈ t, c.toNat < 128) (k : Nat)
    (hk : t.length ≤ k) :
    runesFrom k (t.map Char.toNat) = t.map (fun c => (c, 1)) := by
  induction t generalizing k with
  | nil => cases k <;> simp [runesFrom]
  | cons c cs ih =>
    cases k with
    | zero => simp at hk
    | succ k =>
      have hc := h c (List.mem_cons_self _ _)
      simp only [List.map_cons, runesFrom, decodeRune_ascii _ _ hc]
      rw [if_neg (by simp)]
      simp only [List.drop_succ_cons, List.drop_zero, Char.ofNat_toNat]
      rw [ih (fun d hd => h d (List.mem_cons_of_mem _ hd)) k (by simpa using hk)]

/-- The characters of an ASCII text are read back from its bytes. -/
theorem runes_ascii (t : List Char) (h : ∀ c ∈ t, c.toNat < 128) :
    runes (t.map Char.toNat) = t := by
  unfold runes
  rw [runesFrom_ascii t h _ (by simp)]
  simp [List.map_map, Function.comp_def]

/-! ### C21: PutPixel on an RGB32 screen and the text form of a pixel write -/

theorem markDirty_spec (s : Screen) (x1 y1 x2 y2 : Int) :
    (markDirty s x1 y1 x2 y2).dirty = true
    ∧ ((markDirty s x1 y1 x2 y2).dirtyX1, (markDirty s x1 y1 x2 y2).dirtyY1,
        (markDirty s x1 y1 x2 y2).dirtyX2, (markDirty s x1 y1 x2 y2).dirtyY2)
      = (if s.dirty = true then
          (min s.dirtyX1 x1, min s.dirtyY1 y1, max s.dirtyX2 x2, max s.dirtyY2 y2)
         else (x1, y1, x2, y2)) := by
  unfold markDirty
  by_cases hd : s.dirty = true
  · simp only [hd, not_true_eq_false, if_false, if_true, Prod.mk.injEq, true_and]
    refine ⟨?_, ?_, ?_, ?_⟩ <;> simp only [min_def, max_def] <;> split_ifs <;> omega
  · simp [hd]

theorem markDirty_fields (s : Screen) (x1 y1 x2 y2 : Int) :
    (markDirty s x1 y1 x2 y2).buffer = s.buffer
    ∧ (markDirty s x1 y1 x2 y2).Width = s.Width
    ∧ (markDirty s x1 y1 x2 y2).Height = s.Height
    ∧ (markDirty s x1 y1 x2 y2).Pitch = s.Pitch
    ∧ (markDirty s x1 y1 x2 y2).Format = s.Format := by
  unfold markDirty
  split_ifs <;> simp

/-- A write of the text `x y r g b` to the file `data` of a screen is the `PutPixel` of that
pixel with alpha 255, followed by a `Flush` when it succeeds. -/
theorem writeFile_pixelText (fuel : Nat) (s : Screen) (offset : Nat) (x y r g b : Int)
    (hr : ∀ v ∈ [x, y, r, g, b], -(2 ^ 63) ≤ v ∧ v < 2 ^ 63) :
    writeFile fuel s "data".toList offset (pixelText x y r g b)
      = some (match PutPixel s x y { R := uint8 r, G := uint8 g, B := uint8 b, A := 255 } with
              | (s', Result.ok ()) =>
                ((Flush s').1, (pixelText x y r g b).length % 2 ^ 32, Result.ok ())
              | (s', e) => (s', 0, e)) := by
  have hsp : (0x20 : Nat) ∈ pixelText x y r g b := by
    unfold pixelText
    refine List.mem_map.2 ⟨' ', ?_, rfl⟩
    simp [spaced]
  have hrunes : runes (pixelText x y r g b) = spaced [x, y, r, g, b] :=
    runes_ascii _ (spaced_ascii _)
  have hscan : sscanfInts 5 (spaced [x, y, r, g, b]) = some [x, y, r, g, b] := by
    have := sscanfInts_spaced [x, y, r, g, b] [] (by simp) hr (by simp)
    simpa using this
  unfold writeFile
  rw [if_neg (by decide), if_pos rfl, if_pos hsp, hrunes, hscan]
  simp only
  rcases PutPixel s x y { R := uint8 r, G := uint8 g, B := uint8 b, A := 255 } with ⟨s', e⟩
  cases e <;> rfl

/-- C21: on an RGB32 screen with `Pitch ≥ 4*Width` and a shadow buffer of at least
`Height*Pitch` bytes, `PutPixel` fails exactly when `(x, y)` is outside the screen and then
leaves the screen as it was; otherwise it stores `R, G, B, A` at the offsets
`y*Pitch + 4*x + 0..3`, changes no other byte of the buffer, and makes the dirty rectangle
its union with `(x, y)-(x, y)`, which is `(x, y)-(x, y)` on a screen that was not dirty.
A write of the text `x y r g b` to the file `data` performs this `PutPixel` with alpha
255 (and flushes after it). -/
theorem C21_put_pixel (s : Screen) (x y : Int) (c : Color) :
    (s.Format = PixelFormat.RGB32 → Sized s →
      ((PutPixel s x y c).2 ≠ Result.ok () ↔ ¬ InBounds s x y)
      ∧ (¬ InBounds s x y → PutPixel s x y c = (s, Result.error (Err.pixelOutOfBounds x y)))
      ∧ (InBounds s x y →
          (PutPixel s x y c).2 = Result.ok ()
          ∧ (PutPixel s x y c).1.buffer.length = s.buffer.length
          ∧ (PutPixel s x y c).1.buffer[(y * s.Pitch + 4 * x).toNat + 0]? = some c.R
          ∧ (PutPixel s x y c).1.buffer[(y * s.Pitch + 4 * x).toNat + 1]? = some c.G
          ∧ (PutPixel s x y c).1.buffer[(y * s.Pitch + 4 * x).toNat + 2]? = some c.B
          ∧ (PutPixel s x y c).1.buffer[(y * s.Pitch + 4 * x).toNat + 3]? = some c.A
          ∧ (∀ i, i < (y * s.Pitch + 4 * x).toNat ∨ (y * s.Pitch + 4 * x).toNat + 4 ≤ i →
              (PutPixel s x y c).1.buffer[i]? = s.buffer[i]?)
          ∧ (PutPixel s x y c).1.dirty = true
          ∧ ((PutPixel s x y c).1.dirtyX1, (PutPixel s x y c).1.dirtyY1,
              (PutPixel s x y c).1.dirtyX2, (PutPixel s x y c).1.dirtyY2)
            = (if s.dirty = true then
                (min s.dirtyX1 x, min s.dirtyY1 y, max s.dirtyX2 x, max s.dirtyY2 y)
               else (x, y, x, y))))
    ∧ (∀ (fuel : Nat) (fs : Framebuffer9PServer) (path name : List Char) (offset : Nat)
        (r g b : Int),
        (∀ v ∈ [x, y, r, g, b], -(2 ^ 63) ≤ v ∧ v < 2 ^ 63) →
        parsePath fs path = some (name, s, "data".toList) →
        Write fuel fs path offset (pixelText x y r g b)
          = some (match PutPixel s x y { R := uint8 r, G := uint8 g, B := uint8 b, A := 255 } with
                  | (s', Result.ok ()) =>
                    (fs.set name (Flush s').1, (pixelText x y r g b).length % 2 ^ 32,
                      Result.ok ())
                  | (s', e) => (fs.set name s', 0, e))) := by
  refine ⟨fun hfmt hs => ⟨?_, ?_, ?_⟩, ?_⟩
  · by_cases hb : InBounds s x y
    · rw [PutPixel_inBounds s x y c hs hb]; simp [hb]
    · rw [PutPixel_outOfBounds s x y c hb]; simp [hb]
  · exact PutPixel_outOfBounds s x y c
  · intro hb
    obtain ⟨ho, hlen, hoff⟩ := pixelOffset_spec s x y hs hb
    have he : (y * s.Pitch + 4 * x).toNat = pixelOffset s x y := by
      unfold pixelOffset; congr 1; ring
    have hbytes : pixelBytes s.Format c = [c.R, c.G, c.B, c.A] := by rw [hfmt]; rfl
    have hget : ∀ j, (PutPixel s x y c).1.buffer[j]?
        = if pixelOffset s x y ≤ j ∧ j < pixelOffset s x y + 4 then
            [c.R, c.G, c.B, c.A][j - pixelOffset s x y]? else s.buffer[j]? := by
      intro j
      rw [PutPixel_inBounds s x y c hs hb]
      simp only [(markDirty_fields _ x y x y).1, hbytes]
      rw [getElem?_copyAt _ _ _ (by simp only [List.length_cons, List.length_nil]; omega)]
      rfl
    rw [he]
    refine ⟨by rw [PutPixel_inBounds s x y c hs hb], ?_, ?_, ?_, ?_, ?_, ?_, ?_, ?_⟩
    · rw [PutPixel_inBounds s x y c hs hb]
      simp only [(markDirty_fields _ x y x y).1]
      rw [copyAt_length _ _ _ (by rw [hbytes]; simp only [List.length_cons, List.length_nil]; omega)]
    · rw [hget, if_pos (by omega)]; simp
    · rw [hget, if_pos (by omega)]; simp
    · rw [hget, if_pos (by omega)]; simp
    · rw [hget, if_pos (by omega)]; simp
    · intro i hi
      rw [hget, if_neg (by omega)]
    · rw [PutPixel_inBounds s x y c hs hb]
      exact (markDirty_spec _ x y x y).1
    · rw [PutPixel_inBounds s x y c hs hb]
      exact (markDirty_spec _ x y x y).2
  · intro fuel fs path name offset r g b hr hp
    unfold Write
    rw [hp]
    simp only [writeFile_pixelText fuel s offset x y r g b hr]
    rcases PutPixel s x y { R := uint8 r, G := uint8 g, B := uint8 b, A := 255 } with ⟨s', e⟩
    cases e <;> rfl

theorem exampleScreen_sized (format : PixelFormat) (w h pitch : Int) (n : Nat)
    (h1 : 4 * w ≤ pitch) (h2 : h * pitch ≤ n) (h3 : n < 2 ^ 63) :
    Sized (exampleScreen format w h pitch n) := by
  refine ⟨h1, ?_, ?_⟩
  · show h * pitch ≤ ((List.replicate n 0).length : Int)
    rw [List.length_replicate]; exact h2
  · show (List.replicate n 0).length < 2 ^ 63
    rw [List.length_replicate]; exact h3

theorem parsePath_example (s : Screen) :
    parsePath (exampleServer s) "/dev/draw/screen0/data".toList
      = some ("screen0".toList, s, "data".toList) := by
  rfl

set_option maxRecDepth 100000 in
/-- Witness for `C21_put_pixel`: scenario S6, the text `10 20 255 128 0` written to the
file `data` of an RGB32 screen with a pitch of 64 bytes. -/
theorem C21_put_pixel_witness :
    pixelText 10 20 255 128 0 = ascii "10 20 255 128 0"
    ∧ InBounds s6Screen 10 20
    ∧ (PutPixel s6Screen 10 20 ⟨255, 128, 0, 255⟩).1.buffer[20 * 64 + 10 * 4 + 0]? = some 255
    ∧ (PutPixel s6Screen 10 20 ⟨255, 128, 0, 255⟩).1.buffer[20 * 64 + 10 * 4 + 1]? = some 128
    ∧ (PutPixel s6Screen 10 20 ⟨255, 128, 0, 255⟩).1.buffer[20 * 64 + 10 * 4 + 2]? = some 0
    ∧ (PutPixel s6Screen 10 20 ⟨255, 128, 0, 255⟩).1.buffer[20 * 64 + 10 * 4 + 3]? = some 255
    ∧ ((PutPixel s6Screen 10 20 ⟨255, 128, 0, 255⟩).1.dirtyX1,
        (PutPixel s6Screen 10 20 ⟨255, 128, 0, 255⟩).1.dirtyY1,
        (PutPixel s6Screen 10 20 ⟨255, 128, 0, 255⟩).1.dirtyX2,
        (PutPixel s6Screen 10 20 ⟨255, 128, 0, 255⟩).1.dirtyY2) = (10, 20, 10, 20)
    ∧ Write 0 (exampleServer s6Screen) "/dev/draw/screen0/data".toList 0
        (pixelText 10 20 255 128 0)
      = some (match PutPixel s6Screen 10 20 ⟨255, 128, 0, 255⟩ with
              | (s', Result.ok ()) =>
                ((exampleServer s6Screen).set "screen0".toList (Flush s').1, 15, Result.ok ())
              | (s', e) => ((exampleServer s6Screen).set "screen0".toList s', 0, e)) := by
  have hb : InBounds s6Screen 10 20 := by decide
  obtain ⟨h1, h2⟩ := C21_put_pixel s6Screen 10 20 ⟨255, 128, 0, 255⟩
  obtain ⟨-, -, h3⟩ := h1 rfl (exampleScreen_sized _ _ _ _ _ (by decide) (by decide) (by decide))
  obtain ⟨-, -, b0, b1, b2, b3, -, -, hd⟩ := h3 hb
  exact ⟨by decide, hb, b0, b1, b2, b3, hd,
    h2 0 (exampleServer s6Screen) _ _ 0 255 128 0 (by decide) (parsePath_example s6Screen)⟩

/-! ### DrawRect as a run of PutPixel over the points of the rectangle -/

theorem putAllWith_append {σ : Type} (put : σ → Int → Int → Color → σ × Result Unit)
    (color : Color) (ps qs : List (Int × Int)) (s : σ) :
    putAllWith put color (ps ++ qs) s
      = match putAllWith put color ps s with
        | (s, Result.ok ()) => putAllWith put color qs s
        | (s, r) => (s, r) := by
  induction ps generalizing s with
  | nil => rfl
  | cons p ps ih =>
    simp only [List.cons_append, putAllWith]
    rcases put s p.1 p.2 color with ⟨s1, r⟩
    cases r with
    | ok u => cases u; exact ih s1
    | error e => rfl
    | panic => rfl

theorem drawRectRow_eq {σ : Type} (put : σ → Int → Int → Color → σ × Result Unit)
    (x y dy : Int) (color : Color) (k : Nat) (dx : Int) (s : σ) :
    drawRectRow put x y dy color k dx s = putAllWith put color (rowPoints x y dy k dx) s := by
  induction k generalizing dx s with
  | zero => rfl
  | succ k ih =>
    simp only [drawRectRow, rowPoints, putAllWith]
    rcases put s (wrapInt (x + dx)) (wrapInt (y + dy)) color with ⟨s1, r⟩
    cases r with
    | ok u => cases u; exact ih (dx + 1) s1
    | error e => rfl
    | panic => rfl

/-- The loops of `DrawRect` call the pixel writer on the points of the rectangle in
row-major order and stop at the first call that does not return nil. -/
theorem drawRectRows_eq {σ : Type} (put : σ → Int → Int → Color → σ × Result Unit)
    (x y w : Int) (color : Color) (k : Nat) (dy : Int) (s : σ) :
    drawRectRows put x y w color k dy s = putAllWith put color (rectPoints x y w k dy) s := by
  induction k generalizing dy s with
  | zero => rfl
  | succ k ih =>
    simp only [drawRectRows, rectPoints, putAllWith_append, drawRectRow_eq]
    rcases putAllWith put color (rowPoints x y dy w.toNat 0) s with ⟨s1, r⟩
    cases r with
    | ok u => cases u; exact ih (dy + 1) s1
    | error e => rfl
    | panic => rfl

theorem mem_rowPoints (x y dy : Int) (k : Nat) (dx : Int) (p : Int × Int) :
    p ∈ rowPoints x y dy k dx ↔ ∃ i : Nat, i < k ∧ p = (wrapInt (x + (dx + i)), wrapInt (y + dy)) := by
  induction k generalizing dx with
  | zero => simp [rowPoints]
  | succ k ih =>
    simp only [rowPoints, List.mem_cons, ih]
    constructor
    · rintro (h | ⟨i, hi, h⟩)
      · exact ⟨0, by omega, by simpa using h⟩
      · exact ⟨i + 1, by omega, by rw [h]; push_cast; congr 3; ring⟩
    · rintro ⟨i, hi, h⟩
      cases i with
      | zero => left; simpa using h
      | succ i => right; exact ⟨i, by omega, by rw [h]; push_cast; congr 3; ring⟩

theorem mem_rectPoints (x y w : Int) (k : Nat) (dy : Int) (p : Int × Int) :
    p ∈ rectPoints x y w k dy
      ↔ ∃ i j : Nat, i < w.toNat ∧ j < k ∧ p = (wrapInt (x + i), wrapInt (y + (dy + j))) := by
  induction k generalizing dy with
  | zero => simp [rectPoints]
  | succ k ih =>
    simp only [rectPoints, List.mem_append, ih, mem_rowPoints]
    constructor
    · rintro (⟨i, hi, h⟩ | ⟨i, j, hi, hj, h⟩)
      · exact ⟨i, 0, hi, by omega, by simpa using h⟩
      · exact ⟨i, j + 1, hi, by omega, by rw [h]; push_cast; congr 3; ring⟩
    · rintro ⟨i, j, hi, hj, h⟩
      cases j with
      | zero => left; exact ⟨i, hi, by simpa using h⟩
      | succ j => right; exact ⟨i, j, hi, by omega, by rw [h]; push_cast; congr 3; ring⟩

/-! ### Runs of PutPixel -/

theorem sameGeometry_refl (s : Screen) : SameGeometry s s := ⟨rfl, rfl, rfl, rfl, rfl⟩

theorem sameGeometry_trans {s s' s'' : Screen} (h1 : SameGeometry s s')
    (h2 : SameGeometry s' s'') : SameGeometry s s'' := by
  obtain ⟨a1, a2, a3, a4, a5⟩ := h1
  obtain ⟨b1, b2, b3, b4, b5⟩ := h2
  exact ⟨b1.trans a1, b2.trans a2, b3.trans a3, b4.trans a4, b5.trans a5⟩

theorem sameGeometry_sized {s s' : Screen} (h : SameGeometry s s') (hs : Sized s) : Sized s' := by
  obtain ⟨a1, a2, a3, a4, a5⟩ := h
  unfold Sized at *
  rw [a1, a2, a3, a5]; exact hs

theorem sameGeometry_inBounds {s s' : Screen} (h : SameGeometry s s') (x y : Int) :
    InBounds s' x y ↔ InBounds s x y := by
  obtain ⟨a1, a2, a3, a4, a5⟩ := h
  unfold InBounds
  rw [a1, a2]

theorem sameGeometry_pixelOffset {s s' : Screen} (h : SameGeometry s s') (x y : Int) :
    pixelOffset s' x y = pixelOffset s x y := by
  unfold pixelOffset
  rw [h.2.2.1]

theorem PutPixel_sameGeometry (s : Screen) (x y : Int) (c : Color) (hs : Sized s) :
    SameGeometry s (PutPixel s x y c).1 := by
  by_cases hb : InBounds s x y
  · obtain ⟨ho, hlen, _⟩ := pixelOffset_spec s x y hs hb
    rw [PutPixel_inBounds s x y c hs hb]
    obtain ⟨f1, f2, f3, f4, f5⟩ := markDirty_fields
      { s with buffer := copyAt s.buffer (pixelOffset s x y) (pixelBytes s.Format c) } x y x y
    refine ⟨f2, f3, f4, f5, ?_⟩
    rw [f1]
    exact copyAt_length _ _ _ (by have := pixelBytes_length_le s.Format c; omega)
  · rw [PutPixel_outOfBounds s x y c hb]
    exact sameGeometry_refl s

/-- The bytes of the buffer after a `PutPixel` inside the screen. -/
theorem PutPixel_getElem? (s : Screen) (x y : Int) (c : Color) (hs : Sized s)
    (hb : InBounds s x y) (j : Nat) :
    (PutPixel s x y c).1.buffer[j]?
      = if pixelOffset s x y ≤ j ∧ j < pixelOffset s x y + (pixelBytes s.Format c).length then
          (pixelBytes s.Format c)[j - pixelOffset s x y]?
        else s.buffer[j]? := by
  obtain ⟨ho, hlen, _⟩ := pixelOffset_spec s x y hs hb
  rw [PutPixel_inBounds s x y c hs hb]
  simp only [(markDirty_fields _ x y x y).1]
  rw [getElem?_copyAt _ _ _ (by have := pixelBytes_length_le s.Format c; omega)]

/-- Two different pixels of a correctly sized screen are four bytes apart at least. -/
theorem pixelOffset_disjoint (s : Screen) (hs : Sized s) (x y x' y' : Int)
    (hb : InBounds s x y) (hb' : InBounds s x' y') (hne : (x, y) ≠ (x', y')) :
    pixelOffset s x y + 4 ≤ pixelOffset s x' y' ∨ pixelOffset s x' y' + 4 ≤ pixelOffset s x y := by
  obtain ⟨_, _, e1⟩ := pixelOffset_spec s x y hs hb
  obtain ⟨_, _, e2⟩ := pixelOffset_spec s x' y' hs hb'
  obtain ⟨h1, h2, h3⟩ := hs
  obtain ⟨hx0, hx1, hy0, hy1⟩ := hb
  obtain ⟨hx0', hx1', hy0', hy1'⟩ := hb'
  have hp : 0 ≤ s.Pitch := by omega
  rcases lt_trichotomy y y' with hlt | heq | hgt
  · have : (y + 1) * s.Pitch ≤ y' * s.Pitch := Int.mul_le_mul_of_nonneg_right (by omega) hp
    have hexp : (y + 1) * s.Pitch = y * s.Pitch + s.Pitch := by ring
    left; omega
  · subst heq
    have : x ≠ x' := fun h => hne (by rw [h])
    omega
  · have : (y' + 1) * s.Pitch ≤ y * s.Pitch := Int.mul_le_mul_of_nonneg_right (by omega) hp
    have hexp : (y' + 1) * s.Pitch = y' * s.Pitch + s.Pitch := by ring
    right; omega

/-- A run of `PutPixel` over points of a correctly sized screen succeeds; the bytes of each
point of the list are those of the colour, and a byte outside the four bytes of every
point of the list is unchanged. -/
theorem putAll_spec (c : Color) (pts : List (Int × Int)) (s : Screen) (hs : Sized s)
    (hpts : ∀ p ∈ pts, InBounds s p.1 p.2) :
    (putAllWith PutPixel c pts s).2 = Result.ok ()
    ∧ SameGeometry s (putAllWith PutPixel c pts s).1
    ∧ (∀ q ∈ pts, ∀ j, j < (pixelBytes s.Format c).length →
        (putAllWith PutPixel c pts s).1.buffer[pixelOffset s q.1 q.2 + j]?
          = (pixelBytes s.Format c)[j]?)
    ∧ (∀ i, (∀ p ∈ pts, i < pixelOffset s p.1 p.2 ∨ pixelOffset s p.1 p.2 + 4 ≤ i) →
        (putAllWith PutPixel c pts s).1.buffer[i]? = s.buffer[i]?) := by
  induction pts generalizing s with
  | nil =>
    refine ⟨rfl, sameGeometry_refl s, ?_, fun i _ => rfl⟩
    intro q hq; simp at hq
  | cons p ps ih =>
    have hbp := hpts p (List.mem_cons_self _ _)
    have hg := PutPixel_sameGeometry s p.1 p.2 c hs
    have hs1 := sameGeometry_sized hg hs
    have heq : putAllWith PutPixel c (p :: ps) s
        = putAllWith PutPixel c ps (PutPixel s p.1 p.2 c).1 := by
      simp only [putAllWith]
      rw [PutPixel_inBounds s p.1 p.2 c hs hbp]
    obtain ⟨r1, r2, r3, r4⟩ := ih (PutPixel s p.1 p.2 c).1 hs1
      (fun q hq => (sameGeometry_inBounds hg q.1 q.2).2 (hpts q (List.mem_cons_of_mem _ hq)))
    have hfmt : (PutPixel s p.1 p.2 c).1.Format = s.Format := hg.2.2.2.1
    rw [heq]
    refine ⟨r1, sameGeometry_trans hg r2, ?_, ?_⟩
    · intro q hq j hj
      by_cases hqs : q ∈ ps
      · have := r3 q hqs j (by rw [hfmt]; exact hj)
        rw [sameGeometry_pixelOffset hg, hfmt] at this
        exact this
      · have hqp : q = p := by
          rcases List.mem_cons.1 hq with h | h
          · exact h
          · exact absurd h hqs
        have hlen4 := pixelBytes_length_le s.Format c
        rw [r4 _ (fun p' hp' => by
          have hb' : InBounds s p'.1 p'.2 := hpts p' (List.mem_cons_of_mem _ hp')
          have hbq : InBounds s q.1 q.2 := hpts q hq
          have hne : (q.1, q.2) ≠ (p'.1, p'.2) := by
            intro h
            apply hqs
            have : q = p' := Prod.ext (by simpa using congrArg Prod.fst h)
              (by simpa using congrArg Prod.snd h)
            rw [this]; exact hp'
          rw [sameGeometry_pixelOffset hg]
          have := pixelOffset_disjoint s hs q.1 q.2 p'.1 p'.2 hbq hb' hne
          omega)]
        rw [hqp, PutPixel_getElem? s p.1 p.2 c hs hbp, if_pos (by omega)]
        congr 1
        omega
    · intro i hi
      rw [r4 i (fun p' hp' => by
        rw [sameGeometry_pixelOffset hg]; exact hi p' (List.mem_cons_of_mem _ hp'))]
      have := hi p (List.mem_cons_self _ _)
      have hlen4 := pixelBytes_length_le s.Format c
      rw [PutPixel_getElem? s p.1 p.2 c hs hbp, if_neg (by omega)]

/-! ### GetPixel -/

theorem load_add (buf : List Nat) (i k : Nat) (h : i + k < buf.length) :
    load buf ((i : Int) + (k : Int)) = Result.ok (buf.getD (i + k) 0) := by
  unfold load
  rw [if_pos ⟨by omega, by omega⟩]
  congr 2

theorem getD_of_getElem? (l l' : List Nat) (i i' : Nat) (h : l[i]? = l'[i']?) :
    l.getD i 0 = l'.getD i' 0 := by
  rw [List.getD_eq_getElem?_getD, List.getD_eq_getElem?_getD, h]

/-- What `GetPixel` returns depends on the four bytes of the pixel only. -/
theorem GetPixel_congr (s s' : Screen) (x y : Int) (hs : Sized s) (hg : SameGeometry s s')
    (hb : InBounds s x y)
    (hbytes : ∀ j, j < 4 →
      s'.buffer[pixelOffset s x y + j]? = s.buffer[pixelOffset s x y + j]?) :
    GetPixel s' x y = GetPixel s x y := by
  obtain ⟨ho, hlen, _⟩ := pixelOffset_spec s x y hs hb
  obtain ⟨ho', hlen', _⟩ := pixelOffset_spec s' x y (sameGeometry_sized hg hs) ((sameGeometry_inBounds hg x y).2 hb)
  rw [sameGeometry_pixelOffset hg] at ho' hlen'
  have e0 : ((pixelOffset s x y : Int) + 0) = ((pixelOffset s x y : Int) + ((0 : Nat) : Int)) := by
    simp
  have e1 : ((pixelOffset s x y : Int) + 1) = ((pixelOffset s x y : Int) + ((1 : Nat) : Int)) := by
    simp
  have e2 : ((pixelOffset s x y : Int) + 2) = ((pixelOffset s x y : Int) + ((2 : Nat) : Int)) := by
    simp
  have e3 : ((pixelOffset s x y : Int) + 3) = ((pixelOffset s x y : Int) + ((3 : Nat) : Int)) := by
    simp
  have l0 := load_add s.buffer (pixelOffset s x y) 0 (by omega)
  have l1 := load_add s.buffer (pixelOffset s x y) 1 (by omega)
  have l2 := load_add s.buffer (pixelOffset s x y) 2 (by omega)
  have l3 := load_add s.buffer (pixelOffset s x y) 3 (by omega)
  have l0' := load_add s'.buffer (pixelOffset s x y) 0 (by omega)
  have l1' := load_add s'.buffer (pixelOffset s x y) 1 (by omega)
  have l2' := load_add s'.buffer (pixelOffset s x y) 2 (by omega)
  have l3' := load_add s'.buffer (pixelOffset s x y) 3 (by omega)
  have g0 := getD_of_getElem? _ _ _ _ (hbytes 0 (by omega))
  have g1 := getD_of_getElem? _ _ _ _ (hbytes 1 (by omega))
  have g2 := getD_of_getElem? _ _ _ _ (hbytes 2 (by omega))
  have g3 := getD_of_getElem? _ _ _ _ (hbytes 3 (by omega))
  obtain ⟨a1, a2, a3, a4, a5⟩ := hg
  unfold GetPixel
  rw [a1, a2, a3, a4] at *
  simp only [ho, e0, e1, e2, e3, l0, l1, l2, l3, l0', l1', l2', l3', g0, g1, g2, g3]

/-- On a screen of a 32-bit format `GetPixel` returns the colour whose bytes the pixel
holds. -/
theorem GetPixel_of_bytes (s : Screen) (x y : Int) (c : Color) (hs : Sized s)
    (hb : InBounds s x y) (hfmt : s.Format = PixelFormat.RGB32 ∨ s.Format = PixelFormat.BGR32)
    (hbytes : ∀ j, j < 4 →
      s.buffer[pixelOffset s x y + j]? = (pixelBytes s.Format c)[j]?) :
    GetPixel s x y = Result.ok c := by
  obtain ⟨ho, hlen, _⟩ := pixelOffset_spec s x y hs hb
  have e0 : ((pixelOffset s x y : Int) + 0) = ((pixelOffset s x y : Int) + ((0 : Nat) : Int)) := by
    simp
  have e1 : ((pixelOffset s x y : Int) + 1) = ((pixelOffset s x y : Int) + ((1 : Nat) : Int)) := by
    simp
  have e2 : ((pixelOffset s x y : Int) + 2) = ((pixelOffset s x y : Int) + ((2 : Nat) : Int)) := by
    simp
  have e3 : ((pixelOffset s x y : Int) + 3) = ((pixelOffset s x y : Int) + ((3 : Nat) : Int)) := by
    simp
  have l0 := load_add s.buffer (pixelOffset s x y) 0 (by omega)
  have l1 := load_add s.buffer (pixelOffset s x y) 1 (by omega)
  have l2 := load_add s.buffer (pixelOffset s x y) 2 (by omega)
  have l3 := load_add s.buffer (pixelOffset s x y) 3 (by omega)
  have g : ∀ j, j < 4 → s.buffer.getD (pixelOffset s x y + j) 0
      = (pixelBytes s.Format c).getD j 0 := fun j hj =>
    getD_of_getElem? _ _ _ _ (hbytes j hj)
  have g0 := g 0 (by omega)
  have g1 := g 1 (by omega)
  have g2 := g 2 (by omega)
  have g3 := g 3 (by omega)
  obtain ⟨hx0, hx1, hy0, hy1⟩ := hb
  unfold GetPixel
  rw [if_neg (by omega)]
  rcases hfmt with hf | hf
  · rw [hf] at g0 g1 g2 g3 ⊢
    simp only [ho, e0, e1, e2, e3, l0, l1, l2, l3, g0, g1, g2, g3, pixelBytes]
    rfl
  · rw [hf] at g0 g1 g2 g3 ⊢
    simp only [ho, e0, e1, e2, e3, l0, l1, l2, l3, g0, g1, g2, g3, pixelBytes]
    rfl

theorem pixelBytes_length_32 (format : PixelFormat) (c : Color)
    (hfmt : format = PixelFormat.RGB32 ∨ format = PixelFormat.BGR32) :
    (pixelBytes format c).length = 4 := by
  rcases hfmt with h | h <;> rw [h] <;> rfl

/-- On a correctly sized screen the height and the width are Go integers, once the screen
has a pixel. -/
theorem sized_bounds {s : Screen} (hs : Sized s) (x y : Int) (hb : InBounds s x y) :
    s.Width < 2 ^ 61 ∧ s.Height < 2 ^ 61 := by
  obtain ⟨h1, h2, h3⟩ := hs
  obtain ⟨hx0, hx1, hy0, hy1⟩ := hb
  have hp : 4 ≤ s.Pitch := by omega
  have hh : 1 ≤ s.Height := by omega
  have e1 : 1 * s.Pitch ≤ s.Height * s.Pitch := Int.mul_le_mul_of_nonneg_right hh (by omega)
  have e2 : s.Height * 4 ≤ s.Height * s.Pitch := Int.mul_le_mul_of_nonneg_left hp (by omega)
  constructor <;> omega

/-! ### C24: DrawRect does not clip -/

theorem DrawRect_eq (s : Screen) (x y w h : Int) (c : Color) :
    DrawRect s x y w h c = putAllWith PutPixel c (rectPoints x y w h.toNat 0) s :=
  drawRectRows_eq PutPixel x y w c h.toNat 0 s

/-- The points of a rectangle that lies on the screen are pixels of the screen, visited
without wrap-around. -/
theorem rectPoints_inside (s : Screen) (hs : Sized s) (x y w h : Int)
    (hin : 0 ≤ x ∧ 0 ≤ y ∧ x + w ≤ s.Width ∧ y + h ≤ s.Height) (p : Int × Int) :
    p ∈ rectPoints x y w h.toNat 0
      ↔ (x ≤ p.1 ∧ p.1 < x + w ∧ y ≤ p.2 ∧ p.2 < y + h) := by
  rw [mem_rectPoints]
  constructor
  · rintro ⟨i, j, hi, hj, rfl⟩
    have hb : InBounds s x y := ⟨by omega, by omega, by omega, by omega⟩
    have := sized_bounds hs x y hb
    rw [wrapInt_eq _ (by omega) (by omega), wrapInt_eq _ (by omega) (by omega)]
    simp only
    omega
  · rintro ⟨h1, h2, h3, h4⟩
    have hb : InBounds s x y := ⟨by omega, by omega, by omega, by omega⟩
    have := sized_bounds hs x y hb
    refine ⟨(p.1 - x).toNat, (p.2 - y).toNat, by omega, by omega, ?_⟩
    rw [wrapInt_eq _ (by omega) (by omega), wrapInt_eq _ (by omega) (by omega)]
    apply Prod.ext
    · simp only; omega
    · simp only; omega

/-- A run of `PutPixel` that meets a point outside the screen returns an out-of-bounds
error. -/
theorem putAll_error (c : Color) (pts : List (Int × Int)) (s : Screen) (hs : Sized s)
    (q : Int × Int) (hq : q ∈ pts) (hout : ¬ InBounds s q.1 q.2) :
    ∃ px py, (putAllWith PutPixel c pts s).2 = Result.error (Err.pixelOutOfBounds px py) := by
  induction pts generalizing s with
  | nil => simp at hq
  | cons p ps ih =>
    by_cases hbp : InBounds s p.1 p.2
    · have hg := PutPixel_sameGeometry s p.1 p.2 c hs
      have hqs : q ∈ ps := by
        rcases List.mem_cons.1 hq with h | h
        · rw [h] at hout; exact absurd hbp hout
        · exact h
      have heq : putAllWith PutPixel c (p :: ps) s
          = putAllWith PutPixel c ps (PutPixel s p.1 p.2 c).1 := by
        simp only [putAllWith]
        rw [PutPixel_inBounds s p.1 p.2 c hs hbp]
      rw [heq]
      exact ih _ (sameGeometry_sized hg hs) hqs (fun h => hout ((sameGeometry_inBounds hg q.1 q.2).1 h))
    · refine ⟨p.1, p.2, ?_⟩
      simp only [putAllWith]
      rw [PutPixel_outOfBounds s p.1 p.2 c hbp]

set_option maxRecDepth 100000 in
/-- C24, as stated, fails. On a screen of 2 by 2 pixels the rectangle of width 2 and height
2 at `(1, 0)` covers the pixels `(1, 0)` and `(1, 1)` of the screen. `DrawRect` sets
`(1, 0)`, returns the out-of-bounds error of `(2, 0)` and leaves `(1, 1)` as it was. -/
theorem C24_clipped_rect_counterexample :
    (DrawRect (exampleScreen PixelFormat.RGB32 2 2 8 16) 1 0 2 2 ⟨1, 2, 3, 4⟩).2
      = Result.error (Err.pixelOutOfBounds 2 0)
    ∧ GetPixel (DrawRect (exampleScreen PixelFormat.RGB32 2 2 8 16) 1 0 2 2 ⟨1, 2, 3, 4⟩).1 1 0
      = Result.ok ⟨1, 2, 3, 4⟩
    ∧ GetPixel (DrawRect (exampleScreen PixelFormat.RGB32 2 2 8 16) 1 0 2 2 ⟨1, 2, 3, 4⟩).1 1 1
      = Result.ok ⟨0, 0, 0, 0⟩ := by
  decide

/-- C24, amended: on a correctly sized screen `DrawRect` does not clip. When the rectangle
`[x, x+w) x [y, y+h)` is empty or lies on the screen, `DrawRect` succeeds, the pixels of
the rectangle hold `c` (on a screen of a 32-bit format, which stores all four channels)
and every other pixel is unchanged. When the rectangle has a pixel outside the screen,
`DrawRect` returns the out-of-bounds error of `PutPixel`. -/
theorem C24_draw_rect (s : Screen) (x y w h : Int) (c : Color) (hs : Sized s)
    (hx : -(2 ^ 63) ≤ x ∧ x < 2 ^ 63) (hy : -(2 ^ 63) ≤ y ∧ y < 2 ^ 63) :
    ((w ≤ 0 ∨ h ≤ 0 ∨ (0 ≤ x ∧ 0 ≤ y ∧ x + w ≤ s.Width ∧ y + h ≤ s.Height)) →
      (DrawRect s x y w h c).2 = Result.ok ()
      ∧ ∀ px py, InBounds s px py →
          ((x ≤ px ∧ px < x + w ∧ y ≤ py ∧ py < y + h) →
            (s.Format = PixelFormat.RGB32 ∨ s.Format = PixelFormat.BGR32) →
            GetPixel (DrawRect s x y w h c).1 px py = Result.ok c)
          ∧ (¬ (x ≤ px ∧ px < x + w ∧ y ≤ py ∧ py < y + h) →
            GetPixel (DrawRect s x y w h c).1 px py = GetPixel s px py))
    ∧ (0 < w → 0 < h → ¬ (0 ≤ x ∧ 0 ≤ y ∧ x + w ≤ s.Width ∧ y + h ≤ s.Height) →
        ∃ px py, (DrawRect s x y w h c).2 = Result.error (Err.pixelOutOfBounds px py)) := by
  constructor
  · intro hin
    have hmem : ∀ p, p ∈ rectPoints x y w h.toNat 0 →
        (0 ≤ x ∧ 0 ≤ y ∧ x + w ≤ s.Width ∧ y + h ≤ s.Height) := by
      intro p hp
      obtain ⟨i, j, hi, hj, -⟩ := (mem_rectPoints x y w h.toNat 0 p).1 hp
      rcases hin with h1 | h1 | h1
      · omega
      · omega
      · exact h1
    have hpts : ∀ p ∈ rectPoints x y w h.toNat 0, InBounds s p.1 p.2 := by
      intro p hp
      have hin' := hmem p hp
      have := (rectPoints_inside s hs x y w h hin' p).1 hp
      exact ⟨by omega, by omega, by omega, by omega⟩
    obtain ⟨r1, r2, r3, r4⟩ := putAll_spec c _ s hs hpts
    rw [DrawRect_eq]
    refine ⟨r1, fun px py hb => ⟨?_, ?_⟩⟩
    · intro hrect hfmt
      have hin' : 0 ≤ x ∧ 0 ≤ y ∧ x + w ≤ s.Width ∧ y + h ≤ s.Height := by
        rcases hin with h1 | h1 | h1
        · omega
        · omega
        · exact h1
      have hp : (px, py) ∈ rectPoints x y w h.toNat 0 :=
        (rectPoints_inside s hs x y w h hin' (px, py)).2 hrect
      have hfmt' : (putAllWith PutPixel c (rectPoints x y w h.toNat 0) s).1.Format
            = PixelFormat.RGB32
          ∨ (putAllWith PutPixel c (rectPoints x y w h.toNat 0) s).1.Format
            = PixelFormat.BGR32 := by
        rw [r2.2.2.2.1]; exact hfmt
      apply GetPixel_of_bytes _ px py c (sameGeometry_sized r2 hs) ((sameGeometry_inBounds r2 px py).2 hb) hfmt'
      intro j hj
      rw [sameGeometry_pixelOffset r2, r2.2.2.2.1]
      exact r3 (px, py) hp j (by rw [pixelBytes_length_32 _ _ hfmt]; exact hj)
    · intro hrect
      apply GetPixel_congr s _ px py hs r2 hb
      intro j hj
      apply r4
      intro p hp
      have hin' := hmem p hp
      have hpr := (rectPoints_inside s hs x y w h hin' p).1 hp
      have hne : (px, py) ≠ (p.1, p.2) := by
        intro heq
        have e1 : px = p.1 := by simpa using congrArg Prod.fst heq
        have e2 : py = p.2 := by simpa using congrArg Prod.snd heq
        apply hrect
        rw [e1, e2]; exact hpr
      have := pixelOffset_disjoint s hs px py p.1 p.2 hb (hpts p hp) hne
      omega
  · intro hw hh hout
    rw [DrawRect_eq]
    by_cases hb : InBounds s x y
    · obtain ⟨hx0, hx1, hy0, hy1⟩ := hb
      have hbd := sized_bounds hs x y ⟨hx0, hx1, hy0, hy1⟩
      by_cases hxw : x + w ≤ s.Width
      · have hyh : ¬ (y + h ≤ s.Height) := fun hc => hout ⟨hx0, hy0, hxw, hc⟩
        apply putAll_error c _ s hs (x, s.Height)
        · rw [mem_rectPoints]
          refine ⟨0, (s.Height - y).toNat, by omega, by omega, ?_⟩
          rw [wrapInt_eq _ (by simp; omega) (by simp; omega),
            wrapInt_eq _ (by omega) (by omega)]
          apply Prod.ext
          · simp
          · simp only; omega
        · unfold InBounds; simp only; omega
      · apply putAll_error c _ s hs (s.Width, y)
        · rw [mem_rectPoints]
          refine ⟨(s.Width - x).toNat, 0, by omega, by omega, ?_⟩
          rw [wrapInt_eq _ (by omega) (by omega),
            wrapInt_eq _ (by simp; omega) (by simp; omega)]
          apply Prod.ext
          · simp only; omega
          · simp
        · unfold InBounds; simp only; omega
    · apply putAll_error c _ s hs (x, y)
      · rw [mem_rectPoints]
        refine ⟨0, 0, by omega, by omega, ?_⟩
        rw [wrapInt_eq _ (by simp; omega) (by simp; omega),
          wrapInt_eq _ (by simp; omega) (by simp; omega)]
        simp
      · exact hb

/-! ### C26, C22, C23 -/

/-- Witness for `C24_draw_rect`: the rectangle of width 1 and height 2 at `(1, 0)` on a
screen of 2 by 2 pixels. -/
theorem C24_draw_rect_witness :
    (DrawRect (exampleScreen PixelFormat.RGB32 2 2 8 16) 1 0 1 2 ⟨1, 2, 3, 4⟩).2 = Result.ok ()
    ∧ GetPixel (DrawRect (exampleScreen PixelFormat.RGB32 2 2 8 16) 1 0 1 2 ⟨1, 2, 3, 4⟩).1 1 1
      = Result.ok ⟨1, 2, 3, 4⟩
    ∧ GetPixel (DrawRect (exampleScreen PixelFormat.RGB32 2 2 8 16) 1 0 1 2 ⟨1, 2, 3, 4⟩).1 0 1
      = GetPixel (exampleScreen PixelFormat.RGB32 2 2 8 16) 0 1
    ∧ ∃ px py, (DrawRect (exampleScreen PixelFormat.RGB32 2 2 8 16) 1 0 2 2 ⟨1, 2, 3, 4⟩).2
        = Result.error (Err.pixelOutOfBounds px py) := by
  have hs : Sized (exampleScreen PixelFormat.RGB32 2 2 8 16) :=
    exampleScreen_sized _ _ _ _ _ (by decide) (by decide) (by decide)
  obtain ⟨h1, -⟩ := C24_draw_rect (exampleScreen PixelFormat.RGB32 2 2 8 16) 1 0 1 2
    ⟨1, 2, 3, 4⟩ hs (by decide) (by decide)
  obtain ⟨-, h2⟩ := C24_draw_rect (exampleScreen PixelFormat.RGB32 2 2 8 16) 1 0 2 2
    ⟨1, 2, 3, 4⟩ hs (by decide) (by decide)
  obtain ⟨r1, r2⟩ := h1 (Or.inr (Or.inr (by decide)))
  exact ⟨r1, (r2 1 1 (by decide)).1 (by decide) (Or.inl rfl),
    (r2 0 1 (by decide)).2 (by decide), h2 (by decide) (by decide) (by decide)⟩

theorem copyAt_self (buf : List Nat) (o : Nat) (bytes : List Nat)
    (h : o + bytes.length ≤ buf.length)
    (hb : ∀ j, j < bytes.length → buf[o + j]? = bytes[j]?) :
    copyAt buf o bytes = buf := by
  symm
  apply copyAt_ext _ _ _ _ h
  intro j
  by_cases hj : o ≤ j ∧ j < o + bytes.length
  · rw [if_pos hj]
    have := hb (j - o) (by omega)
    rw [← this]
    congr 1
    omega
  · rw [if_neg hj]

/-- C26: on a correctly sized screen `Clear(c)` succeeds, and a `PutPixel(x, y, c)` after
it, inside or outside the screen, leaves the shadow buffer byte for byte as `Clear(c)`
left it. -/
theorem C26_clear_put_pixel (s : Screen) (c : Color) (x y : Int) (hs : Sized s) :
    (Clear s c).2 = Result.ok ()
    ∧ (PutPixel (Clear s c).1 x y c).1.buffer = (Clear s c).1.buffer := by
  have hin : 0 ≤ (0 : Int) ∧ 0 ≤ (0 : Int) ∧ 0 + s.Width ≤ s.Width ∧ 0 + s.Height ≤ s.Height :=
    ⟨le_refl _, le_refl _, by omega, by omega⟩
  have hpts : ∀ p ∈ rectPoints 0 0 s.Width s.Height.toNat 0, InBounds s p.1 p.2 := by
    intro p hp
    have := (rectPoints_inside s hs 0 0 s.Width s.Height hin p).1 hp
    exact ⟨by omega, by omega, by omega, by omega⟩
  obtain ⟨r1, r2, r3, r4⟩ := putAll_spec c _ s hs hpts
  unfold Clear
  rw [DrawRect_eq]
  refine ⟨r1, ?_⟩
  by_cases hb : InBounds s x y
  · have hb' := (sameGeometry_inBounds r2 x y).2 hb
    have hs' := sameGeometry_sized r2 hs
    obtain ⟨ho, hlen, _⟩ := pixelOffset_spec _ x y hs' hb'
    rw [PutPixel_inBounds _ x y c hs' hb']
    simp only [(markDirty_fields _ x y x y).1]
    have hlen4 := pixelBytes_length_le s.Format c
    apply copyAt_self
    · rw [r2.2.2.2.1]; omega
    · intro j hj
      rw [sameGeometry_pixelOffset r2, r2.2.2.2.1] at *
      exact r3 (x, y) ((rectPoints_inside s hs 0 0 s.Width s.Height hin (x, y)).2
        ⟨hb.1, by have := hb.2.1; omega, hb.2.2.1, by have := hb.2.2.2; omega⟩) j hj
  · rw [PutPixel_outOfBounds _ x y c (fun h => hb ((sameGeometry_inBounds r2 x y).1 h))]

/-- Witness for `C26_clear_put_pixel`: a screen of 2 by 2 pixels and the pixel `(1, 1)`. -/
theorem C26_clear_put_pixel_witness :
    (Clear (exampleScreen PixelFormat.RGB32 2 2 8 16) ⟨1, 2, 3, 4⟩).2 = Result.ok ()
    ∧ (PutPixel (Clear (exampleScreen PixelFormat.RGB32 2 2 8 16) ⟨1, 2, 3, 4⟩).1 1 1
          ⟨1, 2, 3, 4⟩).1.buffer
      = (Clear (exampleScreen PixelFormat.RGB32 2 2 8 16) ⟨1, 2, 3, 4⟩).1.buffer :=
  C26_clear_put_pixel (exampleScreen PixelFormat.RGB32 2 2 8 16) ⟨1, 2, 3, 4⟩ 1 1
    (exampleScreen_sized _ _ _ _ _ (by decide) (by decide) (by decide))

set_option maxRecDepth 100000 in
/-- C22, evaluated at failing inputs. On an RGB565 screen the red pixel `(255, 0, 0)` is
stored as the bytes `0, 0` and read back as black, and the white pixel `(255, 255, 255)`
is stored as `0xFF, 0x00` and read back as `(0, 28, 248)`: the shifts of `PutPixel` are
`uint8` shifts, so `(R>>3)<<11` is 0 and `(G>>2)<<5` keeps three bits of green. The claim
has the bytes `0x00, 0xF8` and `(0xF8, 0, 0, 255)` for red, `0xFF, 0xFF` and
`(0xF8, 0xFC, 0xF8, 255)` for white. -/
theorem C22_rgb565_evaluation :
    ((255 >>> 3) <<< 11 ||| (0 >>> 2) <<< 5 ||| 0 >>> 3 : Nat) = 0xF800
    ∧ (PutPixel (exampleScreen PixelFormat.RGB565 2 2 8 16) 1 1 ⟨255, 0, 0, 255⟩).2
      = Result.ok ()
    ∧ ((PutPixel (exampleScreen PixelFormat.RGB565 2 2 8 16) 1 1 ⟨255, 0, 0, 255⟩).1.buffer.drop
        12).take 2 = [0, 0]
    ∧ GetPixel (PutPixel (exampleScreen PixelFormat.RGB565 2 2 8 16) 1 1 ⟨255, 0, 0, 255⟩).1 1 1
      = Result.ok ⟨0, 0, 0, 255⟩
    ∧ ((PutPixel (exampleScreen PixelFormat.RGB565 2 2 8 16) 1 1
        ⟨255, 255, 255, 255⟩).1.buffer.drop 12).take 2 = [0xFF, 0x00]
    ∧ GetPixel (PutPixel (exampleScreen PixelFormat.RGB565 2 2 8 16) 1 1
        ⟨255, 255, 255, 255⟩).1 1 1 = Result.ok ⟨0, 28, 248, 255⟩ := by
  decide

set_option maxRecDepth 100000 in
/-- C23, evaluated at failing inputs. On an RGB24 screen of 2 by 2 pixels with a pitch of
6 bytes, `PutPixel(1, 0)` stores its three bytes at the offsets 4, 5, 6 (`y*Pitch + x*4`)
and not at 3, 4, 5 (`y*Pitch + x*3`), `GetPixel(1, 0)` reads them there, and
`PutPixel(1, 1)` panics on the offset 12 past the buffer. On an RGB565 screen with a pitch
of 4 bytes `PutPixel(1, 0)` stores at the offset 4 and not at 2. -/
theorem C23_pixel_offset_evaluation :
    (PutPixel (exampleScreen PixelFormat.RGB24 2 2 6 12) 1 0 ⟨1, 2, 3, 255⟩).1.buffer
      = [0, 0, 0, 0, 1, 2, 3, 0, 0, 0, 0, 0]
    ∧ GetPixel (PutPixel (exampleScreen PixelFormat.RGB24 2 2 6 12) 1 0 ⟨1, 2, 3, 255⟩).1 1 0
      = Result.ok ⟨1, 2, 3, 255⟩
    ∧ (PutPixel (exampleScreen PixelFormat.RGB24 2 2 6 12) 1 1 ⟨1, 2, 3, 255⟩).2 = Result.panic
    ∧ (PutPixel (exampleScreen PixelFormat.RGB565 2 2 4 8) 1 0 ⟨0, 0, 255, 255⟩).1.buffer
      = [0, 0, 0, 0, 31, 0, 0, 0] := by
  decide

/-! ### The walk of DrawLine -/

/-- When the walk of the loop of `DrawLine` ends within `fuel` iterations, the loop calls
the pixel writer on its points in turn and stops at the first call that does not return
nil. -/
theorem drawLineLoop_eq {σ : Type} (put : σ → Int → Int → Color → σ × Result Unit)
    (x2 y2 dx dy sx sy : Int) (color : Color) (fuel : Nat) (x y err : Int) (s : σ)
    (pts : List (Int × Int)) (h : linePoints x2 y2 dx dy sx sy fuel x y err = some pts) :
    drawLineLoop put x2 y2 dx dy sx sy color fuel x y err s
      = some (putAllWith put color pts s) := by
  induction fuel generalizing x y err s pts with
  | zero => simp [linePoints] at h
  | succ fuel ih =>
    simp only [linePoints] at h
    simp only [drawLineLoop]
    by_cases hend : x = x2 ∧ y = y2
    · rw [if_pos hend] at h
      cases h
      simp only [putAllWith]
      rcases put s x y color with ⟨s1, r⟩
      cases r with
      | ok u => cases u; simp [hend]
      | error e => rfl
      | panic => rfl
    · rw [if_neg hend] at h
      split at h
      · cases h
      · rename_i pts' hp
        cases h
        simp only [putAllWith]
        rcases put s x y color with ⟨s1, r⟩
        cases r with
        | ok u =>
          cases u
          simp only [hend, if_false]
          exact ih _ _ _ s1 pts' hp
        | error e => rfl
        | panic => rfl

/-- The walk of the loop of `DrawLine` between two points with coordinates below `2^61`:
with `a` steps left along `x` and `b` steps left along `y`, more than `a + b` iterations
reach the end point, and every point visited has at most as many steps left. -/
theorem linePoints_spec (x2 y2 dx dy sx sy : Int)
    (hdx : 0 ≤ dx ∧ dx < 2 ^ 61) (hdy : 0 ≤ dy ∧ dy < 2 ^ 61)
    (hsx : sx = 1 ∨ sx = -1) (hsy : sy = 1 ∨ sy = -1)
    (hx2 : 0 ≤ x2 ∧ x2 < 2 ^ 61) (hy2 : 0 ≤ y2 ∧ y2 < 2 ^ 61) (fuel : Nat) :
    ∀ (a b x y err : Int), 0 ≤ a → a ≤ dx → 0 ≤ b → b ≤ dy →
      x = x2 - sx * a → y = y2 - sy * b → err = dx - dy + a * dy - b * dx →
      -(2 * dy) ≤ err → err ≤ 2 * dx → a + b < fuel →
      ∃ pts, linePoints x2 y2 dx dy sx sy fuel x y err = some pts
        ∧ (x, y) ∈ pts ∧ (x2, y2) ∈ pts
        ∧ ∀ p ∈ pts, ∃ a' b', 0 ≤ a' ∧ a' ≤ a ∧ 0 ≤ b' ∧ b' ≤ b
            ∧ p = (x2 - sx * a', y2 - sy * b') := by
  induction fuel with
  | zero => intro a b x y err ha0 _ hb0 _ _ _ _ _ _ hf; simp at hf; omega
  | succ fuel ih =>
    intro a b x y err ha0 ha1 hb0 hb1 hx hy herr he1 he2 hf
    simp only [linePoints]
    by_cases hend : x = x2 ∧ y = y2
    · rw [if_pos hend]
      refine ⟨_, rfl, List.mem_singleton.2 rfl, ?_, ?_⟩
      · rw [hend.1, hend.2]; exact List.mem_singleton.2 rfl
      · intro p hp
        rw [List.mem_singleton.1 hp]
        exact ⟨a, b, ha0, le_refl _, hb0, le_refl _, by rw [hx, hy]⟩
    · rw [if_neg hend]
      have hab : a ≠ 0 ∨ b ≠ 0 := by
        by_contra hc
        push_neg at hc
        apply hend
        rw [hx, hy, hc.1, hc.2]
        simp
      have hxr : -(2 ^ 61) ≤ x ∧ x < 2 ^ 62 := by
        rcases hsx with h | h <;> rw [hx, h] <;> omega
      have hyr : -(2 ^ 61) ≤ y ∧ y < 2 ^ 62 := by
        rcases hsy with h | h <;> rw [hy, h] <;> omega
      have hsxr : -1 ≤ sx ∧ sx ≤ 1 := by rcases hsx with h | h <;> omega
      have hsyr : -1 ≤ sy ∧ sy ≤ 1 := by rcases hsy with h | h <;> omega
      have hA : a = 0 ∨ dy ≤ a * dy := by
        by_cases h : a = 0
        · exact Or.inl h
        · right
          have := Int.mul_le_mul_of_nonneg_right (show (1 : Int) ≤ a by omega) hdy.1
          omega
      have hB : b = 0 ∨ dx ≤ b * dx := by
        by_cases h : b = 0
        · exact Or.inl h
        · right
          have := Int.mul_le_mul_of_nonneg_right (show (1 : Int) ≤ b by omega) hdx.1
          omega
      have hA0 : a = 0 → a * dy = 0 := fun h => by rw [h]; simp
      have hB0 : b = 0 → b * dx = 0 := fun h => by rw [h]; simp
      have hA1 : (a - 1) * dy = a * dy - dy := by ring
      have hB1 : (b - 1) * dx = b * dx - dx := by ring
      have hX1 : x + sx = x2 - sx * (a - 1) := by rw [hx]; ring
      have hY1 : y + sy = y2 - sy * (b - 1) := by rw [hy]; ring
      have hw1 : wrapInt (2 * err) = 2 * err := wrapInt_eq _ (by omega) (by omega)
      have hw2 : wrapInt (-dy) = -dy := wrapInt_eq _ (by omega) (by omega)
      have hw3 : wrapInt (err - dy) = err - dy := wrapInt_eq _ (by omega) (by omega)
      have hw4 : wrapInt (x + sx) = x + sx := wrapInt_eq _ (by omega) (by omega)
      have hw5 : wrapInt (err - dy + dx) = err - dy + dx := wrapInt_eq _ (by omega) (by omega)
      have hw6 : wrapInt (err + dx) = err + dx := wrapInt_eq _ (by omega) (by omega)
      have hw7 : wrapInt (y + sy) = y + sy := wrapInt_eq _ (by omega) (by omega)
      simp only [hw1, hw2, hw3, hw4, hw7]
      have key : ∀ (a' b' x' y' err' : Int), a' ≤ a → b' ≤ b → a' + b' < a + b →
          0 ≤ a' → 0 ≤ b' → x' = x2 - sx * a' → y' = y2 - sy * b' →
          err' = dx - dy + a' * dy - b' * dx → -(2 * dy) ≤ err' → err' ≤ 2 * dx →
          ∃ pts, (match linePoints x2 y2 dx dy sx sy fuel x' y' err' with
                  | none => none
                  | some pts => some ((x, y) :: pts)) = some pts
            ∧ (x, y) ∈ pts ∧ (x2, y2) ∈ pts
            ∧ ∀ p ∈ pts, ∃ a2 b2, 0 ≤ a2 ∧ a2 ≤ a ∧ 0 ≤ b2 ∧ b2 ≤ b
                ∧ p = (x2 - sx * a2, y2 - sy * b2) := by
        intro a' b' x' y' err' haa hbb hlt ha0' hb0' hx' hy' herr' he1' he2'
        obtain ⟨pts, hp, -, hm2, hall⟩ := ih a' b' x' y' err' ha0' (by omega) hb0' (by omega)
          hx' hy' herr' he1' he2' (by omega)
        rw [hp]
        refine ⟨_, rfl, List.mem_cons_self _ _, List.mem_cons_of_mem _ hm2, ?_⟩
        intro p hpm
        rcases List.mem_cons.1 hpm with h | h
        · exact ⟨a, b, ha0, le_refl _, hb0, le_refl _, by rw [h, hx, hy]⟩
        · obtain ⟨a2, b2, h1, h2, h3, h4, h5⟩ := hall p h
          exact ⟨a2, b2, h1, by omega, h3, by omega, h5⟩
      by_cases hX : 2 * err > -dy
      · have ha : a ≠ 0 := by
          intro h
          have := hA0 h
          rcases hB with h' | h'
          · omega
          · omega
        by_cases hY : 2 * err < dx
        · have hb : b ≠ 0 := by
            intro h
            have := hB0 h
            rcases hA with h' | h'
            · omega
            · omega
          simp only [hX, hY, if_true, hw5]
          exact key (a - 1) (b - 1) _ _ _ (by omega) (by omega) (by omega) (by omega) (by omega)
            hX1 hY1 (by rw [hA1, hB1]; omega) (by omega) (by omega)
        · simp only [hX, hY, if_true, if_false]
          exact key (a - 1) b _ _ _ (by omega) (by omega) (by omega) (by omega) (by omega)
            hX1 hy (by rw [hA1]; omega) (by omega) (by omega)
      · by_cases hY : 2 * err < dx
        · have hb : b ≠ 0 := by
            intro h
            have := hB0 h
            rcases hA with h' | h'
            · omega
            · omega
          simp only [hX, hY, if_true, if_false, hw6]
          exact key a (b - 1) _ _ _ (by omega) (by omega) (by omega) (by omega) (by omega)
            hx hY1 (by rw [hB1]; omega) (by omega) (by omega)
        · exfalso
          rcases hA with h' | h' <;> rcases hB with h'' | h'' <;> omega

/-! ### C25: DrawLine between two points of the screen -/

theorem recordingPut_fst (sl : Screen × List (Int × Int)) (x y : Int) (c : Color) :
    (recordingPut sl x y c).1.1 = (PutPixel sl.1 x y c).1
    ∧ (recordingPut sl x y c).2 = (PutPixel sl.1 x y c).2 := by
  unfold recordingPut
  rcases PutPixel sl.1 x y c with ⟨s1, r⟩
  cases r with
  | ok u => cases u; exact ⟨rfl, rfl⟩
  | error e => exact ⟨rfl, rfl⟩
  | panic => exact ⟨rfl, rfl⟩

/-- A recorded run of `PutPixel` over points of a correctly sized screen records all of
them. -/
theorem putAll_recording (c : Color) (pts : List (Int × Int)) (s : Screen)
    (log : List (Int × Int)) (hs : Sized s) (hpts : ∀ p ∈ pts, InBounds s p.1 p.2) :
    putAllWith recordingPut c pts (s, log)
      = (((putAllWith PutPixel c pts s).1, log ++ pts), Result.ok ()) := by
  induction pts generalizing s log with
  | nil => simp [putAllWith]
  | cons p ps ih =>
    have hbp := hpts p (List.mem_cons_self _ _)
    have hg := PutPixel_sameGeometry s p.1 p.2 c hs
    have h1 : recordingPut (s, log) p.1 p.2 c
        = (((PutPixel s p.1 p.2 c).1, log ++ [(p.1, p.2)]), Result.ok ()) := by
      unfold recordingPut
      rw [PutPixel_inBounds s p.1 p.2 c hs hbp]
    simp only [putAllWith, h1]
    rw [ih (PutPixel s p.1 p.2 c).1 _ (sameGeometry_sized hg hs)
      (fun q hq => (sameGeometry_inBounds hg q.1 q.2).2 (hpts q (List.mem_cons_of_mem _ hq)))]
    rw [PutPixel_inBounds s p.1 p.2 c hs hbp]
    simp

theorem abs_wrapInt_sub (u v : Int) (hu : 0 ≤ u ∧ u < 2 ^ 61) (hv : 0 ≤ v ∧ v < 2 ^ 61) :
    abs (wrapInt (v - u)) = if u > v then u - v else v - u := by
  rw [wrapInt_eq _ (by omega) (by omega)]
  unfold abs
  by_cases h : u > v
  · rw [if_pos (by omega), if_pos h, wrapInt_eq _ (by omega) (by omega)]; omega
  · rw [if_neg (by omega), if_neg h]

/-- C25: on a correctly sized screen, for two end points on the screen, `DrawLine` ends
within `|x2 - x1| + |y2 - y1| + 1` iterations of its loop and returns nil; the pixels it
writes (the recorded calls of `PutPixel`) include both end points, all lie in the bounding
box of the end points, and on a screen of a 32-bit format each of them holds the colour
afterwards. -/
theorem C25_draw_line (s : Screen) (x1 y1 x2 y2 : Int) (c : Color) (log : List (Int × Int))
    (fuel : Nat) (hs : Sized s) (h1 : InBounds s x1 y1) (h2 : InBounds s x2 y2)
    (hfuel : (x2 - x1).natAbs + (y2 - y1).natAbs < fuel) :
    ∃ s' pts,
      DrawLine fuel s x1 y1 x2 y2 c = some (s', Result.ok ())
      ∧ drawLineWith recordingPut fuel (s, log) x1 y1 x2 y2 c
          = some ((s', log ++ pts), Result.ok ())
      ∧ (x1, y1) ∈ pts ∧ (x2, y2) ∈ pts
      ∧ (∀ p ∈ pts, min x1 x2 ≤ p.1 ∧ p.1 ≤ max x1 x2 ∧ min y1 y2 ≤ p.2 ∧ p.2 ≤ max y1 y2)
      ∧ (s.Format = PixelFormat.RGB32 ∨ s.Format = PixelFormat.BGR32 →
          ∀ p ∈ pts, GetPixel s' p.1 p.2 = Result.ok c) := by
  have hb1 := sized_bounds hs x1 y1 h1
  obtain ⟨a1, a2, a3, a4⟩ := h1
  obtain ⟨b1, b2, b3, b4⟩ := h2
  have hdx := abs_wrapInt_sub x1 x2 ⟨a1, by omega⟩ ⟨b1, by omega⟩
  have hdy := abs_wrapInt_sub y1 y2 ⟨a3, by omega⟩ ⟨b3, by omega⟩
  have hdx0 : 0 ≤ abs (wrapInt (x2 - x1)) ∧ abs (wrapInt (x2 - x1)) < 2 ^ 61 := by
    rw [hdx]; split_ifs <;> omega
  have hdy0 : 0 ≤ abs (wrapInt (y2 - y1)) ∧ abs (wrapInt (y2 - y1)) < 2 ^ 61 := by
    rw [hdy]; split_ifs <;> omega
  have herr : wrapInt (abs (wrapInt (x2 - x1)) - abs (wrapInt (y2 - y1)))
      = abs (wrapInt (x2 - x1)) - abs (wrapInt (y2 - y1)) := wrapInt_eq _ (by omega) (by omega)
  obtain ⟨pts, hp, hm1, hm2, hall⟩ := linePoints_spec x2 y2 (abs (wrapInt (x2 - x1)))
    (abs (wrapInt (y2 - y1))) (if x1 > x2 then -1 else 1) (if y1 > y2 then -1 else 1)
    hdx0 hdy0 (by split_ifs <;> simp) (by split_ifs <;> simp) ⟨b1, by omega⟩ ⟨b3, by omega⟩
    fuel (abs (wrapInt (x2 - x1))) (abs (wrapInt (y2 - y1))) x1 y1
    (abs (wrapInt (x2 - x1)) - abs (wrapInt (y2 - y1)))
    hdx0.1 (le_refl _) hdy0.1 (le_refl _)
    (by rw [hdx]; split_ifs <;> omega) (by rw [hdy]; split_ifs <;> omega)
    (by ring) (by omega) (by omega)
    (by rw [hdx, hdy]; split_ifs <;> omega)
  have hbox : ∀ p ∈ pts, min x1 x2 ≤ p.1 ∧ p.1 ≤ max x1 x2 ∧ min y1 y2 ≤ p.2
      ∧ p.2 ≤ max y1 y2 := by
    intro p hpm
    obtain ⟨a', b', e1, e2, e3, e4, e5⟩ := hall p hpm
    rw [e5]
    rw [hdx] at e2
    rw [hdy] at e4
    simp only [min_def, max_def]
    split_ifs at e2 e4 ⊢ <;> omega
  have hin : ∀ p ∈ pts, InBounds s p.1 p.2 := by
    intro p hpm
    have := hbox p hpm
    simp only [min_def, max_def] at this
    unfold InBounds
    split_ifs at this <;> omega
  obtain ⟨r1, r2, r3, r4⟩ := putAll_spec c pts s hs hin
  refine ⟨(putAllWith PutPixel c pts s).1, pts, ?_, ?_, hm1, hm2, hbox, ?_⟩
  · unfold DrawLine drawLineWith
    simp only [herr]
    rw [drawLineLoop_eq PutPixel _ _ _ _ _ _ c fuel _ _ _ s pts hp]
    congr 1
    exact Prod.ext rfl r1
  · unfold drawLineWith
    simp only [herr]
    rw [drawLineLoop_eq recordingPut _ _ _ _ _ _ c fuel _ _ _ (s, log) pts hp,
      putAll_recording c pts s log hs hin]
  · intro hfmt p hpm
    have hfmt' : (putAllWith PutPixel c pts s).1.Format = PixelFormat.RGB32
        ∨ (putAllWith PutPixel c pts s).1.Format = PixelFormat.BGR32 := by
      rw [r2.2.2.2.1]; exact hfmt
    apply GetPixel_of_bytes _ p.1 p.2 c (sameGeometry_sized r2 hs) ((sameGeometry_inBounds r2 p.1 p.2).2 (hin p hpm)) hfmt'
    intro j hj
    rw [sameGeometry_pixelOffset r2, r2.2.2.2.1]
    exact r3 p hpm j (by rw [pixelBytes_length_32 _ _ hfmt]; exact hj)

/-! ### The dirty rectangle and the pixels written -/

/-- A call of `PutPixel` either returns nil and has marked `(x, y)-(x, y)` dirty, or
leaves the screen as it was. -/
theorem PutPixel_cases (s : Screen) (x y : Int) (c : Color) :
    ((PutPixel s x y c).2 = Result.ok ()
      ∧ ∃ b, (PutPixel s x y c).1 = markDirty { s with buffer := b } x y x y)
    ∨ ((PutPixel s x y c).2 ≠ Result.ok () ∧ (PutPixel s x y c).1 = s) := by
  unfold PutPixel
  split_ifs with h
  · right; exact ⟨by simp, rfl⟩
  · dsimp only
    cases putBytes s.Format s.buffer (wrapInt (wrapInt (y * s.Pitch) + wrapInt (x * 4))) c with
    | ok b => left; exact ⟨rfl, b, rfl⟩
    | error e => right; exact ⟨by simp, rfl⟩
    | panic => right; exact ⟨by simp, rfl⟩

theorem recordingPut_tight (sl : Screen × List (Int × Int)) (x y : Int) (c : Color)
    (h : Tight sl) : Tight (recordingPut sl x y c).1 := by
  obtain ⟨s, log⟩ := sl
  rcases PutPixel_cases s x y c with ⟨hok, b, hb⟩ | ⟨hne, hs⟩
  · have hr : (recordingPut (s, log) x y c).1
        = (markDirty { s with buffer := b } x y x y, log ++ [(x, y)]) := by
      unfold recordingPut
      rcases hp : PutPixel s x y c with ⟨s1, r⟩
      rw [hp] at hok hb
      simp only at hok hb
      rw [hok, hb]
    rw [hr]
    have hm := markDirty_spec { s with buffer := b } x y x y
    generalize markDirty { s with buffer := b } x y x y = m at hm
    change m.dirty = true ∧ (m.dirtyX1, m.dirtyY1, m.dirtyX2, m.dirtyY2)
      = (if s.dirty = true then
          (min s.dirtyX1 x, min s.dirtyY1 y, max s.dirtyX2 x, max s.dirtyY2 y)
         else (x, y, x, y)) at hm
    obtain ⟨hd, hrect⟩ := hm
    obtain ⟨t1, t2⟩ := h
    simp only at t1 t2
    refine ⟨by simp [hd], fun _ => ?_⟩
    simp only
    by_cases hdirty : s.dirty = true
    · have hlog : log ≠ [] := t1.1 hdirty
      obtain ⟨u1, ⟨p1, hp1, e1⟩, ⟨p2, hp2, e2⟩, ⟨p3, hp3, e3⟩, ⟨p4, hp4, e4⟩⟩ := t2 hlog
      rw [if_pos hdirty] at hrect
      simp only [Prod.mk.injEq] at hrect
      obtain ⟨r1, r2, r3, r4⟩ := hrect
      rw [r1, r2, r3, r4]
      refine ⟨?_, ?_, ?_, ?_, ?_⟩
      · intro p hp
        rcases List.mem_append.1 hp with hp | hp
        · have := u1 p hp
          simp only [min_def, max_def]
          split_ifs <;> omega
        · rw [List.mem_singleton.1 hp]
          simp only [min_def, max_def]
          split_ifs <;> omega
      · by_cases hc : s.dirtyX1 ≤ x
        · exact ⟨p1, List.mem_append_left _ hp1, by rw [e1, min_eq_left hc]⟩
        · exact ⟨(x, y), by simp, by rw [min_eq_right (by omega)]⟩
      · by_cases hc : x ≤ s.dirtyX2
        · exact ⟨p2, List.mem_append_left _ hp2, by rw [e2, max_eq_left hc]⟩
        · exact ⟨(x, y), by simp, by rw [max_eq_right (by omega)]⟩
      · by_cases hc : s.dirtyY1 ≤ y
        · exact ⟨p3, List.mem_append_left _ hp3, by rw [e3, min_eq_left hc]⟩
        · exact ⟨(x, y), by simp, by rw [min_eq_right (by omega)]⟩
      · by_cases hc : y ≤ s.dirtyY2
        · exact ⟨p4, List.mem_append_left _ hp4, by rw [e4, max_eq_left hc]⟩
        · exact ⟨(x, y), by simp, by rw [max_eq_right (by omega)]⟩
    · have hlog : log = [] := by
        by_contra hc
        exact hdirty (t1.2 hc)
      rw [if_neg hdirty] at hrect
      simp only [Prod.mk.injEq] at hrect
      obtain ⟨r1, r2, r3, r4⟩ := hrect
      rw [r1, r2, r3, r4, hlog]
      simp
  · have hr : (recordingPut (s, log) x y c).1 = (s, log) := by
      unfold recordingPut
      rcases hp : PutPixel s x y c with ⟨s1, r⟩
      rw [hp] at hne hs
      simp only at hne hs
      cases r with
      | ok u => cases u; exact absurd rfl hne
      | error e => simp [hs]
      | panic => simp [hs]
    rw [hr]; exact h

/-! ### C27: the dirty rectangle is the bounding box of the pixels written -/

theorem putAllWith_inv {σ : Type} (put : σ → Int → Int → Color → σ × Result Unit)
    (P : σ → Prop) (hput : ∀ s x y c, P s → P (put s x y c).1) (c : Color)
    (pts : List (Int × Int)) (s : σ) (h : P s) : P (putAllWith put c pts s).1 := by
  induction pts generalizing s with
  | nil => exact h
  | cons p ps ih =>
    simp only [putAllWith]
    have := hput s p.1 p.2 c h
    rcases hq : put s p.1 p.2 c with ⟨s1, r⟩
    rw [hq] at this
    cases r with
    | ok u => cases u; exact ih s1 this
    | error e => exact this
    | panic => exact this

theorem drawLineLoop_inv {σ : Type} (put : σ → Int → Int → Color → σ × Result Unit)
    (P : σ → Prop) (hput : ∀ s x y c, P s → P (put s x y c).1)
    (x2 y2 dx dy sx sy : Int) (c : Color) (fuel : Nat) (x y err : Int) (s : σ) (h : P s)
    (r : σ × Result Unit) (hr : drawLineLoop put x2 y2 dx dy sx sy c fuel x y err s = some r) :
    P r.1 := by
  induction fuel generalizing x y err s with
  | zero => simp [drawLineLoop] at hr
  | succ fuel ih =>
    simp only [drawLineLoop] at hr
    have := hput s x y c h
    rcases hq : put s x y c with ⟨s1, r1⟩
    rw [hq] at this hr
    cases r1 with
    | ok u =>
      cases u
      by_cases hend : x = x2 ∧ y = y2
      · simp only [hend, and_self, if_true, Option.some.injEq] at hr
        rw [← hr]; exact this
      · simp only [hend, if_false] at hr
        exact ih _ _ _ s1 this hr
    | error e => simp only [Option.some.injEq] at hr; rw [← hr]; exact this
    | panic => simp only [Option.some.injEq] at hr; rw [← hr]; exact this

theorem putAllWith_recording (c : Color) (pts : List (Int × Int))
    (sl : Screen × List (Int × Int)) :
    (putAllWith recordingPut c pts sl).1.1 = (putAllWith PutPixel c pts sl.1).1
    ∧ (putAllWith recordingPut c pts sl).2 = (putAllWith PutPixel c pts sl.1).2 := by
  induction pts generalizing sl with
  | nil => exact ⟨rfl, rfl⟩
  | cons p ps ih =>
    simp only [putAllWith]
    obtain ⟨h1, h2⟩ := recordingPut_fst sl p.1 p.2 c
    rcases hr : recordingPut sl p.1 p.2 c with ⟨sl1, r⟩
    rcases hp : PutPixel sl.1 p.1 p.2 c with ⟨s1, r'⟩
    rw [hr, hp] at h1 h2
    simp only at h1 h2
    subst h2
    cases r with
    | ok u => cases u; simp only; rw [← h1]; exact ih sl1
    | error e => exact ⟨h1, rfl⟩
    | panic => exact ⟨h1, rfl⟩

theorem drawLineLoop_recording (x2 y2 dx dy sx sy : Int) (c : Color) (fuel : Nat)
    (x y err : Int) (sl : Screen × List (Int × Int)) :
    (drawLineLoop recordingPut x2 y2 dx dy sx sy c fuel x y err sl).map
        (fun r => (r.1.1, r.2))
      = drawLineLoop PutPixel x2 y2 dx dy sx sy c fuel x y err sl.1 := by
  induction fuel generalizing x y err sl with
  | zero => rfl
  | succ fuel ih =>
    simp only [drawLineLoop]
    obtain ⟨h1, h2⟩ := recordingPut_fst sl x y c
    rcases hr : recordingPut sl x y c with ⟨sl1, r⟩
    rcases hp : PutPixel sl.1 x y c with ⟨s1, r'⟩
    rw [hr, hp] at h1 h2
    simp only at h1 h2
    subst h2
    cases r with
    | ok u =>
      cases u
      by_cases hend : x = x2 ∧ y = y2
      · simp only [hend, and_self, if_true, Option.map_some', h1]
      · simp only [hend, if_false]
        rw [← h1]; exact ih _ _ _ sl1
    | error e => simp [h1]
    | panic => simp [h1]

/-- A primitive run over the recording pixel writer does to the screen what the primitive
does and returns what it returns. -/
theorem recordedPrim_sim (fuel : Nat) (sl : Screen × List (Int × Int)) (p : Prim) :
    (recordedPrim fuel sl p).map (fun r => (r.1.1, r.2)) = runPrim fuel sl.1 p := by
  cases p with
  | putPixel x y c =>
    obtain ⟨h1, h2⟩ := recordingPut_fst sl x y c
    simp only [recordedPrim, runPrim, Option.map_some']
    rw [h1, h2]
  | drawRect x y w h c =>
    obtain ⟨h1, h2⟩ := putAllWith_recording c (rectPoints x y w h.toNat 0) sl
    simp only [recordedPrim, runPrim, Option.map_some', DrawRect, drawRectWith, drawRectRows_eq]
    rw [h1, h2]
  | drawLine x1 y1 x2 y2 c =>
    simp only [recordedPrim, runPrim, DrawLine, drawLineWith]
    exact drawLineLoop_recording _ _ _ _ _ _ c fuel _ _ _ sl
  | clear c =>
    obtain ⟨h1, h2⟩ := putAllWith_recording c (rectPoints 0 0 sl.1.Width sl.1.Height.toNat 0) sl
    simp only [recordedPrim, runPrim, Option.map_some', Clear, DrawRect, drawRectWith,
      drawRectRows_eq]
    rw [h1, h2]

theorem recordedPrim_tight (fuel : Nat) (sl : Screen × List (Int × Int)) (p : Prim)
    (r : (Screen × List (Int × Int)) × Result Unit) (h : Tight sl)
    (hr : recordedPrim fuel sl p = some r) : Tight r.1 := by
  have hput : ∀ (s : Screen × List (Int × Int)) (x y : Int) (c : Color),
      Tight s → Tight (recordingPut s x y c).1 := fun s x y c hs => recordingPut_tight s x y c hs
  cases p with
  | putPixel x y c =>
    simp only [recordedPrim, Option.some.injEq] at hr
    rw [← hr]; exact hput sl x y c h
  | drawRect x y w h' c =>
    simp only [recordedPrim, Option.some.injEq, drawRectWith, drawRectRows_eq] at hr
    rw [← hr]; exact putAllWith_inv recordingPut Tight hput c _ sl h
  | drawLine x1 y1 x2 y2 c =>
    simp only [recordedPrim, drawLineWith] at hr
    exact drawLineLoop_inv recordingPut Tight hput _ _ _ _ _ _ c fuel _ _ _ sl h r hr
  | clear c =>
    simp only [recordedPrim, Option.some.injEq, drawRectWith, drawRectRows_eq] at hr
    rw [← hr]; exact putAllWith_inv recordingPut Tight hput c _ sl h

/-- A sequence of primitives run over the recording pixel writer ends when the sequence
does, on the same screen, and the dirty state stays tight for the pixels written. -/
theorem recordedPrims_spec (fuel : Nat) (prims : List Prim) (sl : Screen × List (Int × Int))
    (s' : Screen) (h : Tight sl) (hrun : runPrims fuel prims sl.1 = some s') :
    ∃ written, recordedPrims fuel prims sl = some (s', written) ∧ Tight (s', written) := by
  induction prims generalizing sl with
  | nil =>
    simp only [runPrims, Option.some.injEq] at hrun
    exact ⟨sl.2, by simp [recordedPrims, ← hrun], by rw [← hrun]; exact h⟩
  | cons p ps ih =>
    have hsim := recordedPrim_sim fuel sl p
    simp only [runPrims] at hrun
    simp only [recordedPrims]
    cases hq : recordedPrim fuel sl p with
    | none =>
      rw [hq] at hsim
      simp only [Option.map_none'] at hsim
      rw [← hsim] at hrun
      simp at hrun
    | some r =>
      have ht := recordedPrim_tight fuel sl p r h hq
      rw [hq] at hsim
      simp only [Option.map_some'] at hsim
      rw [← hsim] at hrun
      obtain ⟨sl1, res⟩ := r
      cases res with
      | ok u => exact ih sl1 ht hrun
      | error e => exact ih sl1 ht hrun
      | panic => simp at hrun

/-- C27: from a screen that is not dirty (just flushed), after any finite sequence of
`PutPixel`, `DrawRect`, `DrawLine` and `Clear` that runs to its end, the screen is dirty
exactly when the sequence has written a pixel, and then the dirty rectangle is the
inclusive bounding box of the pixels written: it contains each of them, and each of its
four edges passes through one of them. The pixels written are those of the calls of
`PutPixel` that returned nil, recorded while the sequence runs. -/
theorem C27_dirty_rectangle (fuel : Nat) (prims : List Prim) (s s' : Screen)
    (hfresh : s.dirty = false) (hrun : runPrims fuel prims s = some s') :
    ∃ written, recordedPrims fuel prims (s, []) = some (s', written)
      ∧ (s'.dirty = true ↔ written ≠ [])
      ∧ (written ≠ [] →
          (∀ p ∈ written, s'.dirtyX1 ≤ p.1 ∧ p.1 ≤ s'.dirtyX2
            ∧ s'.dirtyY1 ≤ p.2 ∧ p.2 ≤ s'.dirtyY2)
          ∧ (∃ p ∈ written, p.1 = s'.dirtyX1) ∧ (∃ p ∈ written, p.1 = s'.dirtyX2)
          ∧ (∃ p ∈ written, p.2 = s'.dirtyY1) ∧ (∃ p ∈ written, p.2 = s'.dirtyY2)) := by
  have h0 : Tight (s, []) := ⟨by simp [hfresh], fun h => absurd rfl h⟩
  obtain ⟨written, h1, h2⟩ := recordedPrims_spec fuel prims (s, []) s' h0 hrun
  exact ⟨written, h1, h2.1, h2.2⟩

/-! ### C28: Flush -/

/-- C28, as stated, fails on a screen that is not dirty: `Flush` returns nil at once and
writes nothing, so a hardware region that differs from the shadow buffer still differs. -/
theorem C28_flush_counterexample :
    staleScreen.dirty = false
    ∧ (Flush staleScreen).2 = none
    ∧ (Flush staleScreen).1.buffer = [1, 2, 3, 4]
    ∧ hwRegion (Flush staleScreen).1 = some [0, 0, 0, 0] := by
  decide

theorem map_range_getD (buf : List Nat) (a : Nat) (f : Nat → Nat) :
    (List.range buf.length).map
      (fun i => if a ≤ a + i ∧ a + i < a + buf.length then buf.getD (a + i - a) 0 else f i)
      = buf := by
  apply List.ext_getElem?
  intro j
  rw [List.getElem?_map]
  by_cases hj : j < buf.length
  · rw [List.getElem?_range hj]
    simp only [Option.map_some']
    rw [if_pos ⟨by omega, by omega⟩, Nat.add_sub_cancel_left, List.getD_eq_getElem?_getD,
      List.getElem?_eq_getElem hj]
    rfl
  · rw [List.getElem?_eq_none (by simpa using hj), List.getElem?_eq_none (by omega)]
    rfl

/-- C28, amended: after `Flush` returns nil the dirty flag is clear and the shadow buffer
is unchanged. When the screen was dirty, the hardware framebuffer region then equals the
shadow buffer byte for byte. When it was not dirty, `Flush` has written nothing: the screen
and its memory file are as before, and the region equals the shadow buffer only if it
already did. -/
theorem C28_flush (s : Screen) (haddr : s.FBAddr < 2 ^ 64) (hok : (Flush s).2 = none) :
    (Flush s).1.dirty = false
    ∧ (Flush s).1.buffer = s.buffer
    ∧ (s.dirty = true → hwRegion (Flush s).1 = some s.buffer)
    ∧ (s.dirty = false → (Flush s).1 = s) := by
  by_cases hd : s.dirty = true
  · cases hm : s.memFile with
    | none =>
      have : (Flush s).2 = some (Err.failedToSeek Err.ErrInvalid) := by
        unfold Flush
        rw [if_neg (by simp [hd]), hm]
        rfl
      rw [this] at hok
      cases hok
    | some m =>
      have hpos : ((wrapInt (s.FBAddr : Int)) % 2 ^ 64).toNat = s.FBAddr := by
        unfold wrapInt; omega
      have hf : Flush s
          = ({ s with
                memFile := some
                  { mem := fun a =>
                      if s.FBAddr ≤ a ∧ a < s.FBAddr + s.buffer.length then
                        s.buffer.getD (a - s.FBAddr) 0
                      else m.mem a,
                    pos := s.FBAddr + s.buffer.length },
                dirty := false }, none) := by
        unfold Flush
        rw [if_neg (by simp [hd]), hm]
        simp only [MemFile.Seek, MemFile.Write, hpos]
      rw [hf]
      refine ⟨rfl, rfl, fun _ => ?_, fun h => absurd hd (by simp [h])⟩
      simp only [hwRegion, Option.map_some']
      rw [map_range_getD s.buffer s.FBAddr (fun i => m.mem (s.FBAddr + i))]
  · have hd' : s.dirty = false := by simpa using hd
    have hf : Flush s = (s, none) := by
      unfold Flush
      rw [if_pos (by simp [hd'])]
    rw [hf]
    exact ⟨hd', rfl, fun h => absurd h hd, fun _ => rfl⟩

/-- Witness for `C28_flush`: the dirty screen of one pixel. -/
theorem C28_flush_witness :
    (Flush dirtyScreen).1.dirty = false
    ∧ (Flush dirtyScreen).1.buffer = [1, 2, 3, 4]
    ∧ hwRegion (Flush dirtyScreen).1 = some [1, 2, 3, 4] := by
  obtain ⟨h1, h2, h3, -⟩ := C28_flush dirtyScreen (by decide) (by decide)
  exact ⟨h1, h2, h3 rfl⟩

/-! ### C29: the cursor after RenderText -/

set_option maxRecDepth 1000000 in
/-- C29, evaluated at failing inputs. A screen of 16 by 16 pixels with glyphs of 8 by 16
has its cursor at `(8, 0)`, which satisfies `0 ≤ cx < width` and `cy + gh ≤ height`. A tab
moves the cursor to column 16, wraps it to column 0 of the next line and does not scroll:
the cursor is left at `(0, 16)` with `cy + gh = 32 > 16`. On a screen of 4 by 4 pixels with
glyphs of 2 by 2 and the cursor at `(2, 2)` a tab leaves the cursor at `(0, 4)`, while a
newline and the wrap after a glyph both scroll and leave it at `(0, 2)`, which is
`height - gh`. -/
theorem C29_tab_wrap_evaluation :
    ((RenderText { exampleScreen PixelFormat.RGB32 16 16 64 1024 with CursorX := 8 }
        ['\t']).2 = Result.ok ()
      ∧ (RenderText { exampleScreen PixelFormat.RGB32 16 16 64 1024 with CursorX := 8 }
          ['\t']).1.CursorX = 0
      ∧ (RenderText { exampleScreen PixelFormat.RGB32 16 16 64 1024 with CursorX := 8 }
          ['\t']).1.CursorY = 16
      ∧ (RenderText { exampleScreen PixelFormat.RGB32 16 16 64 1024 with CursorX := 8 }
          ['\t']).1.Height = 16
      ∧ (RenderText { exampleScreen PixelFormat.RGB32 16 16 64 1024 with CursorX := 8 }
          ['\t']).1.Font.Height = 16)
    ∧ ((RenderText smallTextScreen ['\t']).2 = Result.ok ()
      ∧ (RenderText smallTextScreen ['\t']).1.CursorX = 0
      ∧ (RenderText smallTextScreen ['\t']).1.CursorY = 4
      ∧ (RenderText smallTextScreen ['\n']).1.CursorX = 0
      ∧ (RenderText smallTextScreen ['\n']).1.CursorY = 2
      ∧ (RenderText smallTextScreen ['A']).2 = Result.ok ()
      ∧ (RenderText smallTextScreen ['A']).1.CursorX = 0
      ∧ (RenderText smallTextScreen ['A']).1.CursorY = 2) := by
  decide

theorem getElem?_copyAt_short (dst : List Nat) (lo : Nat) (src : List Nat)
    (h : lo ≤ dst.length) (j : Nat) :
    (copyAt dst lo src)[j]?
      = if lo ≤ j ∧ j < lo + min (dst.length - lo) src.length then src[j - lo]?
        else dst[j]? := by
  have hl : (dst.take lo).length = lo := by rw [List.length_take]; omega
  have hl2 : (src.take (dst.length - lo)).length = min (dst.length - lo) src.length := by
    rw [List.length_take]
  rw [copyAt, List.append_assoc]
  by_cases c1 : j < lo
  · rw [List.getElem?_append_left (by omega), List.getElem?_take, if_pos c1, if_neg (by omega)]
  · rw [List.getElem?_append_right (by omega), hl]
    by_cases c2 : j < lo + min (dst.length - lo) src.length
    · rw [List.getElem?_append_left (by omega), if_pos ⟨by omega, c2⟩, List.getElem?_take,
        if_pos (by omega)]
    · rw [List.getElem?_append_right (by omega), hl2, List.getElem?_drop, if_neg (by omega)]
      by_cases c3 : src.length ≤ dst.length - lo
      · rw [Nat.min_eq_right c3] at c2 ⊢
        congr 1
        omega
      · rw [List.getElem?_eq_none (by omega), List.getElem?_eq_none (by omega)]

theorem copyAt_length_short (dst : List Nat) (lo : Nat) (src : List Nat)
    (h : lo ≤ dst.length) : (copyAt dst lo src).length = dst.length := by
  simp only [copyAt, List.length_append, List.length_take, List.length_drop]
  omega

/-! ### C30: binary writes to the data file -/

/-- What `writePixelsBinary` does at an offset inside the buffer of a screen with a
positive pitch. -/
theorem writePixelsBinary_spec (s : Screen) (offset : Nat) (data : List Nat)
    (hoff : offset < s.buffer.length) (hpitch : 0 < s.Pitch)
    (hlen : s.buffer.length < 2 ^ 63) (hdata : data.length < 2 ^ 32) :
    writePixelsBinary s offset data
      = (markDirty { s with buffer := copyAt s.buffer offset data } 0
            ((offset : Int) / s.Pitch) (wrapInt (s.Width - 1))
            (((offset + min (s.buffer.length - offset) data.length : Nat) : Int) / s.Pitch),
         min (s.buffer.length - offset) data.length, Result.ok ()) := by
  have hn : min (s.buffer.length - offset) data.length ≤ s.buffer.length - offset :=
    Nat.min_le_left _ _
  have hn2 : min (s.buffer.length - offset) data.length ≤ data.length := Nat.min_le_right _ _
  have hw1 : wrapInt ((offset : Nat) : Int) = offset := wrapInt_eq _ (by omega) (by omega)
  have hm : (offset + min (s.buffer.length - offset) data.length) % 2 ^ 64
      = offset + min (s.buffer.length - offset) data.length :=
    Nat.mod_eq_of_lt (by omega)
  have hw2 : wrapInt (((offset + min (s.buffer.length - offset) data.length : Nat)) : Int)
      = ((offset + min (s.buffer.length - offset) data.length : Nat) : Int) :=
    wrapInt_eq _ (by omega) (by omega)
  have hd1 : Int.tdiv (offset : Int) s.Pitch = (offset : Int) / s.Pitch :=
    Int.tdiv_eq_ediv (by omega) (by omega)
  have hd2 : Int.tdiv ((offset + min (s.buffer.length - offset) data.length : Nat) : Int) s.Pitch
      = ((offset + min (s.buffer.length - offset) data.length : Nat) : Int) / s.Pitch :=
    Int.tdiv_eq_ediv (by omega) (by omega)
  have hb1 : 0 ≤ (offset : Int) / s.Pitch ∧ (offset : Int) / s.Pitch ≤ offset :=
    ⟨Int.ediv_nonneg (by omega) (by omega), Int.ediv_le_self _ (by omega)⟩
  have hb2 : 0 ≤ ((offset + min (s.buffer.length - offset) data.length : Nat) : Int) / s.Pitch
      ∧ ((offset + min (s.buffer.length - offset) data.length : Nat) : Int) / s.Pitch
        ≤ ((offset + min (s.buffer.length - offset) data.length : Nat) : Int) :=
    ⟨Int.ediv_nonneg (by omega) (by omega), Int.ediv_le_self _ (by omega)⟩
  have hw3 : wrapInt ((offset : Int) / s.Pitch) = (offset : Int) / s.Pitch :=
    wrapInt_eq _ (by omega) (by omega)
  have hw4 : wrapInt (((offset + min (s.buffer.length - offset) data.length : Nat) : Int)
        / s.Pitch)
      = ((offset + min (s.buffer.length - offset) data.length : Nat) : Int) / s.Pitch :=
    wrapInt_eq _ (by omega) (by omega)
  unfold writePixelsBinary
  rw [if_neg (by omega)]
  simp only
  rw [if_neg (by omega), hm, hw1, hw2, hd1, hd2, hw3, hw4, Nat.mod_eq_of_lt (by omega)]

theorem writeFile_binary (fuel : Nat) (s : Screen) (offset : Nat) (data : List Nat)
    (hsp : (0x20 : Nat) ∉ data) :
    writeFile fuel s "data".toList offset data = some (writePixelsBinary s offset data) := by
  unfold writeFile
  rw [if_neg (by decide), if_pos rfl, if_neg hsp]

theorem writeFile_badText (fuel : Nat) (s : Screen) (offset : Nat) (data : List Nat)
    (hsp : (0x20 : Nat) ∈ data) (hscan : sscanfInts 5 (runes data) = none) :
    writeFile fuel s "data".toList offset data
      = some (s, 0, Result.error Err.invalidPixelFormat) := by
  unfold writeFile
  rw [if_neg (by decide), if_pos rfl, if_pos hsp, hscan]

set_option maxRecDepth 100000 in
/-- C30, as stated, fails. The binary payload `1, 2, 32, 4` (one pixel whose blue channel
is 32) written at offset 0 of the file `data` holds the byte of a space, so `Write` takes
it as the text form, which it is not: the write returns the count 0 and the error "invalid
pixel format", and the shadow buffer is unchanged. The claim has the four bytes copied and
the count 4. -/
theorem C30_binary_write_counterexample :
    (Write 0 (exampleServer (exampleScreen PixelFormat.RGB32 2 2 8 16))
        "/dev/draw/screen0/data".toList 0 [1, 2, 32, 4]).map (fun r => r.2)
      = some (0, Result.error Err.invalidPixelFormat)
    ∧ (Write 0 (exampleServer (exampleScreen PixelFormat.RGB32 2 2 8 16))
        "/dev/draw/screen0/data".toList 0 [1, 2, 32, 4]).bind
          (fun r => (r.1.screens "screen0".toList).map (fun s => s.buffer))
      = some (List.replicate 16 0) := by
  decide

/-- C30, amended: at an offset inside the shadow buffer of a screen with a positive pitch,
a payload without the byte 0x20 written to the file `data` is copied: the first
`n = min(len(payload), len(buffer) - offset)` bytes go to the buffer at the offset, `n` is
returned, no other byte of the buffer changes, and the dirty rectangle becomes its union
with the columns `0..Width-1` of the rows `offset/Pitch` to `(offset+n)/Pitch`. A payload
with the byte 0x20 is taken as the text form `x y r g b`: one that does not scan as five
integers is rejected with "invalid pixel format" and nothing is written. -/
theorem C30_binary_write (fuel : Nat) (fs : Framebuffer9PServer) (path name : List Char)
    (s : Screen) (offset : Nat) (data : List Nat)
    (hp : parsePath fs path = some (name, s, "data".toList))
    (hoff : offset < s.buffer.length) (hpitch : 0 < s.Pitch)
    (hlen : s.buffer.length < 2 ^ 63) (hdata : data.length < 2 ^ 32) :
    ((0x20 : Nat) ∉ data →
      ∃ s', Write fuel fs path offset data
          = some (fs.set name s', min data.length (s.buffer.length - offset), Result.ok ())
        ∧ s'.buffer.length = s.buffer.length
        ∧ (∀ i, s'.buffer[i]?
            = if offset ≤ i ∧ i < offset + min data.length (s.buffer.length - offset) then
                data[i - offset]?
              else s.buffer[i]?)
        ∧ s'.dirty = true
        ∧ (s'.dirtyX1, s'.dirtyY1, s'.dirtyX2, s'.dirtyY2)
          = (if s.dirty = true then
              (min s.dirtyX1 0, min s.dirtyY1 ((offset : Int) / s.Pitch),
               max s.dirtyX2 (wrapInt (s.Width - 1)),
               max s.dirtyY2
                 (((offset + min data.length (s.buffer.length - offset) : Nat) : Int)
                   / s.Pitch))
             else
              (0, (offset : Int) / s.Pitch, wrapInt (s.Width - 1),
               ((offset + min data.length (s.buffer.length - offset) : Nat) : Int)
                 / s.Pitch)))
    ∧ ((0x20 : Nat) ∈ data → sscanfInts 5 (runes data) = none →
        Write fuel fs path offset data
          = some (fs.set name s, 0, Result.error Err.invalidPixelFormat)) := by
  constructor
  · intro hsp
    have hw := writePixelsBinary_spec s offset data hoff hpitch hlen hdata
    rw [Nat.min_comm] at hw
    refine ⟨markDirty { s with buffer := copyAt s.buffer offset data } 0
      ((offset : Int) / s.Pitch) (wrapInt (s.Width - 1))
      (((offset + min data.length (s.buffer.length - offset) : Nat) : Int) / s.Pitch),
      ?_, ?_, ?_, ?_, ?_⟩
    · unfold Write
      rw [hp]
      simp only [writeFile_binary fuel s offset data hsp, hw]
    · rw [(markDirty_fields _ _ _ _ _).1]
      exact copyAt_length_short _ _ _ (by omega)
    · intro i
      rw [(markDirty_fields _ _ _ _ _).1]
      show (copyAt s.buffer offset data)[i]? = _
      rw [getElem?_copyAt_short _ _ _ (by omega), Nat.min_comm]
    · exact (markDirty_spec _ _ _ _ _).1
    · exact (markDirty_spec _ _ _ _ _).2
  · intro hsp hscan
    unfold Write
    rw [hp]
    simp only [writeFile_badText fuel s offset data hsp hscan]

set_option maxRecDepth 100000 in
/-- Witness for `C30_binary_write`: the payload `1, 2, 3` written at offset 14 of a buffer
of 16 bytes, of which two bytes fit. -/
theorem C30_binary_write_witness :
    ∃ s', Write 0 (exampleServer (exampleScreen PixelFormat.RGB32 2 2 8 16))
          "/dev/draw/screen0/data".toList 14 [1, 2, 3]
        = some ((exampleServer (exampleScreen PixelFormat.RGB32 2 2 8 16)).set
            "screen0".toList s', 2, Result.ok ())
      ∧ s'.buffer[13]? = some 0 ∧ s'.buffer[14]? = some 1 ∧ s'.buffer[15]? = some 2
      ∧ (s'.dirtyX1, s'.dirtyY1, s'.dirtyX2, s'.dirtyY2) = (0, 1, 1, 2) := by
  obtain ⟨h, -⟩ := C30_binary_write 0 (exampleServer (exampleScreen PixelFormat.RGB32 2 2 8 16))
    "/dev/draw/screen0/data".toList "screen0".toList (exampleScreen PixelFormat.RGB32 2 2 8 16)
    14 [1, 2, 3] (parsePath_example _) (by decide) (by decide) (by decide) (by decide)
  obtain ⟨s', h1, -, h3, -, h5⟩ := h (by decide)
  refine ⟨s', h1, ?_, ?_, ?_, ?_⟩
  · rw [h3]; decide
  · rw [h3]; decide
  · rw [h3]; decide
  · rw [h5]; decide

/-! ### Witnesses for C25 and C27 -/

/-- Witness for `C25_draw_line`: the line from `(0, 0)` to `(3, 1)` on a screen of 4 by 4
pixels, with 5 iterations. -/
theorem C25_draw_line_witness :
    ∃ s' pts,
      DrawLine 5 (exampleScreen PixelFormat.RGB32 4 4 16 64) 0 0 3 1 ⟨1, 2, 3, 4⟩
        = some (s', Result.ok ())
      ∧ drawLineWith recordingPut 5 (exampleScreen PixelFormat.RGB32 4 4 16 64, []) 0 0 3 1
          ⟨1, 2, 3, 4⟩ = some ((s', [] ++ pts), Result.ok ())
      ∧ ((0 : Int), (0 : Int)) ∈ pts ∧ ((3 : Int), (1 : Int)) ∈ pts
      ∧ (∀ p ∈ pts, min 0 3 ≤ p.1 ∧ p.1 ≤ max 0 3 ∧ min 0 1 ≤ p.2 ∧ p.2 ≤ max 0 1)
      ∧ ((exampleScreen PixelFormat.RGB32 4 4 16 64).Format = PixelFormat.RGB32
          ∨ (exampleScreen PixelFormat.RGB32 4 4 16 64).Format = PixelFormat.BGR32 →
          ∀ p ∈ pts, GetPixel s' p.1 p.2 = Result.ok ⟨1, 2, 3, 4⟩) :=
  C25_draw_line (exampleScreen PixelFormat.RGB32 4 4 16 64) 0 0 3 1 ⟨1, 2, 3, 4⟩ [] 5
    (exampleScreen_sized _ _ _ _ _ (by decide) (by decide) (by decide))
    (by decide) (by decide) (by decide)

set_option maxRecDepth 100000 in
/-- Witness for `C27_dirty_rectangle`: the four calls of `examplePrims` on a screen of 4 by
4 pixels that is not dirty. -/
theorem C27_dirty_rectangle_witness :
    ∃ s' written,
      runPrims 5 examplePrims (exampleScreen PixelFormat.RGB32 4 4 16 64) = some s'
      ∧ recordedPrims 5 examplePrims (exampleScreen PixelFormat.RGB32 4 4 16 64, [])
          = some (s', written)
      ∧ (s'.dirty = true ↔ written ≠ [])
      ∧ (written ≠ [] →
          (∀ p ∈ written, s'.dirtyX1 ≤ p.1 ∧ p.1 ≤ s'.dirtyX2
            ∧ s'.dirtyY1 ≤ p.2 ∧ p.2 ≤ s'.dirtyY2)
          ∧ (∃ p ∈ written, p.1 = s'.dirtyX1) ∧ (∃ p ∈ written, p.1 = s'.dirtyX2)
          ∧ (∃ p ∈ written, p.2 = s'.dirtyY1) ∧ (∃ p ∈ written, p.2 = s'.dirtyY2)) := by
  have h : (runPrims 5 examplePrims (exampleScreen PixelFormat.RGB32 4 4 16 64)).isSome
      = true := by decide
  obtain ⟨s', hs'⟩ := Option.isSome_iff_exists.1 h
  obtain ⟨written, hw⟩ := C27_dirty_rectangle 5 examplePrims
    (exampleScreen PixelFormat.RGB32 4 4 16 64) s' rfl hs'
  exact ⟨s', written, hs', hw⟩

set_option maxRecDepth 100000 in
/-- The pixels written by `examplePrims` and the dirty rectangle it leaves, evaluated. -/
theorem examplePrims_evaluation :
    (recordedPrims 5 examplePrims (exampleScreen PixelFormat.RGB32 4 4 16 64, [])).map
        (fun r => (r.2, r.1.dirty, r.1.dirtyX1, r.1.dirtyY1, r.1.dirtyX2, r.1.dirtyY2))
      = some ([(1, 2), (1, 1), (2, 1), (1, 1), (2, 1), (3, 2)], true, 1, 1, 3, 2) := by
  decide

end Fb

end Lux9

/-! ## Boot information, the server framework, and the device number, cursor, partition
and count checks -/

namespace Lux9

namespace Fb

set_option linter.unusedVariables false

/-! ### C31: the boot information -/

theorem parseParam_addr (r : BootInfo) (param : List Char)
    (h : ∀ v, Split param '=' ≠ ["fb_addr".toList, v]) : (parseParam r param).addr = r.addr := by
  unfold parseParam
  split
  · rename_i key value heq
    by_cases hk : key = "fb_addr".toList
    · exact absurd (hk ▸ heq) (h value)
    · simp only [hk, if_false]
      split_ifs <;> rfl
  · rfl

theorem parseParam_width (r : BootInfo) (param : List Char)
    (h : ∀ v, Split param '=' ≠ ["fb_width".toList, v]) :
    (parseParam r param).width = r.width := by
  unfold parseParam
  split
  · rename_i key value heq
    by_cases hk : key = "fb_width".toList
    · exact absurd (hk ▸ heq) (h value)
    · by_cases ha : key = "fb_addr".toList
      · simp only [ha, if_true]
        split <;> rfl
      · simp only [ha, hk, if_false]
        split_ifs <;> rfl
  · rfl

theorem parseParam_height (r : BootInfo) (param : List Char)
    (h : ∀ v, Split param '=' ≠ ["fb_height".toList, v]) :
    (parseParam r param).height = r.height := by
  unfold parseParam
  split
  · rename_i key value heq
    by_cases hk : key = "fb_height".toList
    · exact absurd (hk ▸ heq) (h value)
    · by_cases ha : key = "fb_addr".toList
      · simp only [ha, if_true]
        split <;> rfl
      · simp only [ha, hk, if_false]
        split_ifs <;> rfl
  · rfl

theorem keyPresent_false (bootInfo key : List Char) (h : keyPresent bootInfo key = false) :
    ∀ p ∈ Fields bootInfo, ∀ v, Split p '=' ≠ [key, v] := by
  intro p hp v hs
  unfold keyPresent at h
  rw [List.any_eq_false] at h
  have := h p hp
  rw [hs] at this
  simp at this

theorem foldl_parseParam (ps : List (List Char)) (r : BootInfo) :
    ((∀ p ∈ ps, ∀ v, Split p '=' ≠ ["fb_addr".toList, v]) →
      (ps.foldl parseParam r).addr = r.addr)
    ∧ ((∀ p ∈ ps, ∀ v, Split p '=' ≠ ["fb_width".toList, v]) →
      (ps.foldl parseParam r).width = r.width)
    ∧ ((∀ p ∈ ps, ∀ v, Split p '=' ≠ ["fb_height".toList, v]) →
      (ps.foldl parseParam r).height = r.height) := by
  induction ps generalizing r with
  | nil => exact ⟨fun _ => rfl, fun _ => rfl, fun _ => rfl⟩
  | cons p ps ih =>
    obtain ⟨i1, i2, i3⟩ := ih (parseParam r p)
    refine ⟨fun h => ?_, fun h => ?_, fun h => ?_⟩
    · rw [List.foldl_cons, i1 (fun q hq => h q (List.mem_cons_of_mem _ hq)),
        parseParam_addr r p (h p (List.mem_cons_self _ _))]
    · rw [List.foldl_cons, i2 (fun q hq => h q (List.mem_cons_of_mem _ hq)),
        parseParam_width r p (h p (List.mem_cons_self _ _))]
    · rw [List.foldl_cons, i3 (fun q hq => h q (List.mem_cons_of_mem _ hq)),
        parseParam_height r p (h p (List.mem_cons_self _ _))]

/-- A boot-info string without the key `fb_addr`, `fb_width` or `fb_height` is answered
with the error: the result in question keeps its zero value, which the guard at the end of
`ParseBootInfo` rejects. -/
theorem ParseBootInfo_missing (bootInfo : List Char)
    (h : keyPresent bootInfo "fb_addr".toList = false
      ∨ keyPresent bootInfo "fb_width".toList = false
      ∨ keyPresent bootInfo "fb_height".toList = false) :
    ParseBootInfo bootInfo = Result.error Err.invalidBootInfo := by
  obtain ⟨i1, i2, i3⟩ := foldl_parseParam (Fields bootInfo)
    { addr := 0, width := 0, height := 0, pitch := 0, depth := 0 }
  unfold ParseBootInfo
  rcases h with h | h | h
  · have := i1 (keyPresent_false _ _ h)
    simp only [this, true_or, if_true]
  · have := i2 (keyPresent_false _ _ h)
    simp only [this, true_or, or_true, if_true]
  · have := i3 (keyPresent_false _ _ h)
    simp only [this, or_true, if_true]

/-- C31, the code at the failing inputs. A boot-info string that has neither `fb_pitch`
nor `fb_depth` is accepted, and so is one without `fb_pitch` alone: `ParseBootInfo` returns
a nil error with the missing values 0. A string without `fb_height` is answered with the
error, as the claim has it for every key. -/
theorem C31_missing_pitch_depth_evaluation :
    keyPresent "fb_addr=0xE0000000 fb_width=1024 fb_height=768".toList "fb_pitch".toList = false
    ∧ keyPresent "fb_addr=0xE0000000 fb_width=1024 fb_height=768".toList "fb_depth".toList
        = false
    ∧ ParseBootInfo "fb_addr=0xE0000000 fb_width=1024 fb_height=768".toList
        = Result.ok { addr := 0xE0000000, width := 1024, height := 768, pitch := 0, depth := 0 }
    ∧ ParseBootInfo "fb_addr=0xE0000000 fb_width=1024 fb_height=768 fb_depth=32".toList
        = Result.ok { addr := 0xE0000000, width := 1024, height := 768, pitch := 0, depth := 32 }
    ∧ ParseBootInfo
        "fb_addr=0xE0000000 fb_width=1024 fb_height=768 fb_pitch=4096 fb_depth=32".toList
        = Result.ok
            { addr := 0xE0000000, width := 1024, height := 768, pitch := 4096, depth := 32 }
    ∧ ParseBootInfo "fb_addr=0xE0000000 fb_width=1024 fb_pitch=4096 fb_depth=32".toList
        = Result.error Err.invalidBootInfo := by
  refine ⟨by decide, by decide, by decide, by decide, by decide, by decide⟩

end Fb

namespace Sip

set_option linter.unusedVariables false

/-! ### Go maps as lists of entries -/

theorem mapGet_eq_none {V : Type u} (m : List (List Char × V)) (k : List Char) :
    mapGet m k = none ↔ k ∉ m.map Prod.fst := by
  induction m with
  | nil => exact ⟨fun _ h => (nomatch h), fun _ => rfl⟩
  | cons e rest ih =>
    unfold mapGet
    by_cases h : e.1 = k
    · rw [if_pos h]
      exact ⟨fun h2 => (nomatch h2),
        fun h2 => absurd (by rw [List.map_cons, h]; exact List.mem_cons_self _ _) h2⟩
    · rw [if_neg h, ih, List.map_cons, List.mem_cons, not_or]
      exact ⟨fun h2 => ⟨fun h3 => h h3.symm, h2⟩, fun h2 => h2.2⟩

theorem mapSet_absent {V : Type u} (m : List (List Char × V)) (k : List Char) (v : V)
    (h : mapGet m k = none) : mapSet m k v = m ++ [(k, v)] := by
  induction m with
  | nil => rfl
  | cons e rest ih =>
    unfold mapGet at h
    unfold mapSet
    by_cases hk : e.1 = k
    · simp [hk] at h
    · simp only [hk, if_false] at h ⊢
      rw [ih h, List.cons_append]

theorem mapGet_mapSet_self {V : Type u} (m : List (List Char × V)) (k : List Char) (v : V) :
    mapGet (mapSet m k v) k = some v := by
  induction m with
  | nil => simp [mapSet, mapGet]
  | cons e rest ih =>
    unfold mapSet
    by_cases hk : e.1 = k
    · simp [hk, mapGet]
    · simp only [hk, if_false]
      unfold mapGet
      simp only [hk, if_false]
      exact ih

theorem mapGet_mapSet_other {V : Type u} (m : List (List Char × V)) (k k' : List Char)
    (v : V) (h : k' ≠ k) : mapGet (mapSet m k v) k' = mapGet m k' := by
  induction m with
  | nil => simp [mapSet, mapGet, Ne.symm h]
  | cons e rest ih =>
    unfold mapSet
    by_cases hk : e.1 = k
    · simp only [hk, if_true]
      unfold mapGet
      simp [hk, Ne.symm h]
    · simp only [hk, if_false]
      unfold mapGet
      by_cases hk2 : e.1 = k'
      · simp [hk2]
      · simp only [hk2, if_false]
        exact ih

/-! ### The life cycle of the example servers -/

theorem and_CapDeviceAccess (caps : Nat) :
    caps &&& CapDeviceAccess = 0 ↔ caps.testBit 2 = false := by
  have h : CapDeviceAccess = 2 ^ 2 := rfl
  rw [h, Nat.and_two_pow]
  cases caps.testBit 2 <;> simp

theorem and_CapFileSystem (caps : Nat) :
    caps &&& CapFileSystem = 0 ↔ caps.testBit 1 = false := by
  have h : CapFileSystem = 2 ^ 1 := rfl
  rw [h, Nat.and_two_pow]
  cases caps.testBit 1 <;> simp

/-- C32: for every configuration, the server that the factory of `RegisterExampleServers`
creates for the type `example-driver`, when the configuration has `CapDeviceAccess`, and
for the type `example-fileserver`, when it has `CapFileSystem`, goes through the life
cycle without an error: `Initialize` returns nil and `Health` then reports
`HealthStarting`, `Start` returns nil and `Health` reports `HealthHealthy`, `Stop` returns
nil and `Health` reports `HealthStopped`. -/
theorem C32_lifecycle (config : ServerConfig) (serverType : List Char)
    (h : (serverType = "example-driver".toList ∧ config.Capabilities &&& CapDeviceAccess ≠ 0)
      ∨ (serverType = "example-fileserver".toList
          ∧ config.Capabilities &&& CapFileSystem ≠ 0)) :
    ∃ server, exampleFactory.Create serverType config = Except.ok server
      ∧ server.Health.Status = HealthStatus.HealthUnknown
      ∧ (server.Initialize config).2 = none
      ∧ (server.Initialize config).1.Health.Status = HealthStatus.HealthStarting
      ∧ (server.Initialize config).1.Start.2 = none
      ∧ (server.Initialize config).1.Start.1.Health.Status = HealthStatus.HealthHealthy
      ∧ (server.Initialize config).1.Start.1.Stop.2 = none
      ∧ (server.Initialize config).1.Start.1.Stop.1.Health.Status
          = HealthStatus.HealthStopped := by
  rcases h with ⟨rfl, hc⟩ | ⟨rfl, hc⟩
  · refine ⟨ExampleDriver.asServer { base := NewBaseServer config, devices := [] },
      rfl, rfl, ?_, ?_, ?_, ?_, ?_, ?_⟩ <;>
    simp [IServer.Initialize, IServer.Start, IServer.Stop, IServer.Health,
      ExampleDriver.asServer, ExampleDriver.Initialize, ExampleDriver.Start,
      ExampleDriver.Stop, ExampleDriver.Probe, ExampleDriver.AttachDevice,
      ExampleDriver.DetachDevice, BaseServer.Initialize, BaseServer.Start, BaseServer.Stop,
      BaseServer.Health, BaseServer.updateHealth, BaseServer.IncrementRequests, hc]
  · refine ⟨ExampleFileServer.asServer
      { base := NewBaseServer config, mounted := false, fileCache := [] },
      rfl, rfl, ?_, ?_, ?_, ?_, ?_, ?_⟩ <;>
    simp [IServer.Initialize, IServer.Start, IServer.Stop, IServer.Health,
      ExampleFileServer.asServer, ExampleFileServer.Initialize, ExampleFileServer.Start,
      ExampleFileServer.Stop, ExampleFileServer.Mount9P, ExampleFileServer.Unmount9P,
      BaseServer.Initialize, BaseServer.Start, BaseServer.Stop,
      BaseServer.Health, BaseServer.updateHealth, hc]

/-- Witness for `C32_lifecycle`: the configuration of `TestServerLifecycle`, with
`CapDeviceAccess` and `CapInterrupt`, and the type `example-driver`. -/
theorem C32_lifecycle_witness :
    ∃ server, exampleFactory.Create "example-driver".toList
        (exampleConfig "lifecycle-test".toList (CapDeviceAccess ||| CapInterrupt))
        = Except.ok server
      ∧ server.Health.Status = HealthStatus.HealthUnknown
      ∧ (server.Initialize
          (exampleConfig "lifecycle-test".toList (CapDeviceAccess ||| CapInterrupt))).2 = none
      ∧ (server.Initialize
          (exampleConfig "lifecycle-test".toList (CapDeviceAccess ||| CapInterrupt))).1.Health.Status
          = HealthStatus.HealthStarting
      ∧ (server.Initialize
          (exampleConfig "lifecycle-test".toList (CapDeviceAccess ||| CapInterrupt))).1.Start.2
          = none
      ∧ (server.Initialize
          (exampleConfig "lifecycle-test".toList
            (CapDeviceAccess ||| CapInterrupt))).1.Start.1.Health.Status
          = HealthStatus.HealthHealthy
      ∧ (server.Initialize
          (exampleConfig "lifecycle-test".toList
            (CapDeviceAccess ||| CapInterrupt))).1.Start.1.Stop.2 = none
      ∧ (server.Initialize
          (exampleConfig "lifecycle-test".toList
            (CapDeviceAccess ||| CapInterrupt))).1.Start.1.Stop.1.Health.Status
          = HealthStatus.HealthStopped :=
  C32_lifecycle (exampleConfig "lifecycle-test".toList (CapDeviceAccess ||| CapInterrupt))
    "example-driver".toList (Or.inl ⟨rfl, by decide⟩)

/-! ### C33: the capability check of `Initialize` -/

/-- C33: `CapDeviceAccess` is bit 2 and `CapFileSystem` is bit 1 of the capabilities. For
every driver, file server and configuration, `ExampleDriver.Initialize` returns an error,
the one about `CapDeviceAccess`, exactly when bit 2 of `config.Capabilities` is clear, and
`ExampleFileServer.Initialize` returns an error, the one about `CapFileSystem`, exactly
when bit 1 is clear; so two configurations that agree on that bit have the same outcome,
whatever their other bits are. -/
theorem C33_capability_check (d : ExampleDriver) (f : ExampleFileServer)
    (config : ServerConfig) :
    CapDeviceAccess = 2 ^ 2 ∧ CapFileSystem = 2 ^ 1
    ∧ ((d.Initialize config).2 ≠ none ↔ config.Capabilities.testBit 2 = false)
    ∧ ((d.Initialize config).2 = none ∨
        (d.Initialize config).2 = some Err.driverRequiresCapDeviceAccess)
    ∧ ((f.Initialize config).2 ≠ none ↔ config.Capabilities.testBit 1 = false)
    ∧ ((f.Initialize config).2 = none ∨
        (f.Initialize config).2 = some Err.fileServerRequiresCapFileSystem)
    ∧ (∀ config2 : ServerConfig,
        config2.Capabilities.testBit 2 = config.Capabilities.testBit 2 →
        (d.Initialize config2).2 = (d.Initialize config).2)
    ∧ (∀ config2 : ServerConfig,
        config2.Capabilities.testBit 1 = config.Capabilities.testBit 1 →
        (f.Initialize config2).2 = (f.Initialize config).2) := by
  have hd : ∀ c : ServerConfig, (d.Initialize c).2
      = if c.Capabilities.testBit 2 = false then some Err.driverRequiresCapDeviceAccess
        else none := by
    intro c
    unfold ExampleDriver.Initialize BaseServer.Initialize
    by_cases hb : c.Capabilities.testBit 2 = false
    · simp only [(and_CapDeviceAccess _).2 hb, hb, if_true]
    · have : ¬ (c.Capabilities &&& CapDeviceAccess = 0) :=
        fun h => hb ((and_CapDeviceAccess _).1 h)
      simp [this, hb]
  have hf : ∀ c : ServerConfig, (f.Initialize c).2
      = if c.Capabilities.testBit 1 = false then some Err.fileServerRequiresCapFileSystem
        else none := by
    intro c
    unfold ExampleFileServer.Initialize BaseServer.Initialize
    by_cases hb : c.Capabilities.testBit 1 = false
    · simp only [(and_CapFileSystem _).2 hb, hb, if_true]
    · have : ¬ (c.Capabilities &&& CapFileSystem = 0) :=
        fun h => hb ((and_CapFileSystem _).1 h)
      simp [this, hb]
  refine ⟨rfl, rfl, ?_, ?_, ?_, ?_, ?_, ?_⟩
  · rw [hd]; by_cases hb : config.Capabilities.testBit 2 = false <;> simp [hb]
  · rw [hd]; by_cases hb : config.Capabilities.testBit 2 = false <;> simp [hb]
  · rw [hf]; by_cases hb : config.Capabilities.testBit 1 = false <;> simp [hb]
  · rw [hf]; by_cases hb : config.Capabilities.testBit 1 = false <;> simp [hb]
  · intro c2 h2; rw [hd, hd, h2]
  · intro c2 h2; rw [hf, hf, h2]

/-- Witness for `C33_capability_check`: with `CapFileSystem` alone the driver is refused
and the file server is accepted; adding `CapDMA` and `CapNetworking` changes neither. -/
theorem C33_capability_check_witness :
    ((ExampleDriver.mk (NewBaseServer (exampleConfig [] 0)) []).Initialize
        (exampleConfig [] (CapFileSystem ||| CapDMA ||| CapNetworking))).2
      = some Err.driverRequiresCapDeviceAccess
    ∧ ((ExampleFileServer.mk (NewBaseServer (exampleConfig [] 0)) false []).Initialize
        (exampleConfig [] (CapFileSystem ||| CapDMA ||| CapNetworking))).2 = none := by
  obtain ⟨-, -, -, -, -, -, h1, h2⟩ := C33_capability_check
    (ExampleDriver.mk (NewBaseServer (exampleConfig [] 0)) [])
    (ExampleFileServer.mk (NewBaseServer (exampleConfig [] 0)) false [])
    (exampleConfig [] CapFileSystem)
  exact ⟨(h1 (exampleConfig [] (CapFileSystem ||| CapDMA ||| CapNetworking))
      (by decide)).trans (by decide),
    (h2 (exampleConfig [] (CapFileSystem ||| CapDMA ||| CapNetworking))
      (by decide)).trans (by decide)⟩

/-! ### C36: the registry of the factory -/

theorem Register_eq (f : ServerFactory) (serverType : List Char)
    (constructor : ServerConstructor) :
    f.Register serverType constructor
      = if serverType ∈ f.ListTypes then
          (f, some (Err.serverTypeAlreadyRegistered serverType))
        else ({ f with registry := f.registry ++ [(serverType, constructor)] }, none) := by
  unfold ServerFactory.Register ServerFactory.ListTypes
  by_cases h : serverType ∈ f.registry.map Prod.fst
  · rw [if_pos h]
    cases hg : mapGet f.registry serverType with
    | none => exact absurd h ((mapGet_eq_none _ _).1 hg)
    | some c => rfl
  · rw [if_neg h]
    have hg := (mapGet_eq_none _ _).2 h
    rw [hg]
    simp only [mapSet_absent _ _ _ hg]

theorem registerAll_spec (regs : List (List Char × ServerConstructor)) (f : ServerFactory)
    (hn : (regs.map Prod.fst).Nodup) (hd : ∀ t ∈ regs.map Prod.fst, t ∉ f.ListTypes) :
    (∀ e ∈ (registerAll f regs).2, e = none)
    ∧ (registerAll f regs).1.registry = f.registry ++ regs := by
  induction regs generalizing f with
  | nil => exact ⟨fun e he => (nomatch he), (List.append_nil _).symm⟩
  | cons r rest ih =>
    have hr : r.1 ∉ f.ListTypes :=
      hd r.1 (by rw [List.map_cons]; exact List.mem_cons_self _ _)
    have hR : f.Register r.1 r.2 = ({ f with registry := f.registry ++ [(r.1, r.2)] }, none) := by
      rw [Register_eq, if_neg hr]
    rw [List.map_cons, List.nodup_cons] at hn
    have := ih { f with registry := f.registry ++ [(r.1, r.2)] } hn.2 (by
      intro t ht
      simp only [ServerFactory.ListTypes, List.map_append, List.map_cons, List.map_nil,
        List.mem_append, List.mem_singleton, not_or]
      refine ⟨hd t (by rw [List.map_cons]; exact List.mem_cons_of_mem _ ht), ?_⟩
      rintro rfl
      exact hn.1 ht)
    unfold registerAll
    rw [hR]
    refine ⟨?_, ?_⟩
    · intro e he
      rcases List.mem_cons.1 he with h | h
      · exact h
      · exact this.1 e h
    · rw [this.2]
      show f.registry ++ [(r.1, r.2)] ++ rest = f.registry ++ r :: rest
      rw [List.append_assoc]
      rfl

/-- C36: `Register` returns an error exactly when the type is in the registry already, and
then the factory is unchanged; otherwise the registry gains the type with its constructor,
the types listed are those listed before and the new one, and every other type keeps its
constructor. Registering a list of distinct types with the fresh factory succeeds at every
step, and `ListTypes` then returns these types, once each. -/
theorem C36_register (f : ServerFactory) (serverType : List Char)
    (constructor : ServerConstructor) :
    ((f.Register serverType constructor).2 ≠ none ↔ serverType ∈ f.ListTypes)
    ∧ ((f.Register serverType constructor).2 ≠ none →
        (f.Register serverType constructor).1 = f)
    ∧ ((f.Register serverType constructor).2 = none →
        ((f.Register serverType constructor).1.ListTypes).Perm (serverType :: f.ListTypes)
        ∧ mapGet (f.Register serverType constructor).1.registry serverType = some constructor
        ∧ ∀ t, t ≠ serverType →
            mapGet (f.Register serverType constructor).1.registry t = mapGet f.registry t)
    ∧ (∀ regs : List (List Char × ServerConstructor), (regs.map Prod.fst).Nodup →
        (∀ e ∈ (registerAll NewServerFactory regs).2, e = none)
        ∧ ((registerAll NewServerFactory regs).1.ListTypes).Perm (regs.map Prod.fst)
        ∧ ((registerAll NewServerFactory regs).1.ListTypes).Nodup) := by
  refine ⟨?_, ?_, ?_, ?_⟩
  · rw [Register_eq]
    by_cases h : serverType ∈ f.ListTypes <;> simp [h]
  · rw [Register_eq]
    by_cases h : serverType ∈ f.ListTypes <;> simp [h]
  · intro hok
    have habs : mapGet f.registry serverType = none := by
      unfold ServerFactory.Register at hok
      cases hg : mapGet f.registry serverType with
      | none => rfl
      | some c => rw [hg] at hok; exact nomatch hok
    have hR : (f.Register serverType constructor).1
        = { f with registry := mapSet f.registry serverType constructor } := by
      unfold ServerFactory.Register
      rw [habs]
    rw [hR]
    refine ⟨?_, mapGet_mapSet_self _ _ _, fun t ht => mapGet_mapSet_other _ _ _ _ ht⟩
    simp only [ServerFactory.ListTypes, mapSet_absent _ _ _ habs, List.map_append,
      List.map_cons, List.map_nil]
    exact List.perm_append_singleton _ _
  · intro regs hn
    obtain ⟨h1, h2⟩ := registerAll_spec regs NewServerFactory hn
      (fun t _ h => (nomatch h))
    have h3 : (registerAll NewServerFactory regs).1.ListTypes = regs.map Prod.fst := by
      unfold ServerFactory.ListTypes
      rw [h2]
      rfl
    exact ⟨h1, h3 ▸ List.Perm.refl _, h3 ▸ hn⟩

/-- Witness for `C36_register`: the two registrations of `RegisterExampleServers` on the
fresh factory succeed and the two types are listed; registering `example-driver` a second
time fails and leaves the factory as it is. -/
theorem C36_register_witness :
    ((registerAll NewServerFactory
        [("example-driver".toList, NewExampleDriver),
         ("example-fileserver".toList, NewExampleFileServer)]).1.ListTypes).Perm
      ["example-driver".toList, "example-fileserver".toList]
    ∧ (exampleFactory.Register "example-driver".toList NewExampleFileServer).1 = exampleFactory :=
  ⟨((C36_register NewServerFactory [] NewExampleDriver).2.2.2
      [("example-driver".toList, NewExampleDriver),
       ("example-fileserver".toList, NewExampleFileServer)] (by decide)).2.1,
   (C36_register exampleFactory "example-driver".toList NewExampleFileServer).2.1
      (by decide)⟩

/-! ### C34: `StartServer` -/

theorem StartServer_running (m : ServerManager) (serverType : List Char)
    (config : ServerConfig) (h : config.Name ∈ m.ListServers) :
    m.StartServer serverType config = (m, some (Err.serverAlreadyRunning config.Name)) := by
  unfold ServerManager.StartServer
  cases hg : mapGet m.servers config.Name with
  | none => exact absurd h ((mapGet_eq_none _ _).1 hg)
  | some c => rfl

theorem StartServer_cases (m : ServerManager) (serverType : List Char)
    (config : ServerConfig) :
    ((m.StartServer serverType config).2 ≠ none ∧ (m.StartServer serverType config).1 = m
      ∧ (config.Name ∈ m.ListServers
        ∨ mapGet m.factory.registry serverType = none
        ∨ (∃ c err, mapGet m.factory.registry serverType = some c
            ∧ c config = Except.error err)
        ∨ (∃ c server, mapGet m.factory.registry serverType = some c
            ∧ c config = Except.ok server
            ∧ ((server.Initialize config).2 ≠ none
              ∨ (server.Initialize config).1.Start.2 ≠ none))))
    ∨ ((m.StartServer serverType config).2 = none
      ∧ config.Name ∉ m.ListServers
      ∧ ∃ c server, mapGet m.factory.registry serverType = some c
          ∧ c config = Except.ok server
          ∧ (server.Initialize config).2 = none
          ∧ (server.Initialize config).1.Start.2 = none
          ∧ (m.StartServer serverType config).1
            = { m with servers := m.servers ++
                  [(config.Name, (server.Initialize config).1.Start.1)] }) := by
  by_cases hrun : config.Name ∈ m.ListServers
  · rw [StartServer_running m serverType config hrun]
    exact Or.inl ⟨fun h => (nomatch h), rfl, Or.inl hrun⟩
  · have hg := (mapGet_eq_none _ _).2 hrun
    cases hreg : mapGet m.factory.registry serverType with
    | none =>
      have hv : m.StartServer serverType config = (m, some (Err.unknownServerType serverType)) := by
        simp only [ServerManager.StartServer, ServerFactory.Create, hg, hreg]
      rw [hv]
      exact Or.inl ⟨fun h => (nomatch h), rfl, Or.inr (Or.inl rfl)⟩
    | some c =>
      cases hc : c config with
      | error err =>
        have hv : m.StartServer serverType config
            = (m, some (Err.failedToCreateServer serverType err)) := by
          simp only [ServerManager.StartServer, ServerFactory.Create, hg, hreg, hc]
        rw [hv]
        exact Or.inl ⟨fun h => (nomatch h), rfl, Or.inr (Or.inr (Or.inl ⟨c, err, rfl, hc⟩))⟩
      | ok server =>
        rcases hi : server.Initialize config with ⟨s1, e1⟩
        cases e1 with
        | some err =>
          have hv : m.StartServer serverType config
              = (m, some (Err.failedToInitialize config.Name err)) := by
            simp only [ServerManager.StartServer, ServerFactory.Create, hg, hreg, hc, hi]
          rw [hv]
          exact Or.inl ⟨fun h => (nomatch h), rfl,
            Or.inr (Or.inr (Or.inr ⟨c, server, rfl, hc,
              Or.inl (by rw [hi]; exact fun h => (nomatch h))⟩))⟩
        | none =>
          rcases hs : s1.Start with ⟨s2, e2⟩
          cases e2 with
          | some err =>
            have hv : m.StartServer serverType config
                = (m, some (Err.failedToStart config.Name err)) := by
              simp only [ServerManager.StartServer, ServerFactory.Create, hg, hreg, hc, hi, hs]
            rw [hv]
            exact Or.inl ⟨fun h => (nomatch h), rfl,
              Or.inr (Or.inr (Or.inr ⟨c, server, rfl, hc,
                Or.inr (by rw [hi, hs]; exact fun h => (nomatch h))⟩))⟩
          | none =>
            have hv : m.StartServer serverType config
                = ({ m with servers := mapSet m.servers config.Name s2 }, none) := by
              simp only [ServerManager.StartServer, ServerFactory.Create, hg, hreg, hc, hi, hs]
            rw [hv]
            refine Or.inr ⟨rfl, hrun, c, server, rfl, hc, by rw [hi], by rw [hi, hs], ?_⟩
            rw [hi, hs, mapSet_absent _ _ _ hg]

/-- C34: `StartServer` fails with `server ... already running` whenever a server of the
name `config.Name` is running; whenever it fails, for whatever reason, the manager is
unchanged; an unknown server type, an error of the constructor, of `Initialize` or of
`Start` each make it fail. When it succeeds the name was not among the running servers,
the servers listed afterwards are those listed before and `config.Name`, one more, and
`GetServer(config.Name)` finds the server that the constructor made, after its
`Initialize` and `Start`; every other name gets what it got before. -/
theorem C34_start_server (m : ServerManager) (serverType : List Char)
    (config : ServerConfig) :
    (config.Name ∈ m.ListServers →
      (m.StartServer serverType config).2 = some (Err.serverAlreadyRunning config.Name))
    ∧ ((m.StartServer serverType config).2 ≠ none →
        (m.StartServer serverType config).1 = m)
    ∧ (mapGet m.factory.registry serverType = none →
        (m.StartServer serverType config).2 ≠ none)
    ∧ (∀ c, mapGet m.factory.registry serverType = some c →
        (∀ err, c config = Except.error err → (m.StartServer serverType config).2 ≠ none)
        ∧ (∀ server, c config = Except.ok server →
            ((server.Initialize config).2 ≠ none
              ∨ (server.Initialize config).1.Start.2 ≠ none) →
            (m.StartServer serverType config).2 ≠ none))
    ∧ ((m.StartServer serverType config).2 = none →
        config.Name ∉ m.ListServers
        ∧ ((m.StartServer serverType config).1.ListServers).Perm
            (config.Name :: m.ListServers)
        ∧ (m.StartServer serverType config).1.ListServers.length
            = m.ListServers.length + 1
        ∧ (∃ c server, mapGet m.factory.registry serverType = some c
            ∧ c config = Except.ok server
            ∧ (m.StartServer serverType config).1.GetServer config.Name
              = some (server.Initialize config).1.Start.1)
        ∧ ∀ name, name ≠ config.Name →
            (m.StartServer serverType config).1.GetServer name = m.GetServer name) := by
  refine ⟨fun h => by rw [StartServer_running m serverType config h], ?_, ?_, ?_, ?_⟩
  · intro hne
    rcases StartServer_cases m serverType config with ⟨-, h, -⟩ | ⟨h, -⟩
    · exact h
    · exact absurd h hne
  · intro hreg
    rcases StartServer_cases m serverType config with ⟨h, -⟩ | ⟨-, -, c, server, h, -⟩
    · exact h
    · rw [hreg] at h; exact nomatch h
  · intro c hreg
    refine ⟨fun err hc => ?_, fun server hc hf => ?_⟩
    · rcases StartServer_cases m serverType config with ⟨h, -⟩ | ⟨-, -, c2, server, h, h2, -⟩
      · exact h
      · rw [hreg] at h
        cases h
        rw [hc] at h2
        exact nomatch h2
    · rcases StartServer_cases m serverType config with
        ⟨h, -⟩ | ⟨-, -, c2, server2, h, h2, h3, h4, -⟩
      · exact h
      · rw [hreg] at h
        cases h
        rw [hc] at h2
        cases h2
        rcases hf with hf | hf
        · exact absurd h3 hf
        · exact absurd h4 hf
  · intro hok
    rcases StartServer_cases m serverType config with
      ⟨h, -⟩ | ⟨-, hrun, c, server, hreg, hc, -, -, hm⟩
    · exact absurd hok h
    · have hg := (mapGet_eq_none _ _).2 hrun
      rw [hm]
      refine ⟨hrun, ?_, ?_, ⟨c, server, hreg, hc, ?_⟩, ?_⟩
      · simp only [ServerManager.ListServers, List.map_append, List.map_cons, List.map_nil]
        exact List.perm_append_singleton _ _
      · simp only [ServerManager.ListServers, List.map_append, List.map_cons, List.map_nil,
          List.length_append, List.length_cons, List.length_nil]
      · unfold ServerManager.GetServer
        dsimp only
        rw [← mapSet_absent _ _ _ hg]
        exact mapGet_mapSet_self _ _ _
      · intro name hname
        unfold ServerManager.GetServer
        dsimp only
        rw [← mapSet_absent _ _ _ hg]
        exact mapGet_mapSet_other _ _ _ _ hname

/-- Witness for `C34_start_server`: on the example manager a second server of the name
`test-driver-1` is refused, a server of an unknown type is refused, and the file server
`test-fs-1` of `TestServerManager` is started. -/
theorem C34_start_server_witness :
    (exampleManager.StartServer "example-driver".toList
        (exampleConfig "test-driver-1".toList CapDeviceAccess)).2
      = some (Err.serverAlreadyRunning "test-driver-1".toList)
    ∧ (exampleManager.StartServer "no-such-type".toList
        (exampleConfig "test-fs-1".toList CapFileSystem)).1 = exampleManager
    ∧ (exampleManager.StartServer "example-fileserver".toList
        (exampleConfig "test-fs-1".toList CapFileSystem)).1.ListServers.length = 3 :=
  ⟨(C34_start_server exampleManager "example-driver".toList
      (exampleConfig "test-driver-1".toList CapDeviceAccess)).1 (by decide),
   (C34_start_server exampleManager "no-such-type".toList
      (exampleConfig "test-fs-1".toList CapFileSystem)).2.1
      ((C34_start_server exampleManager "no-such-type".toList
        (exampleConfig "test-fs-1".toList CapFileSystem)).2.2.1 rfl),
   ((C34_start_server exampleManager "example-fileserver".toList
      (exampleConfig "test-fs-1".toList CapFileSystem)).2.2.2.2 rfl).2.2.1⟩

/-! ### C35: `StopAll` -/

theorem stopAllLoop_spec (l : List (List Char × IServer)) (e : Option Err) :
    (stopAllLoop l e).2 = l.map (fun s => (s.1, s.2.Stop.1, s.2.Stop.2))
    ∧ ((stopAllLoop l e).1 = none ↔ e = none ∧ ∀ c ∈ (stopAllLoop l e).2, c.2.2 = none)
    ∧ (∀ err, (stopAllLoop l e).1 = some err →
        e = some err ∨ ∃ c ∈ (stopAllLoop l e).2, c.2.2 = some err) := by
  induction l generalizing e with
  | nil =>
    refine ⟨rfl, ⟨fun h => ⟨h, fun c hc => (nomatch hc)⟩, fun h => h.1⟩, fun err h => Or.inl h⟩
  | cons s rest ih =>
    obtain ⟨name, server⟩ := s
    rcases hs : server.Stop with ⟨s1, e1⟩
    cases e1 with
    | some err1 =>
      obtain ⟨i1, i2, i3⟩ := ih (some err1)
      have hl : stopAllLoop ((name, server) :: rest) e
          = ((stopAllLoop rest (some err1)).1,
             (name, s1, some err1) :: (stopAllLoop rest (some err1)).2) := by
        rw [stopAllLoop, hs]
      rw [hl]
      refine ⟨?_, ?_, ?_⟩
      · rw [List.map_cons, i1, hs]
      · constructor
        · intro h
          exact absurd (i2.1 h).1 (fun h2 => nomatch h2)
        · intro h
          exact nomatch (h.2 (name, s1, some err1) (List.mem_cons_self _ _))
      · intro err h
        rcases i3 err h with h2 | ⟨c, hc, h2⟩
        · exact Or.inr ⟨(name, s1, some err1), List.mem_cons_self _ _, h2⟩
        · exact Or.inr ⟨c, List.mem_cons_of_mem _ hc, h2⟩
    | none =>
      obtain ⟨i1, i2, i3⟩ := ih e
      have hl : stopAllLoop ((name, server) :: rest) e
          = ((stopAllLoop rest e).1, (name, s1, none) :: (stopAllLoop rest e).2) := by
        rw [stopAllLoop, hs]
      rw [hl]
      refine ⟨?_, ?_, ?_⟩
      · rw [List.map_cons, i1, hs]
      · constructor
        · intro h
          refine ⟨(i2.1 h).1, fun c hc => ?_⟩
          rcases List.mem_cons.1 hc with rfl | hc
          · rfl
          · exact (i2.1 h).2 c hc
        · intro h
          exact i2.2 ⟨h.1, fun c hc => h.2 c (List.mem_cons_of_mem _ hc)⟩
      · intro err h
        rcases i3 err h with h2 | ⟨c, hc, h2⟩
        · exact Or.inl h2
        · exact Or.inr ⟨c, List.mem_cons_of_mem _ hc, h2⟩

/-- C35: the calls of `Stop` that `StopAll` makes are one for each entry of the map, on the
server of that entry, so their names are the names `ListServers` gives; afterwards the
manager has no running server, whatever the calls returned; `StopAll` returns nil exactly
when every call returned nil, and an error it returns is the error of one of the calls. -/
theorem C35_stop_all (m : ServerManager) :
    m.StopAll.2.2 = m.servers.map (fun s => (s.1, s.2.Stop.1, s.2.Stop.2))
    ∧ (m.StopAll.2.2.map (fun c => c.1)).Perm m.ListServers
    ∧ m.StopAll.1.ListServers = []
    ∧ (∀ name, m.StopAll.1.GetServer name = none)
    ∧ (m.StopAll.2.1 = none ↔ ∀ c ∈ m.StopAll.2.2, c.2.2 = none)
    ∧ (∀ err, m.StopAll.2.1 = some err → ∃ c ∈ m.StopAll.2.2, c.2.2 = some err) := by
  obtain ⟨h1, h2, h3⟩ := stopAllLoop_spec m.servers none
  unfold ServerManager.StopAll
  refine ⟨h1, ?_, rfl, fun _ => rfl, ?_, ?_⟩
  · dsimp only
    rw [h1, List.map_map]
    exact List.Perm.refl _
  · exact ⟨fun h => (h2.1 h).2, fun h => h2.2 ⟨rfl, h⟩⟩
  · intro err h
    rcases h3 err h with h4 | h4
    · exact nomatch h4
    · exact h4

/-- Witness for `C35_stop_all`: on the example manager, whose server `broken` fails to
stop, `StopAll` returns that error, which is the error of one of its two calls, and no
server is left running. -/
theorem C35_stop_all_witness :
    exampleManager.StopAll.1.ListServers = []
    ∧ exampleManager.StopAll.2.2.map (fun c => c.1)
        = ["test-driver-1".toList, "broken".toList]
    ∧ exampleManager.StopAll.2.1 = some (Err.server "stop failed")
    ∧ ∃ c ∈ exampleManager.StopAll.2.2, c.2.2 = some (Err.server "stop failed") :=
  ⟨(C35_stop_all exampleManager).2.2.1, rfl, rfl,
   (C35_stop_all exampleManager).2.2.2.2.2 (Err.server "stop failed") rfl⟩

end Sip

namespace Storage

set_option linter.unusedVariables false

/-! ### C37: negative device numbers -/

set_option maxRecDepth 100000 in
/-- C37, the code at the failing inputs (one device, every device number of the backend
holding one zeroed sector). In the path of the control file of the device number -1 the
number passes the only check, `deviceID >= len(b.devices)`, and `HandleRead` panics when
it indexes the device list with it; in the path of the data file of that device the number
is not rejected either but handed to the backend, by `HandleRead` and by `HandleWrite`.
The number 1, too large for the one device, is rejected with `device 1 not found`. -/
theorem C37_negative_device_evaluation :
    sscanfDeviceID "-1/ctl".toList = some (-1)
    ∧ (HandleRead exampleDriver exampleDisk "disk/-1/ctl".toList 0 16).2 = Result.panic
    ∧ (HandleRead exampleDriver exampleDisk "disk/-1/data".toList 0 4).2
        = Result.ok [0, 0, 0, 0]
    ∧ (HandleWrite exampleDriver exampleDisk "disk/-1/data".toList 0 [1, 2, 3]).2 = (3, none)
    ∧ (HandleRead exampleDriver exampleDisk "disk/-1/data".toList 0 4).2
        = (HandleRead exampleDriver exampleDisk "disk/0/data".toList 0 4).2
    ∧ (HandleRead exampleDriver exampleDisk "disk/1/ctl".toList 0 16).2
        = Result.error (Err.deviceNotFound 1)
    ∧ (HandleWrite exampleDriver exampleDisk "disk/1/data".toList 0 [1, 2, 3]).2
        = (0, some (Err.deviceNotFound 1)) := by
  refine ⟨by decide, by decide, by decide, by decide, by decide, by decide, by decide⟩

end Storage

namespace Ahci

set_option linter.unusedVariables false

/-! ### C39: partitions of zero sectors -/

/-- A table entry of at least one sector gives a partition that satisfies
`StartLBA <= EndLBA` and spans that many sectors; an entry of no sector gives a partition
that does not. -/
theorem mbrEntry_span (mbr : List Nat) (i : Nat) (p : Partition)
    (h : mbrEntry mbr i = some p) :
    (1 ≤ uint32LE ((mbr.drop (446 + 16 * i + 12)).take 4) →
      p.StartLBA ≤ p.EndLBA
      ∧ p.EndLBA - p.StartLBA + 1 = uint32LE ((mbr.drop (446 + 16 * i + 12)).take 4))
    ∧ (uint32LE ((mbr.drop (446 + 16 * i + 12)).take 4) = 0 →
      ¬ (p.StartLBA ≤ p.EndLBA ∧ p.EndLBA - p.StartLBA + 1 = 0)) := by
  unfold mbrEntry at h
  dsimp only at h
  split_ifs at h with h0 h1
  · cases h
    constructor
    · intro hc; omega
    · intro hc; dsimp only; omega
  · cases h
    constructor
    · intro hc; dsimp only; omega
    · intro hc; dsimp only; omega

set_option maxRecDepth 100000 in
/-- C39, the code at the failing inputs. A table entry of type 0x83 with a sector count of
0 gives a partition whose `EndLBA` is `StartLBA - 1`: with the start LBA 2048 the
partition has `EndLBA = 2047 < StartLBA`, and with the start LBA 0 the subtraction wraps
around to `EndLBA = 2^64 - 1`. -/
theorem C39_empty_partition_evaluation :
    (oneEntrySector [0, 8, 0, 0] [0, 0, 0, 0]).length = 512
    ∧ (parseMBR exampleDevice (oneEntrySector [0, 8, 0, 0] [0, 0, 0, 0])).1.Partitions
      = [{ Number := 1, StartLBA := 2048, EndLBA := 2047, Typ := "0x83".toList,
           Name := "partition1".toList }]
    ∧ (parseMBR exampleDevice (oneEntrySector [0, 0, 0, 0] [0, 0, 0, 0])).1.Partitions
      = [{ Number := 1, StartLBA := 0, EndLBA := 2 ^ 64 - 1, Typ := "0x83".toList,
           Name := "partition1".toList }]
    ∧ (parseMBR exampleDevice (oneEntrySector [0, 8, 0, 0] [1, 0, 0, 0])).1.Partitions
      = [{ Number := 1, StartLBA := 2048, EndLBA := 2048, Typ := "0x83".toList,
           Name := "partition1".toList }] := by
  refine ⟨by decide, by decide, by decide, by decide⟩

end Ahci

namespace Fb

set_option linter.unusedVariables false

/-! ### C38: glyphs at a negative cursor -/

set_option maxRecDepth 100000 in
/-- C38, the code at the failing inputs: a screen of 4 by 4 pixels with glyphs of 2 by 2.
The write `-1 0` to the file `cursor` is accepted and puts the cursor at `(-1, 0)`; the
text `A` written next makes `drawGlyph` store at the offset `0*Pitch + (-1)*4 = -4`, a
panic. After the write `-1 1` the text `A` does not panic: the glyph pixel at `(-1, 1)`,
left of the screen, is stored at the offset 12, which is the pixel `(3, 0)`. At the cursor
`(3, 3)` the pixels right of and below the screen are left out, as the claim has it for
every side. -/
theorem C38_negative_cursor_evaluation :
    (Write 0 (exampleServer smallTextScreen) "/dev/draw/screen0/cursor".toList 0
        (ascii "-1 0")).map (fun r => r.2) = some (4, Result.ok ())
    ∧ (Write 0 (exampleServer smallTextScreen) "/dev/draw/screen0/cursor".toList 0
        (ascii "-1 0")).bind
          (fun r => (r.1.screens "screen0".toList).map (fun s => (s.CursorX, s.CursorY)))
        = some (-1, 0)
    ∧ ((Write 0 (exampleServer smallTextScreen) "/dev/draw/screen0/cursor".toList 0
        (ascii "-1 0")).bind
          (fun r => Write 0 r.1 "/dev/draw/screen0/text".toList 0 (ascii "A"))).map
          (fun r => r.2) = some (0, Result.panic)
    ∧ ((Write 0 (exampleServer smallTextScreen) "/dev/draw/screen0/cursor".toList 0
        (ascii "-1 1")).bind
          (fun r => Write 0 r.1 "/dev/draw/screen0/text".toList 0 (ascii "A"))).map
          (fun r => r.2) = some (1, Result.ok ())
    ∧ GetPixel smallTextScreen 3 0 = Result.ok ⟨0, 0, 0, 0⟩
    ∧ ((Write 0 (exampleServer smallTextScreen) "/dev/draw/screen0/cursor".toList 0
        (ascii "-1 1")).bind
          (fun r => Write 0 r.1 "/dev/draw/screen0/text".toList 0 (ascii "A"))).bind
          (fun r => (r.1.screens "screen0".toList).map (fun s => GetPixel s 3 0))
        = some (Result.ok ⟨255, 255, 255, 255⟩)
    ∧ ((Write 0 (exampleServer smallTextScreen) "/dev/draw/screen0/cursor".toList 0
        (ascii "3 3")).bind
          (fun r => Write 0 r.1 "/dev/draw/screen0/text".toList 0 (ascii "A"))).map
          (fun r => r.2) = some (1, Result.ok ()) := by
  refine ⟨by decide, by decide, by decide, by decide, by decide, by decide, by decide⟩

/-! ### C40: the count that a write to `ctl` returns -/

/-- A write to the file `ctl` that succeeds is answered with the length of the command
after `strings.TrimSpace`. -/
theorem handleControl_count (screen s' : Screen) (cmd : List Nat) (n : Nat)
    (h : handleControl screen cmd = (s', n, Result.ok ())) :
    n = (TrimSpace cmd).length % 2 ^ 32 := by
  unfold handleControl at h
  dsimp only at h
  split_ifs at h
  · split at h
    · cases h; rfl
    · rename_i hne heq
      cases h
      exact (hne rfl).elim
  · split at h
    · cases h; rfl
    · cases h
  · split at h
    · cases h; rfl
    · cases h
  · split at h
    · cases h; rfl
    · cases h
  · cases h
  · cases h

/-- Every write to a file other than `ctl` that succeeds, a binary write to `data` apart,
is answered with the number of bytes supplied (as a `uint32`). -/
theorem writeFile_count (fuel : Nat) (screen s' : Screen) (file : List Char) (offset : Nat)
    (data : List Nat) (n : Nat)
    (h : writeFile fuel screen file offset data = some (s', n, Result.ok ()))
    (hctl : file ≠ "ctl".toList) (hbin : file = "data".toList → 0x20 ∈ data) :
    n = data.length % 2 ^ 32 := by
  unfold writeFile at h
  split_ifs at h with h1 h2 h3 h4 h5 h6 h7
  all_goals first
    | exact absurd (hbin h2) h3
    | (repeat' split at h) <;> first
      | (cases h; rfl)
      | (cases h; done)
      | (rename_i hne heq; cases h; exact (hne rfl).elim)

set_option maxRecDepth 100000 in
/-- C40, the code at the failing inputs. The six bytes `flush\n` written to the file `ctl`
are answered with the count 5 and the fourteen bytes `fgcolor 1 2 3\n` with the count 13:
`handleControl` returns the length of the command after `strings.TrimSpace`. The same six
bytes written to the file `refresh`, and the four bytes `1 2\n` written to the file
`cursor`, are answered with their full length. -/
theorem C40_ctl_count_evaluation :
    (ascii "flush\n").length = 6
    ∧ (Write 0 (exampleServer smallTextScreen) "/dev/draw/screen0/ctl".toList 0
        (ascii "flush\n")).map (fun r => r.2) = some (5, Result.ok ())
    ∧ (ascii "fgcolor 1 2 3\n").length = 14
    ∧ (Write 0 (exampleServer smallTextScreen) "/dev/draw/screen0/ctl".toList 0
        (ascii "fgcolor 1 2 3\n")).map (fun r => r.2) = some (13, Result.ok ())
    ∧ (Write 0 (exampleServer smallTextScreen) "/dev/draw/screen0/ctl".toList 0
        (ascii "clear\n")).map (fun r => r.2) = some (5, Result.ok ())
    ∧ (Write 0 (exampleServer smallTextScreen) "/dev/draw/screen0/refresh".toList 0
        (ascii "flush\n")).map (fun r => r.2) = some (6, Result.ok ())
    ∧ (Write 0 (exampleServer smallTextScreen) "/dev/draw/screen0/cursor".toList 0
        (ascii "1 2\n")).map (fun r => r.2) = some (4, Result.ok ()) := by
  refine ⟨by decide, by decide, by decide, by decide, by decide, by decide, by decide⟩

end Fb

end Lux9
